import Mathlib

/-!
# Shallow embedding of `src/clib/pio_getput_int.c`

The file models the type-generic get/put layer of the parallel I/O library:
`PIOc_put_att_tc`, `PIOc_get_att_tc`, `PIOc_get_vars_tc` and `PIOc_put_vars_tc`.

Modelling conventions.

* One call is modelled as it runs on ONE rank.  The rank's role is read from
  `iosystem_desc_t` (`async`, `ioproc`, `iomaster`) and `file_desc_t` (`iotype`,
  `do_io`), exactly as the source does.
* Everything the source calls but does not define (the metadata catalog
  `PIOc_inq_*`, the messaging layer, the storage libraries, `realloc`, `malloc`,
  `flush_output_buffer`, `check_netcdf`, `check_mpi`) is an oracle of `Env`; the
  lookups, messages, broadcasts, storage calls, flush checks and `check_netcdf` calls
  are recorded, in program order, in the event trace of the result.  The error
  handler `pio_err` returns the code it is given.
* Header constants the source names but does not define are the fields of
  `Consts`.
* The source text is taken with `_PNETCDF`, `_NETCDF`, `_NETCDF4` and `_ADIOS`
  all defined.
* `PIO_Offset` and `int` values are `Int`.  A `PIO_Offset` product is the exact
  product reduced to 64 bits (`toInt64`); the conversions to `int` that the source
  performs are explicit (`toInt32`).  Where a `PIO_Offset` product is converted to
  `int` at once, the two reductions are one (`toInt32_toInt64`).
* A `NULL` pointer argument is `none`.
* `pioassert` stops the program: the result then has `ret = none`.
-/

namespace PIO

/-! ## Constants, descriptors, events -/

/-- Success status.  The source tests status codes for being nonzero
(`if ((ierr = ...))`) and against `PIO_NOERR` interchangeably. -/
def PIO_NOERR : Int := 0

/-- Success code of the messaging layer; the source initialises `mpierr` with it and
tests `MPI_Bcast` results for being nonzero. -/
def MPI_SUCCESS : Int := 0

/-- Header constants (pio.h, netcdf.h, mpi.h) used by the source.  Their values are
not in the source file, so they are parameters of the model. -/
structure Consts where
  PIO_MAX_NAME : Nat
  PIO_EINVAL : Int
  PIO_EBADTYPE : Int
  PIO_EBADIOTYPE : Int
  PIO_ENOMEM : Int
  PIO_EBADID : Int
  PIO_REQ_NULL : Int
  PIO_REQUEST_ALLOC_CHUNK : Nat
  MPI_ROOT : Int
  PIO_IOTYPE_PNETCDF : Int
  PIO_IOTYPE_ADIOS : Int
  PIO_GLOBAL : Int
  NC_NAT : Int
  NC_BYTE : Int
  NC_CHAR : Int
  NC_SHORT : Int
  NC_INT : Int
  NC_FLOAT : Int
  NC_DOUBLE : Int
  NC_UBYTE : Int
  NC_USHORT : Int
  NC_UINT : Int
  NC_INT64 : Int
  NC_UINT64 : Int
  PIO_LONG_INTERNAL : Int
  sizeof_long : Int
  PIO_MSG_PUT_ATT : Int
  PIO_MSG_GET_ATT : Int
  PIO_MSG_GET_VARS : Int
  PIO_MSG_PUT_VARS : Int

/-- One instantiation of the constants, used for concrete runs: the netCDF type and
error codes of netcdf.h, an LP64 `long`, and representative distinct values for the
remaining library constants. -/
def pio_h : Consts where
  PIO_MAX_NAME := 256
  PIO_EINVAL := -36
  PIO_EBADTYPE := -45
  PIO_EBADIOTYPE := -500
  PIO_ENOMEM := -61
  PIO_EBADID := -33
  PIO_REQ_NULL := -2
  PIO_REQUEST_ALLOC_CHUNK := 16
  MPI_ROOT := -3
  PIO_IOTYPE_PNETCDF := 1
  PIO_IOTYPE_ADIOS := 5
  PIO_GLOBAL := -1
  NC_NAT := 0
  NC_BYTE := 1
  NC_CHAR := 2
  NC_SHORT := 3
  NC_INT := 4
  NC_FLOAT := 5
  NC_DOUBLE := 6
  NC_UBYTE := 7
  NC_USHORT := 8
  NC_UINT := 9
  NC_INT64 := 10
  NC_UINT64 := 11
  PIO_LONG_INTERNAL := 13
  sizeof_long := 8
  PIO_MSG_PUT_ATT := 38
  PIO_MSG_GET_ATT := 37
  PIO_MSG_GET_VARS := 47
  PIO_MSG_PUT_VARS := 46

/-- A C string: the bytes before the terminating NUL. -/
abbrev CString := List Nat

/-- The `strlen` of a (non-NULL) string argument. -/
def strlen (s : Option CString) : Nat := (s.getD []).length

/-- A memory buffer: its bytes. -/
abbrev Buf := List Int

/-- Conversion of a `PIO_Offset` value to a 32-bit `int` (two's complement). -/
def toInt32 (x : Int) : Int := (x + 2147483648) % 4294967296 - 2147483648

/-- The value a `PIO_Offset` (a signed 64-bit integer) holds for the exact result `x`
of an arithmetic operation (two's complement). -/
def toInt64 (x : Int) : Int :=
  (x + 9223372036854775808) % 18446744073709551616 - 9223372036854775808

/-- The fields of `iosystem_desc_t` the source reads. -/
structure iosystem_desc_t where
  async : Bool
  ioproc : Bool
  iomaster : Int
  comproot : Int
  ioroot : Int
  io_rank : Int
  deriving DecidableEq

/-- The request tracker of one variable (`var_desc_t`): `request` is the storage
obtained from `realloc` (its length is the capacity in entries, `[]` is `NULL`),
`nreqs` the number of requests issued. -/
structure var_desc_t where
  request : List Int
  nreqs : Nat
  deriving DecidableEq

instance : Inhabited var_desc_t := ⟨⟨[], 0⟩⟩

/-- The fields of `adios_var_desc_t` the source reads or writes. -/
structure adios_var_desc_t where
  ndims : Int
  nattrs : Int
  deriving DecidableEq

instance : Inhabited adios_var_desc_t := ⟨⟨0, 0⟩⟩

/-- The fields of `file_desc_t` the source reads or writes. -/
structure file_desc_t where
  iosystem : iosystem_desc_t
  iotype : Int
  do_io : Bool
  fh : Int
  varlist : List var_desc_t
  num_vars : Int
  adios_vars : List adios_var_desc_t
  deriving DecidableEq

/-- Metadata-catalog queries made by the source. -/
inductive CatalogQuery where
  | inq_type (ncid xtype : Int)
  | inq_att (ncid varid : Int) (name : CString)
  | inq_vartype (ncid varid : Int)
  | inq_varndims (ncid varid : Int)
  | inq_vardimid (ncid varid : Int)
  | inq_dimlen (ncid dimid : Int)
  deriving DecidableEq

/-- One optional geometry array as the async message carries it: presence flag,
declared length, values. -/
structure GeomMsg where
  present : Bool
  sz : Int
  vals : List Int
  deriving DecidableEq

/-- The argument lists of the four `PIO_SEND_ASYNC_MSG` invocations. -/
inductive Envelope where
  | put_att (msg ncid varid namelen : Int) (name : CString) (atttype len atttype_len
      memtype memtype_len nbytes : Int) (op : Buf)
  | get_att (msg ncid varid namelen : Int) (name : CString) (iotype atttype attlen
      atttype_len memtype memtype_len : Int)
  | get_vars (msg ncid varid ndims : Int) (start count stride : GeomMsg)
      (xtype num_elem typelen : Int)
  | put_vars (msg ncid varid ndims : Int) (start count stride : GeomMsg)
      (xtype num_elem typelen nbytes : Int) (buf : Buf)
  deriving DecidableEq

/-- The values the source broadcasts. -/
inductive BcastItem where
  | attlen | atttype_len | memtype_len | num_elem | typelen | xtype | ndims | payload
  deriving DecidableEq

/-- Calls into the storage libraries.  A typed entry point is named by the `case`
label `t` of the type switch that selects it (`ncmpi_get_vars t` with `t = NC_BYTE` is
`ncmpi_get_vars_schar`, and so on). -/
inductive BackendFn where
  | ncmpi_put_att (t fh varid : Int) (name : CString) (atttype len : Int) (op : Buf)
  | nc_put_att (t fh varid : Int) (name : CString) (atttype len : Int) (op : Buf)
  | adios_define_attribute_byvalue (name : CString) (varid : Int)
  | ncmpi_get_att (t fh varid : Int) (name : CString)
  | nc_get_att (t fh varid : Int) (name : CString)
  | ncmpi_begin_indep_data (fh : Int)
  | ncmpi_end_indep_data (fh : Int)
  | ncmpi_get_vars (t fh varid : Int) (start count stride : Option (List Int))
  | nc_get_vars (t fh varid : Int) (start count stride : Option (List Int))
  | ncmpi_bput_var (t fh varid : Int) (buf : Buf) (slot : Nat)
  | ncmpi_bput_vars (t fh varid : Int) (start count : Option (List Int))
      (fake_stride : List Int) (buf : Buf) (slot : Nat)
  | nc_put_vars (t fh varid : Int) (start count stride : Option (List Int)) (buf : Buf)
  | adios_define_var (varid : Int) (start count : Option (List Int))
  | adios_write_byid (varid : Int) (buf : Buf)
  | adios_define_dims_attribute (varid : Int)
  | adios_define_var_attributes (varid : Int)
  deriving DecidableEq

/-- What a call does that is visible outside the calling function, in program
order.  `catalog` and `async_msg` carry the code the callee returned. -/
inductive Event where
  | catalog (q : CatalogQuery) (ierr : Int)
  | async_msg (m : Envelope) (ierr : Int)
  | bcast (item : BcastItem) (count : Int) (root : Int) (mpierr : Int)
  | backend (fn : BackendFn)
  | flush
  | check_netcdf (status : Int)
  deriving DecidableEq

/-- Is the event a metadata-catalog lookup? -/
def Event.isCatalog : Event → Bool
  | .catalog _ _ => true
  | _ => false

/-- Is the event an async message? -/
def Event.isAsyncMsg : Event → Bool
  | .async_msg _ _ => true
  | _ => false

/-- Is the event a broadcast? -/
def Event.isBcast : Event → Bool
  | .bcast _ _ _ _ => true
  | _ => false

/-- Is the event a call into a storage library? -/
def Event.isBackend : Event → Bool
  | .backend _ => true
  | _ => false

/-- Is the event the buffer-flush check? -/
def Event.isFlush : Event → Bool
  | .flush => true
  | _ => false

/-- Is the event a `check_netcdf` call? -/
def Event.isCheck : Event → Bool
  | .check_netcdf _ => true
  | _ => false

/-- The locals of the four functions that hold resolved values. -/
structure Locals where
  ndims : Int
  typelen : Int
  num_elem : Int
  xtype : Int
  vartype : Int
  atttype : Int
  attlen : Int
  atttype_len : Int
  memtype_len : Int
  deriving DecidableEq

/-- The collaborators of one call on one rank. -/
structure Env where
  /-- The lookup `pio_get_file(ncid, &file)`: return code and descriptor. -/
  pio_get_file : Int → Int × file_desc_t
  /-- The lookup `PIOc_inq_type(ncid, xtype, NULL, &len)`: return code and length. -/
  inq_type : Int → Int → Int × Int
  /-- The lookup `PIOc_inq_att(ncid, varid, name, &atttype, &attlen)`. -/
  inq_att : Int → Int → CString → Int × Int × Int
  /-- The lookup `PIOc_inq_vartype(ncid, varid, &vartype)`. -/
  inq_vartype : Int → Int → Int × Int
  /-- The lookup `PIOc_inq_varndims(ncid, varid, &ndims)`. -/
  inq_varndims : Int → Int → Int × Int
  /-- The lookup `PIOc_inq_vardimid(ncid, varid, dimids)`: return code and the
  dimension ids of the variable. -/
  inq_vardimid : Int → Int → Int × List Int
  /-- The lookup `PIOc_inq_dimlen(ncid, dimid, &len)`: return code and the declared
  length of the dimension. -/
  inq_dimlen : Int → Int → Int × Int
  /-- The code `PIO_SEND_ASYNC_MSG` stores in `ierr`. -/
  send_async_msg : Envelope → Int
  /-- Return code of the `MPI_Bcast` of an item. -/
  mpi_bcast : BcastItem → Int
  /-- The value the `MPI_Bcast` of a scalar item leaves in the local variable:
  `none` when this rank keeps its own value (it is the root). -/
  bcast_recv : BcastItem → Option Int
  /-- The root's buffer in the payload broadcast; `none` when this rank is the
  root. -/
  payload_root : Option Buf
  /-- Return code of a storage-library call. -/
  backend_ret : BackendFn → Int
  /-- What a read call leaves in the caller's buffer. -/
  backend_read : BackendFn → Buf → Buf
  /-- The request handle a buffered write stores in its request slot. -/
  backend_request : BackendFn → Int
  /-- The status `check_netcdf(NULL, file, status, ...)` returns on this rank. -/
  check_netcdf : Int → Int
  /-- The status `check_mpi(NULL, file, mpierr, ...)` returns. -/
  check_mpi : Int → Int
  /-- Does `realloc` of the request storage fail? -/
  realloc_fails : Bool
  /-- Does `malloc` of the stride placeholder fail? -/
  malloc_fails : Bool
  /-- The call `flush_output_buffer(file, false, 0)`: its return code, which the source
  ignores, and the request trackers `file->varlist` afterwards (a flush waits for the
  outstanding requests and may reset the trackers). -/
  flush_output_buffer : file_desc_t → Int × List var_desc_t
  /-- The indeterminate initial contents of the locals declared without an
  initialiser. -/
  uninit : Locals

/-- Modelled from the spec: `pio_err` is not in the source file.  The spec's status
codes are surfaced to the caller, so the handler returns the code it is given. -/
def pio_err (err_num : Int) : Int := err_num


/-- The outcome of a call on one rank: the returned status (`none` when `pioassert`
stopped the program), the events in program order, the file descriptor and the
caller's buffer afterwards. -/
structure Res where
  ret : Option Int
  trace : List Event
  file : file_desc_t
  buf : Option Buf
  deriving DecidableEq

/-- The running state inside a call: the local `ierr`, the resolved locals, the
events so far, the descriptor and the caller's buffer. -/
structure Ctx where
  ierr : Int
  loc : Locals
  trace : List Event
  file : file_desc_t
  buf : Option Buf
  deriving DecidableEq

/-- A block of a function body either returns from the function or falls through
to the next block. -/
inductive Flow where
  | done (r : Res)
  | next (c : Ctx)
  deriving DecidableEq

/-- Sequencing of two blocks. -/
def Flow.bind (f : Flow) (k : Ctx → Flow) : Flow :=
  match f with
  | .done r => .done r
  | .next c => k c

/-- The last block of a body. -/
def Flow.finish (f : Flow) (k : Ctx → Res) : Res :=
  match f with
  | .done r => r
  | .next c => k c

/-- Leave the function with a status. -/
def Ctx.exit (c : Ctx) (status : Int) : Res := ⟨some status, c.trace, c.file, c.buf⟩

/-- The program is stopped by a failed `pioassert`. -/
def Ctx.abort (c : Ctx) : Res := ⟨none, c.trace, c.file, c.buf⟩

/-- Record an event. -/
def Ctx.emit (c : Ctx) (e : Event) : Ctx := { c with trace := c.trace ++ [e] }

/-- The state after `pio_get_file` and the argument checks: `ierr = PIO_NOERR`,
`num_elem = 1` and `xtype` the argument are the initialised locals. -/
def Ctx.start (E : Env) (file : file_desc_t) (xtype : Int) (buf : Option Buf) : Ctx :=
  ⟨PIO_NOERR, { E.uninit with num_elem := 1, xtype := xtype }, [], file, buf⟩

/-- The call `MPI_Bcast(&x, 1, ..., root, my_comm)` on a scalar local: the value of the local
afterwards. -/
def bcast_value (E : Env) (item : BcastItem) (x : Int) : Int := (E.bcast_recv item).getD x

/-- The call `MPI_Bcast(buf, n, MPI_BYTE, ioroot, my_comm)`: the buffer afterwards. -/
def bcast_payload (E : Env) (n : Int) (buf : Option Buf) : Option Buf :=
  match E.payload_root, buf with
  | some rootbuf, some b => some (rootbuf.take n.toNat ++ b.drop n.toNat)
  | _, b => b

/-- The `case` labels of the parallel-netCDF type switches. -/
def pnetcdf_case (K : Consts) (t : Int) : Bool :=
  t = K.NC_BYTE || t = K.NC_CHAR || t = K.NC_SHORT || t = K.NC_INT ||
  t = K.PIO_LONG_INTERNAL || t = K.NC_FLOAT || t = K.NC_DOUBLE

/-- The `case` labels of the serial netCDF type switches (`_NETCDF` and
`_NETCDF4`). -/
def netcdf_case (K : Consts) (t : Int) : Bool :=
  t = K.NC_CHAR || t = K.NC_BYTE || t = K.NC_SHORT || t = K.NC_INT ||
  t = K.PIO_LONG_INTERNAL || t = K.NC_FLOAT || t = K.NC_DOUBLE ||
  t = K.NC_UBYTE || t = K.NC_USHORT || t = K.NC_UINT || t = K.NC_INT64 ||
  t = K.NC_UINT64

/-- The closing lines of the put functions: `ierr = check_netcdf(NULL, file, ierr)`,
return `ierr` when it is an error and `PIO_NOERR` otherwise. -/
def check_and_return (E : Env) (c : Ctx) : Res :=
  let c1 : Ctx := { c.emit (.check_netcdf c.ierr) with ierr := E.check_netcdf c.ierr }
  if c1.ierr ≠ PIO_NOERR then c1.exit c1.ierr else c1.exit PIO_NOERR

/-- The closing lines of the get functions: `check_netcdf`, then the payload
broadcast of `count` bytes from the I/O root. -/
def check_and_bcast (E : Env) (count : Int) (c : Ctx) : Res :=
  let c1 : Ctx := { c.emit (.check_netcdf c.ierr) with ierr := E.check_netcdf c.ierr }
  if c1.ierr ≠ PIO_NOERR then c1.exit c1.ierr
  else
    let mpierr := E.mpi_bcast .payload
    let c2 : Ctx := { c1.emit (.bcast .payload count c1.file.iosystem.ioroot mpierr) with
                buf := bcast_payload E count c1.buf }
    if mpierr ≠ 0 then c2.exit (E.check_mpi mpierr) else c2.exit PIO_NOERR

/-- A broadcast from the compute root whose failure is passed to `check_mpi` without
returning: the local is updated and the function goes on. -/
def bcast_unchecked (E : Env) (item : BcastItem) (get : Locals → Int)
    (set : Locals → Int → Locals) (c : Ctx) : Ctx :=
  { c.emit (.bcast item 1 c.file.iosystem.comproot (E.mpi_bcast item)) with
    loc := set c.loc (bcast_value E item (get c.loc)) }

/-- A broadcast from the compute root written
`if ((mpierr = MPI_Bcast(...))) return check_mpi(NULL, file, mpierr, ...)`. -/
def bcast_checked (E : Env) (item : BcastItem) (get : Locals → Int)
    (set : Locals → Int → Locals) (c : Ctx) : Flow :=
  let c1 := bcast_unchecked E item get set c
  if E.mpi_bcast item ≠ 0 then .done (c1.exit (E.check_mpi (E.mpi_bcast item))) else .next c1

/-! ## `PIOc_put_att_tc` -/

/-- Lines 59-80: the type lengths are looked up in the catalog. -/
def put_att_resolve (K : Consts) (E : Env) (ncid atttype memtype : Int) (c : Ctx) : Flow :=
  let r1 := E.inq_type ncid atttype
  let c1 : Ctx := { c.emit (.catalog (.inq_type ncid atttype) r1.1) with
              ierr := r1.1, loc := { c.loc with atttype_len := r1.2 } }
  if r1.1 ≠ PIO_NOERR then .done (c1.exit r1.1)
  else if memtype = K.PIO_LONG_INTERNAL then
    .next { c1 with loc := { c1.loc with memtype_len := K.sizeof_long } }
  else
    let r2 := E.inq_type ncid memtype
    let c2 : Ctx := { c1.emit (.catalog (.inq_type ncid memtype) r2.1) with
                ierr := r2.1, loc := { c1.loc with memtype_len := r2.2 } }
    if r2.1 ≠ PIO_NOERR then .done (c2.exit r2.1) else .next c2

/-- Lines 83-104: the async message and the broadcasts of the two lengths. -/
def put_att_async (K : Consts) (E : Env) (ncid varid : Int) (name : CString)
    (atttype len memtype : Int) (op : Buf) (c : Ctx) : Flow :=
  if c.file.iosystem.async then
    let m := Envelope.put_att K.PIO_MSG_PUT_ATT ncid varid (name.length + 1) name atttype len
      c.loc.atttype_len memtype c.loc.memtype_len (toInt64 (len * c.loc.memtype_len)) op
    let c1 : Ctx := { c.emit (.async_msg m (E.send_async_msg m)) with ierr := E.send_async_msg m }
    if c1.ierr ≠ PIO_NOERR then .done (c1.exit (pio_err c1.ierr))
    else
      let c2 := bcast_unchecked E .atttype_len (·.atttype_len)
        (fun l v => { l with atttype_len := v }) c1
      .next (bcast_unchecked E .memtype_len (·.memtype_len)
        (fun l v => { l with memtype_len := v }) c2)
  else .next c

/-- Lines 110-138: the parallel-netCDF type switch. -/
def put_att_pnetcdf (K : Consts) (E : Env) (varid : Int) (name : CString)
    (atttype len memtype : Int) (op : Buf) (c : Ctx) : Flow :=
  if c.file.iotype = K.PIO_IOTYPE_PNETCDF then
    if pnetcdf_case K memtype then
      let fn := BackendFn.ncmpi_put_att memtype c.file.fh varid name atttype len op
      .next { c.emit (.backend fn) with ierr := E.backend_ret fn }
    else .done (c.exit (pio_err K.PIO_EBADTYPE))
  else .next c

/-- Lines 142-160: the ADIOS attribute definition; it has no type switch and sets
`ierr = 0`. -/
def put_att_adios (K : Consts) (varid : Int) (name : CString) (c : Ctx) : Flow :=
  if c.file.iotype = K.PIO_IOTYPE_ADIOS then
    let vars := c.file.adios_vars
    let av := vars.getD varid.toNat default
    let file1 := if varid ≠ K.PIO_GLOBAL then
        { c.file with adios_vars := vars.set varid.toNat { av with nattrs := av.nattrs + 1 } }
      else c.file
    .next { c.emit (.backend (.adios_define_attribute_byvalue name varid)) with
            ierr := 0, file := file1 }
  else .next c

/-- Lines 163-214: the serial netCDF type switch. -/
def put_att_netcdf (K : Consts) (E : Env) (varid : Int) (name : CString)
    (atttype len memtype : Int) (op : Buf) (c : Ctx) : Flow :=
  if c.file.iotype ≠ K.PIO_IOTYPE_PNETCDF ∧ c.file.iotype ≠ K.PIO_IOTYPE_ADIOS ∧
      c.file.do_io then
    if netcdf_case K memtype then
      let fn := BackendFn.nc_put_att memtype c.file.fh varid name atttype len op
      .next { c.emit (.backend fn) with ierr := E.backend_ret fn }
    else .done (c.exit (pio_err K.PIO_EBADTYPE))
  else .next c

/-- Lines 107-215: `if (ios->ioproc) { ... }`. -/
def put_att_io (K : Consts) (E : Env) (varid : Int) (name : CString)
    (atttype len memtype : Int) (op : Buf) (c : Ctx) : Flow :=
  if c.file.iosystem.ioproc then
    ((put_att_pnetcdf K E varid name atttype len memtype op c).bind
      (put_att_adios K varid name)).bind
      (put_att_netcdf K E varid name atttype len memtype op)
  else .next c

/-- The function `PIOc_put_att_tc(ncid, varid, name, atttype, len, memtype, op)`. -/
def PIOc_put_att_tc (K : Consts) (E : Env) (ncid varid : Int) (name : Option CString)
    (atttype len memtype : Int) (op : Option Buf) : Res :=
  let gf := E.pio_get_file ncid
  if gf.1 ≠ 0 then ⟨some (pio_err gf.1), [], gf.2, op⟩
  else
    let file := gf.2
    if name = none ∨ op = none ∨ K.PIO_MAX_NAME < strlen name ∨ len < 0 then
      ⟨some (pio_err K.PIO_EINVAL), [], file, op⟩
    else
      let nm := name.getD []
      let data := op.getD []
      let c := Ctx.start E file memtype op
      let resolved :=
        if ¬ file.iosystem.async ∨ ¬ file.iosystem.ioproc then
          put_att_resolve K E ncid atttype memtype c
        else .next c
      ((resolved.bind (put_att_async K E ncid varid nm atttype len memtype data)).bind
        (put_att_io K E varid nm atttype len memtype data)).finish
        (check_and_return E)

/-! ## `PIOc_get_att_tc` -/

/-- Lines 275-304: attribute type and length, and the two type lengths, are looked up
in the catalog. -/
def get_att_resolve (K : Consts) (E : Env) (ncid varid : Int) (name : CString)
    (memtype : Int) (c : Ctx) : Flow :=
  let r0 := E.inq_att ncid varid name
  let c0 : Ctx := { c.emit (.catalog (.inq_att ncid varid name) r0.1) with
              ierr := r0.1, loc := { c.loc with atttype := r0.2.1, attlen := r0.2.2 } }
  if r0.1 ≠ PIO_NOERR then .done (c0.exit r0.1)
  else
    let r1 := E.inq_type ncid c0.loc.atttype
    let c1 : Ctx := { c0.emit (.catalog (.inq_type ncid c0.loc.atttype) r1.1) with
                ierr := r1.1, loc := { c0.loc with atttype_len := r1.2 } }
    if r1.1 ≠ PIO_NOERR then .done (c1.exit r1.1)
    else if memtype = K.PIO_LONG_INTERNAL then
      .next { c1 with loc := { c1.loc with memtype_len := K.sizeof_long } }
    else
      let r2 := E.inq_type ncid memtype
      let c2 : Ctx := { c1.emit (.catalog (.inq_type ncid memtype) r2.1) with
                  ierr := r2.1, loc := { c1.loc with memtype_len := r2.2 } }
      if r2.1 ≠ PIO_NOERR then .done (c2.exit r2.1) else .next c2

/-- Lines 309-331: the async message and the three checked broadcasts. -/
def get_att_async (K : Consts) (E : Env) (ncid varid : Int) (name : CString)
    (memtype : Int) (c : Ctx) : Flow :=
  if c.file.iosystem.async then
    let m := Envelope.get_att K.PIO_MSG_GET_ATT ncid varid (name.length + 1) name
      c.file.iotype c.loc.atttype c.loc.attlen c.loc.atttype_len memtype c.loc.memtype_len
    let c1 : Ctx := { c.emit (.async_msg m (E.send_async_msg m)) with ierr := E.send_async_msg m }
    if c1.ierr ≠ PIO_NOERR then .done (c1.exit (pio_err c1.ierr))
    else
      ((bcast_checked E .attlen (·.attlen) (fun l v => { l with attlen := v }) c1).bind
        (bcast_checked E .atttype_len (·.atttype_len)
          (fun l v => { l with atttype_len := v }))).bind
        (bcast_checked E .memtype_len (·.memtype_len)
          (fun l v => { l with memtype_len := v }))
  else .next c

/-- Lines 338-366: the parallel-netCDF type switch. -/
def get_att_pnetcdf (K : Consts) (E : Env) (varid : Int) (name : CString)
    (memtype : Int) (c : Ctx) : Flow :=
  if c.file.iotype = K.PIO_IOTYPE_PNETCDF then
    if pnetcdf_case K memtype then
      let fn := BackendFn.ncmpi_get_att memtype c.file.fh varid name
      .next { c.emit (.backend fn) with
              ierr := E.backend_ret fn, buf := c.buf.map (E.backend_read fn) }
    else .done (c.exit (pio_err K.PIO_EBADTYPE))
  else .next c

/-- Lines 369-420: the serial netCDF type switch. -/
def get_att_netcdf (K : Consts) (E : Env) (varid : Int) (name : CString)
    (memtype : Int) (c : Ctx) : Flow :=
  if c.file.iotype ≠ K.PIO_IOTYPE_PNETCDF ∧ c.file.do_io then
    if netcdf_case K memtype then
      let fn := BackendFn.nc_get_att memtype c.file.fh varid name
      .next { c.emit (.backend fn) with
              ierr := E.backend_ret fn, buf := c.buf.map (E.backend_read fn) }
    else .done (c.exit (pio_err K.PIO_EBADTYPE))
  else .next c

/-- Lines 334-421: `if (ios->ioproc) { ... }`. -/
def get_att_io (K : Consts) (E : Env) (varid : Int) (name : CString)
    (memtype : Int) (c : Ctx) : Flow :=
  if c.file.iosystem.ioproc then
    (get_att_pnetcdf K E varid name memtype c).bind (get_att_netcdf K E varid name memtype)
  else .next c

/-- The function `PIOc_get_att_tc(ncid, varid, name, memtype, ip)`.  The byte count of the payload
broadcast is `(int)attlen * memtype_len`, passed as an `int`. -/
def PIOc_get_att_tc (K : Consts) (E : Env) (ncid varid : Int) (name : Option CString)
    (memtype : Int) (ip : Option Buf) : Res :=
  let gf := E.pio_get_file ncid
  if gf.1 ≠ 0 then ⟨some (pio_err gf.1), [], gf.2, ip⟩
  else
    let file := gf.2
    if name = none ∨ ip = none ∨ K.PIO_MAX_NAME < strlen name then
      ⟨some (pio_err K.PIO_EINVAL), [], file, ip⟩
    else
      let nm := name.getD []
      let c := Ctx.start E file memtype ip
      let resolved :=
        if ¬ file.iosystem.async ∨ ¬ file.iosystem.ioproc then
          get_att_resolve K E ncid varid nm memtype c
        else .next c
      ((resolved.bind (get_att_async K E ncid varid nm memtype)).bind
        (get_att_io K E varid nm memtype)).finish
        (fun (c1 : Ctx) => check_and_bcast E (toInt32 (toInt32 c1.loc.attlen * c1.loc.memtype_len)) c1)

/-! ## `PIOc_get_vars_tc` -/

/-- The loop `for (int vd = 0; vd < ndims; vd++) num_elem *= count[vd];` started with
`num_elem`.  Every product is a `PIO_Offset` product. -/
def count_loop (count : List Int) (ndims : Int) (num_elem : Int) : Int :=
  (List.range ndims.toNat).foldl (fun acc vd => toInt64 (acc * count.getD vd 0)) num_elem

/-- The optional geometry array as `PIO_SEND_ASYNC_MSG` gets it: the caller's array
when present, else the `calloc`ed array of `sz` zeros. -/
def geom_msg (arr : Option (List Int)) (sz : Int) : GeomMsg :=
  ⟨arr.isSome, sz, arr.getD (List.replicate sz.toNat 0)⟩

/-- The declared length of the geometry arrays: `(ndims > 0) ? ndims : 1`. -/
def geom_sz (ndims : Int) : Int := if ndims > 0 then ndims else 1

/-- Lines 510-551: variable type, type length and number of dimensions are looked up,
`pioassert(ndims == 0 || (start && count))`, and the element count is computed. -/
def get_vars_resolve (K : Consts) (E : Env) (ncid varid : Int)
    (start count : Option (List Int)) (c : Ctx) : Flow :=
  let r1 := E.inq_vartype ncid varid
  let c1 : Ctx := { c.emit (.catalog (.inq_vartype ncid varid) r1.1) with
              ierr := r1.1, loc := { c.loc with vartype := r1.2 } }
  if r1.1 ≠ PIO_NOERR then .done (c1.exit r1.1)
  else
    let xtype := if c1.loc.xtype = K.NC_NAT then c1.loc.vartype else c1.loc.xtype
    let c2 : Ctx := { c1 with loc := { c1.loc with xtype := xtype } }
    let typed : Flow :=
      if xtype = K.PIO_LONG_INTERNAL then
        .next { c2 with loc := { c2.loc with typelen := K.sizeof_long } }
      else
        let r2 := E.inq_type ncid xtype
        let c3 : Ctx := { c2.emit (.catalog (.inq_type ncid xtype) r2.1) with
                    ierr := r2.1, loc := { c2.loc with typelen := r2.2 } }
        if r2.1 ≠ PIO_NOERR then .done (c3.exit r2.1) else .next c3
    typed.bind fun (c4 : Ctx) =>
      let r3 := E.inq_varndims ncid varid
      let c5 : Ctx := { c4.emit (.catalog (.inq_varndims ncid varid) r3.1) with
                  ierr := r3.1, loc := { c4.loc with ndims := r3.2 } }
      if r3.1 ≠ PIO_NOERR then .done (c5.exit r3.1)
      else if ¬ (c5.loc.ndims = 0 ∨ (start ≠ none ∧ count ≠ none)) then .done c5.abort
      else
        .next { c5 with loc := { c5.loc with
          num_elem := count_loop (count.getD []) c5.loc.ndims c5.loc.num_elem } }

/-- Lines 554-609: the async message and the broadcasts of `num_elem`, `typelen` and
`xtype`, whose failures are passed to `check_mpi` without returning. -/
def get_vars_async (K : Consts) (E : Env) (ncid varid : Int)
    (start count stride : Option (List Int)) (c : Ctx) : Flow :=
  if c.file.iosystem.async then
    let sz := geom_sz c.loc.ndims
    let m := Envelope.get_vars K.PIO_MSG_GET_VARS ncid varid c.loc.ndims
      (geom_msg start sz) (geom_msg count sz) (geom_msg stride sz)
      c.loc.xtype c.loc.num_elem c.loc.typelen
    let c1 : Ctx := { c.emit (.async_msg m (E.send_async_msg m)) with ierr := E.send_async_msg m }
    if c1.ierr ≠ PIO_NOERR then .done (c1.exit (pio_err c1.ierr))
    else
      let c2 := bcast_unchecked E .num_elem (·.num_elem) (fun l v => { l with num_elem := v }) c1
      let c3 := bcast_unchecked E .typelen (·.typelen) (fun l v => { l with typelen := v }) c2
      .next (bcast_unchecked E .xtype (·.xtype) (fun l v => { l with xtype := v }) c3)
  else .next c

/-- Lines 616-658: independent data mode is switched on, the I/O master reads through
the typed entry, independent data mode is switched off.  The result of
`ncmpi_end_indep_data` is assigned to `ierr`. -/
def get_vars_pnetcdf (K : Consts) (E : Env) (varid : Int)
    (start count stride : Option (List Int)) (c : Ctx) : Flow :=
  if c.file.iotype = K.PIO_IOTYPE_PNETCDF then
    let fb := BackendFn.ncmpi_begin_indep_data c.file.fh
    let c1 : Ctx := { c.emit (.backend fb) with ierr := E.backend_ret fb }
    if c1.ierr ≠ 0 then .done (c1.exit (pio_err c1.ierr))
    else
      let master : Flow :=
        if c1.file.iosystem.iomaster = K.MPI_ROOT then
          if pnetcdf_case K c1.loc.xtype then
            let fn := BackendFn.ncmpi_get_vars c1.loc.xtype c1.file.fh varid start count stride
            .next { c1.emit (.backend fn) with
                    ierr := E.backend_ret fn, buf := c1.buf.map (E.backend_read fn) }
          else .done (c1.exit (pio_err K.PIO_EBADIOTYPE))
        else .next c1
      master.bind fun (c2 : Ctx) =>
        let fe := BackendFn.ncmpi_end_indep_data c2.file.fh
        let c3 : Ctx := { c2.emit (.backend fe) with ierr := E.backend_ret fe }
        if c3.ierr ≠ 0 then .done (c3.exit (pio_err c3.ierr)) else .next c3
  else .next c

/-- Lines 661-723: the serial netCDF type switch. -/
def get_vars_netcdf (K : Consts) (E : Env) (varid : Int)
    (start count stride : Option (List Int)) (c : Ctx) : Flow :=
  if c.file.iotype ≠ K.PIO_IOTYPE_PNETCDF ∧ c.file.do_io then
    if netcdf_case K c.loc.xtype then
      let fn := BackendFn.nc_get_vars c.loc.xtype c.file.fh varid start count stride
      .next { c.emit (.backend fn) with
              ierr := E.backend_ret fn, buf := c.buf.map (E.backend_read fn) }
    else .done (c.exit (pio_err K.PIO_EBADTYPE))
  else .next c

/-- Lines 612-724: `if (ios->ioproc) { ... }`. -/
def get_vars_io (K : Consts) (E : Env) (varid : Int)
    (start count stride : Option (List Int)) (c : Ctx) : Flow :=
  if c.file.iosystem.ioproc then
    (get_vars_pnetcdf K E varid start count stride c).bind
      (get_vars_netcdf K E varid start count stride)
  else .next c

/-- The function `PIOc_get_vars_tc(ncid, varid, start, count, stride, xtype, buf)`.  The byte count
of the payload broadcast is `num_elem * typelen`, passed as an `int`. -/
def PIOc_get_vars_tc (K : Consts) (E : Env) (ncid varid : Int)
    (start count stride : Option (List Int)) (xtype : Int) (buf : Option Buf) : Res :=
  let gf := E.pio_get_file ncid
  if gf.1 ≠ 0 then ⟨some (pio_err gf.1), [], gf.2, buf⟩
  else
    let file := gf.2
    if buf = none then ⟨some (pio_err K.PIO_EINVAL), [], file, buf⟩
    else
      let c := Ctx.start E file xtype buf
      let resolved :=
        if ¬ file.iosystem.async ∨ ¬ file.iosystem.ioproc then
          get_vars_resolve K E ncid varid start count c
        else .next c
      ((resolved.bind (get_vars_async K E ncid varid start count stride)).bind
        (get_vars_io K E varid start count stride)).finish
        (fun (c1 : Ctx) => check_and_bcast E (toInt32 (c1.loc.num_elem * c1.loc.typelen)) c1)

/-! ## `PIOc_put_vars_tc` -/

/-- Lines 927-966: variable type, number of dimensions and type length are looked up,
and the element count is computed when a count array was passed. -/
def put_vars_resolve (K : Consts) (E : Env) (ncid varid : Int)
    (count : Option (List Int)) (c : Ctx) : Flow :=
  let r1 := E.inq_vartype ncid varid
  let c1 : Ctx := { c.emit (.catalog (.inq_vartype ncid varid) r1.1) with
              ierr := r1.1, loc := { c.loc with vartype := r1.2 } }
  if r1.1 ≠ PIO_NOERR then .done (c1.exit r1.1)
  else
    let xtype := if c1.loc.xtype = K.NC_NAT then c1.loc.vartype else c1.loc.xtype
    let c2 : Ctx := { c1 with loc := { c1.loc with xtype := xtype } }
    let r2 := E.inq_varndims ncid varid
    let c3 : Ctx := { c2.emit (.catalog (.inq_varndims ncid varid) r2.1) with
                ierr := r2.1, loc := { c2.loc with ndims := r2.2 } }
    if r2.1 ≠ PIO_NOERR then .done (c3.exit r2.1)
    else
      let typed : Flow :=
        if xtype = K.PIO_LONG_INTERNAL then
          .next { c3 with loc := { c3.loc with typelen := K.sizeof_long } }
        else
          let r3 := E.inq_type ncid xtype
          let c4 : Ctx := { c3.emit (.catalog (.inq_type ncid xtype) r3.1) with
                      ierr := r3.1, loc := { c3.loc with typelen := r3.2 } }
          if r3.1 ≠ PIO_NOERR then .done (c4.exit r3.1) else .next c4
      typed.bind fun (c5 : Ctx) =>
        match count with
        | some cnt =>
          .next { c5 with loc := { c5.loc with
            num_elem := count_loop cnt c5.loc.ndims c5.loc.num_elem } }
        | none => .next c5

/-- Lines 969-1025: the async message and the checked broadcasts of `ndims` and
`xtype`. -/
def put_vars_async (K : Consts) (E : Env) (ncid varid : Int)
    (start count stride : Option (List Int)) (buf : Buf) (c : Ctx) : Flow :=
  if c.file.iosystem.async then
    let sz := geom_sz c.loc.ndims
    let m := Envelope.put_vars K.PIO_MSG_PUT_VARS ncid varid c.loc.ndims
      (geom_msg start sz) (geom_msg count sz) (geom_msg stride sz)
      c.loc.xtype c.loc.num_elem c.loc.typelen (toInt64 (c.loc.num_elem * c.loc.typelen)) buf
    let c1 : Ctx := { c.emit (.async_msg m (E.send_async_msg m)) with ierr := E.send_async_msg m }
    if c1.ierr ≠ PIO_NOERR then .done (c1.exit (pio_err c1.ierr))
    else
      (bcast_checked E .ndims (·.ndims) (fun l v => { l with ndims := v }) c1).bind
        (bcast_checked E .xtype (·.xtype) (fun l v => { l with xtype := v }))
  else .next c

/-- The descriptor `file->varlist[varid]`. -/
def get_vdesc (file : file_desc_t) (varid : Int) : var_desc_t :=
  file.varlist.getD varid.toNat default

/-- Store a descriptor back in `file->varlist[varid]`. -/
def set_vdesc (file : file_desc_t) (varid : Int) (v : var_desc_t) : file_desc_t :=
  { file with varlist := file.varlist.set varid.toNat v }

/-- A successful `realloc(request, sizeof(int) * n)`: the first entries are kept; the
contents of added entries are indeterminate and modelled as 0. -/
def realloc_request (request : List Int) (n : Nat) : List Int :=
  request.take n ++ List.replicate (n - request.length) 0

/-- Lines 1035-1038 when `realloc` succeeds: the storage is grown to
`nreqs + PIO_REQUEST_ALLOC_CHUNK` entries when `nreqs` is a multiple of the chunk
size. -/
def grow_request (K : Consts) (vd : var_desc_t) : var_desc_t :=
  if vd.nreqs % K.PIO_REQUEST_ALLOC_CHUNK = 0 then
    { vd with request := realloc_request vd.request (vd.nreqs + K.PIO_REQUEST_ALLOC_CHUNK) }
  else vd

/-- The request slot `vdesc->request[vdesc->nreqs]` receives `v` (the handle the
buffered write stores through `request`, or `PIO_REQ_NULL`), then `vdesc->nreqs++`
(lines 1083-1085 and 1137-1139). -/
def store_request (file : file_desc_t) (varid : Int) (v : Int) : file_desc_t :=
  let vd := get_vdesc file varid
  set_vdesc file varid { request := vd.request.set vd.nreqs v, nreqs := vd.nreqs + 1 }

/-- Lines 1083-1086 and 1137-1140: the request is stored and counted, then
`flush_output_buffer(file, false, 0)` runs; its return code is not looked at. -/
def append_request (E : Env) (varid : Int) (v : Int) (c : Ctx) : Ctx :=
  let file1 := store_request c.file varid v
  { c.emit .flush with file := { file1 with varlist := (E.flush_output_buffer file1).2 } }

/-- Lines 1034-1147: the parallel-netCDF block.  The request storage is grown when
`nreqs` is a multiple of the chunk size; the I/O master calls the buffered write, the
other I/O ranks store `PIO_REQ_NULL`. -/
def put_vars_pnetcdf (K : Consts) (E : Env) (varid : Int)
    (start count stride : Option (List Int)) (buf : Buf) (c : Ctx) : Flow :=
  if c.file.iotype = K.PIO_IOTYPE_PNETCDF then
    let vd := get_vdesc c.file varid
    let grow := vd.nreqs % K.PIO_REQUEST_ALLOC_CHUNK = 0
    if grow ∧ E.realloc_fails then
      .done ({ c with file := set_vdesc c.file varid { vd with request := [] } }.exit
        (pio_err K.PIO_ENOMEM))
    else
      let vd1 := grow_request K vd
      let c1 : Ctx := { c with file := set_vdesc c.file varid vd1 }
      let slot := vd1.nreqs
      if c1.loc.ndims = 0 then
        if ¬ (start = none ∧ count = none ∧ stride = none) then .done c1.abort
        else if c1.file.iosystem.iomaster = K.MPI_ROOT then
          if pnetcdf_case K c1.loc.xtype then
            let fn := BackendFn.ncmpi_bput_var c1.loc.xtype c1.file.fh varid buf slot
            let c2 : Ctx := { c1.emit (.backend fn) with ierr := E.backend_ret fn }
            .next (append_request E varid (E.backend_request fn) c2)
          else .done (c1.exit (pio_err K.PIO_EBADIOTYPE))
        else .next (append_request E varid K.PIO_REQ_NULL c1)
      else
        if stride = none ∧ E.malloc_fails then .done (c1.exit (pio_err K.PIO_ENOMEM))
        else
          let fake_stride := stride.getD (List.replicate c1.loc.ndims.toNat 1)
          if c1.file.iosystem.iomaster = K.MPI_ROOT then
            if pnetcdf_case K c1.loc.xtype then
              let fn := BackendFn.ncmpi_bput_vars c1.loc.xtype c1.file.fh varid start count
                fake_stride buf slot
              let c2 : Ctx := { c1.emit (.backend fn) with ierr := E.backend_ret fn }
              .next (append_request E varid (E.backend_request fn) c2)
            else .done (c1.exit (pio_err K.PIO_EBADTYPE))
          else .next (append_request E varid K.PIO_REQ_NULL c1)
  else .next c

/-- Lines 1151-1229: the ADIOS block.  It has no type switch and does not assign
`ierr`.  The three attribute definitions of lines 1225-1227 are one event. -/
def put_vars_adios (K : Consts) (varid : Int)
    (start count stride : Option (List Int)) (buf : Buf) (c : Ctx) : Flow :=
  if c.file.iotype = K.PIO_IOTYPE_ADIOS then
    if varid < 0 ∨ varid ≥ c.file.num_vars then .done (c.exit (pio_err K.PIO_EBADID))
    else
      let av := c.file.adios_vars.getD varid.toNat default
      let master := c.file.iosystem.iomaster = K.MPI_ROOT
      let written : Flow :=
        if av.ndims = 0 then
          if ¬ (start = none ∧ count = none ∧ stride = none) then .done c.abort
          else if master then
            .next ((c.emit (.backend (.adios_define_var varid none none))).emit
              (.backend (.adios_write_byid varid buf)))
          else .next c
        else
          .next (((c.emit (.backend (.adios_define_var varid start count))).emit
            (.backend (.adios_write_byid varid buf))).emit
            (.backend (.adios_define_dims_attribute varid)))
      written.bind fun (c1 : Ctx) =>
        if master then .next (c1.emit (.backend (.adios_define_var_attributes varid)))
        else .next c1
  else .next c

/-- Lines 1232-1298: the serial netCDF type switch. -/
def put_vars_netcdf (K : Consts) (E : Env) (varid : Int)
    (start count stride : Option (List Int)) (buf : Buf) (c : Ctx) : Flow :=
  if c.file.iotype ≠ K.PIO_IOTYPE_PNETCDF ∧ c.file.iotype ≠ K.PIO_IOTYPE_ADIOS ∧
      c.file.do_io then
    if netcdf_case K c.loc.xtype then
      let fn := BackendFn.nc_put_vars c.loc.xtype c.file.fh varid start count stride buf
      .next { c.emit (.backend fn) with ierr := E.backend_ret fn }
    else .done (c.exit (pio_err K.PIO_EBADTYPE))
  else .next c

/-- Lines 1028-1299: `if (ios->ioproc) { ... }`. -/
def put_vars_io (K : Consts) (E : Env) (varid : Int)
    (start count stride : Option (List Int)) (buf : Buf) (c : Ctx) : Flow :=
  if c.file.iosystem.ioproc then
    ((put_vars_pnetcdf K E varid start count stride buf c).bind
      (put_vars_adios K varid start count stride buf)).bind
      (put_vars_netcdf K E varid start count stride buf)
  else .next c

/-- The function `PIOc_put_vars_tc(ncid, varid, start, count, stride, xtype, buf)`. -/
def PIOc_put_vars_tc (K : Consts) (E : Env) (ncid varid : Int)
    (start count stride : Option (List Int)) (xtype : Int) (buf : Option Buf) : Res :=
  let gf := E.pio_get_file ncid
  if gf.1 ≠ 0 then ⟨some (pio_err gf.1), [], gf.2, buf⟩
  else
    let file := gf.2
    if buf = none then ⟨some (pio_err K.PIO_EINVAL), [], file, buf⟩
    else
      let data := buf.getD []
      let c := Ctx.start E file xtype buf
      let resolved :=
        if ¬ file.iosystem.async ∨ ¬ file.iosystem.ioproc then
          put_vars_resolve K E ncid varid count c
        else .next c
      ((resolved.bind (put_vars_async K E ncid varid start count stride data)).bind
        (put_vars_io K E varid start count stride data)).finish
        (check_and_return E)

/-- The element type after `if (xtype == NC_NAT) xtype = vartype;`. -/
def resolved_xtype (K : Consts) (E : Env) (ncid varid xtype : Int) : Int :=
  if xtype = K.NC_NAT then (E.inq_vartype ncid varid).2 else xtype

/-! ## The derived-shape helpers -/

/-- The events `pre` of a helper, followed by the call it ends in. -/
def Res.preceded_by (pre : List Event) (r : Res) : Res := { r with trace := pre ++ r.trace }

/-- The function `PIOc_get_var1_tc(ncid, varid, index, xtype, buf)` (lines 762-785): the
number of dimensions is looked up, `count` is an array of `ndims` ones, and the call
ends in `PIOc_get_vars_tc(ncid, varid, index, count, NULL, xtype, buf)`. -/
def PIOc_get_var1_tc (K : Consts) (E : Env) (ncid varid : Int) (index : Option (List Int))
    (xtype : Int) (buf : Option Buf) : Res :=
  let gf := E.pio_get_file ncid
  if gf.1 ≠ 0 then ⟨some (pio_err gf.1), [], gf.2, buf⟩
  else
    let r := E.inq_varndims ncid varid
    let pre := [Event.catalog (.inq_varndims ncid varid) r.1]
    if r.1 ≠ 0 then ⟨some (pio_err r.1), pre, gf.2, buf⟩
    else
      (PIOc_get_vars_tc K E ncid varid index (some (List.replicate r.2.toNat 1)) none xtype
        buf).preceded_by pre

/-- The function `PIOc_put_var1_tc(ncid, varid, index, xtype, op)` (lines 1344-1367). -/
def PIOc_put_var1_tc (K : Consts) (E : Env) (ncid varid : Int) (index : Option (List Int))
    (xtype : Int) (op : Option Buf) : Res :=
  let gf := E.pio_get_file ncid
  if gf.1 ≠ 0 then ⟨some (pio_err gf.1), [], gf.2, op⟩
  else
    let r := E.inq_varndims ncid varid
    let pre := [Event.catalog (.inq_varndims ncid varid) r.1]
    if r.1 ≠ 0 then ⟨some (pio_err r.1), pre, gf.2, op⟩
    else
      (PIOc_put_vars_tc K E ncid varid index (some (List.replicate r.2.toNat 1)) none xtype
        op).preceded_by pre

/-- The dimension ids `dimids[0] .. dimids[ndims-1]` the length loop reads. -/
def dimids_read (dimids : List Int) (ndims : Int) : List Int :=
  (List.range ndims.toNat).map fun d => dimids.getD d 0

/-- The loop `for (d = 0; d < ndims; d++) if ((ierr = PIOc_inq_dimlen(ncid, dimids[d],
&dimlen[d]))) return pio_err(...)`: the first nonzero code (0 when every lookup
succeeded), the lengths found, and the lookups made. -/
def dimlen_loop (E : Env) (ncid : Int) : List Int → Int × List Int × List Event
  | [] => (0, [], [])
  | d :: ds =>
    let r := E.inq_dimlen ncid d
    if r.1 ≠ 0 then (r.1, [], [.catalog (.inq_dimlen ncid d) r.1])
    else
      let rest := dimlen_loop E ncid ds
      (rest.1, r.2 :: rest.2.1, .catalog (.inq_dimlen ncid d) r.1 :: rest.2.2)

/-- The function `PIOc_get_var_tc(ncid, varid, xtype, buf)` (lines 803-854): for a variable
with dimensions the dimension lengths are looked up and the call ends in
`PIOc_get_vars_tc` with a start array of zeros and the lengths as counts; for a scalar
it ends in `PIOc_get_vars_tc` with `NULL` start and count.  The stride is `NULL`. -/
def PIOc_get_var_tc (K : Consts) (E : Env) (ncid varid : Int) (xtype : Int)
    (buf : Option Buf) : Res :=
  let gf := E.pio_get_file ncid
  if gf.1 ≠ 0 then ⟨some (pio_err gf.1), [], gf.2, buf⟩
  else
    let r := E.inq_varndims ncid varid
    let pre := [Event.catalog (.inq_varndims ncid varid) r.1]
    if r.1 ≠ 0 then ⟨some (pio_err r.1), pre, gf.2, buf⟩
    else if r.2 ≠ 0 then
      let rd := E.inq_vardimid ncid varid
      let pre1 := pre ++ [Event.catalog (.inq_vardimid ncid varid) rd.1]
      if rd.1 ≠ 0 then ⟨some (pio_err rd.1), pre1, gf.2, buf⟩
      else
        let dl := dimlen_loop E ncid (dimids_read rd.2 r.2)
        if dl.1 ≠ 0 then ⟨some (pio_err dl.1), pre1 ++ dl.2.2, gf.2, buf⟩
        else
          (PIOc_get_vars_tc K E ncid varid (some (List.replicate r.2.toNat 0)) (some dl.2.1)
            none xtype buf).preceded_by (pre1 ++ dl.2.2)
    else
      (PIOc_get_vars_tc K E ncid varid none none none xtype buf).preceded_by pre

/-- The function `PIOc_put_var_tc(ncid, varid, xtype, op)` (lines 1395-1446); a failure of
`PIOc_inq_vardimid` is returned as it is. -/
def PIOc_put_var_tc (K : Consts) (E : Env) (ncid varid : Int) (xtype : Int)
    (op : Option Buf) : Res :=
  let gf := E.pio_get_file ncid
  if gf.1 ≠ 0 then ⟨some (pio_err gf.1), [], gf.2, op⟩
  else
    let r := E.inq_varndims ncid varid
    let pre := [Event.catalog (.inq_varndims ncid varid) r.1]
    if r.1 ≠ 0 then ⟨some (pio_err r.1), pre, gf.2, op⟩
    else if r.2 ≠ 0 then
      let rd := E.inq_vardimid ncid varid
      let pre1 := pre ++ [Event.catalog (.inq_vardimid ncid varid) rd.1]
      if rd.1 ≠ PIO_NOERR then ⟨some rd.1, pre1, gf.2, op⟩
      else
        let dl := dimlen_loop E ncid (dimids_read rd.2 r.2)
        if dl.1 ≠ 0 then ⟨some (pio_err dl.1), pre1 ++ dl.2.2, gf.2, op⟩
        else
          (PIOc_put_vars_tc K E ncid varid (some (List.replicate r.2.toNat 0)) (some dl.2.1)
            none xtype op).preceded_by (pre1 ++ dl.2.2)
    else
      (PIOc_put_vars_tc K E ncid varid none none none xtype op).preceded_by pre

/-! ## Predicates on traces and blocks -/

/-- The trace `t` is `t0` followed by events that all satisfy `p`. -/
def extends_by (p : Event → Bool) (t0 t : List Event) : Prop :=
  ∃ s, t = t0 ++ s ∧ ∀ e ∈ s, p e = true

/-- A block run from `c` only adds events that satisfy `p` to the trace. -/
def Flow.adds (p : Event → Bool) (c : Ctx) : Flow → Prop
  | .done r => extends_by p c.trace r.trace
  | .next c1 => extends_by p c.trace c1.trace

/-- A block run from `c` leaves the file descriptor as it was. -/
def Flow.keeps_file (c : Ctx) : Flow → Prop
  | .done r => r.file = c.file
  | .next c1 => c1.file = c.file

/-- Events of the messaging blocks: the async message and broadcasts. -/
def Event.isMessaging (e : Event) : Bool := e.isAsyncMsg || e.isBcast

/-- Events of the I/O blocks and the closing lines: storage-library calls, the flush
check, `check_netcdf` and the payload broadcast. -/
def Event.isLate (e : Event) : Bool := e.isBackend || e.isFlush || e.isCheck || e.isBcast

/-- The event is not a catalog lookup. -/
def Event.notCatalog (e : Event) : Bool := !e.isCatalog

/-- A catalog lookup that returned `PIO_NOERR`. -/
def Event.isLookupOk : Event → Bool
  | .catalog _ code => code == 0
  | _ => false

/-- The event is not an async message whose sending reported an error. -/
def Event.isSendOk : Event → Bool
  | .async_msg _ code => code == 0
  | _ => true

/-- A resolving block run from `c`: it leaves the file as it was and records lookups
only; when it returns, a failed lookup in the trace is the status returned; when it
falls through, every lookup succeeded. -/
def Flow.resolved (c : Ctx) : Flow → Prop
  | .done r => r.file = c.file ∧ (∀ e ∈ r.trace, e.isCatalog = true) ∧
      (∀ q code, Event.catalog q code ∈ r.trace → code ≠ 0 → r.ret = some code)
  | .next c1 => c1.file = c.file ∧ ∀ e ∈ c1.trace, e.isLookupOk = true

/-- A messaging block run from `c`: it leaves the file as it was; it either adds
events none of which is a failed send, or it returns the error of the send right
after the async message. -/
def Flow.sent (c : Ctx) : Flow → Prop
  | .done r => r.file = c.file ∧ (extends_by Event.isSendOk c.trace r.trace ∨
      ∃ m code, r.trace = c.trace ++ [Event.async_msg m code] ∧ code ≠ 0 ∧ r.ret = some code)
  | .next c1 => c1.file = c.file ∧ extends_by Event.isSendOk c.trace c1.trace

/-- What a failed catalog lookup means for the result `r` of a call on the open file
`file0`: the status is the code the lookup returned, the trace holds catalog lookups
only (no async message, broadcast or storage call), and the file descriptor, with its
request trackers, is as it was. -/
def lookup_failure_aborts (file0 : file_desc_t) (r : Res) : Prop :=
  ∀ q code, Event.catalog q code ∈ r.trace → code ≠ 0 →
    r.ret = some code ∧ (∀ e ∈ r.trace, e.isCatalog = true) ∧ r.file = file0

/-- What a failed async send means for the result `r` of a call on the open file
`file0`: the status is the nonzero code the send reported, the async message is the
last event of the trace and only catalog lookups precede it, and the file descriptor,
with its request trackers, is as it was. -/
def send_failure_aborts (file0 : file_desc_t) (r : Res) : Prop :=
  ∀ m code, Event.async_msg m code ∈ r.trace → code ≠ 0 →
    r.ret = some code ∧
    (∃ pre, r.trace = pre ++ [Event.async_msg m code] ∧ ∀ e ∈ pre, e.isCatalog = true) ∧
    r.file = file0

/-! ## Typed calls and the appended request -/

/-- The `case` label of a typed storage call; `none` for the untyped calls. -/
def BackendFn.typeLabel : BackendFn → Option Int
  | .ncmpi_put_att t _ _ _ _ _ _ => some t
  | .nc_put_att t _ _ _ _ _ _ => some t
  | .ncmpi_get_att t _ _ _ => some t
  | .nc_get_att t _ _ _ => some t
  | .ncmpi_get_vars t _ _ _ _ _ => some t
  | .nc_get_vars t _ _ _ _ _ => some t
  | .ncmpi_bput_var t _ _ _ _ => some t
  | .ncmpi_bput_vars t _ _ _ _ _ _ _ => some t
  | .nc_put_vars t _ _ _ _ _ _ => some t
  | _ => none

/-- The event is not a typed storage call for a type other than `x`. -/
def Event.typedAs (x : Int) : Event → Bool
  | .backend fn =>
    match fn.typeLabel with
    | some t => t == x
    | none => true
  | _ => true

/-- The state in which `PIOc_put_vars_tc` reaches `if (ios->ioproc)` (line 1028): the
resolving block, run on the ranks that resolve, followed by the messaging block. -/
def put_vars_entry (K : Consts) (E : Env) (ncid varid : Int)
    (start count stride : Option (List Int)) (xtype : Int) (buf : Option Buf) : Flow :=
  let file := (E.pio_get_file ncid).2
  let c := Ctx.start E file xtype buf
  (if ¬ file.iosystem.async ∨ ¬ file.iosystem.ioproc then
      put_vars_resolve K E ncid varid count c
    else .next c).bind
    (put_vars_async K E ncid varid start count stride (buf.getD []))

/-- The buffered write the parallel-netCDF block of `PIOc_put_vars_tc` calls from the
state `c`: `ncmpi_bput_var_*` for a scalar, `ncmpi_bput_vars_*` with the stride array
`fake_stride` otherwise; the request slot is `vdesc->request + vdesc->nreqs`. -/
def bput_call (varid : Int) (start count stride : Option (List Int)) (buf : Buf)
    (c : Ctx) : BackendFn :=
  if c.loc.ndims = 0 then
    .ncmpi_bput_var c.loc.xtype c.file.fh varid buf (get_vdesc c.file varid).nreqs
  else
    .ncmpi_bput_vars c.loc.xtype c.file.fh varid start count
      (stride.getD (List.replicate c.loc.ndims.toNat 1)) buf (get_vdesc c.file varid).nreqs

/-- The state after the parallel-netCDF block of `PIOc_put_vars_tc` has appended a
request from the state `c`: on the I/O master after the buffered write, on the other
I/O ranks with `PIO_REQ_NULL` in the slot. -/
def pnetcdf_appended (K : Consts) (E : Env) (varid : Int)
    (start count stride : Option (List Int)) (buf : Buf) (c : Ctx) : Ctx :=
  let c1 : Ctx :=
    { c with file := set_vdesc c.file varid (grow_request K (get_vdesc c.file varid)) }
  let fn := bput_call varid start count stride buf c
  if c.file.iosystem.iomaster = K.MPI_ROOT then
    append_request E varid (E.backend_request fn)
      { c1.emit (.backend fn) with ierr := E.backend_ret fn }
  else append_request E varid K.PIO_REQ_NULL c1

/-- Events of the resolving and messaging blocks. -/
def Event.isEarly (e : Event) : Bool := e.isCatalog || e.isMessaging

/-- The value left in the request slot by the parallel-netCDF block of
`PIOc_put_vars_tc`: the handle of the buffered write on the I/O master, `PIO_REQ_NULL`
on the other I/O ranks. -/
def request_value (K : Consts) (E : Env) (varid : Int)
    (start count stride : Option (List Int)) (buf : Buf) (c : Ctx) : Int :=
  if c.file.iosystem.iomaster = K.MPI_ROOT then
    E.backend_request (bput_call varid start count stride buf c)
  else K.PIO_REQ_NULL

/-- The descriptor handed to `flush_output_buffer` by the parallel-netCDF block of
`PIOc_put_vars_tc`: the request storage grown if needed, the slot filled and `nreqs`
incremented. -/
def appended_file (K : Consts) (E : Env) (varid : Int)
    (start count stride : Option (List Int)) (buf : Buf) (c : Ctx) : file_desc_t :=
  store_request (set_vdesc c.file varid (grow_request K (get_vdesc c.file varid))) varid
    (request_value K E varid start count stride buf c)

/-- The collaborators `E` with `flush_output_buffer` replaced by `f`. -/
def with_flush (E : Env) (f : file_desc_t → Int × List var_desc_t) : Env :=
  { E with flush_output_buffer := f }

/-- Two states that differ at most in the request lists of the file descriptor. -/
def Ctx.same_but_varlist (a b : Ctx) : Prop :=
  a.ierr = b.ierr ∧ a.loc = b.loc ∧ a.trace = b.trace ∧ a.buf = b.buf ∧
  a.file.iotype = b.file.iotype

/-- Two outcomes of a block that differ at most in the request lists of the file
descriptor. -/
def Flow.same_but_varlist : Flow → Flow → Prop
  | .done r, .done s => r.ret = s.ret ∧ r.trace = s.trace ∧ r.buf = s.buf
  | .next a, .next b => a.same_but_varlist b
  | _, _ => False

/-! ## The closing lines, the envelopes and the broadcast order -/

/-- The body of `PIOc_get_att_tc` between the argument checks and the closing lines
(lines 275-421): the resolving block on the ranks that resolve, the messaging block
and the I/O block. -/
def get_att_body (K : Consts) (E : Env) (ncid varid : Int) (name : CString)
    (memtype : Int) (ip : Option Buf) : Flow :=
  let file := (E.pio_get_file ncid).2
  let c := Ctx.start E file memtype ip
  ((if ¬ file.iosystem.async ∨ ¬ file.iosystem.ioproc then
      get_att_resolve K E ncid varid name memtype c
    else .next c).bind (get_att_async K E ncid varid name memtype)).bind
    (get_att_io K E varid name memtype)

/-- The body of `PIOc_get_vars_tc` between the argument checks and the closing lines
(lines 508-724). -/
def get_vars_body (K : Consts) (E : Env) (ncid varid : Int)
    (start count stride : Option (List Int)) (xtype : Int) (buf : Option Buf) : Flow :=
  let file := (E.pio_get_file ncid).2
  let c := Ctx.start E file xtype buf
  ((if ¬ file.iosystem.async ∨ ¬ file.iosystem.ioproc then
      get_vars_resolve K E ncid varid start count c
    else .next c).bind (get_vars_async K E ncid varid start count stride)).bind
    (get_vars_io K E varid start count stride)

/-- The byte count `(int)attlen * memtype_len` as `MPI_Bcast` receives it in its `int`
parameter. -/
def att_payload_count (l : Locals) : Int := toInt32 (toInt32 l.attlen * l.memtype_len)

/-- The byte count `num_elem * typelen` as `MPI_Bcast` receives it in its `int`
parameter. -/
def vars_payload_count (l : Locals) : Int := toInt32 (l.num_elem * l.typelen)

/-- The events recorded when a block ends. -/
def Flow.trace : Flow → List Event
  | .done r => r.trace
  | .next c => c.trace

/-- The state of `PIOc_put_att_tc` after `if (!ios->async || !ios->ioproc) { ... }`
(lines 59-80): the resolving block on the ranks that run it, the start state on the
others. -/
def put_att_resolved (K : Consts) (E : Env) (ncid atttype memtype : Int)
    (op : Option Buf) : Flow :=
  let file := (E.pio_get_file ncid).2
  let c := Ctx.start E file memtype op
  if ¬ file.iosystem.async ∨ ¬ file.iosystem.ioproc then
    put_att_resolve K E ncid atttype memtype c
  else .next c

/-- The state of `PIOc_get_att_tc` after `if (!ios->async || !ios->ioproc) { ... }`
(lines 275-304). -/
def get_att_resolved (K : Consts) (E : Env) (ncid varid : Int) (name : CString)
    (memtype : Int) (ip : Option Buf) : Flow :=
  let file := (E.pio_get_file ncid).2
  let c := Ctx.start E file memtype ip
  if ¬ file.iosystem.async ∨ ¬ file.iosystem.ioproc then
    get_att_resolve K E ncid varid name memtype c
  else .next c

/-- The state of `PIOc_get_vars_tc` after `if (!ios->async || !ios->ioproc) { ... }`
(lines 510-551). -/
def get_vars_resolved (K : Consts) (E : Env) (ncid varid : Int)
    (start count : Option (List Int)) (xtype : Int) (buf : Option Buf) : Flow :=
  let file := (E.pio_get_file ncid).2
  let c := Ctx.start E file xtype buf
  if ¬ file.iosystem.async ∨ ¬ file.iosystem.ioproc then
    get_vars_resolve K E ncid varid start count c
  else .next c

/-- The state of `PIOc_put_vars_tc` after `if (!ios->async || !ios->ioproc) { ... }`
(lines 927-966). -/
def put_vars_resolved (K : Consts) (E : Env) (ncid varid : Int)
    (count : Option (List Int)) (xtype : Int) (buf : Option Buf) : Flow :=
  let file := (E.pio_get_file ncid).2
  let c := Ctx.start E file xtype buf
  if ¬ file.iosystem.async ∨ ¬ file.iosystem.ioproc then
    put_vars_resolve K E ncid varid count c
  else .next c

/-- The argument list of `PIO_SEND_ASYNC_MSG` in `PIOc_put_att_tc` (lines 88-90). -/
def put_att_envelope (K : Consts) (ncid varid : Int) (name : CString)
    (atttype len memtype : Int) (op : Buf) (l : Locals) : Envelope :=
  .put_att K.PIO_MSG_PUT_ATT ncid varid (name.length + 1) name atttype len
    l.atttype_len memtype l.memtype_len (toInt64 (len * l.memtype_len)) op

/-- The argument list of `PIO_SEND_ASYNC_MSG` in `PIOc_get_att_tc` (lines 313-314). -/
def get_att_envelope (K : Consts) (ncid varid : Int) (name : CString)
    (memtype iotype : Int) (l : Locals) : Envelope :=
  .get_att K.PIO_MSG_GET_ATT ncid varid (name.length + 1) name iotype l.atttype l.attlen
    l.atttype_len memtype l.memtype_len

/-- The argument list of `PIO_SEND_ASYNC_MSG` in `PIOc_get_vars_tc` (lines 575-582). -/
def get_vars_envelope (K : Consts) (ncid varid : Int)
    (start count stride : Option (List Int)) (l : Locals) : Envelope :=
  .get_vars K.PIO_MSG_GET_VARS ncid varid l.ndims
    (geom_msg start (geom_sz l.ndims)) (geom_msg count (geom_sz l.ndims))
    (geom_msg stride (geom_sz l.ndims)) l.xtype l.num_elem l.typelen

/-- The argument list of `PIO_SEND_ASYNC_MSG` in `PIOc_put_vars_tc` (lines 990-998). -/
def put_vars_envelope (K : Consts) (ncid varid : Int)
    (start count stride : Option (List Int)) (buf : Buf) (l : Locals) : Envelope :=
  .put_vars K.PIO_MSG_PUT_VARS ncid varid l.ndims
    (geom_msg start (geom_sz l.ndims)) (geom_msg count (geom_sz l.ndims))
    (geom_msg stride (geom_sz l.ndims)) l.xtype l.num_elem l.typelen
    (toInt64 (l.num_elem * l.typelen)) buf

/-- What the envelope carries for one optional geometry array of a variable with
`ndims` dimensions: the presence flag tells whether the caller supplied the array,
the declared length is `ndims` when `ndims > 0` and 1 otherwise, and the values are
the caller's array when supplied and that many zeros otherwise. -/
def GeomMsg.carries (g : GeomMsg) (arr : Option (List Int)) (ndims : Int) : Prop :=
  g.present = arr.isSome ∧ g.sz = (if 0 < ndims then ndims else 1) ∧
  g.vals = (match arr with
    | some a => a
    | none => List.replicate g.sz.toNat 0)

instance (g : GeomMsg) (arr : Option (List Int)) (ndims : Int) :
    Decidable (g.carries arr ndims) := by
  unfold GeomMsg.carries
  exact inferInstance

/-- The item and the root of a broadcast event. -/
def Event.bcastOf : Event → Option (BcastItem × Int)
  | .bcast item _ root _ => some (item, root)
  | _ => none

/-- The broadcasts of a trace in program order, each with its item and its root. -/
def bcast_order (t : List Event) : List (BcastItem × Int) := t.filterMap Event.bcastOf

/-- The metadata broadcasts of `PIOc_get_att_tc` (lines 323-328), rooted at `root`. -/
def get_att_meta (root : Int) : List (BcastItem × Int) :=
  [(.attlen, root), (.atttype_len, root), (.memtype_len, root)]

/-- The metadata broadcasts of `PIOc_get_vars_tc` (lines 603-608), rooted at `root`. -/
def get_vars_meta (root : Int) : List (BcastItem × Int) :=
  [(.num_elem, root), (.typelen, root), (.xtype, root)]

/-- A block run from `c` leaves the file as it was and makes the broadcasts `full` in
this order; when it returns from the function it has made the first few of them. -/
def Flow.bcasts (c : Ctx) (full : List (BcastItem × Int)) : Flow → Prop
  | .done r => r.file = c.file ∧
      ∃ l, bcast_order r.trace = bcast_order c.trace ++ l ∧ l <+: full
  | .next c1 => c1.file = c.file ∧ bcast_order c1.trace = bcast_order c.trace ++ full

/-- The event is not a call into a storage library. -/
def Event.notBackend (e : Event) : Bool := !e.isBackend

/-! ## Several ranks, several calls -/

/-- The collaborators `E` on a rank whose broadcasts from the compute root deliver the
compute root's values `root` of the locals. -/
def from_comproot (E : Env) (root : Locals) : Env :=
  { E with
    bcast_recv := fun item =>
      match item with
      | .attlen => some root.attlen
      | .atttype_len => some root.atttype_len
      | .memtype_len => some root.memtype_len
      | .num_elem => some root.num_elem
      | .typelen => some root.typelen
      | .xtype => some root.xtype
      | .ndims => some root.ndims
      | .payload => none }

/-- The locals a block falls through with. -/
def Flow.locals : Flow → Option Locals
  | .next c => some c.loc
  | .done _ => none

/-- The file descriptor a block ends with. -/
def Flow.file : Flow → file_desc_t
  | .done r => r.file
  | .next c => c.file

/-- What lines 1034-1085 do to the tracker of the variable, `realloc` succeeding and
the flush check apart: nothing (the call does not get there), the growth step alone
(the call returns or stops between the growth step and `nreqs++`), or the growth step
followed by the store into the slot `request[nreqs]` and `nreqs++`. -/
def tracker_step (K : Consts) (a b : var_desc_t) : Prop :=
  b = a ∨ b = grow_request K a ∨
  ∃ v, b = ⟨(grow_request K a).request.set a.nreqs v, a.nreqs + 1⟩

/-- The chunk invariant of a tracker: the capacity is a multiple of the chunk size, it
is at most one chunk ahead of `nreqs`, and it is above `nreqs` unless `nreqs` is a
multiple of the chunk size. -/
def chunk_inv (K : Consts) (vd : var_desc_t) : Prop :=
  vd.request.length % K.PIO_REQUEST_ALLOC_CHUNK = 0 ∧
  vd.request.length ≤ vd.nreqs + K.PIO_REQUEST_ALLOC_CHUNK ∧
  (vd.nreqs % K.PIO_REQUEST_ALLOC_CHUNK ≠ 0 → vd.nreqs < vd.request.length)

instance (K : Consts) (vd : var_desc_t) : Decidable (chunk_inv K vd) := by
  unfold chunk_inv
  exact inferInstance

/-- The arguments of one `PIOc_put_vars_tc` call. -/
structure put_call where
  ncid : Int
  varid : Int
  start : Option (List Int)
  count : Option (List Int)
  stride : Option (List Int)
  xtype : Int
  buf : Option Buf

/-- The collaborators `E` of a call made while the descriptor of the open file is
`file`. -/
def on_file (E : Env) (file : file_desc_t) : Env :=
  { E with pio_get_file := fun n => ((E.pio_get_file n).1, file) }

/-- The file descriptor after a sequence of `PIOc_put_vars_tc` calls, each with its
collaborators, made on the file whose descriptor is `file` at the start. -/
def put_run (K : Consts) : file_desc_t → List (Env × put_call) → file_desc_t
  | file, [] => file
  | file, (E, a) :: rest =>
    put_run K (PIOc_put_vars_tc K (on_file E file) a.ncid a.varid a.start a.count a.stride
      a.xtype a.buf).file rest

/-- A flush check that leaves the request trackers alone. -/
def no_flush (f : file_desc_t) : Int × List var_desc_t := (0, f.varlist)

/-! ## Concrete runs -/

/-- A rank that is I/O master in a synchronous session. -/
def ios_master : iosystem_desc_t := ⟨false, true, pio_h.MPI_ROOT, 0, 0, 0⟩

/-- An open file of the given backend kind on the given rank, with two variables whose
request trackers are empty. -/
def demo_file (iotype : Int) (ios : iosystem_desc_t) : file_desc_t :=
  ⟨ios, iotype, true, 7, [⟨[], 0⟩, ⟨[], 0⟩], 2, [⟨1, 0⟩, ⟨0, 0⟩]⟩

/-- Collaborators that all succeed: variable 0 is a one-dimensional `NC_INT`
variable, dimension `d` has length `d + 2`, every type is 4 bytes long,
`check_netcdf` returns the status it is given,
the flush leaves the request trackers alone. -/
def demo_env (file : file_desc_t) (ndims : Int) : Env where
  pio_get_file := fun _ => (0, file)
  inq_type := fun _ _ => (0, 4)
  inq_att := fun _ _ _ => (0, pio_h.NC_INT, 1)
  inq_vartype := fun _ _ => (0, pio_h.NC_INT)
  inq_varndims := fun _ _ => (0, ndims)
  inq_vardimid := fun _ _ => (0, (List.range ndims.toNat).map fun d => (d : Int))
  inq_dimlen := fun _ d => (0, d + 2)
  send_async_msg := fun _ => 0
  mpi_bcast := fun _ => 0
  bcast_recv := fun _ => none
  payload_root := none
  backend_ret := fun _ => 0
  backend_read := fun _ b => b
  backend_request := fun _ => 100
  check_netcdf := fun s => s
  check_mpi := fun _ => -1
  realloc_fails := false
  malloc_fails := false
  flush_output_buffer := fun f => (0, f.varlist)
  uninit := ⟨0, 0, 0, 0, 0, 0, 0, 0, 0⟩

/-- An I/O rank other than the I/O master, in a synchronous session. -/
def ios_io_rank : iosystem_desc_t := ⟨false, true, 0, 0, 0, 1⟩

/-- A rank of a synchronous session that is not an I/O rank. -/
def ios_non_io : iosystem_desc_t := ⟨false, false, 0, 0, 0, 0⟩

/-- A compute rank of an asynchronous session. -/
def ios_compute : iosystem_desc_t := ⟨true, false, 0, 0, 0, 0⟩

/-- Collaborators as in `demo_env`, except that the typed strided read returns -40
(`NC_EINVALCOORDS`, index exceeds dimension bound) and leaves the buffer alone. -/
def read_fails_env (file : file_desc_t) : Env :=
  { demo_env file 1 with
    backend_ret := fun fn =>
      match fn with
      | .ncmpi_get_vars _ _ _ _ _ _ => -40
      | .nc_get_vars _ _ _ _ _ _ => -40
      | _ => 0 }

/-- Collaborators as in `demo_env`, except that the catalog does not know the
variable: `PIOc_inq_varndims` returns -49 (`NC_ENOTVAR`). -/
def lookup_fails_env (file : file_desc_t) : Env :=
  { demo_env file 1 with inq_varndims := fun _ _ => (-49, 0) }

/-- Collaborators as in `demo_env`, except that sending the async message reports the
error -1. -/
def send_fails_env (file : file_desc_t) : Env :=
  { demo_env file 1 with send_async_msg := fun _ => -1 }

/-- An I/O master of an asynchronous session. -/
def ios_async_master : iosystem_desc_t := ⟨true, true, pio_h.MPI_ROOT, 0, 0, 0⟩

/-- Collaborators as in `demo_env`, except that every broadcast from the compute root
returns the error 5 (the payload broadcast from the I/O root succeeds). -/
def bcast_fails_env (file : file_desc_t) : Env :=
  { demo_env file 1 with
    mpi_bcast := fun item =>
      match item with
      | .payload => 0
      | _ => 5 }

/-- A buffer of `2^32 + 8` bytes, all equal to `x`. -/
def big_buf (x : Int) : Buf := List.replicate 4294967304 x

/-- Collaborators as in `demo_env`, on a rank that is not the I/O root: variable 0 is a
one-dimensional `NC_DOUBLE` variable, every type is 8 bytes long, and the I/O root's
buffer in the payload broadcast is `big_buf 1`. -/
def big_read_env (file : file_desc_t) : Env :=
  { demo_env file 1 with
    inq_type := fun _ _ => (0, 8)
    inq_vartype := fun _ _ => (0, pio_h.NC_DOUBLE)
    payload_root := some (big_buf 1) }

/-- Collaborators as in `demo_env`, on a rank that is not the I/O root: the I/O root's
buffer in the payload broadcast is `rootbuf`. -/
def receiving_env (file : file_desc_t) (rootbuf : Buf) : Env :=
  { demo_env file 1 with payload_root := some rootbuf }

/-- Collaborators as in `demo_env`, on a rank that is not the I/O root: the attribute
has 3 `NC_INT` elements and the I/O root's buffer holds the bytes 1 to 14. -/
def att3_env (file : file_desc_t) : Env :=
  { demo_env file 1 with
    inq_att := fun _ _ _ => (0, pio_h.NC_INT, 3)
    payload_root := some [1, 2, 3, 4, 5, 6, 7, 8, 9, 10, 11, 12, 13, 14] }

/-- Collaborators as in `demo_env`: variable 0 is a one-dimensional `NC_DOUBLE`
variable of length 10 and every type is 8 bytes long. -/
def doubles_env (file : file_desc_t) : Env :=
  { demo_env file 1 with
    inq_type := fun _ _ => (0, 8)
    inq_vartype := fun _ _ => (0, pio_h.NC_DOUBLE)
    inq_dimlen := fun _ _ => (0, 10) }

/-- An I/O rank other than the I/O master, in an asynchronous session. -/
def ios_async_io_rank : iosystem_desc_t := ⟨true, true, 0, 0, 0, 1⟩

/-- Scenario B: four compute ranks and two I/O ranks of an asynchronous session. -/
def scenario_b : List iosystem_desc_t :=
  [ios_compute, ios_compute, ios_compute, ios_compute, ios_async_master, ios_async_io_rank]

/-- The constants of `pio_h` with a chunk size of 2 entries. -/
def small_chunk : Consts := { pio_h with PIO_REQUEST_ALLOC_CHUNK := 2 }

/-- A write of one element at index 0 of variable 0. -/
def one_put : put_call := ⟨3, 0, some [0], some [1], none, 4, some [0, 0, 0, 1]⟩

/-- An open parallel-netCDF file on the I/O master of a synchronous session with two
variables that have one request outstanding each. -/
def busy_file : file_desc_t :=
  ⟨ios_master, 1, true, 7, [⟨[7, 0], 1⟩, ⟨[9, 0], 1⟩], 2, [⟨1, 0⟩, ⟨0, 0⟩]⟩

/-! ## Theorems -/

/-! ## Traces of the blocks -/

theorem extends_by_refl (p : Event → Bool) (t : List Event) : extends_by p t t :=
  ⟨[], by simp, by simp⟩

theorem extends_by_trans {p : Event → Bool} {t0 t1 t2 : List Event}
    (h1 : extends_by p t0 t1) (h2 : extends_by p t1 t2) : extends_by p t0 t2 := by
  obtain ⟨s1, rfl, hs1⟩ := h1
  obtain ⟨s2, rfl, hs2⟩ := h2
  refine ⟨s1 ++ s2, by simp, ?_⟩
  intro e he
  rcases List.mem_append.mp he with h | h
  · exact hs1 e h
  · exact hs2 e h

theorem extends_by_mono {p q : Event → Bool} {t0 t : List Event}
    (hpq : ∀ e, p e = true → q e = true) (h : extends_by p t0 t) : extends_by q t0 t := by
  obtain ⟨s, rfl, hs⟩ := h
  exact ⟨s, rfl, fun e he => hpq e (hs e he)⟩

theorem Flow.adds_mono {p q : Event → Bool} {c : Ctx} {f : Flow}
    (hpq : ∀ e, p e = true → q e = true) (h : f.adds p c) : f.adds q c := by
  cases f <;> exact extends_by_mono hpq h

theorem Flow.adds_bind {p : Event → Bool} {c : Ctx} {f : Flow} {k : Ctx → Flow}
    (hf : f.adds p c) (hk : ∀ c1, (k c1).adds p c1) : (f.bind k).adds p c := by
  cases f with
  | done r => exact hf
  | next c1 =>
    have h2 := hk c1
    simp only [Flow.bind]
    cases hkc : k c1 with
    | done r => rw [hkc] at h2; exact extends_by_trans hf h2
    | next c2 => rw [hkc] at h2; exact extends_by_trans hf h2

theorem Flow.adds_finish {p : Event → Bool} {c : Ctx} {f : Flow} {k : Ctx → Res}
    (hf : f.adds p c) (hk : ∀ c1, extends_by p c1.trace (k c1).trace) :
    extends_by p c.trace (f.finish k).trace := by
  cases f with
  | done r => exact hf
  | next c1 => exact extends_by_trans hf (hk c1)

theorem Flow.keeps_file_bind {c : Ctx} {f : Flow} {k : Ctx → Flow}
    (hf : f.keeps_file c) (hk : ∀ c1, (k c1).keeps_file c1) : (f.bind k).keeps_file c := by
  cases f with
  | done r => exact hf
  | next c1 =>
    have h2 := hk c1
    simp only [Flow.bind]
    cases hkc : k c1 with
    | done r => rw [hkc] at h2; simp only [Flow.keeps_file] at *; rw [h2, hf]
    | next c2 => rw [hkc] at h2; simp only [Flow.keeps_file] at *; rw [h2, hf]

theorem isBcast_isMessaging (e : Event) (h : e.isBcast = true) : e.isMessaging = true := by
  simp [Event.isMessaging, h]

theorem isBcast_isSendOk (e : Event) (h : e.isBcast = true) : e.isSendOk = true := by
  cases e <;> simp_all [Event.isSendOk, Event.isBcast]

theorem bcast_checked_adds (E : Env) (item : BcastItem) (get : Locals → Int)
    (set : Locals → Int → Locals) (c : Ctx) :
    (bcast_checked E item get set c).adds Event.isBcast c ∧
    (bcast_checked E item get set c).keeps_file c := by
  simp only [bcast_checked]
  split_ifs <;>
    simp [Flow.adds, Flow.keeps_file, extends_by, Ctx.exit, bcast_unchecked, Ctx.emit,
      Event.isBcast]

theorem bcast_checked_messaging (E : Env) (item : BcastItem) (get : Locals → Int)
    (set : Locals → Int → Locals) (c : Ctx) :
    (bcast_checked E item get set c).adds Event.isMessaging c :=
  Flow.adds_mono isBcast_isMessaging (bcast_checked_adds E item get set c).1

theorem bcast_checked_send_ok (E : Env) (item : BcastItem) (get : Locals → Int)
    (set : Locals → Int → Locals) (c : Ctx) :
    (bcast_checked E item get set c).adds Event.isSendOk c :=
  Flow.adds_mono isBcast_isSendOk (bcast_checked_adds E item get set c).1

theorem put_att_async_adds (K : Consts) (E : Env) (ncid varid : Int) (name : CString)
    (atttype len memtype : Int) (op : Buf) (c : Ctx) :
    (put_att_async K E ncid varid name atttype len memtype op c).adds Event.isMessaging c ∧
    (put_att_async K E ncid varid name atttype len memtype op c).keeps_file c := by
  simp only [put_att_async]
  split_ifs <;>
    simp [Flow.adds, Flow.keeps_file, extends_by, Ctx.exit, bcast_unchecked, Ctx.emit,
      Event.isBcast, Event.isMessaging, Event.isAsyncMsg]

theorem get_vars_async_adds (K : Consts) (E : Env) (ncid varid : Int)
    (start count stride : Option (List Int)) (c : Ctx) :
    (get_vars_async K E ncid varid start count stride c).adds Event.isMessaging c ∧
    (get_vars_async K E ncid varid start count stride c).keeps_file c := by
  simp only [get_vars_async]
  split_ifs <;>
    simp [Flow.adds, Flow.keeps_file, extends_by, Ctx.exit, bcast_unchecked, Ctx.emit,
      Event.isBcast, Event.isMessaging, Event.isAsyncMsg]

theorem Flow.adds_from {p : Event → Bool} {c c1 : Ctx} {f : Flow}
    (h : extends_by p c.trace c1.trace) (hf : f.adds p c1) : f.adds p c := by
  cases f <;> exact extends_by_trans h hf

theorem Flow.keeps_file_from {c c1 : Ctx} {f : Flow}
    (h : c1.file = c.file) (hf : f.keeps_file c1) : f.keeps_file c := by
  cases f <;> simp only [Flow.keeps_file] at * <;> rw [hf, h]

theorem get_att_async_adds (K : Consts) (E : Env) (ncid varid : Int) (name : CString)
    (memtype : Int) (c : Ctx) :
    (get_att_async K E ncid varid name memtype c).adds Event.isMessaging c ∧
    (get_att_async K E ncid varid name memtype c).keeps_file c := by
  simp only [get_att_async]
  split_ifs
  · simp [Flow.adds, Flow.keeps_file, extends_by, Ctx.exit, Ctx.emit, Event.isMessaging,
      Event.isAsyncMsg]
  · refine ⟨Flow.adds_from ?_ (Flow.adds_bind (Flow.adds_bind (bcast_checked_messaging _ _ _ _ _)
        fun _ => bcast_checked_messaging _ _ _ _ _) fun _ => bcast_checked_messaging _ _ _ _ _),
      Flow.keeps_file_from ?_ (Flow.keeps_file_bind (Flow.keeps_file_bind
        (bcast_checked_adds _ _ _ _ _).2 fun _ => (bcast_checked_adds _ _ _ _ _).2)
        fun _ => (bcast_checked_adds _ _ _ _ _).2)⟩
    · simp [extends_by, Ctx.emit, Event.isMessaging, Event.isAsyncMsg]
    · simp [Ctx.emit]
  · simp [Flow.adds, Flow.keeps_file, extends_by_refl]

theorem put_vars_async_adds (K : Consts) (E : Env) (ncid varid : Int)
    (start count stride : Option (List Int)) (buf : Buf) (c : Ctx) :
    (put_vars_async K E ncid varid start count stride buf c).adds Event.isMessaging c ∧
    (put_vars_async K E ncid varid start count stride buf c).keeps_file c := by
  simp only [put_vars_async]
  split_ifs
  · simp [Flow.adds, Flow.keeps_file, extends_by, Ctx.exit, Ctx.emit, Event.isMessaging,
      Event.isAsyncMsg]
  · refine ⟨Flow.adds_from ?_ (Flow.adds_bind (bcast_checked_messaging _ _ _ _ _)
        fun _ => bcast_checked_messaging _ _ _ _ _),
      Flow.keeps_file_from ?_ (Flow.keeps_file_bind
        (bcast_checked_adds _ _ _ _ _).2 fun _ => (bcast_checked_adds _ _ _ _ _).2)⟩
    · simp [extends_by, Ctx.emit, Event.isMessaging, Event.isAsyncMsg]
    · simp [Ctx.emit]
  · simp [Flow.adds, Flow.keeps_file, extends_by_refl]

/-! ### The I/O blocks -/

theorem put_att_io_adds (K : Consts) (E : Env) (varid : Int) (name : CString)
    (atttype len memtype : Int) (op : Buf) (c : Ctx) :
    (put_att_io K E varid name atttype len memtype op c).adds Event.isLate c := by
  have h1 : ∀ c, (put_att_pnetcdf K E varid name atttype len memtype op c).adds Event.isLate c := by
    intro c
    simp only [put_att_pnetcdf]
    split_ifs <;> simp [Flow.adds, extends_by, Ctx.exit, Ctx.emit, Event.isLate, Event.isBackend]
  have h2 : ∀ c, (put_att_adios K varid name c).adds Event.isLate c := by
    intro c
    simp only [put_att_adios]
    split_ifs <;> simp [Flow.adds, extends_by, Ctx.exit, Ctx.emit, Event.isLate, Event.isBackend]
  have h3 : ∀ c, (put_att_netcdf K E varid name atttype len memtype op c).adds Event.isLate c := by
    intro c
    simp only [put_att_netcdf]
    split_ifs <;> simp [Flow.adds, extends_by, Ctx.exit, Ctx.emit, Event.isLate, Event.isBackend]
  simp only [put_att_io]
  split_ifs
  · exact Flow.adds_bind (Flow.adds_bind (h1 c) h2) h3
  · exact extends_by_refl _ _

theorem get_att_io_adds (K : Consts) (E : Env) (varid : Int) (name : CString)
    (memtype : Int) (c : Ctx) :
    (get_att_io K E varid name memtype c).adds Event.isLate c ∧
    (get_att_io K E varid name memtype c).keeps_file c := by
  have h1 : ∀ c, (get_att_pnetcdf K E varid name memtype c).adds Event.isLate c ∧
      (get_att_pnetcdf K E varid name memtype c).keeps_file c := by
    intro c
    simp only [get_att_pnetcdf]
    split_ifs <;> simp [Flow.adds, Flow.keeps_file, extends_by, Ctx.exit, Ctx.emit,
      Event.isLate, Event.isBackend]
  have h2 : ∀ c, (get_att_netcdf K E varid name memtype c).adds Event.isLate c ∧
      (get_att_netcdf K E varid name memtype c).keeps_file c := by
    intro c
    simp only [get_att_netcdf]
    split_ifs <;> simp [Flow.adds, Flow.keeps_file, extends_by, Ctx.exit, Ctx.emit,
      Event.isLate, Event.isBackend]
  simp only [get_att_io]
  split_ifs
  · exact ⟨Flow.adds_bind (h1 c).1 fun c => (h2 c).1,
      Flow.keeps_file_bind (h1 c).2 fun c => (h2 c).2⟩
  · exact ⟨extends_by_refl _ _, rfl⟩

theorem get_vars_io_adds (K : Consts) (E : Env) (varid : Int)
    (start count stride : Option (List Int)) (c : Ctx) :
    (get_vars_io K E varid start count stride c).adds Event.isLate c ∧
    (get_vars_io K E varid start count stride c).keeps_file c := by
  have h1 : ∀ c, (get_vars_pnetcdf K E varid start count stride c).adds Event.isLate c ∧
      (get_vars_pnetcdf K E varid start count stride c).keeps_file c := by
    intro c
    simp only [get_vars_pnetcdf]
    split_ifs <;> simp [Flow.adds, Flow.keeps_file, Flow.bind, extends_by, Ctx.exit, Ctx.emit,
      Event.isLate, Event.isBackend] <;> split_ifs <;>
      simp [Flow.adds, Flow.keeps_file, Flow.bind, extends_by, Ctx.exit, Ctx.emit,
      Event.isLate, Event.isBackend]
  have h2 : ∀ c, (get_vars_netcdf K E varid start count stride c).adds Event.isLate c ∧
      (get_vars_netcdf K E varid start count stride c).keeps_file c := by
    intro c
    simp only [get_vars_netcdf]
    split_ifs <;> simp [Flow.adds, Flow.keeps_file, extends_by, Ctx.exit, Ctx.emit,
      Event.isLate, Event.isBackend]
  simp only [get_vars_io]
  split_ifs
  · exact ⟨Flow.adds_bind (h1 c).1 fun c => (h2 c).1,
      Flow.keeps_file_bind (h1 c).2 fun c => (h2 c).2⟩
  · exact ⟨extends_by_refl _ _, rfl⟩

theorem append_request_trace (E : Env) (varid : Int) (v : Int) (c : Ctx) :
    (append_request E varid v c).trace = c.trace ++ [.flush] := by
  simp [append_request, Ctx.emit]

theorem put_vars_io_adds (K : Consts) (E : Env) (varid : Int)
    (start count stride : Option (List Int)) (buf : Buf) (c : Ctx) :
    (put_vars_io K E varid start count stride buf c).adds Event.isLate c := by
  have h1 : ∀ c, (put_vars_pnetcdf K E varid start count stride buf c).adds Event.isLate c := by
    intro c
    simp only [put_vars_pnetcdf]
    split_ifs <;> simp [Flow.adds, extends_by, Ctx.exit, Ctx.abort, Ctx.emit, Event.isLate,
      Event.isBackend, Event.isFlush, append_request_trace]
  have h2 : ∀ c, (put_vars_adios K varid start count stride buf c).adds Event.isLate c := by
    intro c
    simp only [put_vars_adios]
    split_ifs <;> simp [Flow.adds, Flow.bind, extends_by, Ctx.exit, Ctx.abort, Ctx.emit,
      Event.isLate, Event.isBackend]
  have h3 : ∀ c, (put_vars_netcdf K E varid start count stride buf c).adds Event.isLate c := by
    intro c
    simp only [put_vars_netcdf]
    split_ifs <;> simp [Flow.adds, extends_by, Ctx.exit, Ctx.emit, Event.isLate, Event.isBackend]
  simp only [put_vars_io]
  split_ifs
  · exact Flow.adds_bind (Flow.adds_bind (h1 c) h2) h3
  · exact extends_by_refl _ _

/-! ### The closing lines -/

theorem check_and_return_adds (E : Env) (c : Ctx) :
    extends_by Event.isLate c.trace (check_and_return E c).trace := by
  simp only [check_and_return]
  split_ifs <;> simp [extends_by, Ctx.exit, Ctx.emit, Event.isLate, Event.isCheck]

theorem check_and_bcast_adds (E : Env) (count : Int) (c : Ctx) :
    extends_by Event.isLate c.trace (check_and_bcast E count c).trace := by
  simp only [check_and_bcast]
  split_ifs <;> simp [extends_by, Ctx.exit, Ctx.emit, Event.isLate, Event.isCheck, Event.isBcast]

theorem check_and_bcast_file (E : Env) (count : Int) (c : Ctx) :
    (check_and_bcast E count c).file = c.file := by
  simp only [check_and_bcast]
  split_ifs <;> simp [Ctx.exit, Ctx.emit]

/-! ### The resolving blocks -/

theorem put_att_resolve_resolved (K : Consts) (E : Env) (ncid atttype memtype : Int) (c : Ctx)
    (hc : c.trace = []) : (put_att_resolve K E ncid atttype memtype c).resolved c := by
  simp only [put_att_resolve]
  split_ifs <;>
    simp_all [Flow.resolved, Ctx.exit, Ctx.emit, Event.isCatalog, Event.isLookupOk, PIO_NOERR]
  intro q code h
  rcases h with h | h <;> omega

theorem get_att_resolve_resolved (K : Consts) (E : Env) (ncid varid : Int) (name : CString)
    (memtype : Int) (c : Ctx) (hc : c.trace = []) :
    (get_att_resolve K E ncid varid name memtype c).resolved c := by
  simp only [get_att_resolve]
  split_ifs <;>
    simp_all [Flow.resolved, Ctx.exit, Ctx.emit, Event.isCatalog, Event.isLookupOk, PIO_NOERR] <;>
    (intro q code h; intros; rcases h with h | h | h <;> omega)

theorem get_vars_resolve_resolved (K : Consts) (E : Env) (ncid varid : Int)
    (start count : Option (List Int)) (c : Ctx) (hc : c.trace = []) :
    (get_vars_resolve K E ncid varid start count c).resolved c := by
  simp only [get_vars_resolve]
  split_ifs <;>
    simp_all [Flow.resolved, Flow.bind, Ctx.exit, Ctx.abort, Ctx.emit, Event.isCatalog,
      Event.isLookupOk, PIO_NOERR] <;>
    (intro q code h; intros; rcases h with h | h | h <;> omega)

theorem put_vars_resolve_resolved (K : Consts) (E : Env) (ncid varid : Int)
    (count : Option (List Int)) (c : Ctx) (hc : c.trace = []) :
    (put_vars_resolve K E ncid varid count c).resolved c := by
  simp only [put_vars_resolve]
  cases count <;> split_ifs <;>
    simp_all [Flow.resolved, Flow.bind, Ctx.exit, Ctx.abort, Ctx.emit, Event.isCatalog,
      Event.isLookupOk, PIO_NOERR] <;>
    (intro q code h; intros; rcases h with h | h | h <;> omega)

theorem isMessaging_notCatalog (e : Event) (h : e.isMessaging = true) : e.notCatalog = true := by
  cases e <;> simp_all [Event.isMessaging, Event.notCatalog, Event.isCatalog, Event.isAsyncMsg,
    Event.isBcast]

theorem isLate_notCatalog (e : Event) (h : e.isLate = true) : e.notCatalog = true := by
  cases e <;> simp_all [Event.isLate, Event.notCatalog, Event.isCatalog, Event.isBackend,
    Event.isFlush, Event.isCheck, Event.isBcast]

theorem isLate_isSendOk (e : Event) (h : e.isLate = true) : e.isSendOk = true := by
  cases e <;> simp_all [Event.isLate, Event.isSendOk, Event.isBackend,
    Event.isFlush, Event.isCheck, Event.isBcast]

theorem isLookupOk_isCatalog (e : Event) (h : e.isLookupOk = true) : e.isCatalog = true := by
  cases e <;> simp_all [Event.isLookupOk, Event.isCatalog]

/-- After a resolving block fell through, nothing that only adds other events can put
a failed lookup in the trace. -/
theorem no_failed_lookup_after {t0 t : List Event}
    (h0 : ∀ e ∈ t0, e.isLookupOk = true) (h : extends_by Event.notCatalog t0 t)
    (q : CatalogQuery) (code : Int) (hm : Event.catalog q code ∈ t) (hne : code ≠ 0) : False := by
  obtain ⟨s, rfl, hs⟩ := h
  rcases List.mem_append.mp hm with h1 | h1
  · have := h0 _ h1
    simp [Event.isLookupOk] at this
    exact hne this
  · have := hs _ h1
    simp [Event.notCatalog, Event.isCatalog] at this

/-- The part of a body after the resolving block: from `resolved` on. -/
theorem lookup_failure_of_tail (file0 : file_desc_t) (c : Ctx) (resolved : Flow) (k : Ctx → Res)
    (hf : c.file = file0) (hr : resolved.resolved c)
    (hk : ∀ c1, extends_by Event.notCatalog c1.trace (k c1).trace) :
    lookup_failure_aborts file0 (resolved.finish k) := by
  intro q code hm hne
  cases resolved with
  | done r =>
    simp only [Flow.finish] at hm ⊢
    obtain ⟨h1, h2, h3⟩ := hr
    exact ⟨h3 q code hm hne, h2, by rw [h1, hf]⟩
  | next c1 =>
    simp only [Flow.finish] at hm
    exact (no_failed_lookup_after hr.2 (hk c1) q code hm hne).elim

theorem Flow.finish_bind (f : Flow) (k1 : Ctx → Flow) (k2 : Ctx → Res) :
    (f.bind k1).finish k2 = f.finish fun c => (k1 c).finish k2 := by
  cases f <;> rfl

theorem skip_resolved (c : Ctx) (hc : c.trace = []) : (Flow.next c).resolved c := by
  simp [Flow.resolved, hc]

theorem put_att_lookup_failure (K : Consts) (E : Env) (ncid varid : Int)
    (name : Option CString) (atttype len memtype : Int) (op : Option Buf)
    (hopen : (E.pio_get_file ncid).1 = 0) :
    lookup_failure_aborts (E.pio_get_file ncid).2
      (PIOc_put_att_tc K E ncid varid name atttype len memtype op) := by
  simp only [PIOc_put_att_tc, hopen, ne_eq, not_true_eq_false, if_false]
  split_ifs with h1 h2
  · intro q code hm; simp at hm
  · rw [Flow.finish_bind, Flow.finish_bind]
    refine lookup_failure_of_tail _ _ _ _ rfl (put_att_resolve_resolved _ _ _ _ _ _ rfl) ?_
    intro c1
    exact Flow.adds_finish (Flow.adds_mono isMessaging_notCatalog (put_att_async_adds ..).1)
      fun c2 => Flow.adds_finish (Flow.adds_mono isLate_notCatalog (put_att_io_adds ..))
        fun c3 => extends_by_mono isLate_notCatalog (check_and_return_adds ..)
  · rw [Flow.finish_bind, Flow.finish_bind]
    refine lookup_failure_of_tail _ _ _ _ rfl (skip_resolved _ rfl) ?_
    intro c1
    exact Flow.adds_finish (Flow.adds_mono isMessaging_notCatalog (put_att_async_adds ..).1)
      fun c2 => Flow.adds_finish (Flow.adds_mono isLate_notCatalog (put_att_io_adds ..))
        fun c3 => extends_by_mono isLate_notCatalog (check_and_return_adds ..)

theorem get_att_lookup_failure (K : Consts) (E : Env) (ncid varid : Int)
    (name : Option CString) (memtype : Int) (ip : Option Buf)
    (hopen : (E.pio_get_file ncid).1 = 0) :
    lookup_failure_aborts (E.pio_get_file ncid).2
      (PIOc_get_att_tc K E ncid varid name memtype ip) := by
  have tail : ∀ c1 : Ctx, extends_by Event.notCatalog c1.trace
      ((get_att_async K E ncid varid (name.getD []) memtype c1).finish fun c =>
        (get_att_io K E varid (name.getD []) memtype c).finish fun c1 =>
          check_and_bcast E (toInt32 (toInt32 c1.loc.attlen * c1.loc.memtype_len)) c1).trace :=
    fun c1 => Flow.adds_finish (Flow.adds_mono isMessaging_notCatalog (get_att_async_adds ..).1)
      fun c2 => Flow.adds_finish (Flow.adds_mono isLate_notCatalog (get_att_io_adds ..).1)
        fun c3 => extends_by_mono isLate_notCatalog (check_and_bcast_adds ..)
  simp only [PIOc_get_att_tc, hopen, ne_eq, not_true_eq_false, if_false]
  split_ifs with h1 h2
  · intro q code hm; simp at hm
  · rw [Flow.finish_bind, Flow.finish_bind]
    exact lookup_failure_of_tail _ _ _ _ rfl (get_att_resolve_resolved _ _ _ _ _ _ _ rfl) tail
  · rw [Flow.finish_bind, Flow.finish_bind]
    exact lookup_failure_of_tail _ _ _ _ rfl (skip_resolved _ rfl) tail

theorem get_vars_lookup_failure (K : Consts) (E : Env) (ncid varid : Int)
    (start count stride : Option (List Int)) (xtype : Int) (buf : Option Buf)
    (hopen : (E.pio_get_file ncid).1 = 0) :
    lookup_failure_aborts (E.pio_get_file ncid).2
      (PIOc_get_vars_tc K E ncid varid start count stride xtype buf) := by
  have tail : ∀ c1 : Ctx, extends_by Event.notCatalog c1.trace
      ((get_vars_async K E ncid varid start count stride c1).finish fun c =>
        (get_vars_io K E varid start count stride c).finish fun c1 =>
          check_and_bcast E (toInt32 (c1.loc.num_elem * c1.loc.typelen)) c1).trace :=
    fun c1 => Flow.adds_finish (Flow.adds_mono isMessaging_notCatalog (get_vars_async_adds ..).1)
      fun c2 => Flow.adds_finish (Flow.adds_mono isLate_notCatalog (get_vars_io_adds ..).1)
        fun c3 => extends_by_mono isLate_notCatalog (check_and_bcast_adds ..)
  simp only [PIOc_get_vars_tc, hopen, ne_eq, not_true_eq_false, if_false]
  split_ifs with h1 h2
  · intro q code hm; simp at hm
  · rw [Flow.finish_bind, Flow.finish_bind]
    exact lookup_failure_of_tail _ _ _ _ rfl (get_vars_resolve_resolved _ _ _ _ _ _ _ rfl) tail
  · rw [Flow.finish_bind, Flow.finish_bind]
    exact lookup_failure_of_tail _ _ _ _ rfl (skip_resolved _ rfl) tail

theorem put_vars_lookup_failure (K : Consts) (E : Env) (ncid varid : Int)
    (start count stride : Option (List Int)) (xtype : Int) (buf : Option Buf)
    (hopen : (E.pio_get_file ncid).1 = 0) :
    lookup_failure_aborts (E.pio_get_file ncid).2
      (PIOc_put_vars_tc K E ncid varid start count stride xtype buf) := by
  have tail : ∀ c1 : Ctx, extends_by Event.notCatalog c1.trace
      ((put_vars_async K E ncid varid start count stride (buf.getD []) c1).finish fun c =>
        (put_vars_io K E varid start count stride (buf.getD []) c).finish
          (check_and_return E)).trace :=
    fun c1 => Flow.adds_finish (Flow.adds_mono isMessaging_notCatalog (put_vars_async_adds ..).1)
      fun c2 => Flow.adds_finish (Flow.adds_mono isLate_notCatalog (put_vars_io_adds ..))
        fun c3 => extends_by_mono isLate_notCatalog (check_and_return_adds ..)
  simp only [PIOc_put_vars_tc, hopen, ne_eq, not_true_eq_false, if_false]
  split_ifs with h1 h2
  · intro q code hm; simp at hm
  · rw [Flow.finish_bind, Flow.finish_bind]
    exact lookup_failure_of_tail _ _ _ _ rfl (put_vars_resolve_resolved _ _ _ _ _ _ rfl) tail
  · rw [Flow.finish_bind, Flow.finish_bind]
    exact lookup_failure_of_tail _ _ _ _ rfl (skip_resolved _ rfl) tail

/-! ### The messaging blocks and a failed send -/

theorem put_att_async_sent (K : Consts) (E : Env) (ncid varid : Int) (name : CString)
    (atttype len memtype : Int) (op : Buf) (c : Ctx) :
    (put_att_async K E ncid varid name atttype len memtype op c).sent c := by
  simp only [put_att_async]
  split_ifs with h1 h2
  · exact ⟨rfl, Or.inr ⟨_, _, rfl, h2, rfl⟩⟩
  · simp only [ne_eq, not_not, PIO_NOERR] at h2
    simp [Flow.sent, extends_by, bcast_unchecked, Ctx.emit, Event.isSendOk, h2]
  · exact ⟨rfl, extends_by_refl _ _⟩

theorem get_vars_async_sent (K : Consts) (E : Env) (ncid varid : Int)
    (start count stride : Option (List Int)) (c : Ctx) :
    (get_vars_async K E ncid varid start count stride c).sent c := by
  simp only [get_vars_async]
  split_ifs with h1 h2
  · exact ⟨rfl, Or.inr ⟨_, _, rfl, h2, rfl⟩⟩
  · simp only [ne_eq, not_not, PIO_NOERR] at h2
    simp [Flow.sent, extends_by, bcast_unchecked, Ctx.emit, Event.isSendOk, h2]
  · exact ⟨rfl, extends_by_refl _ _⟩

theorem sent_of_adds {c : Ctx} {f : Flow} (h1 : f.adds Event.isSendOk c)
    (h2 : f.keeps_file c) : f.sent c := by
  cases f with
  | done r => exact ⟨h2, Or.inl h1⟩
  | next c1 => exact ⟨h2, h1⟩

theorem get_att_async_sent (K : Consts) (E : Env) (ncid varid : Int) (name : CString)
    (memtype : Int) (c : Ctx) :
    (get_att_async K E ncid varid name memtype c).sent c := by
  simp only [get_att_async]
  split_ifs with h1 h2
  · exact ⟨rfl, Or.inr ⟨_, _, rfl, h2, rfl⟩⟩
  · simp only [ne_eq, not_not, PIO_NOERR] at h2
    refine sent_of_adds (Flow.adds_from ?_ (Flow.adds_bind (Flow.adds_bind
        (bcast_checked_send_ok _ _ _ _ _) fun _ => bcast_checked_send_ok _ _ _ _ _)
        fun _ => bcast_checked_send_ok _ _ _ _ _))
      (Flow.keeps_file_from ?_ (Flow.keeps_file_bind (Flow.keeps_file_bind
        (bcast_checked_adds _ _ _ _ _).2 fun _ => (bcast_checked_adds _ _ _ _ _).2)
        fun _ => (bcast_checked_adds _ _ _ _ _).2))
    · simp [extends_by, Ctx.emit, Event.isSendOk, h2]
    · simp [Ctx.emit]
  · exact ⟨rfl, extends_by_refl _ _⟩

theorem put_vars_async_sent (K : Consts) (E : Env) (ncid varid : Int)
    (start count stride : Option (List Int)) (buf : Buf) (c : Ctx) :
    (put_vars_async K E ncid varid start count stride buf c).sent c := by
  simp only [put_vars_async]
  split_ifs with h1 h2
  · exact ⟨rfl, Or.inr ⟨_, _, rfl, h2, rfl⟩⟩
  · simp only [ne_eq, not_not, PIO_NOERR] at h2
    refine sent_of_adds (Flow.adds_from ?_ (Flow.adds_bind
        (bcast_checked_send_ok _ _ _ _ _) fun _ => bcast_checked_send_ok _ _ _ _ _))
      (Flow.keeps_file_from ?_ (Flow.keeps_file_bind
        (bcast_checked_adds _ _ _ _ _).2 fun _ => (bcast_checked_adds _ _ _ _ _).2))
    · simp [extends_by, Ctx.emit, Event.isSendOk, h2]
    · simp [Ctx.emit]
  · exact ⟨rfl, extends_by_refl _ _⟩

/-- A trace of lookups followed by events that are not failed sends holds no failed
send. -/
theorem no_failed_send_after {t0 t : List Event}
    (h0 : ∀ e ∈ t0, e.isCatalog = true) (h : extends_by Event.isSendOk t0 t)
    (m : Envelope) (code : Int) (hm : Event.async_msg m code ∈ t) (hne : code ≠ 0) : False := by
  obtain ⟨s, rfl, hs⟩ := h
  rcases List.mem_append.mp hm with h1 | h1
  · have := h0 _ h1
    simp [Event.isCatalog] at this
  · have := hs _ h1
    simp [Event.isSendOk] at this
    exact hne this

/-- The part of a body from the messaging block on. -/
theorem send_failure_of_tail (file0 : file_desc_t) (c1 : Ctx) (sent : Flow) (k : Ctx → Res)
    (h0 : ∀ e ∈ c1.trace, e.isCatalog = true) (hf : c1.file = file0) (hs : sent.sent c1)
    (hk : ∀ c2, extends_by Event.isSendOk c2.trace (k c2).trace) :
    send_failure_aborts file0 (sent.finish k) := by
  intro m code hm hne
  cases sent with
  | done r =>
    simp only [Flow.finish] at hm ⊢
    obtain ⟨h1, h2 | ⟨m1, code1, ht, hc1, hret⟩⟩ := hs
    · exact (no_failed_send_after h0 h2 m code hm hne).elim
    · rw [ht] at hm
      rcases List.mem_append.mp hm with h3 | h3
      · have := h0 _ h3
        simp [Event.isCatalog] at this
      · simp only [List.mem_singleton, Event.async_msg.injEq] at h3
        obtain ⟨rfl, rfl⟩ := h3
        exact ⟨hret, ⟨c1.trace, ht, h0⟩, by rw [h1, hf]⟩
  | next c2 =>
    simp only [Flow.finish] at hm
    exact (no_failed_send_after h0 (extends_by_trans hs.2 (hk c2)) m code hm hne).elim

/-- The whole body, from the resolving block on. -/
theorem send_failure_of_resolved (file0 : file_desc_t) (c : Ctx) (resolved : Flow)
    (k : Ctx → Res) (hf : c.file = file0) (hr : resolved.resolved c)
    (hk : ∀ c1 : Ctx, (∀ e ∈ c1.trace, e.isCatalog = true) → c1.file = file0 →
      send_failure_aborts file0 (k c1)) :
    send_failure_aborts file0 (resolved.finish k) := by
  cases resolved with
  | done r =>
    intro m code hm hne
    simp only [Flow.finish] at hm
    have := hr.2.1 _ hm
    simp [Event.isCatalog] at this
  | next c1 =>
    exact hk c1 (fun e he => isLookupOk_isCatalog e (hr.2 e he)) (by rw [hr.1, hf])

theorem put_att_send_failure (K : Consts) (E : Env) (ncid varid : Int)
    (name : Option CString) (atttype len memtype : Int) (op : Option Buf)
    (hopen : (E.pio_get_file ncid).1 = 0) :
    send_failure_aborts (E.pio_get_file ncid).2
      (PIOc_put_att_tc K E ncid varid name atttype len memtype op) := by
  have tail : ∀ c1 : Ctx, (∀ e ∈ c1.trace, e.isCatalog = true) →
      c1.file = (E.pio_get_file ncid).2 → send_failure_aborts (E.pio_get_file ncid).2
      ((put_att_async K E ncid varid (name.getD []) atttype len memtype (op.getD []) c1).finish
        fun c => (put_att_io K E varid (name.getD []) atttype len memtype (op.getD []) c).finish
          (check_and_return E)) :=
    fun c1 h0 hf => send_failure_of_tail _ c1 _ _ h0 hf (put_att_async_sent ..)
      fun c2 => Flow.adds_finish (Flow.adds_mono isLate_isSendOk (put_att_io_adds ..))
        fun c3 => extends_by_mono isLate_isSendOk (check_and_return_adds ..)
  simp only [PIOc_put_att_tc, hopen, ne_eq, not_true_eq_false, if_false]
  split_ifs with h1 h2
  · intro q code hm; simp at hm
  · rw [Flow.finish_bind, Flow.finish_bind]
    exact send_failure_of_resolved _ _ _ _ rfl (put_att_resolve_resolved _ _ _ _ _ _ rfl) tail
  · rw [Flow.finish_bind, Flow.finish_bind]
    exact send_failure_of_resolved _ _ _ _ rfl (skip_resolved _ rfl) tail

theorem get_att_send_failure (K : Consts) (E : Env) (ncid varid : Int)
    (name : Option CString) (memtype : Int) (ip : Option Buf)
    (hopen : (E.pio_get_file ncid).1 = 0) :
    send_failure_aborts (E.pio_get_file ncid).2
      (PIOc_get_att_tc K E ncid varid name memtype ip) := by
  have tail : ∀ c1 : Ctx, (∀ e ∈ c1.trace, e.isCatalog = true) →
      c1.file = (E.pio_get_file ncid).2 → send_failure_aborts (E.pio_get_file ncid).2
      ((get_att_async K E ncid varid (name.getD []) memtype c1).finish fun c =>
        (get_att_io K E varid (name.getD []) memtype c).finish fun c1 =>
          check_and_bcast E (toInt32 (toInt32 c1.loc.attlen * c1.loc.memtype_len)) c1) :=
    fun c1 h0 hf => send_failure_of_tail _ c1 _ _ h0 hf (get_att_async_sent ..)
      fun c2 => Flow.adds_finish (Flow.adds_mono isLate_isSendOk (get_att_io_adds ..).1)
        fun c3 => extends_by_mono isLate_isSendOk (check_and_bcast_adds ..)
  simp only [PIOc_get_att_tc, hopen, ne_eq, not_true_eq_false, if_false]
  split_ifs with h1 h2
  · intro q code hm; simp at hm
  · rw [Flow.finish_bind, Flow.finish_bind]
    exact send_failure_of_resolved _ _ _ _ rfl (get_att_resolve_resolved _ _ _ _ _ _ _ rfl) tail
  · rw [Flow.finish_bind, Flow.finish_bind]
    exact send_failure_of_resolved _ _ _ _ rfl (skip_resolved _ rfl) tail

theorem get_vars_send_failure (K : Consts) (E : Env) (ncid varid : Int)
    (start count stride : Option (List Int)) (xtype : Int) (buf : Option Buf)
    (hopen : (E.pio_get_file ncid).1 = 0) :
    send_failure_aborts (E.pio_get_file ncid).2
      (PIOc_get_vars_tc K E ncid varid start count stride xtype buf) := by
  have tail : ∀ c1 : Ctx, (∀ e ∈ c1.trace, e.isCatalog = true) →
      c1.file = (E.pio_get_file ncid).2 → send_failure_aborts (E.pio_get_file ncid).2
      ((get_vars_async K E ncid varid start count stride c1).finish fun c =>
        (get_vars_io K E varid start count stride c).finish fun c1 =>
          check_and_bcast E (toInt32 (c1.loc.num_elem * c1.loc.typelen)) c1) :=
    fun c1 h0 hf => send_failure_of_tail _ c1 _ _ h0 hf (get_vars_async_sent ..)
      fun c2 => Flow.adds_finish (Flow.adds_mono isLate_isSendOk (get_vars_io_adds ..).1)
        fun c3 => extends_by_mono isLate_isSendOk (check_and_bcast_adds ..)
  simp only [PIOc_get_vars_tc, hopen, ne_eq, not_true_eq_false, if_false]
  split_ifs with h1 h2
  · intro q code hm; simp at hm
  · rw [Flow.finish_bind, Flow.finish_bind]
    exact send_failure_of_resolved _ _ _ _ rfl (get_vars_resolve_resolved _ _ _ _ _ _ _ rfl) tail
  · rw [Flow.finish_bind, Flow.finish_bind]
    exact send_failure_of_resolved _ _ _ _ rfl (skip_resolved _ rfl) tail

theorem put_vars_send_failure (K : Consts) (E : Env) (ncid varid : Int)
    (start count stride : Option (List Int)) (xtype : Int) (buf : Option Buf)
    (hopen : (E.pio_get_file ncid).1 = 0) :
    send_failure_aborts (E.pio_get_file ncid).2
      (PIOc_put_vars_tc K E ncid varid start count stride xtype buf) := by
  have tail : ∀ c1 : Ctx, (∀ e ∈ c1.trace, e.isCatalog = true) →
      c1.file = (E.pio_get_file ncid).2 → send_failure_aborts (E.pio_get_file ncid).2
      ((put_vars_async K E ncid varid start count stride (buf.getD []) c1).finish fun c =>
        (put_vars_io K E varid start count stride (buf.getD []) c).finish
          (check_and_return E)) :=
    fun c1 h0 hf => send_failure_of_tail _ c1 _ _ h0 hf (put_vars_async_sent ..)
      fun c2 => Flow.adds_finish (Flow.adds_mono isLate_isSendOk (put_vars_io_adds ..))
        fun c3 => extends_by_mono isLate_isSendOk (check_and_return_adds ..)
  simp only [PIOc_put_vars_tc, hopen, ne_eq, not_true_eq_false, if_false]
  split_ifs with h1 h2
  · intro q code hm; simp at hm
  · rw [Flow.finish_bind, Flow.finish_bind]
    exact send_failure_of_resolved _ _ _ _ rfl (put_vars_resolve_resolved _ _ _ _ _ _ rfl) tail
  · rw [Flow.finish_bind, Flow.finish_bind]
    exact send_failure_of_resolved _ _ _ _ rfl (skip_resolved _ rfl) tail

/-! ### The element count -/

theorem toInt64_of_range (x : Int) (h0 : -9223372036854775808 ≤ x)
    (h1 : x < 9223372036854775808) : toInt64 x = x := by
  simp only [toInt64]
  omega

theorem toInt64_emod (x : Int) : toInt64 x % 18446744073709551616 = x % 18446744073709551616 := by
  simp only [toInt64]
  omega

theorem toInt64_congr (x y : Int)
    (h : x % 18446744073709551616 = y % 18446744073709551616) : toInt64 x = toInt64 y := by
  simp only [toInt64]
  omega

/-- A product of `PIO_Offset` values, one of them itself a reduced product, is the
reduced exact product. -/
theorem toInt64_mul_left (x y : Int) : toInt64 (toInt64 x * y) = toInt64 (x * y) := by
  apply toInt64_congr
  rw [Int.mul_emod, toInt64_emod, ← Int.mul_emod]

/-- Converting a `PIO_Offset` value to `int` keeps the low 32 bits of the exact value. -/
theorem toInt32_toInt64 (x : Int) : toInt32 (toInt64 x) = toInt32 x := by
  simp only [toInt32, toInt64]
  omega

theorem count_loop_eq (cnt : List Int) (a : Int) (n : Nat) (hn : n ≤ cnt.length)
    (ha : toInt64 a = a) :
    (List.range n).foldl (fun acc vd => toInt64 (acc * cnt.getD vd 0)) a
      = toInt64 (a * (cnt.take n).prod) := by
  induction n with
  | zero => simp [ha]
  | succ k ih =>
    have hk : k < cnt.length := hn
    rw [List.range_succ, List.foldl_append, ih (Nat.le_of_lt hk)]
    simp only [List.foldl_cons, List.foldl_nil]
    rw [List.take_succ, List.prod_append, List.getD_eq_getElem?_getD,
      List.getElem?_eq_getElem hk, toInt64_mul_left]
    simp [mul_assoc]

/-- The element count after the loop: the product of the first `ndims` counts, times
the starting value, as a `PIO_Offset`. -/
theorem count_loop_take (cnt : List Int) (ndims a : Int) (hn : ndims.toNat ≤ cnt.length)
    (ha : toInt64 a = a) :
    count_loop cnt ndims a = toInt64 (a * (cnt.take ndims.toNat).prod) :=
  count_loop_eq cnt a ndims.toNat hn ha

theorem get_vars_resolve_num_elem (K : Consts) (E : Env) (ncid varid : Int)
    (start count : Option (List Int)) (c c1 : Ctx)
    (h : get_vars_resolve K E ncid varid start count c = .next c1) :
    c1.loc.num_elem = count_loop (count.getD []) c1.loc.ndims c.loc.num_elem ∧
    (c1.loc.ndims = 0 ∨ (start ≠ none ∧ count ≠ none)) ∧
    c1.loc.ndims = (E.inq_varndims ncid varid).2 := by
  simp only [get_vars_resolve] at h
  split_ifs at h <;> simp only [Flow.bind, reduceCtorEq] at h <;>
    simp only [Flow.next.injEq, reduceCtorEq] at h <;> subst h <;>
    simp_all [Ctx.emit]

theorem put_vars_resolve_num_elem (K : Consts) (E : Env) (ncid varid : Int)
    (count : Option (List Int)) (c c1 : Ctx)
    (h : put_vars_resolve K E ncid varid count c = .next c1) :
    c1.loc.num_elem = (match count with
      | some cnt => count_loop cnt c1.loc.ndims c.loc.num_elem
      | none => c.loc.num_elem) ∧
    c1.loc.ndims = (E.inq_varndims ncid varid).2 := by
  simp only [put_vars_resolve] at h
  cases count <;>
  split_ifs at h <;> simp only [Flow.bind, reduceCtorEq] at h <;>
    simp only [Flow.next.injEq, reduceCtorEq] at h <;> subst h <;>
    simp_all [Ctx.emit]

/-! ### The successful path of `PIOc_put_vars_tc` -/

theorem Flow.next_bind (c : Ctx) (k : Ctx → Flow) : (Flow.next c).bind k = k c := rfl

theorem Flow.done_bind (r : Res) (k : Ctx → Flow) : (Flow.done r).bind k = .done r := rfl

theorem Flow.next_finish (c : Ctx) (k : Ctx → Res) : (Flow.next c).finish k = k c := rfl

theorem Flow.done_finish (r : Res) (k : Ctx → Res) : (Flow.done r).finish k = r := rfl

theorem put_vars_resolve_ok (K : Consts) (E : Env) (ncid varid : Int)
    (count : Option (List Int)) (c : Ctx)
    (h1 : (E.inq_vartype ncid varid).1 = 0) (h2 : (E.inq_varndims ncid varid).1 = 0)
    (h3 : resolved_xtype K E ncid varid c.loc.xtype = K.PIO_LONG_INTERNAL ∨
      (E.inq_type ncid (resolved_xtype K E ncid varid c.loc.xtype)).1 = 0) :
    ∃ c1, put_vars_resolve K E ncid varid count c = .next c1 ∧ c1.file = c.file ∧
      c1.buf = c.buf ∧ c1.loc.ndims = (E.inq_varndims ncid varid).2 ∧
      c1.loc.xtype = resolved_xtype K E ncid varid c.loc.xtype ∧
      extends_by Event.isCatalog c.trace c1.trace := by
  simp only [resolved_xtype] at h3 ⊢
  simp only [put_vars_resolve, h1, h2, PIO_NOERR, ne_eq, not_true_eq_false, if_false]
  by_cases hl : (if c.loc.xtype = K.NC_NAT then (E.inq_vartype ncid varid).2 else c.loc.xtype)
      = K.PIO_LONG_INTERNAL
  · cases count <;>
      simp [hl, Flow.bind, Ctx.emit, extends_by, Event.isCatalog]
  · have h4 := h3.resolve_left hl
    cases count <;>
      simp [hl, h4, Flow.bind, Ctx.emit, extends_by, Event.isCatalog]

/-- When its three lookups succeed and the assertion on the geometry holds, the
resolving block of `PIOc_get_vars_tc` falls through. -/
theorem get_vars_resolve_ok (K : Consts) (E : Env) (ncid varid : Int)
    (start count : Option (List Int)) (c : Ctx)
    (h1 : (E.inq_vartype ncid varid).1 = 0) (h2 : (E.inq_varndims ncid varid).1 = 0)
    (h3 : resolved_xtype K E ncid varid c.loc.xtype = K.PIO_LONG_INTERNAL ∨
      (E.inq_type ncid (resolved_xtype K E ncid varid c.loc.xtype)).1 = 0)
    (ha : (E.inq_varndims ncid varid).2 = 0 ∨ (start ≠ none ∧ count ≠ none)) :
    ∃ c1, get_vars_resolve K E ncid varid start count c = .next c1 := by
  simp only [resolved_xtype] at h3
  simp only [get_vars_resolve, h1, PIO_NOERR, ne_eq, not_true_eq_false, if_false]
  by_cases hl : (if c.loc.xtype = K.NC_NAT then (E.inq_vartype ncid varid).2 else c.loc.xtype)
      = K.PIO_LONG_INTERNAL
  · simp [hl, Flow.bind, Ctx.emit, h2, ha]
  · have h4 := h3.resolve_left hl
    simp [hl, h4, Flow.bind, Ctx.emit, h2, ha]

theorem put_vars_async_sync (K : Consts) (E : Env) (ncid varid : Int)
    (start count stride : Option (List Int)) (buf : Buf) (c : Ctx)
    (hsync : c.file.iosystem.async = false) :
    put_vars_async K E ncid varid start count stride buf c = .next c := by
  simp [put_vars_async, hsync]

theorem get_set_vdesc (file : file_desc_t) (varid : Int) (v : var_desc_t)
    (hv : varid.toNat < file.varlist.length) : get_vdesc (set_vdesc file varid v) varid = v := by
  simp [get_vdesc, set_vdesc, hv]

theorem grow_request_nreqs (K : Consts) (vd : var_desc_t) :
    (grow_request K vd).nreqs = vd.nreqs := by
  simp only [grow_request]
  split_ifs <;> rfl

theorem store_request_nreqs (file : file_desc_t) (varid : Int) (v : Int)
    (hv : varid.toNat < file.varlist.length) :
    (get_vdesc (store_request file varid v) varid).nreqs = (get_vdesc file varid).nreqs + 1 := by
  simp only [store_request]
  rw [get_set_vdesc _ _ _ hv]

theorem check_and_return_eq (E : Env) (c : Ctx) :
    check_and_return E c
      = ⟨some (E.check_netcdf c.ierr), c.trace ++ [.check_netcdf c.ierr], c.file, c.buf⟩ := by
  simp only [check_and_return]
  split_ifs with h
  · rfl
  · simp only [ne_eq, not_not] at h
    simp [Ctx.exit, Ctx.emit, h]

/-- The parallel-netCDF block on the I/O master for a variable with dimensions and a
supported type: the buffered write is called with the caller's start and count, then
the request is appended. -/
theorem put_vars_pnetcdf_master (K : Consts) (E : Env) (varid : Int)
    (start count stride : Option (List Int)) (buf : Buf) (c : Ctx)
    (hpn : c.file.iotype = K.PIO_IOTYPE_PNETCDF) (hnd : c.loc.ndims ≠ 0)
    (hmaster : c.file.iosystem.iomaster = K.MPI_ROOT)
    (hcase : pnetcdf_case K c.loc.xtype = true)
    (hre : E.realloc_fails = false) (hma : stride = none → E.malloc_fails = false) :
    put_vars_pnetcdf K E varid start count stride buf c =
      .next (append_request E varid
        (E.backend_request (.ncmpi_bput_vars c.loc.xtype c.file.fh varid start count
          (stride.getD (List.replicate c.loc.ndims.toNat 1)) buf (get_vdesc c.file varid).nreqs))
        { ({ c with file := set_vdesc c.file varid (grow_request K (get_vdesc c.file varid)) } :
            Ctx).emit
            (.backend (.ncmpi_bput_vars c.loc.xtype c.file.fh varid start count
              (stride.getD (List.replicate c.loc.ndims.toNat 1)) buf
              (get_vdesc c.file varid).nreqs)) with
          ierr := E.backend_ret (.ncmpi_bput_vars c.loc.xtype c.file.fh varid start count
            (stride.getD (List.replicate c.loc.ndims.toNat 1)) buf
            (get_vdesc c.file varid).nreqs) }) := by
  have hma2 : ¬ (stride = none ∧ E.malloc_fails = true) := by
    rintro ⟨hs, hm⟩
    rw [hma hs] at hm
    exact Bool.false_ne_true hm
  simp [put_vars_pnetcdf, hpn, hnd, hmaster, hcase, hre, hma2, grow_request_nreqs, set_vdesc,
    Ctx.emit]

theorem put_vars_adios_skip (K : Consts) (varid : Int)
    (start count stride : Option (List Int)) (buf : Buf) (c : Ctx)
    (h : c.file.iotype ≠ K.PIO_IOTYPE_ADIOS) :
    put_vars_adios K varid start count stride buf c = .next c := by
  simp [put_vars_adios, h]

theorem put_vars_netcdf_skip (K : Consts) (E : Env) (varid : Int)
    (start count stride : Option (List Int)) (buf : Buf) (c : Ctx)
    (h : c.file.iotype = K.PIO_IOTYPE_PNETCDF) :
    put_vars_netcdf K E varid start count stride buf c = .next c := by
  simp [put_vars_netcdf, h]

theorem count_loop_zero (cnt : List Int) (a : Int) : count_loop cnt 0 a = a := by
  simp [count_loop]

/-- The parallel-netCDF block for a scalar variable with geometry supplied: the
assertion `!start && !count && !stride` stops the program. -/
theorem put_vars_pnetcdf_scalar_abort (K : Consts) (E : Env) (varid : Int)
    (start count stride : Option (List Int)) (buf : Buf) (c : Ctx)
    (hpn : c.file.iotype = K.PIO_IOTYPE_PNETCDF) (hnd : c.loc.ndims = 0)
    (hgeom : ¬ (start = none ∧ count = none ∧ stride = none))
    (hre : E.realloc_fails = false) :
    ∃ r, put_vars_pnetcdf K E varid start count stride buf c = .done r ∧ r.ret = none := by
  simp only [put_vars_pnetcdf, hpn, hnd, hre, if_true, Bool.false_eq_true, and_false, if_false,
    hgeom, not_false_eq_true]
  exact ⟨_, rfl, rfl⟩

/-! ### The derived-shape helpers -/

theorem dimlen_loop_ok (E : Env) (ncid : Int) (ids : List Int)
    (h : ∀ d ∈ ids, (E.inq_dimlen ncid d).1 = 0) :
    dimlen_loop E ncid ids
      = (0, ids.map (fun d => (E.inq_dimlen ncid d).2),
          ids.map (fun d => Event.catalog (.inq_dimlen ncid d) 0)) := by
  induction ids with
  | nil => rfl
  | cons d ds ih =>
    have hd : (E.inq_dimlen ncid d).1 = 0 := h d (List.mem_cons_self _ _)
    have hds := ih (fun x hx => h x (List.mem_cons_of_mem _ hx))
    simp [dimlen_loop, hd, hds]

/-! ### The type the storage call is dispatched on -/

theorem Flow.adds_bind_of {p : Event → Bool} {c : Ctx} {f : Flow} {k : Ctx → Flow}
    (hf : f.adds p c) (hk : ∀ c1, f = .next c1 → (k c1).adds p c1) : (f.bind k).adds p c := by
  cases f with
  | done r => exact hf
  | next c1 =>
    have h2 := hk c1 rfl
    simp only [Flow.bind]
    cases hkc : k c1 with
    | done r => rw [hkc] at h2; exact extends_by_trans hf h2
    | next c2 => rw [hkc] at h2; exact extends_by_trans hf h2

theorem isCatalog_typedAs (x : Int) (e : Event) (h : e.isCatalog = true) :
    e.typedAs x = true := by
  cases e <;> simp_all [Event.isCatalog, Event.typedAs]

theorem extends_nil {p : Event → Bool} {t : List Event} :
    extends_by p [] t ↔ ∀ e ∈ t, p e = true := by
  constructor
  · rintro ⟨s, rfl, hs⟩
    simpa using hs
  · intro h
    exact ⟨t, by simp, h⟩

theorem get_vars_io_typed (K : Consts) (E : Env) (varid : Int)
    (start count stride : Option (List Int)) (c : Ctx) :
    (get_vars_io K E varid start count stride c).adds (Event.typedAs c.loc.xtype) c := by
  have h1 : (get_vars_pnetcdf K E varid start count stride c).adds (Event.typedAs c.loc.xtype) c ∧
      ∀ c2, get_vars_pnetcdf K E varid start count stride c = .next c2 → c2.loc = c.loc := by
    simp only [get_vars_pnetcdf]
    split_ifs <;> simp [Flow.adds, Flow.bind, extends_by, Ctx.exit, Ctx.emit,
      Event.typedAs, BackendFn.typeLabel] <;> split_ifs <;>
      simp [Flow.adds, Flow.bind, extends_by, Ctx.exit, Ctx.emit,
      Event.typedAs, BackendFn.typeLabel]
  have h2 : ∀ c : Ctx, (get_vars_netcdf K E varid start count stride c).adds
      (Event.typedAs c.loc.xtype) c := by
    intro c
    simp only [get_vars_netcdf]
    split_ifs <;> simp [Flow.adds, extends_by, Ctx.exit, Ctx.emit,
      Event.typedAs, BackendFn.typeLabel]
  simp only [get_vars_io]
  split_ifs
  · refine Flow.adds_bind_of h1.1 fun c2 hc2 => ?_
    have := h2 c2
    rwa [h1.2 c2 hc2] at this
  · exact extends_by_refl _ _

theorem put_vars_io_typed (K : Consts) (E : Env) (varid : Int)
    (start count stride : Option (List Int)) (buf : Buf) (c : Ctx) :
    (put_vars_io K E varid start count stride buf c).adds (Event.typedAs c.loc.xtype) c := by
  have h1 : (put_vars_pnetcdf K E varid start count stride buf c).adds
        (Event.typedAs c.loc.xtype) c ∧
      ∀ c2, put_vars_pnetcdf K E varid start count stride buf c = .next c2 → c2.loc = c.loc := by
    simp only [put_vars_pnetcdf]
    split_ifs <;> simp [Flow.adds, extends_by, Ctx.exit, Ctx.abort, Ctx.emit,
      Event.typedAs, BackendFn.typeLabel, append_request]
  have h2 : ∀ c : Ctx, (put_vars_adios K varid start count stride buf c).adds
        (Event.typedAs c.loc.xtype) c ∧
      ∀ c2, put_vars_adios K varid start count stride buf c = .next c2 → c2.loc = c.loc := by
    intro c
    simp only [put_vars_adios]
    split_ifs <;> simp [Flow.adds, Flow.bind, extends_by, Ctx.exit, Ctx.abort, Ctx.emit,
      Event.typedAs, BackendFn.typeLabel]
  have h3 : ∀ c : Ctx, (put_vars_netcdf K E varid start count stride buf c).adds
      (Event.typedAs c.loc.xtype) c := by
    intro c
    simp only [put_vars_netcdf]
    split_ifs <;> simp [Flow.adds, extends_by, Ctx.exit, Ctx.emit,
      Event.typedAs, BackendFn.typeLabel]
  simp only [put_vars_io]
  split_ifs
  · refine Flow.adds_bind_of (Flow.adds_bind_of h1.1 fun c2 hc2 => ?_) fun c3 hc3 => ?_
    · have := (h2 c2).1
      rwa [h1.2 c2 hc2] at this
    · cases hp : put_vars_pnetcdf K E varid start count stride buf c with
      | done r => rw [hp] at hc3; simp [Flow.bind] at hc3
      | next c2 =>
        rw [hp] at hc3
        simp only [Flow.bind] at hc3
        have := h3 c3
        rwa [(h2 c2).2 c3 hc3, h1.2 c2 hp] at this
  · exact extends_by_refl _ _

/-- In a synchronous session the messaging block of `PIOc_get_vars_tc` does nothing. -/
theorem get_vars_async_sync (K : Consts) (E : Env) (ncid varid : Int)
    (start count stride : Option (List Int)) (c : Ctx)
    (hsync : c.file.iosystem.async = false) :
    get_vars_async K E ncid varid start count stride c = .next c := by
  simp [get_vars_async, hsync]

theorem isLate_not_backend_typedAs (x : Int) (e : Event) (h : e.isBackend = false) :
    e.typedAs x = true := by
  cases e <;> simp_all [Event.isBackend, Event.typedAs]

theorem check_and_return_typed (E : Env) (x : Int) (c : Ctx) :
    extends_by (Event.typedAs x) c.trace (check_and_return E c).trace := by
  rw [check_and_return_eq]
  exact ⟨_, rfl, by simp [Event.typedAs]⟩

theorem check_and_bcast_typed (E : Env) (count x : Int) (c : Ctx) :
    extends_by (Event.typedAs x) c.trace (check_and_bcast E count c).trace := by
  simp only [check_and_bcast]
  split_ifs <;> simp [extends_by, Ctx.exit, Ctx.emit, Event.typedAs]

/-- What the resolving block of `PIOc_get_vars_tc` leaves in `xtype` and `typelen`. -/
theorem get_vars_resolve_type (K : Consts) (E : Env) (ncid varid : Int)
    (start count : Option (List Int)) (c c1 : Ctx)
    (h : get_vars_resolve K E ncid varid start count c = .next c1) :
    c1.loc.xtype = resolved_xtype K E ncid varid c.loc.xtype ∧
    c1.loc.typelen = (if resolved_xtype K E ncid varid c.loc.xtype = K.PIO_LONG_INTERNAL
      then K.sizeof_long
      else (E.inq_type ncid (resolved_xtype K E ncid varid c.loc.xtype)).2) ∧
    c1.trace = c.trace ++ (Event.catalog (.inq_vartype ncid varid) 0 ::
      (if resolved_xtype K E ncid varid c.loc.xtype = K.PIO_LONG_INTERNAL then []
        else [Event.catalog
          (.inq_type ncid (resolved_xtype K E ncid varid c.loc.xtype)) 0]) ++
      [Event.catalog (.inq_varndims ncid varid) 0]) ∧
    c1.file = c.file := by
  simp only [get_vars_resolve, resolved_xtype] at h ⊢
  split_ifs at h <;> simp only [Flow.bind, reduceCtorEq] at h <;>
    simp only [Flow.next.injEq, reduceCtorEq] at h <;> subst h <;>
    simp_all [Ctx.emit, PIO_NOERR]

/-- What the resolving block of `PIOc_put_vars_tc` leaves in `xtype` and `typelen`. -/
theorem put_vars_resolve_type (K : Consts) (E : Env) (ncid varid : Int)
    (count : Option (List Int)) (c c1 : Ctx)
    (h : put_vars_resolve K E ncid varid count c = .next c1) :
    c1.loc.xtype = resolved_xtype K E ncid varid c.loc.xtype ∧
    c1.loc.typelen = (if resolved_xtype K E ncid varid c.loc.xtype = K.PIO_LONG_INTERNAL
      then K.sizeof_long
      else (E.inq_type ncid (resolved_xtype K E ncid varid c.loc.xtype)).2) ∧
    c1.trace = c.trace ++ (Event.catalog (.inq_vartype ncid varid) 0 ::
      Event.catalog (.inq_varndims ncid varid) 0 ::
      (if resolved_xtype K E ncid varid c.loc.xtype = K.PIO_LONG_INTERNAL then []
        else [Event.catalog
          (.inq_type ncid (resolved_xtype K E ncid varid c.loc.xtype)) 0])) ∧
    c1.file = c.file := by
  simp only [put_vars_resolve, resolved_xtype] at h ⊢
  cases count <;>
  split_ifs at h <;> simp only [Flow.bind, reduceCtorEq] at h <;>
    simp only [Flow.next.injEq, reduceCtorEq] at h <;> subst h <;>
    simp_all [Ctx.emit, PIO_NOERR]

theorem get_vars_sync_typed (K : Consts) (E : Env) (ncid varid : Int)
    (start count stride : Option (List Int)) (xtype : Int) (buf : Option Buf)
    (hopen : (E.pio_get_file ncid).1 = 0)
    (hsync : (E.pio_get_file ncid).2.iosystem.async = false) :
    ∀ e ∈ (PIOc_get_vars_tc K E ncid varid start count stride xtype buf).trace,
      e.typedAs (resolved_xtype K E ncid varid xtype) = true := by
  simp only [PIOc_get_vars_tc, hopen, hsync, ne_eq, not_true_eq_false, if_false,
    Bool.false_eq_true, not_false_eq_true, true_or, if_true]
  split_ifs with hb
  · simp
  · have hr := get_vars_resolve_resolved K E ncid varid start count
      (Ctx.start E (E.pio_get_file ncid).2 xtype buf) rfl
    cases hres : get_vars_resolve K E ncid varid start count
        (Ctx.start E (E.pio_get_file ncid).2 xtype buf) with
    | done r =>
      rw [hres] at hr
      simp only [Flow.done_bind, Flow.done_finish]
      exact fun e he => isCatalog_typedAs _ e (hr.2.1 e he)
    | next c1 =>
      rw [hres] at hr
      obtain ⟨hx, -, -, hf⟩ := get_vars_resolve_type K E ncid varid start count _ c1 hres
      have hx1 : c1.loc.xtype = resolved_xtype K E ncid varid xtype := hx
      have hf1 : c1.file = (E.pio_get_file ncid).2 := hf
      rw [Flow.next_bind, get_vars_async_sync _ _ _ _ _ _ _ _ (by rw [hf1, hsync]),
        Flow.next_bind]
      have hio := get_vars_io_typed K E varid start count stride c1
      rw [hx1] at hio
      have hall := Flow.adds_finish hio
        (fun c2 => check_and_bcast_typed E (toInt32 (c2.loc.num_elem * c2.loc.typelen))
          (resolved_xtype K E ncid varid xtype) c2)
      obtain ⟨s, hs, hs2⟩ := hall
      rw [hs]
      intro e he
      rcases List.mem_append.mp he with h | h
      · exact isCatalog_typedAs _ e (isLookupOk_isCatalog e (hr.2 e h))
      · exact hs2 e h

theorem put_vars_sync_typed (K : Consts) (E : Env) (ncid varid : Int)
    (start count stride : Option (List Int)) (xtype : Int) (buf : Option Buf)
    (hopen : (E.pio_get_file ncid).1 = 0)
    (hsync : (E.pio_get_file ncid).2.iosystem.async = false) :
    ∀ e ∈ (PIOc_put_vars_tc K E ncid varid start count stride xtype buf).trace,
      e.typedAs (resolved_xtype K E ncid varid xtype) = true := by
  simp only [PIOc_put_vars_tc, hopen, hsync, ne_eq, not_true_eq_false, if_false,
    Bool.false_eq_true, not_false_eq_true, true_or, if_true]
  split_ifs with hb
  · simp
  · have hr := put_vars_resolve_resolved K E ncid varid count
      (Ctx.start E (E.pio_get_file ncid).2 xtype buf) rfl
    cases hres : put_vars_resolve K E ncid varid count
        (Ctx.start E (E.pio_get_file ncid).2 xtype buf) with
    | done r =>
      rw [hres] at hr
      simp only [Flow.done_bind, Flow.done_finish]
      exact fun e he => isCatalog_typedAs _ e (hr.2.1 e he)
    | next c1 =>
      rw [hres] at hr
      obtain ⟨hx, -, -, hf⟩ := put_vars_resolve_type K E ncid varid count _ c1 hres
      have hx1 : c1.loc.xtype = resolved_xtype K E ncid varid xtype := hx
      have hf1 : c1.file = (E.pio_get_file ncid).2 := hf
      rw [Flow.next_bind, put_vars_async_sync _ _ _ _ _ _ _ _ _ (by rw [hf1, hsync]),
        Flow.next_bind]
      have hio := put_vars_io_typed K E varid start count stride (buf.getD []) c1
      rw [hx1] at hio
      have hall := Flow.adds_finish hio
        (fun c2 => check_and_return_typed E (resolved_xtype K E ncid varid xtype) c2)
      obtain ⟨s, hs, hs2⟩ := hall
      rw [hs]
      intro e he
      rcases List.mem_append.mp he with h | h
      · exact isCatalog_typedAs _ e (isLookupOk_isCatalog e (hr.2 e h))
      · exact hs2 e h

/-- What the resolving block of `PIOc_put_att_tc` leaves in `memtype_len`. -/
theorem put_att_resolve_type (K : Consts) (E : Env) (ncid atttype memtype : Int) (c c1 : Ctx)
    (h : put_att_resolve K E ncid atttype memtype c = .next c1) :
    c1.loc.memtype_len = (if memtype = K.PIO_LONG_INTERNAL then K.sizeof_long
      else (E.inq_type ncid memtype).2) ∧
    c1.trace = c.trace ++ (Event.catalog (.inq_type ncid atttype) 0 ::
      (if memtype = K.PIO_LONG_INTERNAL then []
        else [Event.catalog (.inq_type ncid memtype) 0])) := by
  simp only [put_att_resolve] at h
  split_ifs at h <;> simp only [Flow.next.injEq, reduceCtorEq] at h <;> subst h <;>
    simp_all [Ctx.emit, PIO_NOERR]

/-- What the resolving block of `PIOc_get_att_tc` leaves in `memtype_len`. -/
theorem get_att_resolve_type (K : Consts) (E : Env) (ncid varid : Int) (name : CString)
    (memtype : Int) (c c1 : Ctx)
    (h : get_att_resolve K E ncid varid name memtype c = .next c1) :
    c1.loc.memtype_len = (if memtype = K.PIO_LONG_INTERNAL then K.sizeof_long
      else (E.inq_type ncid memtype).2) ∧
    c1.trace = c.trace ++ (Event.catalog (.inq_att ncid varid name) 0 ::
      Event.catalog (.inq_type ncid (E.inq_att ncid varid name).2.1) 0 ::
      (if memtype = K.PIO_LONG_INTERNAL then []
        else [Event.catalog (.inq_type ncid memtype) 0])) := by
  simp only [get_att_resolve] at h
  split_ifs at h <;> simp only [Flow.next.injEq, reduceCtorEq] at h <;> subst h <;>
    simp_all [Ctx.emit, PIO_NOERR]

/-! ### The request appended by `PIOc_put_vars_tc` -/

theorem Flow.bind_eq_next {f : Flow} {k : Ctx → Flow} {c1 : Ctx} (h : f.bind k = .next c1) :
    ∃ c0, f = .next c0 ∧ k c0 = .next c1 := by
  cases f with
  | done r => simp [Flow.bind] at h
  | next c0 => exact ⟨c0, rfl, h⟩

theorem isLookupOk_isEarly (e : Event) (h : e.isLookupOk = true) : e.isEarly = true := by
  simp [Event.isEarly, isLookupOk_isCatalog e h]

theorem isMessaging_isEarly (e : Event) (h : e.isMessaging = true) : e.isEarly = true := by
  simp [Event.isEarly, h]

/-- When `PIOc_put_vars_tc` reaches the I/O block, the file descriptor and the buffer
are as they were and the trace holds lookups, the async message and broadcasts only. -/
theorem put_vars_entry_next (K : Consts) (E : Env) (ncid varid : Int)
    (start count stride : Option (List Int)) (xtype : Int) (buf : Option Buf) (c1 : Ctx)
    (h : put_vars_entry K E ncid varid start count stride xtype buf = .next c1) :
    c1.file = (E.pio_get_file ncid).2 ∧ ∀ e ∈ c1.trace, e.isEarly = true := by
  simp only [put_vars_entry] at h
  obtain ⟨c0, h0, h1⟩ := Flow.bind_eq_next h
  have ha := put_vars_async_adds K E ncid varid start count stride (buf.getD []) c0
  rw [h1] at ha
  obtain ⟨⟨s, hs, hs2⟩, hfile⟩ := ha
  have hc0 : c0.file = (E.pio_get_file ncid).2 ∧ ∀ e ∈ c0.trace, e.isEarly = true := by
    split_ifs at h0 with hrole
    · have hr := put_vars_resolve_resolved K E ncid varid count
        (Ctx.start E (E.pio_get_file ncid).2 xtype buf) rfl
      rw [h0] at hr
      exact ⟨hr.1, fun e he => isLookupOk_isEarly e (hr.2 e he)⟩
    · simp only [Flow.next.injEq] at h0
      subst h0
      exact ⟨rfl, by simp [Ctx.start]⟩
  refine ⟨by rw [hfile, hc0.1], ?_⟩
  rw [hs]
  intro e he
  rcases List.mem_append.mp he with h2 | h2
  · exact hc0.2 e h2
  · exact isMessaging_isEarly e (hs2 e h2)

/-- In a synchronous session the number of dimensions the I/O block sees is the one the
catalog returned. -/
theorem put_vars_entry_sync_ndims (K : Consts) (E : Env) (ncid varid : Int)
    (start count stride : Option (List Int)) (xtype : Int) (buf : Option Buf) (c1 : Ctx)
    (h : put_vars_entry K E ncid varid start count stride xtype buf = .next c1)
    (hsync : (E.pio_get_file ncid).2.iosystem.async = false) :
    c1.loc.ndims = (E.inq_varndims ncid varid).2 ∧
    c1.loc.xtype = resolved_xtype K E ncid varid xtype := by
  simp only [put_vars_entry, hsync, Bool.false_eq_true, not_false_eq_true, true_or,
    if_true] at h
  obtain ⟨c0, h0, h1⟩ := Flow.bind_eq_next h
  have hf := (put_vars_resolve_type K E ncid varid count _ c0 h0).2.2.2
  rw [put_vars_async_sync _ _ _ _ _ _ _ _ _ (by rw [hf]; exact hsync)] at h1
  simp only [Flow.next.injEq] at h1
  subst h1
  exact ⟨(put_vars_resolve_num_elem K E ncid varid count _ c0 h0).2,
    (put_vars_resolve_type K E ncid varid count _ c0 h0).1⟩

theorem PIOc_put_vars_tc_eq (K : Consts) (E : Env) (ncid varid : Int)
    (start count stride : Option (List Int)) (xtype : Int) (data : Buf)
    (hopen : (E.pio_get_file ncid).1 = 0) :
    PIOc_put_vars_tc K E ncid varid start count stride xtype (some data)
      = ((put_vars_entry K E ncid varid start count stride xtype (some data)).bind
          (put_vars_io K E varid start count stride data)).finish (check_and_return E) := by
  simp [PIOc_put_vars_tc, put_vars_entry, hopen]

/-- The parallel-netCDF block appends a request when the allocations succeed, a scalar
comes without geometry, and, on the I/O master, the type has a typed entry. -/
theorem put_vars_pnetcdf_appends (K : Consts) (E : Env) (varid : Int)
    (start count stride : Option (List Int)) (buf : Buf) (c : Ctx)
    (hpn : c.file.iotype = K.PIO_IOTYPE_PNETCDF)
    (hre : E.realloc_fails = false)
    (hgeom : c.loc.ndims = 0 → start = none ∧ count = none ∧ stride = none)
    (hma : c.loc.ndims ≠ 0 → stride = none → E.malloc_fails = false)
    (hcase : c.file.iosystem.iomaster = K.MPI_ROOT → pnetcdf_case K c.loc.xtype = true) :
    put_vars_pnetcdf K E varid start count stride buf c
      = .next (pnetcdf_appended K E varid start count stride buf c) := by
  by_cases hnd : c.loc.ndims = 0
  · obtain ⟨h1, h2, h3⟩ := hgeom hnd
    by_cases hm : c.file.iosystem.iomaster = K.MPI_ROOT
    · simp [put_vars_pnetcdf, pnetcdf_appended, bput_call, hpn, hre, hnd, hm, hcase hm,
        h1, h2, h3, grow_request_nreqs, set_vdesc, Ctx.emit]
    · simp [put_vars_pnetcdf, pnetcdf_appended, bput_call, hpn, hre, hnd, hm,
        h1, h2, h3, grow_request_nreqs, set_vdesc, Ctx.emit]
  · have hma2 : ¬ (stride = none ∧ E.malloc_fails = true) := by
      rintro ⟨hs, hmf⟩
      rw [hma hnd hs] at hmf
      exact Bool.false_ne_true hmf
    by_cases hm : c.file.iosystem.iomaster = K.MPI_ROOT
    · simp [put_vars_pnetcdf, pnetcdf_appended, bput_call, hpn, hre, hnd, hm, hcase hm,
        hma2, grow_request_nreqs, set_vdesc, Ctx.emit]
    · simp [put_vars_pnetcdf, pnetcdf_appended, bput_call, hpn, hre, hnd, hm,
        hma2, grow_request_nreqs, set_vdesc, Ctx.emit]

theorem pnetcdf_appended_iotype (K : Consts) (E : Env) (varid : Int)
    (start count stride : Option (List Int)) (buf : Buf) (c : Ctx) :
    (pnetcdf_appended K E varid start count stride buf c).file.iotype = c.file.iotype := by
  simp only [pnetcdf_appended]
  split_ifs <;> simp [append_request, Ctx.emit, store_request, set_vdesc]

/-- The whole call when the parallel-netCDF block appends a request. -/
theorem PIOc_put_vars_tc_appends (K : Consts) (E : Env) (ncid varid : Int)
    (start count stride : Option (List Int)) (xtype : Int) (data : Buf) (c1 : Ctx)
    (hopen : (E.pio_get_file ncid).1 = 0)
    (hentry : put_vars_entry K E ncid varid start count stride xtype (some data) = .next c1)
    (hK : K.PIO_IOTYPE_PNETCDF ≠ K.PIO_IOTYPE_ADIOS)
    (hio : (E.pio_get_file ncid).2.iosystem.ioproc = true)
    (hpn : (E.pio_get_file ncid).2.iotype = K.PIO_IOTYPE_PNETCDF)
    (hre : E.realloc_fails = false)
    (hgeom : c1.loc.ndims = 0 → start = none ∧ count = none ∧ stride = none)
    (hma : c1.loc.ndims ≠ 0 → stride = none → E.malloc_fails = false)
    (hcase : (E.pio_get_file ncid).2.iosystem.iomaster = K.MPI_ROOT →
      pnetcdf_case K c1.loc.xtype = true) :
    PIOc_put_vars_tc K E ncid varid start count stride xtype (some data)
      = check_and_return E (pnetcdf_appended K E varid start count stride data c1) := by
  have hf := (put_vars_entry_next K E ncid varid start count stride xtype (some data) c1
    hentry).1
  rw [PIOc_put_vars_tc_eq K E ncid varid start count stride xtype data hopen, hentry,
    Flow.next_bind]
  simp only [put_vars_io, hf, hio, if_true]
  rw [put_vars_pnetcdf_appends K E varid start count stride data c1 (by rw [hf, hpn]) hre
    hgeom hma (by rw [hf]; exact hcase)]
  rw [Flow.next_bind, put_vars_adios_skip, Flow.next_bind, put_vars_netcdf_skip,
    Flow.next_finish]
  · rw [pnetcdf_appended_iotype, hf, hpn]
  · rw [pnetcdf_appended_iotype, hf, hpn]
    exact hK

theorem isEarly_not_backend (e : Event) (h : e.isEarly = true) : e.isBackend = false := by
  cases e <;> simp_all [Event.isEarly, Event.isCatalog, Event.isMessaging, Event.isAsyncMsg,
    Event.isBcast, Event.isBackend]

theorem isEarly_not_flush (e : Event) (h : e.isEarly = true) : e.isFlush = false := by
  cases e <;> simp_all [Event.isEarly, Event.isCatalog, Event.isMessaging, Event.isAsyncMsg,
    Event.isBcast, Event.isFlush]

theorem filter_eq_nil_of_early (p : Event → Bool) (t : List Event)
    (hp : ∀ e, e.isEarly = true → p e = false) (h : ∀ e ∈ t, e.isEarly = true) :
    t.filter p = [] := by
  rw [List.filter_eq_nil_iff]
  intro e he
  rw [hp e (h e he)]
  exact Bool.false_ne_true

theorem pnetcdf_appended_trace (K : Consts) (E : Env) (varid : Int)
    (start count stride : Option (List Int)) (buf : Buf) (c : Ctx) :
    (pnetcdf_appended K E varid start count stride buf c).trace
      = c.trace ++ (if c.file.iosystem.iomaster = K.MPI_ROOT then
          [.backend (bput_call varid start count stride buf c)] else []) ++ [.flush] := by
  simp only [pnetcdf_appended]
  split_ifs <;> simp [append_request, Ctx.emit]

theorem pnetcdf_appended_file (K : Consts) (E : Env) (varid : Int)
    (start count stride : Option (List Int)) (buf : Buf) (c : Ctx) :
    (pnetcdf_appended K E varid start count stride buf c).file
      = { appended_file K E varid start count stride buf c with
          varlist := (E.flush_output_buffer
            (appended_file K E varid start count stride buf c)).2 } := by
  simp only [pnetcdf_appended, appended_file, request_value]
  split_ifs <;> simp [append_request, Ctx.emit]

theorem pnetcdf_appended_ierr (K : Consts) (E : Env) (varid : Int)
    (start count stride : Option (List Int)) (buf : Buf) (c : Ctx) :
    (pnetcdf_appended K E varid start count stride buf c).ierr
      = if c.file.iosystem.iomaster = K.MPI_ROOT then
          E.backend_ret (bput_call varid start count stride buf c) else c.ierr := by
  simp only [pnetcdf_appended]
  split_ifs <;> simp [append_request, Ctx.emit]

theorem realloc_request_length (request : List Int) (n : Nat) :
    (realloc_request request n).length = n := by
  simp only [realloc_request, List.length_append, List.length_take, List.length_replicate]
  omega

/-- The slot `request[nreqs]` is inside the storage after the growth step, when the
storage held at least `nreqs + 1` entries whenever `nreqs` is not a multiple of the
chunk size. -/
theorem grow_request_slot (K : Consts) (vd : var_desc_t)
    (hchunk : 0 < K.PIO_REQUEST_ALLOC_CHUNK)
    (hinv : vd.nreqs % K.PIO_REQUEST_ALLOC_CHUNK ≠ 0 → vd.nreqs < vd.request.length) :
    vd.nreqs < (grow_request K vd).request.length := by
  simp only [grow_request]
  split_ifs with h
  · simp only [realloc_request_length]
    omega
  · exact hinv h

/-- The descriptor handed to the flush check: `nreqs` is one more than before and the
slot at the old `nreqs` holds the request value. -/
theorem appended_file_vdesc (K : Consts) (E : Env) (varid : Int)
    (start count stride : Option (List Int)) (buf : Buf) (c : Ctx)
    (hv : varid.toNat < c.file.varlist.length)
    (hchunk : 0 < K.PIO_REQUEST_ALLOC_CHUNK)
    (hinv : (get_vdesc c.file varid).nreqs % K.PIO_REQUEST_ALLOC_CHUNK ≠ 0 →
      (get_vdesc c.file varid).nreqs < (get_vdesc c.file varid).request.length) :
    (get_vdesc (appended_file K E varid start count stride buf c) varid).nreqs
        = (get_vdesc c.file varid).nreqs + 1 ∧
    (get_vdesc (appended_file K E varid start count stride buf c) varid).request[
        (get_vdesc c.file varid).nreqs]?
      = some (request_value K E varid start count stride buf c) := by
  have hv1 : varid.toNat <
      (set_vdesc c.file varid (grow_request K (get_vdesc c.file varid))).varlist.length := by
    simp [set_vdesc, hv]
  have hslot := grow_request_slot K (get_vdesc c.file varid) hchunk hinv
  simp only [appended_file, store_request]
  rw [get_set_vdesc _ _ _ hv1, get_set_vdesc _ _ _ hv]
  simp [grow_request_nreqs, hslot]

/-! ### The flush check of `PIOc_put_vars_tc` -/

theorem check_and_return_flush (E : Env) (f : file_desc_t → Int × List var_desc_t) (c : Ctx) :
    check_and_return (with_flush E f) c = check_and_return E c := rfl

theorem put_vars_entry_flush (K : Consts) (E : Env) (f : file_desc_t → Int × List var_desc_t)
    (ncid varid : Int) (start count stride : Option (List Int)) (xtype : Int)
    (buf : Option Buf) :
    put_vars_entry K (with_flush E f) ncid varid start count stride xtype buf
      = put_vars_entry K E ncid varid start count stride xtype buf := rfl

theorem put_vars_netcdf_flush (K : Consts) (E : Env) (f : file_desc_t → Int × List var_desc_t)
    (varid : Int) (start count stride : Option (List Int)) (buf : Buf) (c : Ctx) :
    put_vars_netcdf K (with_flush E f) varid start count stride buf c
      = put_vars_netcdf K E varid start count stride buf c := rfl

theorem Flow.same_but_varlist_refl (a : Flow) : a.same_but_varlist a := by
  cases a <;> simp [Flow.same_but_varlist, Ctx.same_but_varlist]

/-- The parallel-netCDF block run with another flush check: the same outcome up to the
request lists the flush check leaves. -/
theorem put_vars_pnetcdf_flush (K : Consts) (E : Env) (f : file_desc_t → Int × List var_desc_t)
    (varid : Int) (start count stride : Option (List Int)) (buf : Buf) (c : Ctx) :
    (put_vars_pnetcdf K (with_flush E f) varid start count stride buf c).same_but_varlist
      (put_vars_pnetcdf K E varid start count stride buf c) := by
  simp only [put_vars_pnetcdf, with_flush]
  split_ifs <;>
    simp [Flow.same_but_varlist, Ctx.same_but_varlist, append_request, Ctx.emit, Ctx.exit,
      Ctx.abort, store_request, set_vdesc]

theorem put_vars_pnetcdf_iotype (K : Consts) (E : Env)
    (varid : Int) (start count stride : Option (List Int)) (buf : Buf) (c c1 : Ctx)
    (h : put_vars_pnetcdf K E varid start count stride buf c = .next c1) :
    c1.file.iotype = c.file.iotype := by
  simp only [put_vars_pnetcdf] at h
  split_ifs at h <;> simp only [Flow.next.injEq, reduceCtorEq] at h <;> subst h <;>
    simp [append_request, Ctx.emit, store_request, set_vdesc]

/-- The status, the trace and the buffer of a `PIOc_put_vars_tc` call do not depend on
the flush check. -/
theorem PIOc_put_vars_tc_flush (K : Consts) (E : Env) (f : file_desc_t → Int × List var_desc_t)
    (ncid varid : Int) (start count stride : Option (List Int)) (xtype : Int)
    (buf : Option Buf) (hK : K.PIO_IOTYPE_PNETCDF ≠ K.PIO_IOTYPE_ADIOS) :
    (PIOc_put_vars_tc K (with_flush E f) ncid varid start count stride xtype buf).ret
      = (PIOc_put_vars_tc K E ncid varid start count stride xtype buf).ret ∧
    (PIOc_put_vars_tc K (with_flush E f) ncid varid start count stride xtype buf).trace
      = (PIOc_put_vars_tc K E ncid varid start count stride xtype buf).trace ∧
    (PIOc_put_vars_tc K (with_flush E f) ncid varid start count stride xtype buf).buf
      = (PIOc_put_vars_tc K E ncid varid start count stride xtype buf).buf := by
  by_cases hopen : (E.pio_get_file ncid).1 = 0
  swap
  · have h1 : PIOc_put_vars_tc K (with_flush E f) ncid varid start count stride xtype buf
        = PIOc_put_vars_tc K E ncid varid start count stride xtype buf := by
      simp [PIOc_put_vars_tc, with_flush, hopen]
    rw [h1]
    exact ⟨rfl, rfl, rfl⟩
  cases buf with
  | none =>
    have h1 : PIOc_put_vars_tc K (with_flush E f) ncid varid start count stride xtype none
        = PIOc_put_vars_tc K E ncid varid start count stride xtype none := by
      simp [PIOc_put_vars_tc, with_flush, hopen]
    rw [h1]
    exact ⟨rfl, rfl, rfl⟩
  | some data =>
    rw [PIOc_put_vars_tc_eq K E ncid varid start count stride xtype data hopen,
      PIOc_put_vars_tc_eq K (with_flush E f) ncid varid start count stride xtype data hopen,
      put_vars_entry_flush]
    cases hentry : put_vars_entry K E ncid varid start count stride xtype (some data) with
    | done r => exact ⟨rfl, rfl, rfl⟩
    | next c1 =>
      simp only [Flow.next_bind, put_vars_io]
      split_ifs with hio
      swap
      · exact ⟨rfl, rfl, rfl⟩
      have hrel := put_vars_pnetcdf_flush K E f varid start count stride data c1
      by_cases hpn : c1.file.iotype = K.PIO_IOTYPE_PNETCDF
      · cases h1 : put_vars_pnetcdf K (with_flush E f) varid start count stride data c1 with
        | done r1 =>
          cases h2 : put_vars_pnetcdf K E varid start count stride data c1 with
          | done r2 =>
            rw [h1, h2] at hrel
            simpa [Flow.done_bind, Flow.done_finish] using hrel
          | next c2 =>
            rw [h1, h2] at hrel
            exact hrel.elim
        | next c1f =>
          cases h2 : put_vars_pnetcdf K E varid start count stride data c1 with
          | done r2 =>
            rw [h1, h2] at hrel
            exact hrel.elim
          | next c2 =>
            rw [h1, h2] at hrel
            have i1 := put_vars_pnetcdf_iotype _ _ _ _ _ _ _ _ _ h1
            have i2 := put_vars_pnetcdf_iotype _ _ _ _ _ _ _ _ _ h2
            rw [Flow.next_bind, Flow.next_bind,
              put_vars_adios_skip _ _ _ _ _ _ _ (by rw [i1, hpn]; exact hK),
              put_vars_adios_skip _ _ _ _ _ _ _ (by rw [i2, hpn]; exact hK),
              Flow.next_bind, Flow.next_bind,
              put_vars_netcdf_skip _ _ _ _ _ _ _ _ (by rw [i1, hpn]),
              put_vars_netcdf_skip _ _ _ _ _ _ _ _ (by rw [i2, hpn]),
              Flow.next_finish, Flow.next_finish, check_and_return_flush,
              check_and_return_eq, check_and_return_eq]
            obtain ⟨e1, e2, e3, e4, e5⟩ := hrel
            simp [e1, e3, e4]
      · have h1 : put_vars_pnetcdf K (with_flush E f) varid start count stride data c1
            = .next c1 := by simp [put_vars_pnetcdf, hpn]
        have h2 : put_vars_pnetcdf K E varid start count stride data c1
            = .next c1 := by simp [put_vars_pnetcdf, hpn]
        rw [h1, h2]
        exact ⟨rfl, rfl, rfl⟩

/-! ### The payload broadcast of the get functions -/

theorem PIOc_get_att_tc_eq (K : Consts) (E : Env) (ncid varid : Int) (name : CString)
    (memtype : Int) (data : Buf)
    (hopen : (E.pio_get_file ncid).1 = 0) (hname : name.length ≤ K.PIO_MAX_NAME) :
    PIOc_get_att_tc K E ncid varid (some name) memtype (some data)
      = (get_att_body K E ncid varid name memtype (some data)).finish
          (fun c1 => check_and_bcast E (att_payload_count c1.loc) c1) := by
  have h : ¬ K.PIO_MAX_NAME < name.length := by omega
  simp [PIOc_get_att_tc, get_att_body, att_payload_count, hopen, strlen, h]

theorem PIOc_get_vars_tc_eq (K : Consts) (E : Env) (ncid varid : Int)
    (start count stride : Option (List Int)) (xtype : Int) (data : Buf)
    (hopen : (E.pio_get_file ncid).1 = 0) :
    PIOc_get_vars_tc K E ncid varid start count stride xtype (some data)
      = (get_vars_body K E ncid varid start count stride xtype (some data)).finish
          (fun c1 => check_and_bcast E (vars_payload_count c1.loc) c1) := by
  simp [PIOc_get_vars_tc, get_vars_body, vars_payload_count, hopen]

/-- The closing lines of the get functions when `check_netcdf` reports no error. -/
theorem check_and_bcast_ok (E : Env) (count : Int) (c : Ctx)
    (hcheck : E.check_netcdf c.ierr = PIO_NOERR) :
    check_and_bcast E count c
      = ⟨some (if E.mpi_bcast .payload ≠ 0 then E.check_mpi (E.mpi_bcast .payload)
            else PIO_NOERR),
         c.trace ++ [.check_netcdf c.ierr,
           .bcast .payload count c.file.iosystem.ioroot (E.mpi_bcast .payload)],
         c.file, bcast_payload E count c.buf⟩ := by
  simp only [check_and_bcast, hcheck]
  split_ifs <;> simp_all [Ctx.exit, Ctx.emit]

/-- The closing lines of the get functions when `check_netcdf` reports an error. -/
theorem check_and_bcast_err (E : Env) (count : Int) (c : Ctx)
    (hcheck : E.check_netcdf c.ierr ≠ PIO_NOERR) :
    check_and_bcast E count c
      = ⟨some (E.check_netcdf c.ierr), c.trace ++ [.check_netcdf c.ierr], c.file, c.buf⟩ := by
  simp [check_and_bcast, hcheck, Ctx.exit, Ctx.emit]

/-- A successful return from the closing lines of a get function: `check_netcdf` and
the payload broadcast both reported no error. -/
theorem check_and_bcast_success (E : Env) (count : Int) (c : Ctx)
    (hmpi : ∀ code, code ≠ 0 → E.check_mpi code ≠ 0)
    (hret : (check_and_bcast E count c).ret = some PIO_NOERR) :
    E.check_netcdf c.ierr = PIO_NOERR ∧ E.mpi_bcast .payload = 0 := by
  by_cases hcheck : E.check_netcdf c.ierr = PIO_NOERR
  · refine ⟨hcheck, ?_⟩
    rw [check_and_bcast_ok E count c hcheck] at hret
    by_contra hb
    simp only [ne_eq, hb, not_false_eq_true, if_true, Option.some.injEq] at hret
    exact hmpi _ hb hret
  · rw [check_and_bcast_err E count c hcheck] at hret
    simp only [Option.some.injEq] at hret
    exact absurd hret hcheck

theorem toInt32_of_range (x : Int) (h0 : -2147483648 ≤ x) (h1 : x < 2147483648) :
    toInt32 x = x := by
  simp only [toInt32]
  omega

/-- The count `(int)attlen * memtype_len` is the exact product when the product fits
in a nonnegative `int`. -/
theorem att_count_exact (a l : Int) (h0 : 0 ≤ a * l) (h1 : a * l < 2147483648) :
    toInt32 (toInt32 a * l) = a * l := by
  by_cases hl : l = 0
  · subst hl
    simp [toInt32]
  · have habs : |a| ≤ |a * l| := by
      rw [abs_mul]
      have : 1 ≤ |l| := Int.one_le_abs hl
      nlinarith [abs_nonneg a]
    rw [abs_of_nonneg h0] at habs
    have ha := abs_le.mp (le_trans habs (le_of_lt h1) |>.trans (le_refl _))
    have ha2 : |a| < 2147483648 := lt_of_le_of_lt habs h1
    have ha3 := abs_lt.mp ha2
    rw [toInt32_of_range a (by omega) (by omega)]
    exact toInt32_of_range _ (by omega) h1

/-- The payload broadcast on a rank other than the root leaves the root's first `n`
bytes in the first `n` bytes of the buffer. -/
theorem bcast_payload_take (E : Env) (n : Int) (rootbuf b : Buf)
    (hroot : E.payload_root = some rootbuf) (hlen : n.toNat ≤ rootbuf.length) :
    bcast_payload E n (some b) = some (rootbuf.take n.toNat ++ b.drop n.toNat) ∧
    (rootbuf.take n.toNat ++ b.drop n.toNat).take n.toNat = rootbuf.take n.toNat := by
  refine ⟨by simp [bcast_payload, hroot], ?_⟩
  rw [List.take_append_of_le_length (by simp [hlen])]
  simp

theorem get_att_io_loc (K : Consts) (E : Env) (varid : Int) (name : CString)
    (memtype : Int) (c c1 : Ctx) (h : get_att_io K E varid name memtype c = .next c1) :
    c1.loc = c.loc := by
  have hp : ∀ a b : Ctx, get_att_pnetcdf K E varid name memtype a = .next b → b.loc = a.loc := by
    intro a b hab
    simp only [get_att_pnetcdf] at hab
    split_ifs at hab <;> simp only [Flow.next.injEq, reduceCtorEq] at hab <;> subst hab <;> rfl
  have hn : ∀ a b : Ctx, get_att_netcdf K E varid name memtype a = .next b → b.loc = a.loc := by
    intro a b hab
    simp only [get_att_netcdf] at hab
    split_ifs at hab <;> simp only [Flow.next.injEq, reduceCtorEq] at hab <;> subst hab <;> rfl
  simp only [get_att_io] at h
  split_ifs at h
  · obtain ⟨c0, h0, h1⟩ := Flow.bind_eq_next h
    rw [hn c0 c1 h1, hp c c0 h0]
  · simp only [Flow.next.injEq] at h
    subst h
    rfl

theorem get_vars_io_loc (K : Consts) (E : Env) (varid : Int)
    (start count stride : Option (List Int)) (c c1 : Ctx)
    (h : get_vars_io K E varid start count stride c = .next c1) :
    c1.loc = c.loc := by
  have hp : ∀ a b : Ctx, get_vars_pnetcdf K E varid start count stride a = .next b →
      b.loc = a.loc := by
    intro a b hab
    simp only [get_vars_pnetcdf] at hab
    split_ifs at hab
    all_goals simp only [Flow.bind, reduceCtorEq, Flow.next.injEq] at hab
    all_goals first
      | (subst hab; rfl)
      | (split_ifs at hab
         all_goals simp only [reduceCtorEq, Flow.next.injEq] at hab
         all_goals (subst hab; rfl))
  have hn : ∀ a b : Ctx, get_vars_netcdf K E varid start count stride a = .next b →
      b.loc = a.loc := by
    intro a b hab
    simp only [get_vars_netcdf] at hab
    split_ifs at hab <;> simp only [Flow.next.injEq, reduceCtorEq] at hab <;> subst hab <;> rfl
  simp only [get_vars_io] at h
  split_ifs at h
  · obtain ⟨c0, h0, h1⟩ := Flow.bind_eq_next h
    rw [hn c0 c1 h1, hp c c0 h0]
  · simp only [Flow.next.injEq] at h
    subst h
    rfl

theorem bcast_checked_buf (E : Env) (item : BcastItem) (get : Locals → Int)
    (set : Locals → Int → Locals) (c c1 : Ctx)
    (h : bcast_checked E item get set c = .next c1) : c1.buf = c.buf := by
  simp only [bcast_checked, bcast_unchecked] at h
  split_ifs at h
  simp only [Flow.next.injEq] at h
  subst h
  rfl

theorem get_att_body_buf (K : Consts) (E : Env) (ncid varid : Int) (name : CString)
    (memtype : Int) (data : Buf) (c1 : Ctx)
    (h : get_att_body K E ncid varid name memtype (some data) = .next c1) :
    ∃ b, c1.buf = some b := by
  simp only [get_att_body] at h
  obtain ⟨c3, h3, hio⟩ := Flow.bind_eq_next h
  obtain ⟨c2, h2, has⟩ := Flow.bind_eq_next h3
  have e2 : c2.buf = some data := by
    split_ifs at h2
    · simp only [get_att_resolve] at h2
      split_ifs at h2 <;> simp only [Flow.next.injEq, reduceCtorEq] at h2 <;> subst h2 <;> rfl
    · simp only [Flow.next.injEq] at h2
      subst h2
      rfl
  have e3 : c3.buf = c2.buf := by
    simp only [get_att_async] at has
    split_ifs at has
    · obtain ⟨d2, hd2, hd3⟩ := Flow.bind_eq_next has
      obtain ⟨d1, hd1, hd2⟩ := Flow.bind_eq_next hd2
      have b3 := bcast_checked_buf E _ _ _ _ _ hd3
      have b2 := bcast_checked_buf E _ _ _ _ _ hd2
      have b1 := bcast_checked_buf E _ _ _ _ _ hd1
      rw [b3, b2, b1]
      rfl
    · simp only [Flow.next.injEq] at has
      subst has
      rfl
  have e1 : c1.buf.isSome = c3.buf.isSome := by
    have hp : ∀ a b : Ctx, get_att_pnetcdf K E varid name memtype a = .next b →
        b.buf.isSome = a.buf.isSome := by
      intro a b hab
      simp only [get_att_pnetcdf] at hab
      split_ifs at hab <;> simp only [Flow.next.injEq, reduceCtorEq] at hab <;> subst hab <;>
        simp [Ctx.emit]
    have hn : ∀ a b : Ctx, get_att_netcdf K E varid name memtype a = .next b →
        b.buf.isSome = a.buf.isSome := by
      intro a b hab
      simp only [get_att_netcdf] at hab
      split_ifs at hab <;> simp only [Flow.next.injEq, reduceCtorEq] at hab <;> subst hab <;>
        simp [Ctx.emit]
    simp only [get_att_io] at hio
    split_ifs at hio
    · obtain ⟨c0, h0, h1⟩ := Flow.bind_eq_next hio
      rw [hn c0 c1 h1, hp c3 c0 h0]
    · simp only [Flow.next.injEq] at hio
      subst hio
      rfl
  rw [e3, e2] at e1
  exact Option.isSome_iff_exists.mp (by rw [e1]; rfl)

theorem get_vars_body_buf (K : Consts) (E : Env) (ncid varid : Int)
    (start count stride : Option (List Int)) (xtype : Int) (data : Buf) (c1 : Ctx)
    (h : get_vars_body K E ncid varid start count stride xtype (some data) = .next c1) :
    ∃ b, c1.buf = some b := by
  simp only [get_vars_body] at h
  obtain ⟨c3, h3, hio⟩ := Flow.bind_eq_next h
  obtain ⟨c2, h2, has⟩ := Flow.bind_eq_next h3
  have e2 : c2.buf = some data := by
    split_ifs at h2
    · simp only [get_vars_resolve] at h2
      split_ifs at h2 <;> simp only [Flow.bind, reduceCtorEq] at h2 <;>
        simp only [Flow.next.injEq, reduceCtorEq] at h2 <;> subst h2 <;> rfl
    · simp only [Flow.next.injEq] at h2
      subst h2
      rfl
  have e3 : c3.buf = c2.buf := by
    simp only [get_vars_async, bcast_unchecked] at has
    split_ifs at has <;> simp only [reduceCtorEq, Flow.next.injEq] at has <;> subst has <;> rfl
  have e1 : c1.buf.isSome = c3.buf.isSome := by
    have hp : ∀ a b : Ctx, get_vars_pnetcdf K E varid start count stride a = .next b →
        b.buf.isSome = a.buf.isSome := by
      intro a b hab
      simp only [get_vars_pnetcdf] at hab
      split_ifs at hab
      all_goals simp only [Flow.bind, reduceCtorEq, Flow.next.injEq] at hab
      all_goals first
        | (subst hab; rfl)
        | (split_ifs at hab
           all_goals simp only [reduceCtorEq, Flow.next.injEq] at hab
           all_goals (subst hab; simp [Ctx.emit]))
    have hn : ∀ a b : Ctx, get_vars_netcdf K E varid start count stride a = .next b →
        b.buf.isSome = a.buf.isSome := by
      intro a b hab
      simp only [get_vars_netcdf] at hab
      split_ifs at hab <;> simp only [Flow.next.injEq, reduceCtorEq] at hab <;> subst hab <;>
        simp [Ctx.emit]
    simp only [get_vars_io] at hio
    split_ifs at hio
    · obtain ⟨c0, h0, h1⟩ := Flow.bind_eq_next hio
      rw [hn c0 c1 h1, hp c3 c0 h0]
    · simp only [Flow.next.injEq] at hio
      subst hio
      rfl
  rw [e3, e2] at e1
  exact Option.isSome_iff_exists.mp (by rw [e1]; rfl)

theorem truncated_payload_byte (n m : Nat) (x y : Int) (h : m < n) :
    (List.take m (List.replicate n x) ++ List.drop m (List.replicate n y))[m]? = some y := by
  rw [List.getElem?_append_right (by simp)]
  simp only [List.length_take, List.length_replicate, List.getElem?_drop,
    List.getElem?_replicate]
  have h1 : m + (m - min m n) < n := by omega
  simp [h1]

theorem get_att_resolve_attlen (K : Consts) (E : Env) (ncid varid : Int) (name : CString)
    (memtype : Int) (c c1 : Ctx)
    (h : get_att_resolve K E ncid varid name memtype c = .next c1) :
    c1.loc.attlen = (E.inq_att ncid varid name).2.2 := by
  simp only [get_att_resolve] at h
  split_ifs at h <;> simp only [Flow.next.injEq, reduceCtorEq] at h <;> subst h <;> rfl

theorem get_att_async_sync (K : Consts) (E : Env) (ncid varid : Int) (name : CString)
    (memtype : Int) (c : Ctx) (hsync : c.file.iosystem.async = false) :
    get_att_async K E ncid varid name memtype c = .next c := by
  simp [get_att_async, hsync]

/-- In a synchronous session the lengths the closing lines of `PIOc_get_att_tc` use
are the ones the catalog returned. -/
theorem get_att_body_sync (K : Consts) (E : Env) (ncid varid : Int) (name : CString)
    (memtype : Int) (ip : Option Buf) (c1 : Ctx)
    (h : get_att_body K E ncid varid name memtype ip = .next c1)
    (hsync : (E.pio_get_file ncid).2.iosystem.async = false) :
    c1.loc.attlen = (E.inq_att ncid varid name).2.2 ∧
    c1.loc.memtype_len = (if memtype = K.PIO_LONG_INTERNAL then K.sizeof_long
      else (E.inq_type ncid memtype).2) := by
  simp only [get_att_body, hsync, Bool.false_eq_true, not_false_eq_true, true_or,
    if_true] at h
  obtain ⟨c3, h3, hio⟩ := Flow.bind_eq_next h
  obtain ⟨c2, h2, has⟩ := Flow.bind_eq_next h3
  have hr := get_att_resolve_resolved K E ncid varid name memtype
    (Ctx.start E (E.pio_get_file ncid).2 memtype ip) rfl
  rw [h2] at hr
  have hf : c2.file = (E.pio_get_file ncid).2 := hr.1
  rw [get_att_async_sync _ _ _ _ _ _ _ (by rw [hf]; exact hsync)] at has
  simp only [Flow.next.injEq] at has
  subst has
  rw [get_att_io_loc K E varid name memtype _ _ hio]
  exact ⟨get_att_resolve_attlen K E ncid varid name memtype _ _ h2,
    (get_att_resolve_type K E ncid varid name memtype _ _ h2).1⟩

/-- In a synchronous session the element count and type length the closing lines of
`PIOc_get_vars_tc` use are the ones the resolving block computed. -/
theorem get_vars_body_sync (K : Consts) (E : Env) (ncid varid : Int)
    (start count stride : Option (List Int)) (xtype : Int) (buf : Option Buf) (c1 : Ctx)
    (h : get_vars_body K E ncid varid start count stride xtype buf = .next c1)
    (hsync : (E.pio_get_file ncid).2.iosystem.async = false) :
    c1.loc.num_elem = count_loop (count.getD []) (E.inq_varndims ncid varid).2 1 ∧
    c1.loc.typelen = (if resolved_xtype K E ncid varid xtype = K.PIO_LONG_INTERNAL
      then K.sizeof_long else (E.inq_type ncid (resolved_xtype K E ncid varid xtype)).2) := by
  simp only [get_vars_body, hsync, Bool.false_eq_true, not_false_eq_true, true_or,
    if_true] at h
  obtain ⟨c3, h3, hio⟩ := Flow.bind_eq_next h
  obtain ⟨c2, h2, has⟩ := Flow.bind_eq_next h3
  obtain ⟨-, t2, -, hf⟩ := get_vars_resolve_type K E ncid varid start count _ c2 h2
  obtain ⟨n1, -, n3⟩ := get_vars_resolve_num_elem K E ncid varid start count _ c2 h2
  rw [get_vars_async_sync _ _ _ _ _ _ _ _ (by rw [hf]; exact hsync)] at has
  simp only [Flow.next.injEq] at has
  subst has
  rw [get_vars_io_loc K E varid start count stride _ _ hio]
  rw [n3] at n1
  exact ⟨n1, t2⟩

/-! ### Views of the trace -/

theorem filter_of_extends {p q : Event → Bool} (hq : ∀ e, q e = true → p e = false)
    {t0 t : List Event} (h : extends_by q t0 t) : t.filter p = t0.filter p := by
  obtain ⟨s, hs, hs2⟩ := h
  rw [hs, List.filter_append]
  have : s.filter p = [] := by
    rw [List.filter_eq_nil_iff]
    intro e he
    rw [hq e (hs2 e he)]
    exact Bool.false_ne_true
  rw [this, List.append_nil]

theorem Flow.adds_trace {p : Event → Bool} {c : Ctx} {f : Flow} (h : f.adds p c) :
    extends_by p c.trace f.trace := by
  cases f <;> exact h

theorem Flow.filter_of_adds {p q : Event → Bool} (hq : ∀ e, q e = true → p e = false)
    {c : Ctx} {f : Flow} (h : f.adds q c) : f.trace.filter p = c.trace.filter p :=
  filter_of_extends hq (Flow.adds_trace h)

theorem Flow.filter_bind {p q : Event → Bool} (hq : ∀ e, q e = true → p e = false)
    (f : Flow) {k : Ctx → Flow} (hk : ∀ c1, (k c1).adds q c1) :
    (f.bind k).trace.filter p = f.trace.filter p := by
  cases f with
  | done r => rfl
  | next c1 => exact Flow.filter_of_adds hq (hk c1)

theorem Flow.filter_finish {p q : Event → Bool} (hq : ∀ e, q e = true → p e = false)
    (f : Flow) {k : Ctx → Res} (hk : ∀ c1, extends_by q c1.trace (k c1).trace) :
    (f.finish k).trace.filter p = f.trace.filter p := by
  cases f with
  | done r => rfl
  | next c1 => exact filter_of_extends hq (hk c1)

theorem isBcast_not_msg (e : Event) (h : e.isBcast = true) : e.isAsyncMsg = false := by
  cases e <;> simp_all [Event.isBcast, Event.isAsyncMsg]

theorem isLate_not_msg (e : Event) (h : e.isLate = true) : e.isAsyncMsg = false := by
  cases e <;> simp_all [Event.isLate, Event.isBackend, Event.isFlush, Event.isCheck,
    Event.isBcast, Event.isAsyncMsg]

theorem isCatalog_not_msg (e : Event) (h : e.isCatalog = true) : e.isAsyncMsg = false := by
  cases e <;> simp_all [Event.isCatalog, Event.isAsyncMsg]

/-! ### The async message -/

theorem put_att_async_msgs (K : Consts) (E : Env) (ncid varid : Int) (name : CString)
    (atttype len memtype : Int) (op : Buf) (c : Ctx) :
    (put_att_async K E ncid varid name atttype len memtype op c).trace.filter Event.isAsyncMsg
      = c.trace.filter Event.isAsyncMsg ++
        (if c.file.iosystem.async then
          [.async_msg (put_att_envelope K ncid varid name atttype len memtype op c.loc)
            (E.send_async_msg
              (put_att_envelope K ncid varid name atttype len memtype op c.loc))]
        else []) := by
  simp only [put_att_async, put_att_envelope]
  split_ifs <;>
    simp [Flow.trace, Ctx.exit, Ctx.emit, bcast_unchecked, Event.isAsyncMsg, List.filter_append]

theorem get_vars_async_msgs (K : Consts) (E : Env) (ncid varid : Int)
    (start count stride : Option (List Int)) (c : Ctx) :
    (get_vars_async K E ncid varid start count stride c).trace.filter Event.isAsyncMsg
      = c.trace.filter Event.isAsyncMsg ++
        (if c.file.iosystem.async then
          [.async_msg (get_vars_envelope K ncid varid start count stride c.loc)
            (E.send_async_msg (get_vars_envelope K ncid varid start count stride c.loc))]
        else []) := by
  simp only [get_vars_async, get_vars_envelope]
  split_ifs <;>
    simp [Flow.trace, Ctx.exit, Ctx.emit, bcast_unchecked, Event.isAsyncMsg, List.filter_append]

theorem get_att_async_msgs (K : Consts) (E : Env) (ncid varid : Int) (name : CString)
    (memtype : Int) (c : Ctx) :
    (get_att_async K E ncid varid name memtype c).trace.filter Event.isAsyncMsg
      = c.trace.filter Event.isAsyncMsg ++
        (if c.file.iosystem.async then
          [.async_msg (get_att_envelope K ncid varid name memtype c.file.iotype c.loc)
            (E.send_async_msg
              (get_att_envelope K ncid varid name memtype c.file.iotype c.loc))]
        else []) := by
  simp only [get_att_async, get_att_envelope]
  split_ifs
  · simp [Flow.trace, Ctx.exit, Ctx.emit, Event.isAsyncMsg, List.filter_append]
  · rw [Flow.filter_bind isBcast_not_msg _ fun _ => (bcast_checked_adds _ _ _ _ _).1,
      Flow.filter_bind isBcast_not_msg _ fun _ => (bcast_checked_adds _ _ _ _ _).1,
      Flow.filter_of_adds isBcast_not_msg (bcast_checked_adds _ _ _ _ _).1]
    simp [Ctx.emit, Event.isAsyncMsg, List.filter_append]
  · simp [Flow.trace]

theorem put_vars_async_msgs (K : Consts) (E : Env) (ncid varid : Int)
    (start count stride : Option (List Int)) (buf : Buf) (c : Ctx) :
    (put_vars_async K E ncid varid start count stride buf c).trace.filter Event.isAsyncMsg
      = c.trace.filter Event.isAsyncMsg ++
        (if c.file.iosystem.async then
          [.async_msg (put_vars_envelope K ncid varid start count stride buf c.loc)
            (E.send_async_msg (put_vars_envelope K ncid varid start count stride buf c.loc))]
        else []) := by
  simp only [put_vars_async, put_vars_envelope]
  split_ifs
  · simp [Flow.trace, Ctx.exit, Ctx.emit, Event.isAsyncMsg, List.filter_append]
  · rw [Flow.filter_bind isBcast_not_msg _ fun _ => (bcast_checked_adds _ _ _ _ _).1,
      Flow.filter_of_adds isBcast_not_msg (bcast_checked_adds _ _ _ _ _).1]
    simp [Ctx.emit, Event.isAsyncMsg, List.filter_append]
  · simp [Flow.trace]

theorem PIOc_put_att_tc_eq (K : Consts) (E : Env) (ncid varid : Int) (name : CString)
    (atttype len memtype : Int) (op : Buf)
    (hopen : (E.pio_get_file ncid).1 = 0) (hname : name.length ≤ K.PIO_MAX_NAME)
    (hlen : 0 ≤ len) :
    PIOc_put_att_tc K E ncid varid (some name) atttype len memtype (some op)
      = (((put_att_resolved K E ncid atttype memtype (some op)).bind
            (put_att_async K E ncid varid name atttype len memtype op)).bind
          (put_att_io K E varid name atttype len memtype op)).finish (check_and_return E) := by
  have h1 : ¬ K.PIO_MAX_NAME < name.length := by omega
  have h2 : ¬ len < 0 := by omega
  simp [PIOc_put_att_tc, put_att_resolved, hopen, strlen, h1, h2]

theorem get_att_body_eq (K : Consts) (E : Env) (ncid varid : Int) (name : CString)
    (memtype : Int) (ip : Option Buf) :
    get_att_body K E ncid varid name memtype ip
      = ((get_att_resolved K E ncid varid name memtype ip).bind
          (get_att_async K E ncid varid name memtype)).bind
          (get_att_io K E varid name memtype) := rfl

theorem get_vars_body_eq (K : Consts) (E : Env) (ncid varid : Int)
    (start count stride : Option (List Int)) (xtype : Int) (buf : Option Buf) :
    get_vars_body K E ncid varid start count stride xtype buf
      = ((get_vars_resolved K E ncid varid start count xtype buf).bind
          (get_vars_async K E ncid varid start count stride)).bind
          (get_vars_io K E varid start count stride) := rfl

theorem put_vars_entry_eq (K : Consts) (E : Env) (ncid varid : Int)
    (start count stride : Option (List Int)) (xtype : Int) (buf : Option Buf) :
    put_vars_entry K E ncid varid start count stride xtype buf
      = (put_vars_resolved K E ncid varid count xtype buf).bind
          (put_vars_async K E ncid varid start count stride (buf.getD [])) := rfl

/-- The state after the resolving step: the file is as it was and the trace holds
successful catalog lookups only. -/
theorem put_att_resolved_next (K : Consts) (E : Env) (ncid atttype memtype : Int)
    (op : Option Buf) (c2 : Ctx) (h : put_att_resolved K E ncid atttype memtype op = .next c2) :
    c2.file = (E.pio_get_file ncid).2 ∧ ∀ e ∈ c2.trace, e.isLookupOk = true := by
  simp only [put_att_resolved] at h
  split_ifs at h
  · have hr := put_att_resolve_resolved K E ncid atttype memtype
      (Ctx.start E (E.pio_get_file ncid).2 memtype op) rfl
    rw [h] at hr
    exact hr
  · simp only [Flow.next.injEq] at h
    subst h
    exact ⟨rfl, by simp [Ctx.start]⟩

theorem get_att_resolved_next (K : Consts) (E : Env) (ncid varid : Int) (name : CString)
    (memtype : Int) (ip : Option Buf) (c2 : Ctx)
    (h : get_att_resolved K E ncid varid name memtype ip = .next c2) :
    c2.file = (E.pio_get_file ncid).2 ∧ ∀ e ∈ c2.trace, e.isLookupOk = true := by
  simp only [get_att_resolved] at h
  split_ifs at h
  · have hr := get_att_resolve_resolved K E ncid varid name memtype
      (Ctx.start E (E.pio_get_file ncid).2 memtype ip) rfl
    rw [h] at hr
    exact hr
  · simp only [Flow.next.injEq] at h
    subst h
    exact ⟨rfl, by simp [Ctx.start]⟩

theorem get_vars_resolved_next (K : Consts) (E : Env) (ncid varid : Int)
    (start count : Option (List Int)) (xtype : Int) (buf : Option Buf) (c2 : Ctx)
    (h : get_vars_resolved K E ncid varid start count xtype buf = .next c2) :
    c2.file = (E.pio_get_file ncid).2 ∧ ∀ e ∈ c2.trace, e.isLookupOk = true := by
  simp only [get_vars_resolved] at h
  split_ifs at h
  · have hr := get_vars_resolve_resolved K E ncid varid start count
      (Ctx.start E (E.pio_get_file ncid).2 xtype buf) rfl
    rw [h] at hr
    exact hr
  · simp only [Flow.next.injEq] at h
    subst h
    exact ⟨rfl, by simp [Ctx.start]⟩

theorem put_vars_resolved_next (K : Consts) (E : Env) (ncid varid : Int)
    (count : Option (List Int)) (xtype : Int) (buf : Option Buf) (c2 : Ctx)
    (h : put_vars_resolved K E ncid varid count xtype buf = .next c2) :
    c2.file = (E.pio_get_file ncid).2 ∧ ∀ e ∈ c2.trace, e.isLookupOk = true := by
  simp only [put_vars_resolved] at h
  split_ifs at h
  · have hr := put_vars_resolve_resolved K E ncid varid count
      (Ctx.start E (E.pio_get_file ncid).2 xtype buf) rfl
    rw [h] at hr
    exact hr
  · simp only [Flow.next.injEq] at h
    subst h
    exact ⟨rfl, by simp [Ctx.start]⟩

theorem lookups_no_msg (t : List Event) (h : ∀ e ∈ t, e.isLookupOk = true) :
    t.filter Event.isAsyncMsg = [] := by
  rw [List.filter_eq_nil_iff]
  intro e he
  rw [isCatalog_not_msg e (isLookupOk_isCatalog e (h e he))]
  exact Bool.false_ne_true

/-- The async messages of a `PIOc_put_att_tc` call that passed the argument checks and
the resolving step. -/
theorem put_att_msgs (K : Consts) (E : Env) (ncid varid : Int) (name : CString)
    (atttype len memtype : Int) (op : Buf) (c2 : Ctx)
    (hopen : (E.pio_get_file ncid).1 = 0) (hname : name.length ≤ K.PIO_MAX_NAME)
    (hlen : 0 ≤ len)
    (h : put_att_resolved K E ncid atttype memtype (some op) = .next c2) :
    (PIOc_put_att_tc K E ncid varid (some name) atttype len memtype
        (some op)).trace.filter Event.isAsyncMsg
      = if (E.pio_get_file ncid).2.iosystem.async then
          [.async_msg (put_att_envelope K ncid varid name atttype len memtype op c2.loc)
            (E.send_async_msg
              (put_att_envelope K ncid varid name atttype len memtype op c2.loc))]
        else [] := by
  obtain ⟨hf, hl⟩ := put_att_resolved_next K E ncid atttype memtype (some op) c2 h
  rw [PIOc_put_att_tc_eq K E ncid varid name atttype len memtype op hopen hname hlen, h,
    Flow.next_bind]
  have h1 := Flow.filter_finish isLate_not_msg
    ((put_att_async K E ncid varid name atttype len memtype op c2).bind
      (put_att_io K E varid name atttype len memtype op))
    (fun c1 => check_and_return_adds E c1)
  have h2 := Flow.filter_bind isLate_not_msg
    (put_att_async K E ncid varid name atttype len memtype op c2)
    (fun c1 => put_att_io_adds K E varid name atttype len memtype op c1)
  rw [h1, h2, put_att_async_msgs, lookups_no_msg _ hl, hf, List.nil_append]

theorem get_att_msgs (K : Consts) (E : Env) (ncid varid : Int) (name : CString)
    (memtype : Int) (data : Buf) (c2 : Ctx)
    (hopen : (E.pio_get_file ncid).1 = 0) (hname : name.length ≤ K.PIO_MAX_NAME)
    (h : get_att_resolved K E ncid varid name memtype (some data) = .next c2) :
    (PIOc_get_att_tc K E ncid varid (some name) memtype (some data)).trace.filter
        Event.isAsyncMsg
      = if (E.pio_get_file ncid).2.iosystem.async then
          [.async_msg (get_att_envelope K ncid varid name memtype
              (E.pio_get_file ncid).2.iotype c2.loc)
            (E.send_async_msg (get_att_envelope K ncid varid name memtype
              (E.pio_get_file ncid).2.iotype c2.loc))]
        else [] := by
  obtain ⟨hf, hl⟩ := get_att_resolved_next K E ncid varid name memtype (some data) c2 h
  rw [PIOc_get_att_tc_eq K E ncid varid name memtype data hopen hname, get_att_body_eq, h,
    Flow.next_bind]
  rw [Flow.filter_finish isLate_not_msg _ (fun c1 => check_and_bcast_adds E _ c1),
    Flow.filter_bind isLate_not_msg _ (fun c1 => (get_att_io_adds K E varid name memtype c1).1),
    get_att_async_msgs, lookups_no_msg _ hl, hf, List.nil_append]

theorem get_vars_msgs (K : Consts) (E : Env) (ncid varid : Int)
    (start count stride : Option (List Int)) (xtype : Int) (data : Buf) (c2 : Ctx)
    (hopen : (E.pio_get_file ncid).1 = 0)
    (h : get_vars_resolved K E ncid varid start count xtype (some data) = .next c2) :
    (PIOc_get_vars_tc K E ncid varid start count stride xtype (some data)).trace.filter
        Event.isAsyncMsg
      = if (E.pio_get_file ncid).2.iosystem.async then
          [.async_msg (get_vars_envelope K ncid varid start count stride c2.loc)
            (E.send_async_msg (get_vars_envelope K ncid varid start count stride c2.loc))]
        else [] := by
  obtain ⟨hf, hl⟩ := get_vars_resolved_next K E ncid varid start count xtype (some data) c2 h
  rw [PIOc_get_vars_tc_eq K E ncid varid start count stride xtype data hopen,
    get_vars_body_eq, h, Flow.next_bind]
  rw [Flow.filter_finish isLate_not_msg _ (fun c1 => check_and_bcast_adds E _ c1),
    Flow.filter_bind isLate_not_msg _
      (fun c1 => (get_vars_io_adds K E varid start count stride c1).1),
    get_vars_async_msgs, lookups_no_msg _ hl, hf, List.nil_append]

theorem put_vars_msgs (K : Consts) (E : Env) (ncid varid : Int)
    (start count stride : Option (List Int)) (xtype : Int) (data : Buf) (c2 : Ctx)
    (hopen : (E.pio_get_file ncid).1 = 0)
    (h : put_vars_resolved K E ncid varid count xtype (some data) = .next c2) :
    (PIOc_put_vars_tc K E ncid varid start count stride xtype (some data)).trace.filter
        Event.isAsyncMsg
      = if (E.pio_get_file ncid).2.iosystem.async then
          [.async_msg (put_vars_envelope K ncid varid start count stride data c2.loc)
            (E.send_async_msg
              (put_vars_envelope K ncid varid start count stride data c2.loc))]
        else [] := by
  obtain ⟨hf, hl⟩ := put_vars_resolved_next K E ncid varid count xtype (some data) c2 h
  rw [PIOc_put_vars_tc_eq K E ncid varid start count stride xtype data hopen,
    put_vars_entry_eq, h, Flow.next_bind]
  rw [Flow.filter_finish isLate_not_msg _ (fun c1 => check_and_return_adds E c1),
    Flow.filter_bind isLate_not_msg _
      (fun c1 => put_vars_io_adds K E varid start count stride data c1)]
  simp only [Option.getD_some]
  rw [put_vars_async_msgs, lookups_no_msg _ hl, hf, List.nil_append]

theorem preceded_by_msgs (pre : List Event) (r : Res) (h : ∀ e ∈ pre, e.isCatalog = true) :
    (r.preceded_by pre).trace.filter Event.isAsyncMsg = r.trace.filter Event.isAsyncMsg := by
  simp only [Res.preceded_by, List.filter_append]
  have : pre.filter Event.isAsyncMsg = [] := by
    rw [List.filter_eq_nil_iff]
    intro e he
    rw [isCatalog_not_msg e (h e he)]
    exact Bool.false_ne_true
  rw [this, List.nil_append]

theorem dimlen_loop_catalog (E : Env) (ncid : Int) (ids : List Int) :
    ∀ e ∈ (dimlen_loop E ncid ids).2.2, e.isCatalog = true := by
  induction ids with
  | nil => simp [dimlen_loop]
  | cons d ds ih =>
    simp only [dimlen_loop]
    split_ifs
    · simp [Event.isCatalog]
    · intro e he
      rcases List.mem_cons.mp he with h | h
      · rw [h]; rfl
      · exact ih e h

theorem catalog_no_msg (t : List Event) (h : ∀ e ∈ t, e.isCatalog = true) :
    t.filter Event.isAsyncMsg = [] := by
  rw [List.filter_eq_nil_iff]
  intro e he
  rw [isCatalog_not_msg e (h e he)]
  exact Bool.false_ne_true

theorem helper_lookups_catalog (E : Env) (ncid varid : Int) (a b : Int) (ids : List Int) :
    ∀ e ∈ [Event.catalog (.inq_varndims ncid varid) a] ++
        [Event.catalog (.inq_vardimid ncid varid) b] ++ (dimlen_loop E ncid ids).2.2,
      e.isCatalog = true := by
  intro e he
  rcases List.mem_append.mp he with h1 | h1
  · rcases List.mem_append.mp h1 with h2 | h2
    · rw [List.mem_singleton.mp h2]; rfl
    · rw [List.mem_singleton.mp h2]; rfl
  · exact dimlen_loop_catalog E ncid ids e h1

theorem helper_msgs_get (K : Consts) (E : Env) (ncid varid xtype : Int) (buf : Option Buf)
    (hopen : (E.pio_get_file ncid).1 = 0) :
    (PIOc_get_var_tc K E ncid varid xtype buf).trace.filter Event.isAsyncMsg = [] ∨
      ∃ st cnt, (PIOc_get_var_tc K E ncid varid xtype buf).trace.filter Event.isAsyncMsg
        = (PIOc_get_vars_tc K E ncid varid st cnt none xtype buf).trace.filter
            Event.isAsyncMsg := by
  have hc := helper_lookups_catalog E ncid varid (E.inq_varndims ncid varid).1
    (E.inq_vardimid ncid varid).1
    (dimids_read (E.inq_vardimid ncid varid).2 (E.inq_varndims ncid varid).2)
  by_cases hnd : (E.inq_varndims ncid varid).1 = 0
  swap
  · left; simp [PIOc_get_var_tc, hopen, hnd, Event.isAsyncMsg]
  by_cases h0 : (E.inq_varndims ncid varid).2 = 0
  · right
    refine ⟨none, none, ?_⟩
    simp only [PIOc_get_var_tc, hopen, hnd, h0, ne_eq, not_true_eq_false, if_false]
    exact preceded_by_msgs _ _ (by simp [Event.isCatalog])
  by_cases hd : (E.inq_vardimid ncid varid).1 = 0
  swap
  · left; simp [PIOc_get_var_tc, hopen, hnd, h0, hd, Event.isAsyncMsg]
  by_cases hl : (dimlen_loop E ncid
      (dimids_read (E.inq_vardimid ncid varid).2 (E.inq_varndims ncid varid).2)).1 = 0
  · right
    rw [hnd, hd] at hc
    refine ⟨some (List.replicate (E.inq_varndims ncid varid).2.toNat 0),
      some (dimlen_loop E ncid (dimids_read (E.inq_vardimid ncid varid).2
        (E.inq_varndims ncid varid).2)).2.1, ?_⟩
    simp only [PIOc_get_var_tc, hopen, hnd, h0, hd, hl, ne_eq, not_true_eq_false, if_false,
      not_false_eq_true, if_true]
    exact preceded_by_msgs _ _ hc
  · left
    rw [hnd, hd] at hc
    simp only [PIOc_get_var_tc, hopen, hnd, h0, hd, hl, ne_eq, not_true_eq_false, if_false,
      not_false_eq_true, if_true]
    exact catalog_no_msg _ hc

theorem helper_msgs_put (K : Consts) (E : Env) (ncid varid xtype : Int) (buf : Option Buf)
    (hopen : (E.pio_get_file ncid).1 = 0) :
    (PIOc_put_var_tc K E ncid varid xtype buf).trace.filter Event.isAsyncMsg = [] ∨
      ∃ st cnt, (PIOc_put_var_tc K E ncid varid xtype buf).trace.filter Event.isAsyncMsg
        = (PIOc_put_vars_tc K E ncid varid st cnt none xtype buf).trace.filter
            Event.isAsyncMsg := by
  have hc := helper_lookups_catalog E ncid varid (E.inq_varndims ncid varid).1
    (E.inq_vardimid ncid varid).1
    (dimids_read (E.inq_vardimid ncid varid).2 (E.inq_varndims ncid varid).2)
  by_cases hnd : (E.inq_varndims ncid varid).1 = 0
  swap
  · left; simp [PIOc_put_var_tc, hopen, hnd, Event.isAsyncMsg]
  by_cases h0 : (E.inq_varndims ncid varid).2 = 0
  · right
    refine ⟨none, none, ?_⟩
    simp only [PIOc_put_var_tc, hopen, hnd, h0, ne_eq, not_true_eq_false, if_false]
    exact preceded_by_msgs _ _ (by simp [Event.isCatalog])
  by_cases hd : (E.inq_vardimid ncid varid).1 = 0
  swap
  · left; simp [PIOc_put_var_tc, hopen, hnd, h0, hd, Event.isAsyncMsg, PIO_NOERR]
  by_cases hl : (dimlen_loop E ncid
      (dimids_read (E.inq_vardimid ncid varid).2 (E.inq_varndims ncid varid).2)).1 = 0
  · right
    rw [hnd, hd] at hc
    refine ⟨some (List.replicate (E.inq_varndims ncid varid).2.toNat 0),
      some (dimlen_loop E ncid (dimids_read (E.inq_vardimid ncid varid).2
        (E.inq_varndims ncid varid).2)).2.1, ?_⟩
    simp only [PIOc_put_var_tc, hopen, hnd, h0, hd, hl, ne_eq, not_true_eq_false, if_false,
      not_false_eq_true, if_true, PIO_NOERR]
    exact preceded_by_msgs _ _ hc
  · left
    rw [hnd, hd] at hc
    simp only [PIOc_put_var_tc, hopen, hnd, h0, hd, hl, ne_eq, not_true_eq_false, if_false,
      not_false_eq_true, if_true, PIO_NOERR]
    exact catalog_no_msg _ hc

theorem geom_msg_carries (arr : Option (List Int)) (ndims : Int) :
    (geom_msg arr (geom_sz ndims)).carries arr ndims := by
  cases arr <;> simp [GeomMsg.carries, geom_msg, geom_sz]

/-! ### The order of the broadcasts -/

theorem bcast_order_append (s t : List Event) :
    bcast_order (s ++ t) = bcast_order s ++ bcast_order t := by
  simp [bcast_order, List.filterMap_append]

theorem bcast_order_nil_of (s : List Event) (h : ∀ e ∈ s, e.isBcast = false) :
    bcast_order s = [] := by
  simp only [bcast_order, List.filterMap_eq_nil_iff]
  intro e he
  have := h e he
  cases e <;> simp_all [Event.bcastOf, Event.isBcast]

theorem bcast_order_of_extends {q : Event → Bool} (hq : ∀ e, q e = true → e.isBcast = false)
    {t0 t : List Event} (h : extends_by q t0 t) : bcast_order t = bcast_order t0 := by
  obtain ⟨s, hs, hs2⟩ := h
  rw [hs, bcast_order_append, bcast_order_nil_of s fun e he => hq e (hs2 e he),
    List.append_nil]

theorem Flow.bcasts_bind {c : Ctx} {f : Flow} {k : Ctx → Flow}
    {l1 l2 : List (BcastItem × Int)}
    (hf : f.bcasts c l1) (hk : ∀ c1, c1.file = c.file → (k c1).bcasts c1 l2) :
    (f.bind k).bcasts c (l1 ++ l2) := by
  cases f with
  | done r =>
    obtain ⟨h1, l, h2, h3⟩ := hf
    exact ⟨h1, l, h2, h3.trans (List.prefix_append _ _)⟩
  | next c1 =>
    obtain ⟨h1, h2⟩ := hf
    have hk1 := hk c1 h1
    simp only [Flow.bind]
    cases hkc : k c1 with
    | done r =>
      rw [hkc] at hk1
      obtain ⟨g1, l, g2, g3⟩ := hk1
      refine ⟨by rw [g1, h1], l1 ++ l, ?_, (List.prefix_append_right_inj l1).mpr g3⟩
      rw [g2, h2, List.append_assoc]
    | next c2 =>
      rw [hkc] at hk1
      obtain ⟨g1, g2⟩ := hk1
      refine ⟨by rw [g1, h1], ?_⟩
      rw [g2, h2, List.append_assoc]

/-- A block that adds no broadcast and keeps the file. -/
theorem Flow.bcasts_of_adds {q : Event → Bool} (hq : ∀ e, q e = true → e.isBcast = false)
    {c : Ctx} {f : Flow} (h : f.adds q c) (hfile : f.keeps_file c) : f.bcasts c [] := by
  cases f with
  | done r => exact ⟨hfile, [], by rw [bcast_order_of_extends hq h, List.append_nil],
      List.prefix_rfl⟩
  | next c1 => exact ⟨hfile, by rw [bcast_order_of_extends hq h, List.append_nil]⟩

theorem bcast_checked_bcasts (E : Env) (item : BcastItem) (get : Locals → Int)
    (set : Locals → Int → Locals) (c : Ctx) :
    (bcast_checked E item get set c).bcasts c [(item, c.file.iosystem.comproot)] := by
  simp only [bcast_checked, bcast_unchecked]
  split_ifs
  · exact ⟨rfl, [(item, c.file.iosystem.comproot)],
      by simp [Ctx.exit, Ctx.emit, bcast_order_append, bcast_order, Event.bcastOf],
      List.prefix_rfl⟩
  · exact ⟨rfl, by simp [Ctx.emit, bcast_order_append, bcast_order, Event.bcastOf]⟩

theorem isBackend_not_bcast (e : Event) (h : e.isBackend = true) : e.isBcast = false := by
  cases e <;> simp_all [Event.isBackend, Event.isBcast]

theorem isCatalog_not_bcast (e : Event) (h : e.isCatalog = true) : e.isBcast = false := by
  cases e <;> simp_all [Event.isCatalog, Event.isBcast]

theorem get_att_async_bcasts (K : Consts) (E : Env) (ncid varid : Int) (name : CString)
    (memtype : Int) (c : Ctx) :
    (get_att_async K E ncid varid name memtype c).bcasts c
      (if c.file.iosystem.async then get_att_meta c.file.iosystem.comproot else []) := by
  simp only [get_att_async]
  split_ifs with h1 h2
  · exact ⟨rfl, [], by simp [Ctx.exit, Ctx.emit, bcast_order_append, bcast_order,
      Event.bcastOf], List.nil_prefix⟩
  · have hb := Flow.bcasts_bind (Flow.bcasts_bind
      (bcast_checked_bcasts E .attlen (·.attlen) (fun l v => { l with attlen := v })
        { c.emit (.async_msg (Envelope.get_att K.PIO_MSG_GET_ATT ncid varid (name.length + 1)
            name c.file.iotype c.loc.atttype c.loc.attlen c.loc.atttype_len memtype
            c.loc.memtype_len) (E.send_async_msg (Envelope.get_att K.PIO_MSG_GET_ATT ncid varid
            (name.length + 1) name c.file.iotype c.loc.atttype c.loc.attlen c.loc.atttype_len
            memtype c.loc.memtype_len))) with
          ierr := E.send_async_msg (Envelope.get_att K.PIO_MSG_GET_ATT ncid varid
            (name.length + 1) name c.file.iotype c.loc.atttype c.loc.attlen c.loc.atttype_len
            memtype c.loc.memtype_len) })
      (fun c1 hc1 => by
        have := bcast_checked_bcasts E .atttype_len (·.atttype_len)
          (fun l v => { l with atttype_len := v }) c1
        rw [hc1] at this
        exact this))
      (fun c1 hc1 => by
        have := bcast_checked_bcasts E .memtype_len (·.memtype_len)
          (fun l v => { l with memtype_len := v }) c1
        rw [hc1] at this
        exact this)
    cases hres : ((bcast_checked E BcastItem.attlen (fun x => x.attlen)
        (fun l v => { l with attlen := v }) _).bind _).bind _ with
    | done r =>
      rw [hres] at hb
      obtain ⟨g1, l, g2, g3⟩ := hb
      refine ⟨g1, l, ?_, g3⟩
      rw [g2]
      simp [Ctx.emit, bcast_order_append, bcast_order, Event.bcastOf]
    | next c2 =>
      rw [hres] at hb
      obtain ⟨g1, g2⟩ := hb
      refine ⟨g1, ?_⟩
      rw [g2]
      simp [Ctx.emit, bcast_order_append, bcast_order, Event.bcastOf, get_att_meta]
  · exact ⟨rfl, by simp⟩

theorem get_vars_async_bcasts (K : Consts) (E : Env) (ncid varid : Int)
    (start count stride : Option (List Int)) (c : Ctx) :
    (get_vars_async K E ncid varid start count stride c).bcasts c
      (if c.file.iosystem.async then get_vars_meta c.file.iosystem.comproot else []) := by
  simp only [get_vars_async]
  split_ifs with h1 h2
  · exact ⟨rfl, [], by simp [Ctx.exit, Ctx.emit, bcast_order_append, bcast_order,
      Event.bcastOf], List.nil_prefix⟩
  · exact ⟨rfl, by simp [bcast_unchecked, Ctx.emit, bcast_order_append, bcast_order,
      Event.bcastOf, get_vars_meta]⟩
  · exact ⟨rfl, by simp⟩

theorem get_att_io_backend (K : Consts) (E : Env) (varid : Int) (name : CString)
    (memtype : Int) (c : Ctx) :
    (get_att_io K E varid name memtype c).adds Event.isBackend c := by
  have h1 : ∀ c, (get_att_pnetcdf K E varid name memtype c).adds Event.isBackend c := by
    intro c
    simp only [get_att_pnetcdf]
    split_ifs <;> simp [Flow.adds, extends_by, Ctx.exit, Ctx.emit, Event.isBackend]
  have h2 : ∀ c, (get_att_netcdf K E varid name memtype c).adds Event.isBackend c := by
    intro c
    simp only [get_att_netcdf]
    split_ifs <;> simp [Flow.adds, extends_by, Ctx.exit, Ctx.emit, Event.isBackend]
  simp only [get_att_io]
  split_ifs
  · exact Flow.adds_bind (h1 c) h2
  · exact extends_by_refl _ _

theorem get_vars_io_backend (K : Consts) (E : Env) (varid : Int)
    (start count stride : Option (List Int)) (c : Ctx) :
    (get_vars_io K E varid start count stride c).adds Event.isBackend c := by
  have h1 : ∀ c, (get_vars_pnetcdf K E varid start count stride c).adds Event.isBackend c := by
    intro c
    simp only [get_vars_pnetcdf]
    split_ifs <;> simp [Flow.adds, Flow.bind, extends_by, Ctx.exit, Ctx.emit,
      Event.isBackend] <;> split_ifs <;>
      simp [Flow.adds, Flow.bind, extends_by, Ctx.exit, Ctx.emit, Event.isBackend]
  have h2 : ∀ c, (get_vars_netcdf K E varid start count stride c).adds Event.isBackend c := by
    intro c
    simp only [get_vars_netcdf]
    split_ifs <;> simp [Flow.adds, extends_by, Ctx.exit, Ctx.emit, Event.isBackend]
  simp only [get_vars_io]
  split_ifs
  · exact Flow.adds_bind (h1 c) h2
  · exact extends_by_refl _ _

/-- A resolving step makes no broadcast. -/
theorem Flow.bcasts_of_resolved {c : Ctx} {f : Flow} (hc : c.trace = [])
    (h : f.resolved c) : f.bcasts c [] := by
  cases f with
  | done r =>
    obtain ⟨h1, h2, -⟩ := h
    refine ⟨h1, [], ?_, List.prefix_rfl⟩
    rw [hc, bcast_order_nil_of r.trace fun e he => isCatalog_not_bcast e (h2 e he)]
    rfl
  | next c1 =>
    obtain ⟨h1, h2⟩ := h
    refine ⟨h1, ?_⟩
    rw [hc, bcast_order_nil_of c1.trace fun e he =>
      isCatalog_not_bcast e (isLookupOk_isCatalog e (h2 e he))]
    rfl

theorem get_att_resolved_bcasts (K : Consts) (E : Env) (ncid varid : Int) (name : CString)
    (memtype : Int) (ip : Option Buf) :
    (get_att_resolved K E ncid varid name memtype ip).bcasts
      (Ctx.start E (E.pio_get_file ncid).2 memtype ip) [] := by
  simp only [get_att_resolved]
  split_ifs
  · exact Flow.bcasts_of_resolved rfl (get_att_resolve_resolved K E ncid varid name memtype _ rfl)
  · exact Flow.bcasts_of_resolved rfl (skip_resolved _ rfl)

theorem get_vars_resolved_bcasts (K : Consts) (E : Env) (ncid varid : Int)
    (start count : Option (List Int)) (xtype : Int) (buf : Option Buf) :
    (get_vars_resolved K E ncid varid start count xtype buf).bcasts
      (Ctx.start E (E.pio_get_file ncid).2 xtype buf) [] := by
  simp only [get_vars_resolved]
  split_ifs
  · exact Flow.bcasts_of_resolved rfl
      (get_vars_resolve_resolved K E ncid varid start count _ rfl)
  · exact Flow.bcasts_of_resolved rfl (skip_resolved _ rfl)

theorem get_att_body_bcasts (K : Consts) (E : Env) (ncid varid : Int) (name : CString)
    (memtype : Int) (ip : Option Buf) :
    (get_att_body K E ncid varid name memtype ip).bcasts
      (Ctx.start E (E.pio_get_file ncid).2 memtype ip)
      (if (E.pio_get_file ncid).2.iosystem.async then
        get_att_meta (E.pio_get_file ncid).2.iosystem.comproot else []) := by
  rw [get_att_body_eq]
  have h := Flow.bcasts_bind (Flow.bcasts_bind
    (get_att_resolved_bcasts K E ncid varid name memtype ip)
    (fun c1 hc1 => by
      have := get_att_async_bcasts K E ncid varid name memtype c1
      rw [hc1] at this
      exact this))
    (fun c1 _ => Flow.bcasts_of_adds isBackend_not_bcast
      (get_att_io_backend K E varid name memtype c1)
      (get_att_io_adds K E varid name memtype c1).2)
  simpa [Ctx.start] using h

theorem get_vars_body_bcasts (K : Consts) (E : Env) (ncid varid : Int)
    (start count stride : Option (List Int)) (xtype : Int) (buf : Option Buf) :
    (get_vars_body K E ncid varid start count stride xtype buf).bcasts
      (Ctx.start E (E.pio_get_file ncid).2 xtype buf)
      (if (E.pio_get_file ncid).2.iosystem.async then
        get_vars_meta (E.pio_get_file ncid).2.iosystem.comproot else []) := by
  rw [get_vars_body_eq]
  have h := Flow.bcasts_bind (Flow.bcasts_bind
    (get_vars_resolved_bcasts K E ncid varid start count xtype buf)
    (fun c1 hc1 => by
      have := get_vars_async_bcasts K E ncid varid start count stride c1
      rw [hc1] at this
      exact this))
    (fun c1 _ => Flow.bcasts_of_adds isBackend_not_bcast
      (get_vars_io_backend K E varid start count stride c1)
      (get_vars_io_adds K E varid start count stride c1).2)
  simpa [Ctx.start] using h

theorem mem_bcast_order {t : List Event} {item : BcastItem} {n root code : Int}
    (h : Event.bcast item n root code ∈ t) : (item, root) ∈ bcast_order t := by
  simp only [bcast_order, List.mem_filterMap]
  exact ⟨_, h, rfl⟩

/-- The closing lines of a get function after a body that made the metadata broadcasts
`full`: the payload broadcast, when it is made, is rooted at the I/O root, follows all
of `full` and is the last event. -/
theorem closing_order (E : Env) (c0 : Ctx) (body : Flow) (full : List (BcastItem × Int))
    (cnt : Ctx → Int) (hc0 : c0.trace = []) (hb : body.bcasts c0 full)
    (hfull : ∀ x ∈ full, x.1 ≠ BcastItem.payload) :
    bcast_order (body.finish fun c1 => check_and_bcast E (cnt c1) c1).trace
        <+: full ++ [(.payload, c0.file.iosystem.ioroot)] ∧
    ∀ n root code, Event.bcast .payload n root code
        ∈ (body.finish fun c1 => check_and_bcast E (cnt c1) c1).trace →
      root = c0.file.iosystem.ioroot ∧
      bcast_order (body.finish fun c1 => check_and_bcast E (cnt c1) c1).trace
        = full ++ [(.payload, c0.file.iosystem.ioroot)] ∧
      (body.finish fun c1 => check_and_bcast E (cnt c1) c1).trace.getLast?
        = some (.bcast .payload n root code) := by
  have hnil : bcast_order c0.trace = [] := by rw [hc0]; rfl
  cases body with
  | done r =>
    obtain ⟨-, l, h2, h3⟩ := hb
    rw [hnil, List.nil_append] at h2
    simp only [Flow.finish]
    refine ⟨by rw [h2]; exact h3.trans (List.prefix_append _ _), fun n root code hmem => ?_⟩
    have := mem_bcast_order hmem
    rw [h2] at this
    exact absurd rfl (hfull _ (h3.subset this))
  | next c1 =>
    obtain ⟨h1, h2⟩ := hb
    rw [hnil, List.nil_append] at h2
    have hno : ∀ n root code, Event.bcast .payload n root code ∉ c1.trace := by
      intro n root code hmem
      have := mem_bcast_order hmem
      rw [h2] at this
      exact absurd rfl (hfull _ this)
    simp only [Flow.finish]
    by_cases hcheck : E.check_netcdf c1.ierr = PIO_NOERR
    · rw [check_and_bcast_ok E _ c1 hcheck]
      have hord : bcast_order (c1.trace ++ [Event.check_netcdf c1.ierr,
          Event.bcast .payload (cnt c1) c1.file.iosystem.ioroot (E.mpi_bcast .payload)])
          = full ++ [(.payload, c0.file.iosystem.ioroot)] := by
        rw [bcast_order_append, h2, h1]
        rfl
      refine ⟨by rw [hord], fun n root code hmem => ?_⟩
      rcases List.mem_append.mp hmem with h | h
      · exact absurd h (hno n root code)
      · simp only [List.mem_cons, reduceCtorEq, List.mem_singleton, Event.bcast.injEq,
          true_and, false_or, List.not_mem_nil, or_false] at h
        obtain ⟨hn, hr, hcode⟩ := h
        refine ⟨by rw [hr, h1], hord, ?_⟩
        rw [hn, hr, hcode]
        simp
    · rw [check_and_bcast_err E _ c1 hcheck]
      have hord : bcast_order (c1.trace ++ [Event.check_netcdf c1.ierr]) = full := by
        rw [bcast_order_append, h2]
        exact List.append_nil _
      refine ⟨by rw [hord]; exact List.prefix_append _ _, fun n root code hmem => ?_⟩
      rcases List.mem_append.mp hmem with h | h
      · exact absurd h (hno n root code)
      · simp at h

/-! ### Which rank looks up, which rank calls the storage library -/

theorem Flow.mem_bind {p : Event → Bool} {f : Flow} {k : Ctx → Flow} {e : Event}
    (hk : ∀ c1, (k c1).adds p c1) (he : e ∈ f.trace) : e ∈ (f.bind k).trace := by
  cases f with
  | done r => exact he
  | next c1 =>
    obtain ⟨s, hs, -⟩ := Flow.adds_trace (hk c1)
    simp only [Flow.bind]
    rw [hs]
    exact List.mem_append_left _ he

theorem Flow.mem_finish {p : Event → Bool} {f : Flow} {k : Ctx → Res} {e : Event}
    (hk : ∀ c1, extends_by p c1.trace (k c1).trace) (he : e ∈ f.trace) :
    e ∈ (f.finish k).trace := by
  cases f with
  | done r => exact he
  | next c1 =>
    obtain ⟨s, hs, -⟩ := hk c1
    simp only [Flow.finish]
    rw [hs]
    exact List.mem_append_left _ he

theorem Flow.adds_of_resolved {c : Ctx} {f : Flow} (hc : c.trace = []) (h : f.resolved c) :
    f.adds Event.isCatalog c := by
  cases f with
  | done r => exact ⟨r.trace, by rw [hc]; rfl, h.2.1⟩
  | next c1 => exact ⟨c1.trace, by rw [hc]; rfl, fun e he => isLookupOk_isCatalog e (h.2 e he)⟩

theorem Flow.keeps_file_of_resolved {c : Ctx} {f : Flow} (h : f.resolved c) :
    f.keeps_file c := by
  cases f with
  | done r => exact h.1
  | next c1 => exact h.1

theorem isMessaging_not_catalog (e : Event) (h : e.isMessaging = true) :
    e.isCatalog = false := by
  cases e <;> simp_all [Event.isMessaging, Event.isAsyncMsg, Event.isBcast, Event.isCatalog]

theorem isLate_not_catalog (e : Event) (h : e.isLate = true) : e.isCatalog = false := by
  cases e <;> simp_all [Event.isLate, Event.isBackend, Event.isFlush, Event.isCheck,
    Event.isBcast, Event.isCatalog]

theorem isCatalog_notBackend (e : Event) (h : e.isCatalog = true) : e.notBackend = true := by
  cases e <;> simp_all [Event.isCatalog, Event.notBackend, Event.isBackend]

theorem isMessaging_notBackend (e : Event) (h : e.isMessaging = true) :
    e.notBackend = true := by
  cases e <;> simp_all [Event.isMessaging, Event.isAsyncMsg, Event.isBcast, Event.notBackend,
    Event.isBackend]

theorem check_and_return_notBackend (E : Env) (c : Ctx) :
    extends_by Event.notBackend c.trace (check_and_return E c).trace := by
  rw [check_and_return_eq]
  exact ⟨_, rfl, by simp [Event.notBackend, Event.isBackend]⟩

theorem check_and_bcast_notBackend (E : Env) (count : Int) (c : Ctx) :
    extends_by Event.notBackend c.trace (check_and_bcast E count c).trace := by
  simp only [check_and_bcast]
  split_ifs <;> simp [extends_by, Ctx.exit, Ctx.emit, Event.notBackend, Event.isBackend]

theorem no_backend_of_extends {t : List Event} (h : extends_by Event.notBackend [] t) :
    ∀ e ∈ t, e.isBackend = false := by
  obtain ⟨s, hs, hs2⟩ := h
  rw [hs, List.nil_append]
  intro e he
  have := hs2 e he
  simpa [Event.notBackend] using this

theorem no_catalog_of_extends {q : Event → Bool} (hq : ∀ e, q e = true → e.isCatalog = false)
    {t : List Event} (h : extends_by q [] t) : ∀ e ∈ t, e.isCatalog = false := by
  obtain ⟨s, hs, hs2⟩ := h
  rw [hs, List.nil_append]
  exact fun e he => hq e (hs2 e he)

/-- The four resolving blocks start with a lookup. -/
theorem put_att_resolve_first (K : Consts) (E : Env) (ncid atttype memtype : Int) (c : Ctx) :
    ∃ e ∈ (put_att_resolve K E ncid atttype memtype c).trace, e.isCatalog = true := by
  refine ⟨.catalog (.inq_type ncid atttype) (E.inq_type ncid atttype).1, ?_, rfl⟩
  simp only [put_att_resolve]
  split_ifs <;> simp [Flow.trace, Ctx.exit, Ctx.emit]

theorem get_att_resolve_first (K : Consts) (E : Env) (ncid varid : Int) (name : CString)
    (memtype : Int) (c : Ctx) :
    ∃ e ∈ (get_att_resolve K E ncid varid name memtype c).trace, e.isCatalog = true := by
  refine ⟨.catalog (.inq_att ncid varid name) (E.inq_att ncid varid name).1, ?_, rfl⟩
  simp only [get_att_resolve]
  split_ifs <;> simp [Flow.trace, Ctx.exit, Ctx.emit]

theorem get_vars_resolve_first (K : Consts) (E : Env) (ncid varid : Int)
    (start count : Option (List Int)) (c : Ctx) :
    ∃ e ∈ (get_vars_resolve K E ncid varid start count c).trace, e.isCatalog = true := by
  refine ⟨.catalog (.inq_vartype ncid varid) (E.inq_vartype ncid varid).1, ?_, rfl⟩
  simp only [get_vars_resolve]
  split_ifs <;> simp [Flow.trace, Flow.bind, Ctx.exit, Ctx.abort, Ctx.emit]

theorem put_vars_resolve_first (K : Consts) (E : Env) (ncid varid : Int)
    (count : Option (List Int)) (c : Ctx) :
    ∃ e ∈ (put_vars_resolve K E ncid varid count c).trace, e.isCatalog = true := by
  refine ⟨.catalog (.inq_vartype ncid varid) (E.inq_vartype ncid varid).1, ?_, rfl⟩
  simp only [put_vars_resolve]
  cases count <;>
  split_ifs <;> simp [Flow.trace, Flow.bind, Ctx.exit, Ctx.abort, Ctx.emit]

/-- Lookups are made exactly when the resolving block runs. -/
theorem lookups_iff_resolving {c0 : Ctx} (hc0 : c0.trace = []) (cond : Prop) [Decidable cond]
    (Rv : Flow) (A B : Ctx → Flow) (C : Ctx → Res)
    (hfirst : ∃ e ∈ Rv.trace, e.isCatalog = true)
    (hA : ∀ c, (A c).adds Event.isMessaging c) (hB : ∀ c, (B c).adds Event.isLate c)
    (hC : ∀ c, extends_by Event.isLate c.trace (C c).trace) :
    (∃ e ∈ ((((if cond then Rv else .next c0).bind A).bind B).finish C).trace,
      e.isCatalog = true) ↔ cond := by
  constructor
  · rintro ⟨e, he, hcat⟩
    by_contra hcond
    rw [if_neg hcond, Flow.next_bind] at he
    have h1 : extends_by Event.notCatalog c0.trace (((A c0).bind B).finish C).trace :=
      Flow.adds_finish (Flow.adds_bind
        (Flow.adds_mono isMessaging_notCatalog (hA c0))
        fun c1 => Flow.adds_mono isLate_notCatalog (hB c1))
        fun c1 => extends_by_mono isLate_notCatalog (hC c1)
    rw [hc0] at h1
    obtain ⟨s, hs, hs2⟩ := h1
    rw [hs, List.nil_append] at he
    have := hs2 e he
    simp [Event.notCatalog, hcat] at this
  · intro hcond
    obtain ⟨e, he, hcat⟩ := hfirst
    rw [if_pos hcond]
    exact ⟨e, Flow.mem_finish hC (Flow.mem_bind hB (Flow.mem_bind hA he)), hcat⟩

/-- A storage call is made only when the I/O block does not fall through at once. -/
theorem backend_only_if {c0 : Ctx} (hc0 : c0.trace = []) (Rf : Flow) (A B : Ctx → Flow)
    (C : Ctx → Res) (may : Prop)
    (hR : Rf.resolved c0)
    (hA : ∀ c, (A c).adds Event.isMessaging c ∧ (A c).keeps_file c)
    (hC : ∀ c, extends_by Event.notBackend c.trace (C c).trace)
    (hskip : ¬ may → ∀ c, c.file = c0.file → B c = .next c) :
    (∃ e ∈ (((Rf.bind A).bind B).finish C).trace, e.isBackend = true) → may := by
  rintro ⟨e, he, hb⟩
  by_contra hmay
  have h1 : (Rf.bind A).adds Event.notBackend c0 :=
    Flow.adds_bind (Flow.adds_mono isCatalog_notBackend (Flow.adds_of_resolved hc0 hR))
      fun c1 => Flow.adds_mono isMessaging_notBackend (hA c1).1
  have h2 : (Rf.bind A).keeps_file c0 :=
    Flow.keeps_file_bind (Flow.keeps_file_of_resolved hR) fun c1 => (hA c1).2
  have h3 : ((Rf.bind A).bind B).adds Event.notBackend c0 := by
    refine Flow.adds_bind_of h1 fun c1 hc1 => ?_
    rw [hc1] at h2
    rw [hskip hmay c1 h2]
    exact extends_by_refl _ _
  have h4 := Flow.adds_finish h3 hC
  rw [hc0] at h4
  have := no_backend_of_extends h4 e he
  rw [hb] at this
  exact Bool.noConfusion this

theorem put_att_resolved_resolved (K : Consts) (E : Env) (ncid atttype memtype : Int)
    (op : Option Buf) :
    (put_att_resolved K E ncid atttype memtype op).resolved
      (Ctx.start E (E.pio_get_file ncid).2 memtype op) := by
  simp only [put_att_resolved]
  split_ifs
  · exact put_att_resolve_resolved K E ncid atttype memtype _ rfl
  · exact skip_resolved _ rfl

theorem get_att_resolved_resolved (K : Consts) (E : Env) (ncid varid : Int) (name : CString)
    (memtype : Int) (ip : Option Buf) :
    (get_att_resolved K E ncid varid name memtype ip).resolved
      (Ctx.start E (E.pio_get_file ncid).2 memtype ip) := by
  simp only [get_att_resolved]
  split_ifs
  · exact get_att_resolve_resolved K E ncid varid name memtype _ rfl
  · exact skip_resolved _ rfl

theorem get_vars_resolved_resolved (K : Consts) (E : Env) (ncid varid : Int)
    (start count : Option (List Int)) (xtype : Int) (buf : Option Buf) :
    (get_vars_resolved K E ncid varid start count xtype buf).resolved
      (Ctx.start E (E.pio_get_file ncid).2 xtype buf) := by
  simp only [get_vars_resolved]
  split_ifs
  · exact get_vars_resolve_resolved K E ncid varid start count _ rfl
  · exact skip_resolved _ rfl

theorem put_vars_resolved_resolved (K : Consts) (E : Env) (ncid varid : Int)
    (count : Option (List Int)) (xtype : Int) (buf : Option Buf) :
    (put_vars_resolved K E ncid varid count xtype buf).resolved
      (Ctx.start E (E.pio_get_file ncid).2 xtype buf) := by
  simp only [put_vars_resolved]
  split_ifs
  · exact put_vars_resolve_resolved K E ncid varid count _ rfl
  · exact skip_resolved _ rfl

theorem put_att_io_skip (K : Consts) (E : Env) (varid : Int) (name : CString)
    (atttype len memtype : Int) (op : Buf) (c : Ctx)
    (h : ¬ (c.file.iosystem.ioproc = true ∧ (c.file.iotype ≠ K.PIO_IOTYPE_PNETCDF →
      c.file.iotype ≠ K.PIO_IOTYPE_ADIOS → c.file.do_io = true))) :
    put_att_io K E varid name atttype len memtype op c = .next c := by
  by_cases hio : c.file.iosystem.ioproc = true
  · have h2 : ¬ (c.file.iotype ≠ K.PIO_IOTYPE_PNETCDF →
        c.file.iotype ≠ K.PIO_IOTYPE_ADIOS → c.file.do_io = true) := fun hh => h ⟨hio, hh⟩
    push_neg at h2
    obtain ⟨h3, h4, h5⟩ := h2
    simp [put_att_io, put_att_pnetcdf, put_att_adios, put_att_netcdf, Flow.bind, hio, h3, h4, h5]
  · simp [put_att_io, hio]

theorem put_vars_io_skip (K : Consts) (E : Env) (varid : Int)
    (start count stride : Option (List Int)) (buf : Buf) (c : Ctx)
    (h : ¬ (c.file.iosystem.ioproc = true ∧ (c.file.iotype ≠ K.PIO_IOTYPE_PNETCDF →
      c.file.iotype ≠ K.PIO_IOTYPE_ADIOS → c.file.do_io = true))) :
    put_vars_io K E varid start count stride buf c = .next c := by
  by_cases hio : c.file.iosystem.ioproc = true
  · have h2 : ¬ (c.file.iotype ≠ K.PIO_IOTYPE_PNETCDF →
        c.file.iotype ≠ K.PIO_IOTYPE_ADIOS → c.file.do_io = true) := fun hh => h ⟨hio, hh⟩
    push_neg at h2
    obtain ⟨h3, h4, h5⟩ := h2
    simp [put_vars_io, put_vars_pnetcdf, put_vars_adios, put_vars_netcdf, Flow.bind, hio, h3,
      h4, h5]
  · simp [put_vars_io, hio]

theorem get_att_io_skip (K : Consts) (E : Env) (varid : Int) (name : CString)
    (memtype : Int) (c : Ctx)
    (h : ¬ (c.file.iosystem.ioproc = true ∧ (c.file.iotype ≠ K.PIO_IOTYPE_PNETCDF →
      c.file.do_io = true))) :
    get_att_io K E varid name memtype c = .next c := by
  by_cases hio : c.file.iosystem.ioproc = true
  · have h2 : ¬ (c.file.iotype ≠ K.PIO_IOTYPE_PNETCDF → c.file.do_io = true) :=
      fun hh => h ⟨hio, hh⟩
    push_neg at h2
    obtain ⟨h3, h5⟩ := h2
    simp [get_att_io, get_att_pnetcdf, get_att_netcdf, Flow.bind, hio, h3, h5]
  · simp [get_att_io, hio]

theorem get_vars_io_skip (K : Consts) (E : Env) (varid : Int)
    (start count stride : Option (List Int)) (c : Ctx)
    (h : ¬ (c.file.iosystem.ioproc = true ∧ (c.file.iotype ≠ K.PIO_IOTYPE_PNETCDF →
      c.file.do_io = true))) :
    get_vars_io K E varid start count stride c = .next c := by
  by_cases hio : c.file.iosystem.ioproc = true
  · have h2 : ¬ (c.file.iotype ≠ K.PIO_IOTYPE_PNETCDF → c.file.do_io = true) :=
      fun hh => h ⟨hio, hh⟩
    push_neg at h2
    obtain ⟨h3, h5⟩ := h2
    simp [get_vars_io, get_vars_pnetcdf, get_vars_netcdf, Flow.bind, hio, h3, h5]
  · simp [get_vars_io, hio]

/-! ### What an I/O rank receives in `PIOc_put_vars_tc` -/

theorem bcast_checked_next (E : Env) (item : BcastItem) (get : Locals → Int)
    (set : Locals → Int → Locals) (c c1 : Ctx)
    (h : bcast_checked E item get set c = .next c1) :
    c1 = bcast_unchecked E item get set c := by
  simp only [bcast_checked] at h
  split_ifs at h
  simp only [Flow.next.injEq] at h
  exact h.symm

/-- The state in which an I/O rank of an asynchronous session reaches the I/O block of
`PIOc_put_vars_tc`: `ndims` and `xtype` are the broadcast values, the other locals are
as at the start, and no lookup has been made. -/
theorem put_vars_entry_io_rank (K : Consts) (E : Env) (ncid varid : Int)
    (start count stride : Option (List Int)) (xtype : Int) (buf : Option Buf) (c1 : Ctx)
    (hasync : (E.pio_get_file ncid).2.iosystem.async = true)
    (hio : (E.pio_get_file ncid).2.iosystem.ioproc = true)
    (h : put_vars_entry K E ncid varid start count stride xtype buf = .next c1) :
    c1.loc = { E.uninit with
      num_elem := 1
      ndims := bcast_value E .ndims E.uninit.ndims
      xtype := bcast_value E .xtype xtype } ∧
    ∀ e ∈ c1.trace, e.isCatalog = false := by
  simp only [put_vars_entry, hasync, hio, not_true_eq_false, or_self, if_false,
    Flow.next_bind, put_vars_async, Ctx.start, if_true] at h
  split_ifs at h
  obtain ⟨d1, hd1, hd2⟩ := Flow.bind_eq_next h
  have e1 := bcast_checked_next E _ _ _ _ _ hd1
  have e2 := bcast_checked_next E _ _ _ _ _ hd2
  subst e1
  subst e2
  constructor
  · simp [bcast_unchecked, Ctx.emit]
  · simp [bcast_unchecked, Ctx.emit, Event.isCatalog]

/-! ### The request tracker over a sequence of calls -/

theorem get_vdesc_set (f : file_desc_t) (varid v : Int) (x : var_desc_t) :
    get_vdesc (set_vdesc f varid x) v
      = if varid.toNat = v.toNat ∧ varid.toNat < f.varlist.length then x
        else get_vdesc f v := by
  simp only [get_vdesc, set_vdesc, List.getD_eq_getElem?_getD]
  by_cases h1 : varid.toNat = v.toNat
  · by_cases h2 : varid.toNat < f.varlist.length
    · rw [if_pos ⟨h1, h2⟩, ← h1, List.getElem?_set_self h2]
      rfl
    · rw [if_neg (fun h => h2 h.2), ← h1, List.getElem?_eq_none (by simp; omega),
        List.getElem?_eq_none (by omega)]
  · rw [if_neg (fun h => h1 h.1), List.getElem?_set_ne h1]

theorem append_request_file (E : Env) (varid : Int) (v : Int) (c : Ctx)
    (hflush : ∀ f, (E.flush_output_buffer f).2 = f.varlist) :
    (append_request E varid v c).file = store_request c.file varid v := by
  simp only [append_request, Ctx.emit, hflush]

theorem Flow.file_of_keeps {c : Ctx} {f : Flow} (h : f.keeps_file c) : f.file = c.file := by
  cases f <;> exact h

theorem Flow.file_bind_keeps (f : Flow) {k : Ctx → Flow} (hk : ∀ c1, (k c1).keeps_file c1) :
    (f.bind k).file = f.file := by
  cases f with
  | done r => rfl
  | next c1 => exact Flow.file_of_keeps (hk c1)

theorem put_vars_adios_keeps (K : Consts) (varid : Int)
    (start count stride : Option (List Int)) (buf : Buf) (c : Ctx) :
    (put_vars_adios K varid start count stride buf c).keeps_file c := by
  simp only [put_vars_adios]
  split_ifs <;> simp [Flow.keeps_file, Flow.bind, Ctx.exit, Ctx.abort, Ctx.emit]

theorem put_vars_netcdf_keeps (K : Consts) (E : Env) (varid : Int)
    (start count stride : Option (List Int)) (buf : Buf) (c : Ctx) :
    (put_vars_netcdf K E varid start count stride buf c).keeps_file c := by
  simp only [put_vars_netcdf]
  split_ifs <;> simp [Flow.keeps_file, Ctx.exit, Ctx.emit]

/-- The file descriptor the parallel-netCDF block ends with, when `realloc` succeeds
and the flush check leaves the trackers alone. -/
theorem put_vars_pnetcdf_file (K : Consts) (E : Env) (varid : Int)
    (start count stride : Option (List Int)) (buf : Buf) (c : Ctx)
    (hre : E.realloc_fails = false)
    (hflush : ∀ f, (E.flush_output_buffer f).2 = f.varlist) :
    (put_vars_pnetcdf K E varid start count stride buf c).file = c.file ∨
    (put_vars_pnetcdf K E varid start count stride buf c).file
      = set_vdesc c.file varid (grow_request K (get_vdesc c.file varid)) ∨
    ∃ v, (put_vars_pnetcdf K E varid start count stride buf c).file
      = store_request (set_vdesc c.file varid (grow_request K (get_vdesc c.file varid)))
          varid v := by
  simp only [put_vars_pnetcdf, hre, Bool.false_eq_true, and_false, if_false]
  split_ifs
  all_goals first
    | (left; rfl)
    | (right; left; rfl)
    | (right; right
       exact ⟨_, append_request_file E varid _ _ hflush⟩)

theorem Flow.file_finish (f : Flow) {k : Ctx → Res} (hk : ∀ c1, (k c1).file = c1.file) :
    (f.finish k).file = f.file := by
  cases f with
  | done r => rfl
  | next c1 => exact hk c1

theorem put_vars_entry_keeps (K : Consts) (E : Env) (ncid varid : Int)
    (start count stride : Option (List Int)) (xtype : Int) (buf : Option Buf) :
    (put_vars_entry K E ncid varid start count stride xtype buf).file
      = (E.pio_get_file ncid).2 := by
  rw [put_vars_entry_eq]
  exact Flow.file_of_keeps (c := Ctx.start E (E.pio_get_file ncid).2 xtype buf)
    (Flow.keeps_file_bind
      (Flow.keeps_file_of_resolved (put_vars_resolved_resolved K E ncid varid count xtype buf))
      fun c1 => (put_vars_async_adds K E ncid varid start count stride (buf.getD []) c1).2)

/-- The file descriptor after a `PIOc_put_vars_tc` call, when `realloc` succeeds and the
flush check leaves the trackers alone. -/
theorem put_vars_file (K : Consts) (E : Env) (ncid varid : Int)
    (start count stride : Option (List Int)) (xtype : Int) (buf : Option Buf)
    (hre : E.realloc_fails = false)
    (hflush : ∀ f, (E.flush_output_buffer f).2 = f.varlist) :
    (PIOc_put_vars_tc K E ncid varid start count stride xtype buf).file
        = (E.pio_get_file ncid).2 ∨
    (PIOc_put_vars_tc K E ncid varid start count stride xtype buf).file
        = set_vdesc (E.pio_get_file ncid).2 varid
            (grow_request K (get_vdesc (E.pio_get_file ncid).2 varid)) ∨
    ∃ v, (PIOc_put_vars_tc K E ncid varid start count stride xtype buf).file
        = store_request (set_vdesc (E.pio_get_file ncid).2 varid
            (grow_request K (get_vdesc (E.pio_get_file ncid).2 varid))) varid v := by
  by_cases hopen : (E.pio_get_file ncid).1 = 0
  swap
  · left; simp [PIOc_put_vars_tc, hopen]
  cases buf with
  | none => left; simp [PIOc_put_vars_tc, hopen]
  | some data =>
    rw [PIOc_put_vars_tc_eq K E ncid varid start count stride xtype data hopen,
      Flow.file_finish _ (fun c1 => by rw [check_and_return_eq])]
    have he := put_vars_entry_keeps K E ncid varid start count stride xtype (some data)
    cases hentry : put_vars_entry K E ncid varid start count stride xtype (some data) with
    | done r =>
      rw [hentry] at he
      left
      exact he
    | next c1 =>
      rw [hentry] at he
      have hc1 : c1.file = (E.pio_get_file ncid).2 := he
      rw [Flow.next_bind]
      simp only [put_vars_io]
      split_ifs
      · rw [Flow.file_bind_keeps _ (fun c2 => put_vars_netcdf_keeps K E varid start count stride
            data c2),
          Flow.file_bind_keeps _ (fun c2 => put_vars_adios_keeps K varid start count stride
            data c2)]
        have := put_vars_pnetcdf_file K E varid start count stride data c1 hre hflush
        rw [hc1] at this
        exact this
      · left
        exact hc1

theorem get_vdesc_congr (f : file_desc_t) (a b : Int) (h : a.toNat = b.toNat) :
    get_vdesc f a = get_vdesc f b := by
  simp [get_vdesc, h]

theorem get_vdesc_store (f : file_desc_t) (varid v val : Int) :
    get_vdesc (store_request f varid val) v
      = if varid.toNat = v.toNat ∧ varid.toNat < f.varlist.length then
          ⟨(get_vdesc f varid).request.set (get_vdesc f varid).nreqs val,
            (get_vdesc f varid).nreqs + 1⟩
        else get_vdesc f v := by
  simp only [store_request]
  exact get_vdesc_set _ _ _ _

/-- What a `PIOc_put_vars_tc` call does to the tracker of each variable. -/
theorem put_vars_tracker_step (K : Consts) (E : Env) (ncid varid : Int)
    (start count stride : Option (List Int)) (xtype : Int) (buf : Option Buf)
    (hre : E.realloc_fails = false)
    (hflush : ∀ f, (E.flush_output_buffer f).2 = f.varlist) (v : Int) :
    tracker_step K (get_vdesc (E.pio_get_file ncid).2 v)
      (get_vdesc (PIOc_put_vars_tc K E ncid varid start count stride xtype buf).file v) ∧
    (v.toNat ≠ varid.toNat →
      get_vdesc (PIOc_put_vars_tc K E ncid varid start count stride xtype buf).file v
        = get_vdesc (E.pio_get_file ncid).2 v) := by
  rcases put_vars_file K E ncid varid start count stride xtype buf hre hflush with
    h | h | ⟨val, h⟩
  · rw [h]
    exact ⟨Or.inl rfl, fun _ => rfl⟩
  · rw [h, get_vdesc_set]
    split_ifs with hit
    · refine ⟨Or.inr (Or.inl ?_), fun hne => absurd hit.1.symm hne⟩
      rw [get_vdesc_congr _ _ _ hit.1]
    · exact ⟨Or.inl rfl, fun _ => rfl⟩
  · rw [h]
    by_cases hit : varid.toNat = v.toNat ∧ varid.toNat < (E.pio_get_file ncid).2.varlist.length
    · refine ⟨Or.inr (Or.inr ⟨val, ?_⟩), fun hne => absurd hit.1.symm hne⟩
      have hlen : varid.toNat < (set_vdesc (E.pio_get_file ncid).2 varid
          (grow_request K (get_vdesc (E.pio_get_file ncid).2 varid))).varlist.length := by
        simp only [set_vdesc, List.length_set]
        exact hit.2
      rw [get_vdesc_store, if_pos ⟨hit.1, hlen⟩, get_vdesc_set, if_pos ⟨rfl, hit.2⟩,
        grow_request_nreqs, get_vdesc_congr _ _ _ hit.1]
    · have hlen : ¬ (varid.toNat = v.toNat ∧ varid.toNat < (set_vdesc (E.pio_get_file ncid).2
          varid (grow_request K (get_vdesc (E.pio_get_file ncid).2 varid))).varlist.length) := by
        simp only [set_vdesc, List.length_set]
        exact hit
      rw [get_vdesc_store, if_neg hlen, get_vdesc_set, if_neg hit]
      exact ⟨Or.inl rfl, fun _ => rfl⟩

theorem grow_request_length (K : Consts) (vd : var_desc_t) :
    (grow_request K vd).request.length
      = if vd.nreqs % K.PIO_REQUEST_ALLOC_CHUNK = 0 then vd.nreqs + K.PIO_REQUEST_ALLOC_CHUNK
        else vd.request.length := by
  simp only [grow_request]
  split_ifs
  · exact realloc_request_length _ _
  · rfl

theorem grow_request_inv (K : Consts) (a : var_desc_t) (hJ : chunk_inv K a) :
    chunk_inv K (grow_request K a) ∧
    a.request.length ≤ (grow_request K a).request.length := by
  obtain ⟨h1, h2, h3⟩ := hJ
  by_cases hm : a.nreqs % K.PIO_REQUEST_ALLOC_CHUNK = 0
  · refine ⟨⟨?_, ?_, ?_⟩, ?_⟩
    · rw [grow_request_length, if_pos hm, Nat.add_mod_right, hm]
    · rw [grow_request_length, if_pos hm, grow_request_nreqs]
    · rw [grow_request_nreqs]
      exact fun h => absurd hm h
    · rw [grow_request_length, if_pos hm]
      exact h2
  · have : grow_request K a = a := by simp [grow_request, hm]
    rw [this]
    exact ⟨⟨h1, h2, h3⟩, le_refl _⟩

/-- One call keeps the chunk invariant of a tracker; the capacity does not decrease, it
changes only when `nreqs` is a multiple of the chunk size, and then to `nreqs` plus one
chunk; the slot written is below the capacity. -/
theorem tracker_step_inv (K : Consts) (a b : var_desc_t)
    (hchunk : 0 < K.PIO_REQUEST_ALLOC_CHUNK) (hJ : chunk_inv K a) (hs : tracker_step K a b) :
    chunk_inv K b ∧ a.request.length ≤ b.request.length ∧ a.nreqs ≤ b.nreqs ∧
    (b.request.length ≠ a.request.length →
      a.nreqs % K.PIO_REQUEST_ALLOC_CHUNK = 0 ∧
      b.request.length = a.nreqs + K.PIO_REQUEST_ALLOC_CHUNK) ∧
    (b.nreqs ≠ a.nreqs →
      b.nreqs = a.nreqs + 1 ∧ a.nreqs < b.request.length ∧
      (a.nreqs % K.PIO_REQUEST_ALLOC_CHUNK = 0 →
        b.request.length = a.nreqs + K.PIO_REQUEST_ALLOC_CHUNK)) := by
  obtain ⟨g1, g2⟩ := grow_request_inv K a hJ
  have hlen := grow_request_length K a
  have hslot := grow_request_slot K a hchunk hJ.2.2
  rcases hs with h | h | ⟨v, h⟩
  · subst h
    exact ⟨hJ, le_refl _, le_refl _, fun h => absurd rfl h, fun h => absurd rfl h⟩
  · subst h
    refine ⟨g1, g2, by rw [grow_request_nreqs], fun hne => ?_, fun hne => ?_⟩
    · by_cases hm : a.nreqs % K.PIO_REQUEST_ALLOC_CHUNK = 0
      · exact ⟨hm, by rw [hlen, if_pos hm]⟩
      · rw [hlen, if_neg hm] at hne
        exact absurd rfl hne
    · rw [grow_request_nreqs] at hne
      exact absurd rfl hne
  · obtain ⟨k1, k2, k3⟩ := g1
    rw [grow_request_nreqs] at k2 k3
    have e1 : b.request.length = (grow_request K a).request.length := by
      rw [h]
      exact List.length_set _ _ _
    have e2 : b.nreqs = a.nreqs + 1 := by rw [h]
    have hne1 : b.nreqs % K.PIO_REQUEST_ALLOC_CHUNK ≠ 0 → b.nreqs < b.request.length := by
      intro hne
      rw [e1, e2] at *
      rcases Nat.lt_or_ge (a.nreqs + 1) (grow_request K a).request.length with hlt | hge
      · exact hlt
      · have heq : a.nreqs + 1 = (grow_request K a).request.length := by omega
        rw [heq] at hne
        exact absurd k1 hne
    refine ⟨⟨by rw [e1]; exact k1, by rw [e1, e2]; omega, hne1⟩, by rw [e1]; exact g2,
      by rw [e2]; omega, fun hne => ?_,
      fun _ => ⟨e2, by rw [e1]; exact hslot, fun hm => by rw [e1, hlen, if_pos hm]⟩⟩
    by_cases hm : a.nreqs % K.PIO_REQUEST_ALLOC_CHUNK = 0
    · exact ⟨hm, by rw [e1, hlen, if_pos hm]⟩
    · rw [e1, hlen, if_neg hm] at hne
      exact absurd rfl hne

theorem realloc_request_get (request : List Int) (n i : Nat) (hi : i < request.length)
    (hn : i < n) : (realloc_request request n)[i]? = request[i]? := by
  simp only [realloc_request]
  rw [List.getElem?_append_left (by simp; omega), List.getElem?_take_of_lt hn]

/-- One call leaves the slots below the old `nreqs` as they were. -/
theorem tracker_step_slots (K : Consts) (a b : var_desc_t) (hs : tracker_step K a b)
    (i : Nat) (hi : i < a.nreqs) (hcap : i < a.request.length) :
    b.request[i]? = a.request[i]? := by
  have hg : (grow_request K a).request[i]? = a.request[i]? := by
    simp only [grow_request]
    split_ifs
    · exact realloc_request_get _ _ _ hcap (by omega)
    · rfl
  rcases hs with h | h | ⟨v, h⟩
  · rw [h]
  · rw [h, hg]
  · rw [h]
    simp only
    rw [List.getElem?_set_ne (by omega), hg]

theorem put_run_append (K : Consts) (file : file_desc_t) (pre : List (Env × put_call))
    (E : Env) (a : put_call) :
    put_run K file (pre ++ [(E, a)])
      = (PIOc_put_vars_tc K (on_file E (put_run K file pre)) a.ncid a.varid a.start a.count
          a.stride a.xtype a.buf).file := by
  induction pre generalizing file with
  | nil => rfl
  | cons x xs ih =>
    obtain ⟨E1, a1⟩ := x
    simp only [List.cons_append, put_run]
    exact ih _

/-- A sequence of calls keeps the chunk invariant of every tracker, when `realloc`
succeeds and the flush check leaves the trackers alone. -/
theorem put_run_inv (K : Consts) (hchunk : 0 < K.PIO_REQUEST_ALLOC_CHUNK)
    (calls : List (Env × put_call)) (file : file_desc_t)
    (hinv : ∀ v : Int, chunk_inv K (get_vdesc file v))
    (henv : ∀ ec ∈ calls, ec.1.realloc_fails = false ∧
      ∀ f, (ec.1.flush_output_buffer f).2 = f.varlist) :
    ∀ v : Int, chunk_inv K (get_vdesc (put_run K file calls) v) := by
  induction calls generalizing file with
  | nil => exact hinv
  | cons x xs ih =>
    obtain ⟨E1, a1⟩ := x
    simp only [put_run]
    refine ih _ (fun v => ?_) (fun ec hec => henv ec (List.mem_cons_of_mem _ hec))
    obtain ⟨hre, hfl⟩ := henv (E1, a1) (List.mem_cons_self _ _)
    have hstep := (put_vars_tracker_step K (on_file E1 file) a1.ncid a1.varid a1.start a1.count
      a1.stride a1.xtype a1.buf hre hfl v).1
    exact (tracker_step_inv K _ _ hchunk (hinv v) hstep).1

theorem chunk_inv_empty (K : Consts) (file : file_desc_t)
    (hstart : ∀ vd ∈ file.varlist, vd = ⟨[], 0⟩) (v : Int) :
    chunk_inv K (get_vdesc file v) := by
  have : get_vdesc file v = ⟨[], 0⟩ := by
    simp only [get_vdesc, List.getD_eq_getElem?_getD]
    cases h : file.varlist[v.toNat]? with
    | none => rfl
    | some vd => exact hstart vd (List.getElem?_mem h)
  rw [this]
  simp [chunk_inv]

/-! ## The claims -/

/-- C1: on an open file, an attribute name longer than `PIO_MAX_NAME` makes
`PIOc_put_att_tc` and `PIOc_get_att_tc` return `PIO_EINVAL` with an empty event trace
(no catalog lookup, no async message, no broadcast, no backend call) and the file
descriptor as it was. -/
theorem name_too_long_is_einval (K : Consts) (E : Env) (ncid varid : Int) (name : CString)
    (atttype len memtype : Int) (op ip : Option Buf)
    (hopen : (E.pio_get_file ncid).1 = 0) (hlong : K.PIO_MAX_NAME < name.length) :
    PIOc_put_att_tc K E ncid varid (some name) atttype len memtype op
      = ⟨some K.PIO_EINVAL, [], (E.pio_get_file ncid).2, op⟩ ∧
    PIOc_get_att_tc K E ncid varid (some name) memtype ip
      = ⟨some K.PIO_EINVAL, [], (E.pio_get_file ncid).2, ip⟩ := by
  simp [PIOc_put_att_tc, PIOc_get_att_tc, hopen, strlen, hlong, pio_err]

/-- Witness of C1: a 257-byte name on an open parallel-netCDF file. -/
theorem name_too_long_is_einval_witness :
    PIOc_put_att_tc pio_h (demo_env (demo_file 1 ios_master) 1) 3 0
        (some (List.replicate 257 97)) 4 1 4 (some [0, 0, 0, 1])
      = ⟨some pio_h.PIO_EINVAL, [], demo_file 1 ios_master, some [0, 0, 0, 1]⟩ ∧
    PIOc_get_att_tc pio_h (demo_env (demo_file 1 ios_master) 1) 3 0
        (some (List.replicate 257 97)) 4 (some [0, 0, 0, 0])
      = ⟨some pio_h.PIO_EINVAL, [], demo_file 1 ios_master, some [0, 0, 0, 0]⟩ :=
  name_too_long_is_einval pio_h (demo_env (demo_file 1 ios_master) 1) 3 0
    (List.replicate 257 97) 4 1 4 (some [0, 0, 0, 1]) (some [0, 0, 0, 0]) rfl
    (by rw [List.length_replicate]; decide)

/-- C2: on an open file, `PIOc_put_att_tc` with a NULL name, a NULL data pointer or a
negative length, `PIOc_get_att_tc` with a NULL name or a NULL destination, and
`PIOc_get_vars_tc` / `PIOc_put_vars_tc` with a NULL buffer return `PIO_EINVAL` with an
empty event trace and the descriptor as it was: the outcome is fixed by the arguments,
whatever the catalog, the messaging layer and the storage library would answer. -/
theorem missing_argument_is_einval (K : Consts) (E : Env) (ncid varid : Int)
    (name : Option CString) (atttype len memtype xtype : Int) (op ip : Option Buf)
    (start count stride : Option (List Int))
    (hopen : (E.pio_get_file ncid).1 = 0) :
    (name = none ∨ op = none ∨ len < 0 →
      PIOc_put_att_tc K E ncid varid name atttype len memtype op
        = ⟨some K.PIO_EINVAL, [], (E.pio_get_file ncid).2, op⟩) ∧
    (name = none ∨ ip = none →
      PIOc_get_att_tc K E ncid varid name memtype ip
        = ⟨some K.PIO_EINVAL, [], (E.pio_get_file ncid).2, ip⟩) ∧
    PIOc_get_vars_tc K E ncid varid start count stride xtype none
      = ⟨some K.PIO_EINVAL, [], (E.pio_get_file ncid).2, none⟩ ∧
    PIOc_put_vars_tc K E ncid varid start count stride xtype none
      = ⟨some K.PIO_EINVAL, [], (E.pio_get_file ncid).2, none⟩ := by
  refine ⟨?_, ?_, ?_, ?_⟩
  · intro h
    have hc : name = none ∨ op = none ∨ K.PIO_MAX_NAME < strlen name ∨ len < 0 := by
      rcases h with h | h | h
      · exact Or.inl h
      · exact Or.inr (Or.inl h)
      · exact Or.inr (Or.inr (Or.inr h))
    simp only [PIOc_put_att_tc, hopen, ne_eq, not_true_eq_false, if_false, if_pos hc, pio_err]
  · intro h
    have hc : name = none ∨ ip = none ∨ K.PIO_MAX_NAME < strlen name := by
      rcases h with h | h
      · exact Or.inl h
      · exact Or.inr (Or.inl h)
    simp only [PIOc_get_att_tc, hopen, ne_eq, not_true_eq_false, if_false, if_pos hc, pio_err]
  · simp [PIOc_get_vars_tc, hopen, pio_err]
  · simp [PIOc_put_vars_tc, hopen, pio_err]

/-- Witness of C2: a negative attribute length, a NULL destination, NULL buffers. -/
theorem missing_argument_is_einval_witness :
    (((some [110] : Option CString) = none ∨ (some [1] : Option Buf) = none ∨ (-1 : Int) < 0 →
      PIOc_put_att_tc pio_h (demo_env (demo_file 1 ios_master) 1) 3 0 (some [110]) 4 (-1) 4
          (some [1])
        = ⟨some pio_h.PIO_EINVAL, [], demo_file 1 ios_master, some [1]⟩) ∧
    ((some [110] : Option CString) = none ∨ (none : Option Buf) = none →
      PIOc_get_att_tc pio_h (demo_env (demo_file 1 ios_master) 1) 3 0 (some [110]) 4 none
        = ⟨some pio_h.PIO_EINVAL, [], demo_file 1 ios_master, none⟩) ∧
    PIOc_get_vars_tc pio_h (demo_env (demo_file 1 ios_master) 1) 3 0 (some [0]) (some [1])
        none 4 none
      = ⟨some pio_h.PIO_EINVAL, [], demo_file 1 ios_master, none⟩ ∧
    PIOc_put_vars_tc pio_h (demo_env (demo_file 1 ios_master) 1) 3 0 (some [0]) (some [1])
        none 4 none
      = ⟨some pio_h.PIO_EINVAL, [], demo_file 1 ios_master, none⟩) ∧
    ((some [110] : Option CString) = none ∨ (some [1] : Option Buf) = none ∨ (-1 : Int) < 0) ∧
    ((some [110] : Option CString) = none ∨ (none : Option Buf) = none) :=
  ⟨missing_argument_is_einval pio_h (demo_env (demo_file 1 ios_master) 1) 3 0 (some [110])
    4 (-1) 4 4 (some [1]) none (some [0]) (some [1]) none rfl,
   by decide, by decide⟩

/-- C3 (the code at the failing input): `PIOc_get_vars_tc` on a parallel-netCDF file,
run by the I/O master with the supported type `NC_INT`.  The typed strided read returns
-40; `ncmpi_end_indep_data` then returns 0 into the same `ierr`, `check_netcdf` is given
0, and the call returns `PIO_NOERR`.  On a serial netCDF file the same failing read is
returned as -40. -/
theorem get_vars_read_error_overwritten :
    (read_fails_env (demo_file 1 ios_master)).backend_ret
        (.ncmpi_get_vars 4 7 0 (some [5]) (some [1]) none) = -40 ∧
    PIOc_get_vars_tc pio_h (read_fails_env (demo_file 1 ios_master)) 3 0 (some [5]) (some [1])
        none pio_h.NC_INT (some [0, 0, 0, 0])
      = ⟨some PIO_NOERR,
         [.catalog (.inq_vartype 3 0) 0, .catalog (.inq_type 3 4) 0,
          .catalog (.inq_varndims 3 0) 0,
          .backend (.ncmpi_begin_indep_data 7),
          .backend (.ncmpi_get_vars 4 7 0 (some [5]) (some [1]) none),
          .backend (.ncmpi_end_indep_data 7),
          .check_netcdf 0,
          .bcast .payload 4 0 0],
         demo_file 1 ios_master, some [0, 0, 0, 0]⟩ ∧
    (PIOc_get_vars_tc pio_h (read_fails_env (demo_file 2 ios_master)) 3 0 (some [5]) (some [1])
        none pio_h.NC_INT (some [0, 0, 0, 0])).ret = some (-40) := by
  refine ⟨rfl, ?_, ?_⟩ <;> decide

/-- C4 (the code at the failing input): with the element type `NC_UBYTE`, which has no
typed parallel-netCDF entry, the I/O master gets `PIO_EBADIOTYPE` from
`PIOc_get_vars_tc` and from `PIOc_put_vars_tc` on a scalar variable, but `PIO_EBADTYPE`
from `PIOc_put_vars_tc` on a one-dimensional variable and from the attribute
functions; the two codes differ. -/
theorem unsupported_type_status_differs :
    (PIOc_get_vars_tc pio_h (demo_env (demo_file 1 ios_master) 1) 3 0 (some [0]) (some [1])
        none pio_h.NC_UBYTE (some [0])).ret = some pio_h.PIO_EBADIOTYPE ∧
    (PIOc_put_vars_tc pio_h (demo_env (demo_file 1 ios_master) 0) 3 0 none none
        none pio_h.NC_UBYTE (some [0])).ret = some pio_h.PIO_EBADIOTYPE ∧
    (PIOc_put_vars_tc pio_h (demo_env (demo_file 1 ios_master) 1) 3 0 (some [0]) (some [1])
        none pio_h.NC_UBYTE (some [0])).ret = some pio_h.PIO_EBADTYPE ∧
    (PIOc_put_att_tc pio_h (demo_env (demo_file 1 ios_master) 1) 3 0 (some [110])
        pio_h.NC_UBYTE 1 pio_h.NC_UBYTE (some [0])).ret = some pio_h.PIO_EBADTYPE ∧
    (PIOc_get_att_tc pio_h (demo_env (demo_file 1 ios_master) 1) 3 0 (some [110])
        pio_h.NC_UBYTE (some [0])).ret = some pio_h.PIO_EBADTYPE ∧
    pio_h.PIO_EBADIOTYPE ≠ pio_h.PIO_EBADTYPE := by
  refine ⟨?_, ?_, ?_, ?_, ?_, ?_⟩ <;> decide

/-- C5 (the code at the failing input): one `PIOc_put_vars_tc` call with the element
type `NC_UBYTE` on a parallel-netCDF file.  The I/O master returns `PIO_EBADTYPE`; an
I/O rank that is not the master returns `PIO_NOERR` and has appended a request; a rank
that is not an I/O rank returns `PIO_NOERR`, in a synchronous session and as a compute
rank of an asynchronous session.  The same holds for `PIOc_get_vars_tc` on a compute
rank. -/
theorem unsupported_type_on_dispatching_rank_only :
    (PIOc_put_vars_tc pio_h (demo_env (demo_file 1 ios_master) 1) 3 0 (some [0]) (some [1])
        none pio_h.NC_UBYTE (some [0])).ret = some pio_h.PIO_EBADTYPE ∧
    (PIOc_put_vars_tc pio_h (demo_env (demo_file 1 ios_io_rank) 1) 3 0 (some [0]) (some [1])
        none pio_h.NC_UBYTE (some [0])).ret = some PIO_NOERR ∧
    (get_vdesc (PIOc_put_vars_tc pio_h (demo_env (demo_file 1 ios_io_rank) 1) 3 0 (some [0])
        (some [1]) none pio_h.NC_UBYTE (some [0])).file 0).nreqs = 1 ∧
    (PIOc_put_vars_tc pio_h (demo_env (demo_file 1 ios_non_io) 1) 3 0 (some [0]) (some [1])
        none pio_h.NC_UBYTE (some [0])).ret = some PIO_NOERR ∧
    (PIOc_put_vars_tc pio_h (demo_env (demo_file 1 ios_compute) 1) 3 0 (some [0]) (some [1])
        none pio_h.NC_UBYTE (some [0])).ret = some PIO_NOERR ∧
    (PIOc_get_vars_tc pio_h (demo_env (demo_file 1 ios_compute) 1) 3 0 (some [0]) (some [1])
        none pio_h.NC_UBYTE (some [0])).ret = some PIO_NOERR := by
  refine ⟨?_, ?_, ?_, ?_, ?_, ?_⟩ <;> decide

/-- C6, counterexample: a `PIOc_put_vars_tc` call on a one-dimensional variable with
`count = [0]` (parallel-netCDF file, I/O master).  It is not true that no backend write
is invoked and the request tracker is untouched: the trace holds the buffered write and
`nreqs` goes from 0 to 1. -/
theorem zero_extent_put_is_not_a_noop :
    (0 : Int) ∈ [(0 : Int)] ∧
    ¬ ((∀ e ∈ (PIOc_put_vars_tc pio_h (demo_env (demo_file 1 ios_master) 1) 3 0 (some [0])
          (some [0]) none pio_h.NC_INT (some [])).trace, e.isBackend = false) ∧
       get_vdesc (PIOc_put_vars_tc pio_h (demo_env (demo_file 1 ios_master) 1) 3 0 (some [0])
          (some [0]) none pio_h.NC_INT (some [])).file 0
        = get_vdesc (demo_file 1 ios_master) 0) ∧
    Event.backend (.ncmpi_bput_vars 4 7 0 (some [0]) (some [0]) [1] [] 0)
      ∈ (PIOc_put_vars_tc pio_h (demo_env (demo_file 1 ios_master) 1) 3 0 (some [0])
          (some [0]) none pio_h.NC_INT (some [])).trace ∧
    (get_vdesc (PIOc_put_vars_tc pio_h (demo_env (demo_file 1 ios_master) 1) 3 0 (some [0])
          (some [0]) none pio_h.NC_INT (some [])).file 0).nreqs = 1 := by
  refine ⟨?_, ?_, ?_, ?_⟩ <;> decide

/-- C6 as amended: the source has no zero-extent guard.  On a parallel-netCDF file in a
synchronous session, on the I/O master, with a supported type, successful lookups and
allocations and a variable with dimensions, `PIOc_put_vars_tc` calls the buffered write
with the caller's start and count whatever the count array holds (zeros included), and
the flush check runs on a descriptor whose `nreqs` for the variable is one more than
before. -/
theorem put_vars_writes_whatever_count (K : Consts) (E : Env) (ncid varid : Int)
    (start stride : Option (List Int)) (cnt : List Int) (xtype : Int) (data : Buf)
    (hopen : (E.pio_get_file ncid).1 = 0)
    (hK : K.PIO_IOTYPE_PNETCDF ≠ K.PIO_IOTYPE_ADIOS)
    (hsync : (E.pio_get_file ncid).2.iosystem.async = false)
    (hio : (E.pio_get_file ncid).2.iosystem.ioproc = true)
    (hpn : (E.pio_get_file ncid).2.iotype = K.PIO_IOTYPE_PNETCDF)
    (hmaster : (E.pio_get_file ncid).2.iosystem.iomaster = K.MPI_ROOT)
    (hvar : varid.toNat < (E.pio_get_file ncid).2.varlist.length)
    (h1 : (E.inq_vartype ncid varid).1 = 0) (h2 : (E.inq_varndims ncid varid).1 = 0)
    (hnd : (E.inq_varndims ncid varid).2 ≠ 0)
    (h3 : resolved_xtype K E ncid varid xtype = K.PIO_LONG_INTERNAL ∨
      (E.inq_type ncid (resolved_xtype K E ncid varid xtype)).1 = 0)
    (hcase : pnetcdf_case K (resolved_xtype K E ncid varid xtype) = true)
    (hre : E.realloc_fails = false) (hma : E.malloc_fails = false) :
    Event.backend (.ncmpi_bput_vars (resolved_xtype K E ncid varid xtype)
        (E.pio_get_file ncid).2.fh varid start (some cnt)
        (stride.getD (List.replicate (E.inq_varndims ncid varid).2.toNat 1)) data
        (get_vdesc (E.pio_get_file ncid).2 varid).nreqs)
      ∈ (PIOc_put_vars_tc K E ncid varid start (some cnt) stride xtype (some data)).trace ∧
    ∃ file1, (get_vdesc file1 varid).nreqs = (get_vdesc (E.pio_get_file ncid).2 varid).nreqs + 1 ∧
      (PIOc_put_vars_tc K E ncid varid start (some cnt) stride xtype (some data)).file.varlist
        = (E.flush_output_buffer file1).2 := by
  obtain ⟨c1, hr, hf, -, hnd1, hx1, -⟩ := put_vars_resolve_ok K E ncid varid (some cnt)
    (Ctx.start E (E.pio_get_file ncid).2 xtype (some data)) h1 h2 h3
  have hf1 : c1.file = (E.pio_get_file ncid).2 := hf
  have hx2 : c1.loc.xtype = resolved_xtype K E ncid varid xtype := hx1
  simp only [PIOc_put_vars_tc, hopen, hsync, ne_eq, not_true_eq_false, if_false,
    reduceCtorEq, Bool.false_eq_true, not_false_eq_true, true_or, if_true, hr, Flow.next_bind,
    Option.getD_some]
  rw [put_vars_async_sync _ _ _ _ _ _ _ _ _ (by rw [hf1, hsync])]
  simp only [put_vars_io, hf1, hio, if_true, Flow.next_bind]
  rw [put_vars_pnetcdf_master K E varid start (some cnt) stride data c1 (by rw [hf1, hpn])
    (by rw [hnd1]; exact hnd) (by rw [hf1, hmaster]) (by rw [hx2]; exact hcase) hre
    (fun _ => hma)]
  rw [Flow.next_bind, put_vars_adios_skip, Flow.next_bind, put_vars_netcdf_skip,
    Flow.next_finish]
  · simp only [check_and_return_eq, append_request_trace, Ctx.emit, hx2, hnd1, hf1]
    refine ⟨by simp, ⟨_, ?_, rfl⟩⟩
    rw [store_request_nreqs, get_set_vdesc _ _ _ hvar, grow_request_nreqs]
    simpa [set_vdesc] using hvar
  · simp [append_request, Ctx.emit, store_request, set_vdesc, hf1, hpn]
  · simp [append_request, Ctx.emit, store_request, set_vdesc, hf1, hpn, hK]

/-- Witness of the amended C6: the call of the counterexample, `count = [0]`. -/
theorem put_vars_writes_whatever_count_witness :
    Event.backend (.ncmpi_bput_vars
        (resolved_xtype pio_h (demo_env (demo_file 1 ios_master) 1) 3 0 4) 7 0 (some [0])
        (some [0]) [1] [] 0)
      ∈ (PIOc_put_vars_tc pio_h (demo_env (demo_file 1 ios_master) 1) 3 0 (some [0])
          (some [0]) none 4 (some [])).trace ∧
    ∃ file1, (get_vdesc file1 0).nreqs = 0 + 1 ∧
      (PIOc_put_vars_tc pio_h (demo_env (demo_file 1 ios_master) 1) 3 0 (some [0])
          (some [0]) none 4 (some [])).file.varlist
        = ((demo_env (demo_file 1 ios_master) 1).flush_output_buffer file1).2 :=
  put_vars_writes_whatever_count pio_h (demo_env (demo_file 1 ios_master) 1) 3 0 (some [0])
    none [0] 4 [] rfl (by decide) rfl rfl rfl rfl (by decide) rfl rfl (by decide)
    (Or.inr rfl) (by decide) rfl rfl

/-- C7, counterexample: a scalar variable on a parallel-netCDF file, written by the I/O
master.  With explicit length-1 start, count and stride the call is stopped by the
assertion (no status); with the geometry omitted it returns `PIO_NOERR`. -/
theorem scalar_put_explicit_differs_from_omitted :
    (PIOc_put_vars_tc pio_h (demo_env (demo_file 1 ios_master) 0) 3 0 (some [0]) (some [1])
        (some [1]) pio_h.NC_INT (some [0, 0, 0, 1])).ret = none ∧
    (PIOc_put_vars_tc pio_h (demo_env (demo_file 1 ios_master) 0) 3 0 none none
        none pio_h.NC_INT (some [0, 0, 0, 1])).ret = some PIO_NOERR ∧
    (PIOc_put_vars_tc pio_h (demo_env (demo_file 1 ios_master) 0) 3 0 (some [0]) (some [1])
        (some [1]) pio_h.NC_INT (some [0, 0, 0, 1])).ret
      ≠ (PIOc_put_vars_tc pio_h (demo_env (demo_file 1 ios_master) 0) 3 0 none none
        none pio_h.NC_INT (some [0, 0, 0, 1])).ret := by
  refine ⟨?_, ?_, ?_⟩ <;> decide

/-- C7 as amended: for a zero-dimension variable the resolving blocks of
`PIOc_get_vars_tc` and `PIOc_put_vars_tc` give the same result, lookups, status and
locals alike, with explicit length-1 start/count as with the geometry omitted, and the
resolved element count is 1; but a scalar `PIOc_put_vars_tc` on a parallel-netCDF file
accepts omitted geometry only: on an I/O rank (synchronous session, successful lookups
and allocation) a call with any of start, count, stride supplied is stopped by the
assertion and returns no status. -/
theorem scalar_geometry (K : Consts) (E : Env) (ncid varid : Int)
    (start count stride : Option (List Int)) (s cn : Int) (xtype : Int) (data : Buf) (c : Ctx)
    (hnd : (E.inq_varndims ncid varid).2 = 0) :
    get_vars_resolve K E ncid varid (some [s]) (some [cn]) c
      = get_vars_resolve K E ncid varid none none c ∧
    put_vars_resolve K E ncid varid (some [cn]) c = put_vars_resolve K E ncid varid none c ∧
    (∀ c1, get_vars_resolve K E ncid varid start count
        (Ctx.start E (E.pio_get_file ncid).2 xtype (some data)) = .next c1 →
      c1.loc.ndims = 0 ∧ c1.loc.num_elem = 1) ∧
    (∀ c1, put_vars_resolve K E ncid varid count
        (Ctx.start E (E.pio_get_file ncid).2 xtype (some data)) = .next c1 →
      c1.loc.ndims = 0 ∧ c1.loc.num_elem = 1) ∧
    ((E.pio_get_file ncid).1 = 0 → (E.pio_get_file ncid).2.iosystem.async = false →
      (E.pio_get_file ncid).2.iosystem.ioproc = true →
      (E.pio_get_file ncid).2.iotype = K.PIO_IOTYPE_PNETCDF →
      (E.inq_vartype ncid varid).1 = 0 → (E.inq_varndims ncid varid).1 = 0 →
      (resolved_xtype K E ncid varid xtype = K.PIO_LONG_INTERNAL ∨
        (E.inq_type ncid (resolved_xtype K E ncid varid xtype)).1 = 0) →
      E.realloc_fails = false →
      ¬ (start = none ∧ count = none ∧ stride = none) →
      (PIOc_put_vars_tc K E ncid varid start count stride xtype (some data)).ret = none) := by
  refine ⟨?_, ?_, ?_, ?_, ?_⟩
  · simp [get_vars_resolve, hnd, count_loop_zero]
  · simp only [put_vars_resolve]
    split_ifs <;> simp [Flow.bind, Ctx.emit, hnd, count_loop_zero]
  · intro c1 h
    obtain ⟨h1, -, h3⟩ := get_vars_resolve_num_elem K E ncid varid start count _ c1 h
    rw [hnd] at h3
    rw [h3, count_loop_zero] at h1
    exact ⟨h3, h1⟩
  · intro c1 h
    obtain ⟨h1, h3⟩ := put_vars_resolve_num_elem K E ncid varid count _ c1 h
    rw [hnd] at h3
    rw [h3] at h1
    refine ⟨h3, ?_⟩
    cases count <;> simpa [count_loop_zero] using h1
  · intro hopen hsync hio hpn h1 h2 h3 hre hgeom
    obtain ⟨c1, hr, hf, -, hnd1, -, -⟩ := put_vars_resolve_ok K E ncid varid count
      (Ctx.start E (E.pio_get_file ncid).2 xtype (some data)) h1 h2 h3
    have hf1 : c1.file = (E.pio_get_file ncid).2 := hf
    obtain ⟨r, hr2, hret⟩ := put_vars_pnetcdf_scalar_abort K E varid start count stride data c1
      (by rw [hf1, hpn]) (by rw [hnd1, hnd]) hgeom hre
    simp only [PIOc_put_vars_tc, hopen, hsync, ne_eq, not_true_eq_false, if_false,
      reduceCtorEq, Bool.false_eq_true, not_false_eq_true, true_or, if_true, hr, Flow.next_bind,
      Option.getD_some]
    rw [put_vars_async_sync _ _ _ _ _ _ _ _ _ (by rw [hf1, hsync])]
    simp only [put_vars_io, hf1, hio, if_true, Flow.next_bind]
    rw [hr2, Flow.done_bind, Flow.done_bind, Flow.done_finish, hret]

/-- Witness of the amended C7: the scalar variable of the counterexample. -/
theorem scalar_geometry_witness :
    ((demo_env (demo_file 1 ios_master) 0).inq_varndims 3 0).2 = 0 ∧
    get_vars_resolve pio_h (demo_env (demo_file 1 ios_master) 0) 3 0 (some [0]) (some [1])
        (Ctx.start (demo_env (demo_file 1 ios_master) 0) (demo_file 1 ios_master) 4 (some [0]))
      = get_vars_resolve pio_h (demo_env (demo_file 1 ios_master) 0) 3 0 none none
        (Ctx.start (demo_env (demo_file 1 ios_master) 0) (demo_file 1 ios_master) 4 (some [0])) ∧
    (PIOc_put_vars_tc pio_h (demo_env (demo_file 1 ios_master) 0) 3 0 (some [0]) (some [1])
        (some [1]) 4 (some [0, 0, 0, 1])).ret = none :=
  ⟨rfl,
   (scalar_geometry pio_h (demo_env (demo_file 1 ios_master) 0) 3 0 (some [0]) (some [1])
      (some [1]) 0 1 4 [0, 0, 0, 1]
      (Ctx.start (demo_env (demo_file 1 ios_master) 0) (demo_file 1 ios_master) 4 (some [0]))
      rfl).1,
   (scalar_geometry pio_h (demo_env (demo_file 1 ios_master) 0) 3 0 (some [0]) (some [1])
      (some [1]) 0 1 4 [0, 0, 0, 1]
      (Ctx.start (demo_env (demo_file 1 ios_master) 0) (demo_file 1 ios_master) 4 (some [0]))
      rfl).2.2.2.2 rfl rfl rfl rfl rfl rfl (Or.inr rfl) rfl (by decide)⟩

/-- C8: the resolving blocks of `PIOc_get_vars_tc` and `PIOc_put_vars_tc`, which run on
the ranks that resolve parameters.  When the lookups succeed (and, in
`PIOc_get_vars_tc`, the assertion on the geometry holds) the block falls through.  When
it falls through with a count array of at least `ndims` entries supplied, the element
count is the product of `count[0] .. count[ndims-1]` held in a `PIO_Offset`: the exact
product whenever that lies in the 64-bit range.  It is 1 when the variable has zero
dimensions, with or without a count array; and `PIOc_put_vars_tc` with the count array
omitted resolves it to 1. -/
theorem element_count_is_product (K : Consts) (E : Env) (ncid varid : Int)
    (start count : Option (List Int)) (cnt : List Int) (xtype : Int) (file : file_desc_t)
    (buf : Option Buf) (c1 : Ctx) :
    ((E.inq_vartype ncid varid).1 = 0 → (E.inq_varndims ncid varid).1 = 0 →
      (resolved_xtype K E ncid varid xtype = K.PIO_LONG_INTERNAL ∨
        (E.inq_type ncid (resolved_xtype K E ncid varid xtype)).1 = 0) →
      ((E.inq_varndims ncid varid).2 = 0 ∨ (start ≠ none ∧ count ≠ none)) →
      ∃ c, get_vars_resolve K E ncid varid start count (Ctx.start E file xtype buf)
        = .next c) ∧
    ((E.inq_vartype ncid varid).1 = 0 → (E.inq_varndims ncid varid).1 = 0 →
      (resolved_xtype K E ncid varid xtype = K.PIO_LONG_INTERNAL ∨
        (E.inq_type ncid (resolved_xtype K E ncid varid xtype)).1 = 0) →
      ∃ c, put_vars_resolve K E ncid varid count (Ctx.start E file xtype buf) = .next c) ∧
    (get_vars_resolve K E ncid varid start (some cnt) (Ctx.start E file xtype buf) = .next c1 →
      c1.loc.ndims.toNat ≤ cnt.length →
      c1.loc.num_elem = toInt64 (cnt.take c1.loc.ndims.toNat).prod ∧
      (-9223372036854775808 ≤ (cnt.take c1.loc.ndims.toNat).prod →
        (cnt.take c1.loc.ndims.toNat).prod < 9223372036854775808 →
        c1.loc.num_elem = (cnt.take c1.loc.ndims.toNat).prod)) ∧
    (get_vars_resolve K E ncid varid start count (Ctx.start E file xtype buf) = .next c1 →
      c1.loc.ndims = 0 → c1.loc.num_elem = 1) ∧
    (put_vars_resolve K E ncid varid (some cnt) (Ctx.start E file xtype buf) = .next c1 →
      c1.loc.ndims.toNat ≤ cnt.length →
      c1.loc.num_elem = toInt64 (cnt.take c1.loc.ndims.toNat).prod ∧
      (-9223372036854775808 ≤ (cnt.take c1.loc.ndims.toNat).prod →
        (cnt.take c1.loc.ndims.toNat).prod < 9223372036854775808 →
        c1.loc.num_elem = (cnt.take c1.loc.ndims.toNat).prod)) ∧
    (put_vars_resolve K E ncid varid count (Ctx.start E file xtype buf) = .next c1 →
      c1.loc.ndims = 0 → c1.loc.num_elem = 1) ∧
    (put_vars_resolve K E ncid varid none (Ctx.start E file xtype buf) = .next c1 →
      c1.loc.num_elem = 1) := by
  have hone : toInt64 1 = 1 := by decide
  refine ⟨?_, ?_, ?_, ?_, ?_, ?_, ?_⟩
  · intro h1 h2 h3 ha
    exact get_vars_resolve_ok K E ncid varid start count _ h1 h2 h3 ha
  · intro h1 h2 h3
    obtain ⟨c, hc, -⟩ := put_vars_resolve_ok K E ncid varid count
      (Ctx.start E file xtype buf) h1 h2 h3
    exact ⟨c, hc⟩
  · intro h hn
    have h1 := (get_vars_resolve_num_elem K E ncid varid start (some cnt) _ c1 h).1
    have h2 : c1.loc.num_elem = toInt64 (cnt.take c1.loc.ndims.toNat).prod := by
      rw [h1, Option.getD_some]
      exact (count_loop_take cnt c1.loc.ndims 1 hn hone).trans (by rw [one_mul])
    exact ⟨h2, fun h0 hlt => by rw [h2, toInt64_of_range _ h0 hlt]⟩
  · intro h h0
    have h1 := (get_vars_resolve_num_elem K E ncid varid start count _ c1 h).1
    rw [h1, h0, count_loop_zero]
    rfl
  · intro h hn
    have h1 := (put_vars_resolve_num_elem K E ncid varid (some cnt) _ c1 h).1
    have h2 : c1.loc.num_elem = toInt64 (cnt.take c1.loc.ndims.toNat).prod := by
      rw [h1]
      exact (count_loop_take cnt c1.loc.ndims 1 hn hone).trans (by rw [one_mul])
    exact ⟨h2, fun h0 hlt => by rw [h2, toInt64_of_range _ h0 hlt]⟩
  · intro h h0
    have h1 := (put_vars_resolve_num_elem K E ncid varid count _ c1 h).1
    rw [h1, h0]
    cases count <;> simp [count_loop_zero, Ctx.start]
  · intro h
    exact (put_vars_resolve_num_elem K E ncid varid none _ c1 h).1

/-- Witness of C8: a 2 x 3 block of a two-dimensional variable has 6 elements, read or
written; a write without a count array has 1; and the counts `2^32, 2^32`, whose
product does not fit in a `PIO_Offset`, leave 0. -/
theorem element_count_is_product_witness :
    (∃ c, get_vars_resolve pio_h (demo_env (demo_file 1 ios_master) 2) 3 0 (some [0, 0])
        (some [2, 3])
        (Ctx.start (demo_env (demo_file 1 ios_master) 2) (demo_file 1 ios_master) 4 (some []))
      = .next c ∧ c.loc.num_elem = 6) ∧
    (∃ c, put_vars_resolve pio_h (demo_env (demo_file 1 ios_master) 2) 3 0 (some [2, 3])
        (Ctx.start (demo_env (demo_file 1 ios_master) 2) (demo_file 1 ios_master) 4 (some []))
      = .next c ∧ c.loc.num_elem = 6) ∧
    (∃ c, put_vars_resolve pio_h (demo_env (demo_file 1 ios_master) 2) 3 0 none
        (Ctx.start (demo_env (demo_file 1 ios_master) 2) (demo_file 1 ios_master) 4 (some []))
      = .next c ∧ c.loc.num_elem = 1) ∧
    (∃ c, get_vars_resolve pio_h (demo_env (demo_file 1 ios_master) 2) 3 0 (some [0, 0])
        (some [4294967296, 4294967296])
        (Ctx.start (demo_env (demo_file 1 ios_master) 2) (demo_file 1 ios_master) 4 (some []))
      = .next c ∧ c.loc.num_elem = toInt64 (4294967296 * 4294967296) ∧ c.loc.num_elem = 0) :=
  ⟨⟨⟨0, ⟨2, 4, 6, 4, 4, 0, 0, 0, 0⟩,
      [.catalog (.inq_vartype 3 0) 0, .catalog (.inq_type 3 4) 0,
        .catalog (.inq_varndims 3 0) 0], demo_file 1 ios_master, some []⟩, rfl,
    ((element_count_is_product pio_h (demo_env (demo_file 1 ios_master) 2) 3 0 (some [0, 0])
      (some [2, 3]) [2, 3] 4 (demo_file 1 ios_master) (some [])
      ⟨0, ⟨2, 4, 6, 4, 4, 0, 0, 0, 0⟩,
        [.catalog (.inq_vartype 3 0) 0, .catalog (.inq_type 3 4) 0,
          .catalog (.inq_varndims 3 0) 0], demo_file 1 ios_master, some []⟩).2.2.1
      rfl (by decide)).2 (by decide) (by decide)⟩,
   ⟨⟨0, ⟨2, 4, 6, 4, 4, 0, 0, 0, 0⟩,
      [.catalog (.inq_vartype 3 0) 0, .catalog (.inq_varndims 3 0) 0,
        .catalog (.inq_type 3 4) 0], demo_file 1 ios_master, some []⟩, rfl,
    ((element_count_is_product pio_h (demo_env (demo_file 1 ios_master) 2) 3 0 (some [0, 0])
      (some [2, 3]) [2, 3] 4 (demo_file 1 ios_master) (some [])
      ⟨0, ⟨2, 4, 6, 4, 4, 0, 0, 0, 0⟩,
        [.catalog (.inq_vartype 3 0) 0, .catalog (.inq_varndims 3 0) 0,
          .catalog (.inq_type 3 4) 0], demo_file 1 ios_master, some []⟩).2.2.2.2.1
      rfl (by decide)).2 (by decide) (by decide)⟩,
   ⟨⟨0, ⟨2, 4, 1, 4, 4, 0, 0, 0, 0⟩,
      [.catalog (.inq_vartype 3 0) 0, .catalog (.inq_varndims 3 0) 0,
        .catalog (.inq_type 3 4) 0], demo_file 1 ios_master, some []⟩, rfl,
    (element_count_is_product pio_h (demo_env (demo_file 1 ios_master) 2) 3 0 (some [0, 0])
      none [] 4 (demo_file 1 ios_master) (some [])
      ⟨0, ⟨2, 4, 1, 4, 4, 0, 0, 0, 0⟩,
        [.catalog (.inq_vartype 3 0) 0, .catalog (.inq_varndims 3 0) 0,
          .catalog (.inq_type 3 4) 0], demo_file 1 ios_master, some []⟩).2.2.2.2.2.2 rfl⟩,
   ⟨⟨0, ⟨2, 4, 0, 4, 4, 0, 0, 0, 0⟩,
      [.catalog (.inq_vartype 3 0) 0, .catalog (.inq_type 3 4) 0,
        .catalog (.inq_varndims 3 0) 0], demo_file 1 ios_master, some []⟩, rfl,
    ((element_count_is_product pio_h (demo_env (demo_file 1 ios_master) 2) 3 0 (some [0, 0])
      (some [4294967296, 4294967296]) [4294967296, 4294967296] 4 (demo_file 1 ios_master)
      (some [])
      ⟨0, ⟨2, 4, 0, 4, 4, 0, 0, 0, 0⟩,
        [.catalog (.inq_vartype 3 0) 0, .catalog (.inq_type 3 4) 0,
          .catalog (.inq_varndims 3 0) 0], demo_file 1 ios_master, some []⟩).2.2.1
      rfl (by decide)).1, rfl⟩⟩

/-- C9: on an open file, for each of `PIOc_put_att_tc`, `PIOc_get_att_tc`,
`PIOc_get_vars_tc` and `PIOc_put_vars_tc`: if a metadata-catalog lookup of the call
returned a nonzero code, the call returns that code, its trace holds catalog lookups
only (no async message, no broadcast, no storage call) and the file descriptor, request
trackers included, is unchanged. -/
theorem catalog_failure_returns_code (K : Consts) (E : Env) (ncid varid : Int)
    (name : Option CString) (atttype len memtype xtype : Int) (op ip buf : Option Buf)
    (start count stride : Option (List Int))
    (hopen : (E.pio_get_file ncid).1 = 0) :
    lookup_failure_aborts (E.pio_get_file ncid).2
      (PIOc_put_att_tc K E ncid varid name atttype len memtype op) ∧
    lookup_failure_aborts (E.pio_get_file ncid).2
      (PIOc_get_att_tc K E ncid varid name memtype ip) ∧
    lookup_failure_aborts (E.pio_get_file ncid).2
      (PIOc_get_vars_tc K E ncid varid start count stride xtype buf) ∧
    lookup_failure_aborts (E.pio_get_file ncid).2
      (PIOc_put_vars_tc K E ncid varid start count stride xtype buf) :=
  ⟨put_att_lookup_failure K E ncid varid name atttype len memtype op hopen,
   get_att_lookup_failure K E ncid varid name memtype ip hopen,
   get_vars_lookup_failure K E ncid varid start count stride xtype buf hopen,
   put_vars_lookup_failure K E ncid varid start count stride xtype buf hopen⟩

/-- Witness of C9: the catalog does not know the variable (`PIOc_inq_varndims` returns
-49); `PIOc_put_vars_tc` returns -49 after two lookups. -/
theorem catalog_failure_returns_code_witness :
    ((lookup_fails_env (demo_file 1 ios_master)).pio_get_file 3).1 = 0 ∧
    (PIOc_put_vars_tc pio_h (lookup_fails_env (demo_file 1 ios_master)) 3 0 (some [0])
        (some [1]) none 4 (some [0, 0, 0, 1])).trace
      = [.catalog (.inq_vartype 3 0) 0, .catalog (.inq_varndims 3 0) (-49)] ∧
    ((PIOc_put_vars_tc pio_h (lookup_fails_env (demo_file 1 ios_master)) 3 0 (some [0])
        (some [1]) none 4 (some [0, 0, 0, 1])).ret = some (-49) ∧
      (∀ e ∈ (PIOc_put_vars_tc pio_h (lookup_fails_env (demo_file 1 ios_master)) 3 0 (some [0])
        (some [1]) none 4 (some [0, 0, 0, 1])).trace, e.isCatalog = true) ∧
      (PIOc_put_vars_tc pio_h (lookup_fails_env (demo_file 1 ios_master)) 3 0 (some [0])
        (some [1]) none 4 (some [0, 0, 0, 1])).file
        = ((lookup_fails_env (demo_file 1 ios_master)).pio_get_file 3).2) :=
  ⟨rfl, by decide,
   (catalog_failure_returns_code pio_h (lookup_fails_env (demo_file 1 ios_master)) 3 0
      (some [110]) 4 1 4 4 (some [1]) (some [0]) (some [0, 0, 0, 1]) (some [0]) (some [1]) none
      rfl).2.2.2 (.inq_varndims 3 0) (-49) (by decide) (by decide)⟩

/-- C10: on an open file, for each of `PIOc_put_att_tc`, `PIOc_get_att_tc`,
`PIOc_get_vars_tc` and `PIOc_put_vars_tc`: if the sending of the async message reported
a nonzero code, the call returns that (non-success) code, the async message is the last
event of the trace, preceded by catalog lookups only (so no broadcast and no storage
call follows the failed send), and the file descriptor, request trackers included, is
unchanged. -/
theorem send_failure_returns_code (K : Consts) (E : Env) (ncid varid : Int)
    (name : Option CString) (atttype len memtype xtype : Int) (op ip buf : Option Buf)
    (start count stride : Option (List Int))
    (hopen : (E.pio_get_file ncid).1 = 0) :
    send_failure_aborts (E.pio_get_file ncid).2
      (PIOc_put_att_tc K E ncid varid name atttype len memtype op) ∧
    send_failure_aborts (E.pio_get_file ncid).2
      (PIOc_get_att_tc K E ncid varid name memtype ip) ∧
    send_failure_aborts (E.pio_get_file ncid).2
      (PIOc_get_vars_tc K E ncid varid start count stride xtype buf) ∧
    send_failure_aborts (E.pio_get_file ncid).2
      (PIOc_put_vars_tc K E ncid varid start count stride xtype buf) :=
  ⟨put_att_send_failure K E ncid varid name atttype len memtype op hopen,
   get_att_send_failure K E ncid varid name memtype ip hopen,
   get_vars_send_failure K E ncid varid start count stride xtype buf hopen,
   put_vars_send_failure K E ncid varid start count stride xtype buf hopen⟩

/-- Witness of C10: a compute rank of an asynchronous session whose send reports -1;
`PIOc_get_vars_tc` returns -1 right after the message. -/
theorem send_failure_returns_code_witness :
    ((send_fails_env (demo_file 1 ios_compute)).pio_get_file 3).1 = 0 ∧
    (PIOc_get_vars_tc pio_h (send_fails_env (demo_file 1 ios_compute)) 3 0 (some [0])
        (some [2]) none 4 (some [0, 0, 0, 0, 0, 0, 0, 0])).trace
      = [.catalog (.inq_vartype 3 0) 0, .catalog (.inq_type 3 4) 0,
         .catalog (.inq_varndims 3 0) 0,
         .async_msg (.get_vars 47 3 0 1 ⟨true, 1, [0]⟩ ⟨true, 1, [2]⟩ ⟨false, 1, [0]⟩ 4 2 4)
           (-1)] ∧
    ((PIOc_get_vars_tc pio_h (send_fails_env (demo_file 1 ios_compute)) 3 0 (some [0])
        (some [2]) none 4 (some [0, 0, 0, 0, 0, 0, 0, 0])).ret = some (-1) ∧
      (∃ pre, (PIOc_get_vars_tc pio_h (send_fails_env (demo_file 1 ios_compute)) 3 0 (some [0])
          (some [2]) none 4 (some [0, 0, 0, 0, 0, 0, 0, 0])).trace
          = pre ++ [.async_msg
            (.get_vars 47 3 0 1 ⟨true, 1, [0]⟩ ⟨true, 1, [2]⟩ ⟨false, 1, [0]⟩ 4 2 4) (-1)] ∧
        ∀ e ∈ pre, e.isCatalog = true) ∧
      (PIOc_get_vars_tc pio_h (send_fails_env (demo_file 1 ios_compute)) 3 0 (some [0])
        (some [2]) none 4 (some [0, 0, 0, 0, 0, 0, 0, 0])).file
        = ((send_fails_env (demo_file 1 ios_compute)).pio_get_file 3).2) :=
  ⟨rfl, by decide,
   (send_failure_returns_code pio_h (send_fails_env (demo_file 1 ios_compute)) 3 0
      (some [110]) 4 1 4 4 (some [1]) (some [0]) (some [0, 0, 0, 0, 0, 0, 0, 0]) (some [0])
      (some [2]) none rfl).2.2.1
      (.get_vars 47 3 0 1 ⟨true, 1, [0]⟩ ⟨true, 1, [2]⟩ ⟨false, 1, [0]⟩ 4 2 4) (-1)
      (by decide) (by decide)⟩

/-- C11 (the code at the failing input): an I/O master of an asynchronous session on
which every broadcast of the call returns the error 5.  `PIOc_put_att_tc` and
`PIOc_get_vars_tc` pass the error to `check_mpi` without returning: they go on to the
storage call and return `PIO_NOERR`.  `PIOc_get_att_tc` and `PIOc_put_vars_tc` return
the status of `check_mpi` right after the first failed broadcast. -/
theorem failed_broadcast_is_ignored :
    PIOc_put_att_tc pio_h (bcast_fails_env (demo_file 1 ios_async_master)) 3 0 (some [110])
        4 1 4 (some [0, 0, 0, 1])
      = ⟨some PIO_NOERR,
         [.async_msg (.put_att 38 3 0 2 [110] 4 1 0 4 0 0 [0, 0, 0, 1]) 0,
          .bcast .atttype_len 1 0 5, .bcast .memtype_len 1 0 5,
          .backend (.ncmpi_put_att 4 7 0 [110] 4 1 [0, 0, 0, 1]),
          .check_netcdf 0],
         demo_file 1 ios_async_master, some [0, 0, 0, 1]⟩ ∧
    PIOc_get_vars_tc pio_h (bcast_fails_env (demo_file 1 ios_async_master)) 3 0 (some [0])
        (some [1]) none 4 (some [0, 0, 0, 1])
      = ⟨some PIO_NOERR,
         [.async_msg (.get_vars 47 3 0 0 ⟨true, 1, [0]⟩ ⟨true, 1, [1]⟩ ⟨false, 1, [0]⟩ 4 1 0) 0,
          .bcast .num_elem 1 0 5, .bcast .typelen 1 0 5, .bcast .xtype 1 0 5,
          .backend (.ncmpi_begin_indep_data 7),
          .backend (.ncmpi_get_vars 4 7 0 (some [0]) (some [1]) none),
          .backend (.ncmpi_end_indep_data 7),
          .check_netcdf 0,
          .bcast .payload 0 0 0],
         demo_file 1 ios_async_master, some [0, 0, 0, 1]⟩ ∧
    PIOc_get_att_tc pio_h (bcast_fails_env (demo_file 1 ios_async_master)) 3 0 (some [110])
        4 (some [0, 0, 0, 1])
      = ⟨some (-1),
         [.async_msg (.get_att 37 3 0 2 [110] 1 0 0 0 4 0) 0, .bcast .attlen 1 0 5],
         demo_file 1 ios_async_master, some [0, 0, 0, 1]⟩ ∧
    (PIOc_put_vars_tc pio_h (bcast_fails_env (demo_file 1 ios_async_master)) 3 0 (some [0])
        (some [1]) none 4 (some [0, 0, 0, 1])).ret = some (-1) := by
  refine ⟨?_, ?_, ?_, ?_⟩ <;> decide

/-- C12: a `PIOc_put_vars_tc` call that reaches the parallel-netCDF block on an I/O
rank in the state `c1`, with an element type that has a typed entry and with the
allocations succeeding (a scalar comes without geometry, as the assertion demands).
The buffered write is among the events of the call if and only if the rank is the
I/O master, and then it is the only storage call.  The descriptor handed to the flush
check has `nreqs` one more than before the call, on the I/O master and on the other
I/O ranks alike, and on a rank that is not the I/O master its slot at the old `nreqs`
holds `PIO_REQ_NULL` (on the I/O master, the handle of the buffered write). -/
theorem sentinel_request_keeps_indices_aligned (K : Consts) (E : Env) (ncid varid : Int)
    (start count stride : Option (List Int)) (xtype : Int) (data : Buf) (c1 : Ctx)
    (hopen : (E.pio_get_file ncid).1 = 0)
    (hentry : put_vars_entry K E ncid varid start count stride xtype (some data) = .next c1)
    (hK : K.PIO_IOTYPE_PNETCDF ≠ K.PIO_IOTYPE_ADIOS)
    (hio : (E.pio_get_file ncid).2.iosystem.ioproc = true)
    (hpn : (E.pio_get_file ncid).2.iotype = K.PIO_IOTYPE_PNETCDF)
    (hsupp : pnetcdf_case K c1.loc.xtype = true)
    (hre : E.realloc_fails = false)
    (hgeom : c1.loc.ndims = 0 → start = none ∧ count = none ∧ stride = none)
    (hma : c1.loc.ndims ≠ 0 → stride = none → E.malloc_fails = false)
    (hv : 0 ≤ varid ∧ varid < ((E.pio_get_file ncid).2.varlist.length : Int))
    (hchunk : 0 < K.PIO_REQUEST_ALLOC_CHUNK)
    (hinv : (get_vdesc (E.pio_get_file ncid).2 varid).nreqs % K.PIO_REQUEST_ALLOC_CHUNK ≠ 0 →
      (get_vdesc (E.pio_get_file ncid).2 varid).nreqs
        < (get_vdesc (E.pio_get_file ncid).2 varid).request.length) :
    ((∃ e ∈ (PIOc_put_vars_tc K E ncid varid start count stride xtype (some data)).trace,
        e.isBackend = true) ↔ (E.pio_get_file ncid).2.iosystem.iomaster = K.MPI_ROOT) ∧
    (PIOc_put_vars_tc K E ncid varid start count stride xtype (some data)).trace.filter
        Event.isBackend
      = (if (E.pio_get_file ncid).2.iosystem.iomaster = K.MPI_ROOT then
          [.backend (bput_call varid start count stride data c1)] else []) ∧
    (PIOc_put_vars_tc K E ncid varid start count stride xtype (some data)).file
      = { appended_file K E varid start count stride data c1 with
          varlist := (E.flush_output_buffer
            (appended_file K E varid start count stride data c1)).2 } ∧
    (get_vdesc (appended_file K E varid start count stride data c1) varid).nreqs
      = (get_vdesc (E.pio_get_file ncid).2 varid).nreqs + 1 ∧
    (get_vdesc (appended_file K E varid start count stride data c1) varid).request[
        (get_vdesc (E.pio_get_file ncid).2 varid).nreqs]?
      = some (if (E.pio_get_file ncid).2.iosystem.iomaster = K.MPI_ROOT then
          E.backend_request (bput_call varid start count stride data c1)
        else K.PIO_REQ_NULL) := by
  obtain ⟨hf, hearly⟩ :=
    put_vars_entry_next K E ncid varid start count stride xtype (some data) c1 hentry
  have hcall := PIOc_put_vars_tc_appends K E ncid varid start count stride xtype data c1 hopen
    hentry hK hio hpn hre hgeom hma (fun _ => hsupp)
  have htr : (PIOc_put_vars_tc K E ncid varid start count stride xtype (some data)).trace.filter
        Event.isBackend
      = (if (E.pio_get_file ncid).2.iosystem.iomaster = K.MPI_ROOT then
          [.backend (bput_call varid start count stride data c1)] else []) := by
    rw [hcall, check_and_return_eq, pnetcdf_appended_trace, hf]
    simp only [List.filter_append,
      filter_eq_nil_of_early Event.isBackend c1.trace isEarly_not_backend hearly]
    split_ifs <;> simp [Event.isBackend]
  have hvd := appended_file_vdesc K E varid start count stride data c1
    (by rw [hf]; omega) hchunk (by rw [hf]; exact hinv)
  rw [hf] at hvd
  refine ⟨?_, htr, ?_, hvd.1, ?_⟩
  · constructor
    · rintro ⟨e, he, hb⟩
      by_contra hm
      have : e ∈ (PIOc_put_vars_tc K E ncid varid start count stride xtype
          (some data)).trace.filter Event.isBackend := List.mem_filter.mpr ⟨he, hb⟩
      rw [htr, if_neg hm] at this
      exact List.not_mem_nil _ this
    · intro hm
      have : Event.backend (bput_call varid start count stride data c1)
          ∈ (PIOc_put_vars_tc K E ncid varid start count stride xtype
              (some data)).trace.filter Event.isBackend := by
        rw [htr, if_pos hm]
        exact List.mem_singleton.mpr rfl
      exact ⟨_, (List.mem_filter.mp this).1, (List.mem_filter.mp this).2⟩
  · rw [hcall, check_and_return_eq, pnetcdf_appended_file]
  · rw [hvd.2]
    simp only [request_value, hf]

/-- Witness of C12: a one-dimensional `NC_INT` variable on a parallel-netCDF file of a
synchronous session, written on an I/O rank that is not the I/O master and on the
I/O master. -/
theorem sentinel_request_keeps_indices_aligned_witness :
    (PIOc_put_vars_tc pio_h (demo_env (demo_file 1 ios_io_rank) 1) 3 0 (some [0]) (some [1])
        none 4 (some [0, 0, 0, 1])).trace.filter Event.isBackend = [] ∧
    (PIOc_put_vars_tc pio_h (demo_env (demo_file 1 ios_io_rank) 1) 3 0 (some [0]) (some [1])
        none 4 (some [0, 0, 0, 1])).file.varlist
      = [⟨[-2, 0, 0, 0, 0, 0, 0, 0, 0, 0, 0, 0, 0, 0, 0, 0], 1⟩, ⟨[], 0⟩] ∧
    (PIOc_put_vars_tc pio_h (demo_env (demo_file 1 ios_master) 1) 3 0 (some [0]) (some [1])
        none 4 (some [0, 0, 0, 1])).trace.filter Event.isBackend
      = [.backend (.ncmpi_bput_vars 4 7 0 (some [0]) (some [1]) [1] [0, 0, 0, 1] 0)] ∧
    (PIOc_put_vars_tc pio_h (demo_env (demo_file 1 ios_master) 1) 3 0 (some [0]) (some [1])
        none 4 (some [0, 0, 0, 1])).file.varlist
      = [⟨[100, 0, 0, 0, 0, 0, 0, 0, 0, 0, 0, 0, 0, 0, 0, 0], 1⟩, ⟨[], 0⟩] := by
  have h1 := sentinel_request_keeps_indices_aligned pio_h (demo_env (demo_file 1 ios_io_rank) 1)
    3 0 (some [0]) (some [1]) none 4 [0, 0, 0, 1]
    ⟨0, ⟨1, 4, 1, 4, 4, 0, 0, 0, 0⟩,
      [.catalog (.inq_vartype 3 0) 0, .catalog (.inq_varndims 3 0) 0,
        .catalog (.inq_type 3 4) 0], demo_file 1 ios_io_rank, some [0, 0, 0, 1]⟩
    rfl rfl (by decide) rfl rfl (by decide) rfl (by decide) (fun _ _ => rfl) (by decide)
    (by decide) (by decide)
  have h2 := sentinel_request_keeps_indices_aligned pio_h (demo_env (demo_file 1 ios_master) 1)
    3 0 (some [0]) (some [1]) none 4 [0, 0, 0, 1]
    ⟨0, ⟨1, 4, 1, 4, 4, 0, 0, 0, 0⟩,
      [.catalog (.inq_vartype 3 0) 0, .catalog (.inq_varndims 3 0) 0,
        .catalog (.inq_type 3 4) 0], demo_file 1 ios_master, some [0, 0, 0, 1]⟩
    rfl rfl (by decide) rfl rfl (by decide) rfl (by decide) (fun _ _ => rfl) (by decide)
    (by decide) (by decide)
  refine ⟨h1.2.1, ?_, h2.2.1, ?_⟩
  · rw [h1.2.2.1]
    decide
  · rw [h2.2.2.1]
    decide

/-- C13: the status, the events and the buffer of a `PIOc_put_vars_tc` call are the
same whatever `flush_output_buffer` returns or does to the request lists (`f` stands
for any flush check).  When the call reaches the parallel-netCDF block on an I/O rank
in the state `c1` and appends a request, the flush check is one event of the call, it
comes right after the buffered write of the I/O master (right after the lookups and
messages on the other I/O ranks) and right before `check_netcdf`, and with any flush
check `f` it is handed the same descriptor, in which `nreqs` is one more than before
the call. -/
theorem flush_outcome_is_ignored (K : Consts) (E : Env)
    (f : file_desc_t → Int × List var_desc_t) (ncid varid : Int)
    (start count stride : Option (List Int)) (xtype : Int) (buf : Option Buf)
    (hK : K.PIO_IOTYPE_PNETCDF ≠ K.PIO_IOTYPE_ADIOS) :
    ((PIOc_put_vars_tc K (with_flush E f) ncid varid start count stride xtype buf).ret
        = (PIOc_put_vars_tc K E ncid varid start count stride xtype buf).ret ∧
      (PIOc_put_vars_tc K (with_flush E f) ncid varid start count stride xtype buf).trace
        = (PIOc_put_vars_tc K E ncid varid start count stride xtype buf).trace ∧
      (PIOc_put_vars_tc K (with_flush E f) ncid varid start count stride xtype buf).buf
        = (PIOc_put_vars_tc K E ncid varid start count stride xtype buf).buf) ∧
    ∀ (data : Buf) (c1 : Ctx), buf = some data →
      (E.pio_get_file ncid).1 = 0 →
      put_vars_entry K E ncid varid start count stride xtype (some data) = .next c1 →
      (E.pio_get_file ncid).2.iosystem.ioproc = true →
      (E.pio_get_file ncid).2.iotype = K.PIO_IOTYPE_PNETCDF →
      ((E.pio_get_file ncid).2.iosystem.iomaster = K.MPI_ROOT →
        pnetcdf_case K c1.loc.xtype = true) →
      E.realloc_fails = false →
      (c1.loc.ndims = 0 → start = none ∧ count = none ∧ stride = none) →
      (c1.loc.ndims ≠ 0 → stride = none → E.malloc_fails = false) →
      (0 ≤ varid ∧ varid < ((E.pio_get_file ncid).2.varlist.length : Int)) →
      0 < K.PIO_REQUEST_ALLOC_CHUNK →
      ((get_vdesc (E.pio_get_file ncid).2 varid).nreqs % K.PIO_REQUEST_ALLOC_CHUNK ≠ 0 →
        (get_vdesc (E.pio_get_file ncid).2 varid).nreqs
          < (get_vdesc (E.pio_get_file ncid).2 varid).request.length) →
      (PIOc_put_vars_tc K (with_flush E f) ncid varid start count stride xtype buf).trace.filter
          Event.isFlush = [.flush] ∧
      (∃ ierr, (PIOc_put_vars_tc K (with_flush E f) ncid varid start count stride xtype
            buf).trace
          = c1.trace ++ (if (E.pio_get_file ncid).2.iosystem.iomaster = K.MPI_ROOT then
              [.backend (bput_call varid start count stride data c1)] else [])
            ++ [.flush, .check_netcdf ierr]) ∧
      (∀ e ∈ c1.trace, e.isFlush = false) ∧
      (PIOc_put_vars_tc K (with_flush E f) ncid varid start count stride xtype buf).file
        = { appended_file K E varid start count stride data c1 with
            varlist := (f (appended_file K E varid start count stride data c1)).2 } ∧
      (PIOc_put_vars_tc K E ncid varid start count stride xtype buf).file
        = { appended_file K E varid start count stride data c1 with
            varlist := (E.flush_output_buffer
              (appended_file K E varid start count stride data c1)).2 } ∧
      (get_vdesc (appended_file K E varid start count stride data c1) varid).nreqs
        = (get_vdesc (E.pio_get_file ncid).2 varid).nreqs + 1 := by
  refine ⟨PIOc_put_vars_tc_flush K E f ncid varid start count stride xtype buf hK, ?_⟩
  intro data c1 hbuf hopen hentry hio hpn hcase hre hgeom hma hv hchunk hinv
  subst hbuf
  obtain ⟨hf, hearly⟩ :=
    put_vars_entry_next K E ncid varid start count stride xtype (some data) c1 hentry
  have hcall := PIOc_put_vars_tc_appends K E ncid varid start count stride xtype data c1 hopen
    hentry hK hio hpn hre hgeom hma hcase
  have hcallf := PIOc_put_vars_tc_appends K (with_flush E f) ncid varid start count stride
    xtype data c1 hopen hentry hK hio hpn hre hgeom hma hcase
  have hvd := appended_file_vdesc K E varid start count stride data c1
    (by rw [hf]; omega) hchunk (by rw [hf]; exact hinv)
  rw [hf] at hvd
  have hnf : ∀ e ∈ c1.trace, e.isFlush = false := fun e he => isEarly_not_flush e (hearly e he)
  have htr : (PIOc_put_vars_tc K (with_flush E f) ncid varid start count stride xtype
        (some data)).trace
      = c1.trace ++ (if (E.pio_get_file ncid).2.iosystem.iomaster = K.MPI_ROOT then
          [.backend (bput_call varid start count stride data c1)] else [])
        ++ [.flush, .check_netcdf
          (pnetcdf_appended K (with_flush E f) varid start count stride data c1).ierr] := by
    rw [hcallf, check_and_return_eq, pnetcdf_appended_trace, hf]
    simp
  refine ⟨?_, ⟨_, htr⟩, hnf, ?_, ?_, hvd.1⟩
  · rw [htr]
    simp only [List.filter_append,
      filter_eq_nil_of_early Event.isFlush c1.trace isEarly_not_flush hearly]
    split_ifs <;> simp [Event.isFlush]
  · rw [hcallf, check_and_return_eq, pnetcdf_appended_file]
    rfl
  · rw [hcall, check_and_return_eq, pnetcdf_appended_file]

/-- Witness of C13: a one-dimensional `NC_INT` variable on a parallel-netCDF file,
written on the I/O master of a synchronous session, with a flush check that fails
with -61 and empties the request lists and with one that succeeds and leaves them
alone. -/
theorem flush_outcome_is_ignored_witness :
    (PIOc_put_vars_tc pio_h
        (with_flush (demo_env (demo_file 1 ios_master) 1) fun _ => (-61, []))
        3 0 (some [0]) (some [1]) none 4 (some [0, 0, 0, 1])).ret = some PIO_NOERR ∧
    (PIOc_put_vars_tc pio_h (demo_env (demo_file 1 ios_master) 1)
        3 0 (some [0]) (some [1]) none 4 (some [0, 0, 0, 1])).ret = some PIO_NOERR ∧
    (PIOc_put_vars_tc pio_h
        (with_flush (demo_env (demo_file 1 ios_master) 1) fun _ => (-61, []))
        3 0 (some [0]) (some [1]) none 4 (some [0, 0, 0, 1])).trace.filter Event.isFlush
      = [.flush] := by
  have h := flush_outcome_is_ignored pio_h (demo_env (demo_file 1 ios_master) 1)
    (fun _ => (-61, [])) 3 0 (some [0]) (some [1]) none 4 (some [0, 0, 0, 1]) (by decide)
  have h2 := h.2 [0, 0, 0, 1]
    ⟨0, ⟨1, 4, 1, 4, 4, 0, 0, 0, 0⟩,
      [.catalog (.inq_vartype 3 0) 0, .catalog (.inq_varndims 3 0) 0,
        .catalog (.inq_type 3 4) 0], demo_file 1 ios_master, some [0, 0, 0, 1]⟩
    rfl rfl rfl rfl rfl (fun _ => by decide) rfl (by decide) (fun _ _ => rfl) (by decide)
    (by decide) (by decide)
  refine ⟨?_, by decide, h2.1⟩
  rw [h.1.1]
  decide

/-- C14: on an open file whose variable has `ndims` dimensions (the helper's lookup of
the number of dimensions succeeds), `PIOc_get_var1_tc` is `PIOc_get_vars_tc` called with
start = index, count = an array of `ndims` ones and stride `NULL`, and
`PIOc_put_var1_tc` is `PIOc_put_vars_tc` with the same geometry: same status, same file
descriptor and buffer afterwards, and a trace that is the helper's one lookup of the
number of dimensions followed by the trace of the generic call (the helper adds no
message, broadcast or storage call). -/
theorem element_access_is_unit_count (K : Consts) (E : Env) (ncid varid : Int)
    (index : Option (List Int)) (xtype : Int) (buf : Option Buf)
    (hopen : (E.pio_get_file ncid).1 = 0) (hnd : (E.inq_varndims ncid varid).1 = 0) :
    PIOc_get_var1_tc K E ncid varid index xtype buf
      = (PIOc_get_vars_tc K E ncid varid index
          (some (List.replicate (E.inq_varndims ncid varid).2.toNat 1)) none xtype
          buf).preceded_by [Event.catalog (.inq_varndims ncid varid) 0] ∧
    PIOc_put_var1_tc K E ncid varid index xtype buf
      = (PIOc_put_vars_tc K E ncid varid index
          (some (List.replicate (E.inq_varndims ncid varid).2.toNat 1)) none xtype
          buf).preceded_by [Event.catalog (.inq_varndims ncid varid) 0] := by
  simp [PIOc_get_var1_tc, PIOc_put_var1_tc, hopen, hnd]

/-- Witness of C14: the element at index `[1, 1]` of a two-dimensional variable. -/
theorem element_access_is_unit_count_witness :
    PIOc_get_var1_tc pio_h (demo_env (demo_file 2 ios_master) 2) 3 0 (some [1, 1]) 4
        (some [0, 0, 0, 0])
      = (PIOc_get_vars_tc pio_h (demo_env (demo_file 2 ios_master) 2) 3 0 (some [1, 1])
          (some [1, 1]) none 4 (some [0, 0, 0, 0])).preceded_by
          [Event.catalog (.inq_varndims 3 0) 0] ∧
    PIOc_put_var1_tc pio_h (demo_env (demo_file 2 ios_master) 2) 3 0 (some [1, 1]) 4
        (some [0, 0, 0, 0])
      = (PIOc_put_vars_tc pio_h (demo_env (demo_file 2 ios_master) 2) 3 0 (some [1, 1])
          (some [1, 1]) none 4 (some [0, 0, 0, 0])).preceded_by
          [Event.catalog (.inq_varndims 3 0) 0] :=
  element_access_is_unit_count pio_h (demo_env (demo_file 2 ios_master) 2) 3 0 (some [1, 1]) 4
    (some [0, 0, 0, 0]) rfl rfl

/-- C15: on an open file, when the helper's catalog lookups succeed, `PIOc_get_var_tc`
and `PIOc_put_var_tc` on a variable with `ndims >= 1` are `PIOc_get_vars_tc` /
`PIOc_put_vars_tc` called with start = `ndims` zeros, count[d] = the declared length of
the variable's d-th dimension and stride `NULL`; on a zero-dimension variable they are
the generic call with start, count and stride all `NULL`.  Status, file descriptor and
buffer are those of the generic call; the trace is the helper's lookups followed by the
trace of the generic call. -/
theorem whole_variable_access (K : Consts) (E : Env) (ncid varid : Int)
    (xtype : Int) (buf : Option Buf)
    (hopen : (E.pio_get_file ncid).1 = 0) (hnd : (E.inq_varndims ncid varid).1 = 0) :
    (1 ≤ (E.inq_varndims ncid varid).2 → (E.inq_vardimid ncid varid).1 = 0 →
      (∀ d ∈ dimids_read (E.inq_vardimid ncid varid).2 (E.inq_varndims ncid varid).2,
        (E.inq_dimlen ncid d).1 = 0) →
      PIOc_get_var_tc K E ncid varid xtype buf
        = (PIOc_get_vars_tc K E ncid varid
            (some (List.replicate (E.inq_varndims ncid varid).2.toNat 0))
            (some ((dimids_read (E.inq_vardimid ncid varid).2 (E.inq_varndims ncid varid).2).map
              fun d => (E.inq_dimlen ncid d).2))
            none xtype buf).preceded_by
          ([Event.catalog (.inq_varndims ncid varid) 0,
            Event.catalog (.inq_vardimid ncid varid) 0] ++
            (dimids_read (E.inq_vardimid ncid varid).2 (E.inq_varndims ncid varid).2).map
              fun d => Event.catalog (.inq_dimlen ncid d) 0) ∧
      PIOc_put_var_tc K E ncid varid xtype buf
        = (PIOc_put_vars_tc K E ncid varid
            (some (List.replicate (E.inq_varndims ncid varid).2.toNat 0))
            (some ((dimids_read (E.inq_vardimid ncid varid).2 (E.inq_varndims ncid varid).2).map
              fun d => (E.inq_dimlen ncid d).2))
            none xtype buf).preceded_by
          ([Event.catalog (.inq_varndims ncid varid) 0,
            Event.catalog (.inq_vardimid ncid varid) 0] ++
            (dimids_read (E.inq_vardimid ncid varid).2 (E.inq_varndims ncid varid).2).map
              fun d => Event.catalog (.inq_dimlen ncid d) 0)) ∧
    ((E.inq_varndims ncid varid).2 = 0 →
      PIOc_get_var_tc K E ncid varid xtype buf
        = (PIOc_get_vars_tc K E ncid varid none none none xtype buf).preceded_by
          [Event.catalog (.inq_varndims ncid varid) 0] ∧
      PIOc_put_var_tc K E ncid varid xtype buf
        = (PIOc_put_vars_tc K E ncid varid none none none xtype buf).preceded_by
          [Event.catalog (.inq_varndims ncid varid) 0]) := by
  constructor
  · intro h1 hd hl
    have hne : (E.inq_varndims ncid varid).2 ≠ 0 := by omega
    have hloop := dimlen_loop_ok E ncid _ hl
    simp [PIOc_get_var_tc, PIOc_put_var_tc, hopen, hnd, hne, hd, hloop, PIO_NOERR]
  · intro h0
    simp [PIOc_get_var_tc, PIOc_put_var_tc, hopen, hnd, h0]

/-- Witness of C15: a two-dimensional variable whose dimensions have the lengths 2
and 3, and a scalar variable. -/
theorem whole_variable_access_witness :
    (PIOc_get_var_tc pio_h (demo_env (demo_file 2 ios_master) 2) 3 0 4 (some [0, 0, 0, 0])
        = (PIOc_get_vars_tc pio_h (demo_env (demo_file 2 ios_master) 2) 3 0 (some [0, 0])
            (some [2, 3]) none 4 (some [0, 0, 0, 0])).preceded_by
          [.catalog (.inq_varndims 3 0) 0, .catalog (.inq_vardimid 3 0) 0,
           .catalog (.inq_dimlen 3 0) 0, .catalog (.inq_dimlen 3 1) 0] ∧
      PIOc_put_var_tc pio_h (demo_env (demo_file 2 ios_master) 2) 3 0 4 (some [0, 0, 0, 0])
        = (PIOc_put_vars_tc pio_h (demo_env (demo_file 2 ios_master) 2) 3 0 (some [0, 0])
            (some [2, 3]) none 4 (some [0, 0, 0, 0])).preceded_by
          [.catalog (.inq_varndims 3 0) 0, .catalog (.inq_vardimid 3 0) 0,
           .catalog (.inq_dimlen 3 0) 0, .catalog (.inq_dimlen 3 1) 0]) ∧
    (PIOc_get_var_tc pio_h (demo_env (demo_file 2 ios_master) 0) 3 0 4 (some [0, 0, 0, 0])
        = (PIOc_get_vars_tc pio_h (demo_env (demo_file 2 ios_master) 0) 3 0 none none none 4
            (some [0, 0, 0, 0])).preceded_by [.catalog (.inq_varndims 3 0) 0] ∧
      PIOc_put_var_tc pio_h (demo_env (demo_file 2 ios_master) 0) 3 0 4 (some [0, 0, 0, 0])
        = (PIOc_put_vars_tc pio_h (demo_env (demo_file 2 ios_master) 0) 3 0 none none none 4
            (some [0, 0, 0, 0])).preceded_by [.catalog (.inq_varndims 3 0) 0]) :=
  ⟨(whole_variable_access pio_h (demo_env (demo_file 2 ios_master) 2) 3 0 4
      (some [0, 0, 0, 0]) rfl rfl).1 (by decide) rfl (by decide),
   (whole_variable_access pio_h (demo_env (demo_file 2 ios_master) 0) 3 0 4
      (some [0, 0, 0, 0]) rfl rfl).2 rfl⟩

/-- C16: when the requested memory type is `NC_NAT`, the resolving block of
`PIOc_get_vars_tc` and of `PIOc_put_vars_tc` puts the variable's declared type in
`xtype` and the catalog length of that type in `typelen` (the variable's type being a
file type, not the pseudo-type `PIO_LONG_INTERNAL`); and on a rank of a synchronous
session, which resolves and dispatches itself, every typed storage call of the call is
the entry of the variable's type. -/
theorem nat_type_is_variable_type (K : Consts) (E : Env) (ncid varid : Int)
    (start count stride : Option (List Int)) (buf : Option Buf) (c1 : Ctx)
    (hopen : (E.pio_get_file ncid).1 = 0)
    (hvt : (E.inq_vartype ncid varid).2 ≠ K.PIO_LONG_INTERNAL) :
    (get_vars_resolve K E ncid varid start count
        (Ctx.start E (E.pio_get_file ncid).2 K.NC_NAT buf) = .next c1 →
      c1.loc.xtype = (E.inq_vartype ncid varid).2 ∧
      c1.loc.typelen = (E.inq_type ncid (E.inq_vartype ncid varid).2).2) ∧
    (put_vars_resolve K E ncid varid count
        (Ctx.start E (E.pio_get_file ncid).2 K.NC_NAT buf) = .next c1 →
      c1.loc.xtype = (E.inq_vartype ncid varid).2 ∧
      c1.loc.typelen = (E.inq_type ncid (E.inq_vartype ncid varid).2).2) ∧
    ((E.pio_get_file ncid).2.iosystem.async = false →
      (∀ e ∈ (PIOc_get_vars_tc K E ncid varid start count stride K.NC_NAT buf).trace,
        e.typedAs (E.inq_vartype ncid varid).2 = true) ∧
      (∀ e ∈ (PIOc_put_vars_tc K E ncid varid start count stride K.NC_NAT buf).trace,
        e.typedAs (E.inq_vartype ncid varid).2 = true)) := by
  have hx : resolved_xtype K E ncid varid K.NC_NAT = (E.inq_vartype ncid varid).2 := by
    simp [resolved_xtype]
  refine ⟨fun h => ?_, fun h => ?_, fun hsync => ⟨?_, ?_⟩⟩
  · obtain ⟨h1, h2, -, -⟩ := get_vars_resolve_type K E ncid varid start count _ c1 h
    have h1' : c1.loc.xtype = resolved_xtype K E ncid varid K.NC_NAT := h1
    have h2' : c1.loc.typelen = (if resolved_xtype K E ncid varid K.NC_NAT
        = K.PIO_LONG_INTERNAL then K.sizeof_long
        else (E.inq_type ncid (resolved_xtype K E ncid varid K.NC_NAT)).2) := h2
    rw [hx] at h1' h2'
    rw [if_neg hvt] at h2'
    exact ⟨h1', h2'⟩
  · obtain ⟨h1, h2, -, -⟩ := put_vars_resolve_type K E ncid varid count _ c1 h
    have h1' : c1.loc.xtype = resolved_xtype K E ncid varid K.NC_NAT := h1
    have h2' : c1.loc.typelen = (if resolved_xtype K E ncid varid K.NC_NAT
        = K.PIO_LONG_INTERNAL then K.sizeof_long
        else (E.inq_type ncid (resolved_xtype K E ncid varid K.NC_NAT)).2) := h2
    rw [hx] at h1' h2'
    rw [if_neg hvt] at h2'
    exact ⟨h1', h2'⟩
  · have := get_vars_sync_typed K E ncid varid start count stride K.NC_NAT buf hopen hsync
    rwa [hx] at this
  · have := put_vars_sync_typed K E ncid varid start count stride K.NC_NAT buf hopen hsync
    rwa [hx] at this

/-- Witness of C16: a one-dimensional `NC_INT` variable on a parallel-netCDF file, read
and written with `NC_NAT` on the I/O master of a synchronous session: the resolving
blocks leave `NC_INT` and its catalog length 4, and the typed calls are the `int`
entries. -/
theorem nat_type_is_variable_type_witness :
    (∃ c1, get_vars_resolve pio_h (demo_env (demo_file 1 ios_master) 1) 3 0 (some [0])
        (some [1]) (Ctx.start (demo_env (demo_file 1 ios_master) 1) (demo_file 1 ios_master)
          pio_h.NC_NAT (some [0, 0, 0, 0])) = .next c1 ∧
      c1.loc.xtype = pio_h.NC_INT ∧ c1.loc.typelen = 4) ∧
    Event.backend (.ncmpi_get_vars pio_h.NC_INT 7 0 (some [0]) (some [1]) none)
      ∈ (PIOc_get_vars_tc pio_h (demo_env (demo_file 1 ios_master) 1) 3 0 (some [0])
          (some [1]) none pio_h.NC_NAT (some [0, 0, 0, 0])).trace ∧
    (∀ e ∈ (PIOc_put_vars_tc pio_h (demo_env (demo_file 1 ios_master) 1) 3 0 (some [0])
          (some [1]) none pio_h.NC_NAT (some [0, 0, 0, 0])).trace,
        e.typedAs pio_h.NC_INT = true) :=
  have h := nat_type_is_variable_type pio_h (demo_env (demo_file 1 ios_master) 1) 3 0
    (some [0]) (some [1]) none (some [0, 0, 0, 0])
    ⟨0, ⟨1, 4, 1, 4, 4, 0, 0, 0, 0⟩,
      [.catalog (.inq_vartype 3 0) 0, .catalog (.inq_type 3 4) 0,
        .catalog (.inq_varndims 3 0) 0], demo_file 1 ios_master, some [0, 0, 0, 0]⟩
    rfl (by decide)
  ⟨⟨_, rfl, h.1 rfl⟩, by decide, (h.2.2 rfl).2⟩

/-- C17: on a rank that resolves parameters, when the resolving block falls through:
with the memory type `PIO_LONG_INTERNAL` the per-element memory length is `sizeof(long)`
and the block has made no type-length lookup for the memory type (the attribute
functions have looked up the file type only, the array functions no type length at
all); with every other memory type the length is the one `PIOc_inq_type` returns for
it.  For the array functions the memory type is `xtype` after the `NC_NAT`
substitution. -/
theorem long_type_length_is_sizeof_long (K : Consts) (E : Env) (ncid varid : Int)
    (name : CString) (atttype memtype xtype : Int) (start count : Option (List Int))
    (file : file_desc_t) (buf : Option Buf) (c1 : Ctx) :
    (put_att_resolve K E ncid atttype memtype (Ctx.start E file memtype buf) = .next c1 →
      (memtype = K.PIO_LONG_INTERNAL → c1.loc.memtype_len = K.sizeof_long ∧
        c1.trace = [Event.catalog (.inq_type ncid atttype) 0]) ∧
      (memtype ≠ K.PIO_LONG_INTERNAL → c1.loc.memtype_len = (E.inq_type ncid memtype).2)) ∧
    (get_att_resolve K E ncid varid name memtype (Ctx.start E file memtype buf) = .next c1 →
      (memtype = K.PIO_LONG_INTERNAL → c1.loc.memtype_len = K.sizeof_long ∧
        c1.trace = [Event.catalog (.inq_att ncid varid name) 0,
          Event.catalog (.inq_type ncid (E.inq_att ncid varid name).2.1) 0]) ∧
      (memtype ≠ K.PIO_LONG_INTERNAL → c1.loc.memtype_len = (E.inq_type ncid memtype).2)) ∧
    (get_vars_resolve K E ncid varid start count (Ctx.start E file xtype buf) = .next c1 →
      (resolved_xtype K E ncid varid xtype = K.PIO_LONG_INTERNAL →
        c1.loc.typelen = K.sizeof_long ∧
        c1.trace = [Event.catalog (.inq_vartype ncid varid) 0,
          Event.catalog (.inq_varndims ncid varid) 0]) ∧
      (resolved_xtype K E ncid varid xtype ≠ K.PIO_LONG_INTERNAL →
        c1.loc.typelen = (E.inq_type ncid (resolved_xtype K E ncid varid xtype)).2)) ∧
    (put_vars_resolve K E ncid varid count (Ctx.start E file xtype buf) = .next c1 →
      (resolved_xtype K E ncid varid xtype = K.PIO_LONG_INTERNAL →
        c1.loc.typelen = K.sizeof_long ∧
        c1.trace = [Event.catalog (.inq_vartype ncid varid) 0,
          Event.catalog (.inq_varndims ncid varid) 0]) ∧
      (resolved_xtype K E ncid varid xtype ≠ K.PIO_LONG_INTERNAL →
        c1.loc.typelen = (E.inq_type ncid (resolved_xtype K E ncid varid xtype)).2)) := by
  refine ⟨fun h => ?_, fun h => ?_, fun h => ?_, fun h => ?_⟩
  · obtain ⟨h1, h2⟩ := put_att_resolve_type K E ncid atttype memtype _ c1 h
    exact ⟨fun hl => by simp [h1, h2, hl, Ctx.start], fun hl => by simp [h1, hl]⟩
  · obtain ⟨h1, h2⟩ := get_att_resolve_type K E ncid varid name memtype _ c1 h
    exact ⟨fun hl => by simp [h1, h2, hl, Ctx.start], fun hl => by simp [h1, hl]⟩
  · obtain ⟨-, h1, h2, -⟩ := get_vars_resolve_type K E ncid varid start count _ c1 h
    have h1' : c1.loc.typelen = (if resolved_xtype K E ncid varid xtype = K.PIO_LONG_INTERNAL
        then K.sizeof_long else (E.inq_type ncid (resolved_xtype K E ncid varid xtype)).2) := h1
    have h2' : c1.trace = [] ++ (Event.catalog (.inq_vartype ncid varid) 0 ::
        (if resolved_xtype K E ncid varid xtype = K.PIO_LONG_INTERNAL then []
          else [Event.catalog (.inq_type ncid (resolved_xtype K E ncid varid xtype)) 0]) ++
        [Event.catalog (.inq_varndims ncid varid) 0]) := h2
    exact ⟨fun hl => by simp [h1', h2', hl], fun hl => by simp [h1', hl]⟩
  · obtain ⟨-, h1, h2, -⟩ := put_vars_resolve_type K E ncid varid count _ c1 h
    have h1' : c1.loc.typelen = (if resolved_xtype K E ncid varid xtype = K.PIO_LONG_INTERNAL
        then K.sizeof_long else (E.inq_type ncid (resolved_xtype K E ncid varid xtype)).2) := h1
    have h2' : c1.trace = [] ++ (Event.catalog (.inq_vartype ncid varid) 0 ::
        Event.catalog (.inq_varndims ncid varid) 0 ::
        (if resolved_xtype K E ncid varid xtype = K.PIO_LONG_INTERNAL then []
          else [Event.catalog (.inq_type ncid (resolved_xtype K E ncid varid xtype)) 0])) := h2
    exact ⟨fun hl => by simp [h1', h2', hl], fun hl => by simp [h1', hl]⟩

/-- Witness of C17: the resolving blocks of `PIOc_put_att_tc` (an `NC_INT` attribute)
and of `PIOc_put_vars_tc` fall through with the memory type `PIO_LONG_INTERNAL`, the
length `sizeof(long)` and no type-length lookup for the memory type. -/
theorem long_type_length_is_sizeof_long_witness :
    (∃ c1, put_att_resolve pio_h (demo_env (demo_file 1 ios_master) 1) 3 pio_h.NC_INT
        pio_h.PIO_LONG_INTERNAL (Ctx.start (demo_env (demo_file 1 ios_master) 1)
          (demo_file 1 ios_master) pio_h.PIO_LONG_INTERNAL (some [0])) = .next c1 ∧
      c1.loc.memtype_len = pio_h.sizeof_long ∧
      c1.trace = [Event.catalog (.inq_type 3 pio_h.NC_INT) 0]) ∧
    (∃ c1, put_vars_resolve pio_h (demo_env (demo_file 1 ios_master) 1) 3 0 (some [1])
        (Ctx.start (demo_env (demo_file 1 ios_master) 1)
          (demo_file 1 ios_master) pio_h.PIO_LONG_INTERNAL (some [0])) = .next c1 ∧
      c1.loc.typelen = pio_h.sizeof_long ∧
      c1.trace = [Event.catalog (.inq_vartype 3 0) 0, Event.catalog (.inq_varndims 3 0) 0]) :=
  ⟨⟨_, rfl, ((long_type_length_is_sizeof_long pio_h (demo_env (demo_file 1 ios_master) 1) 3 0
      [] pio_h.NC_INT pio_h.PIO_LONG_INTERNAL pio_h.PIO_LONG_INTERNAL none none
      (demo_file 1 ios_master) (some [0])
      ⟨0, ⟨0, 0, 1, 13, 0, 0, 0, 4, 8⟩, [.catalog (.inq_type 3 4) 0],
        demo_file 1 ios_master, some [0]⟩).1 rfl).1 rfl⟩,
   ⟨_, rfl, ((long_type_length_is_sizeof_long pio_h (demo_env (demo_file 1 ios_master) 1) 3 0
      [] pio_h.NC_INT pio_h.PIO_LONG_INTERNAL pio_h.PIO_LONG_INTERNAL none (some [1])
      (demo_file 1 ios_master) (some [0])
      ⟨0, ⟨1, 8, 1, 13, 4, 0, 0, 0, 0⟩,
        [.catalog (.inq_vartype 3 0) 0, .catalog (.inq_varndims 3 0) 0],
        demo_file 1 ios_master, some [0]⟩).2.2.2 rfl).1 rfl⟩⟩

/-- C18 (the code at the failing input): `PIOc_get_vars_tc` on a one-dimensional
variable with the start array omitted, and with the count array omitted.  The
assertion `ndims == 0 || (start && count)` stops the program after the lookups: no
status is returned and nothing is read. -/
theorem get_vars_omitted_geometry_asserts :
    PIOc_get_vars_tc pio_h (demo_env (demo_file 1 ios_master) 1) 3 0 none (some [1]) none 4
        (some [0, 0, 0, 0])
      = ⟨none,
         [.catalog (.inq_vartype 3 0) 0, .catalog (.inq_type 3 4) 0,
          .catalog (.inq_varndims 3 0) 0],
         demo_file 1 ios_master, some [0, 0, 0, 0]⟩ ∧
    (PIOc_get_vars_tc pio_h (demo_env (demo_file 1 ios_master) 1) 3 0 (some [0]) none none 4
        (some [0, 0, 0, 0])).ret = none ∧
    (PIOc_get_vars_tc pio_h (demo_env (demo_file 1 ios_master) 1) 3 0 none none none 4
        (some [0, 0, 0, 0])).ret = none := by
  refine ⟨?_, ?_, ?_⟩ <;> decide

/-- C19: a `PIOc_put_vars_tc` call that reaches the parallel-netCDF block on the I/O
master in the state `c1`, for a variable with `ndims >= 1` and an element type that has
a typed entry, with the allocations succeeding.  The only storage call is
`ncmpi_bput_vars_*`; its stride argument is, when `stride` is `NULL`, an array of
length `ndims` whose every entry is 1, and otherwise the caller's stride array.  In a
synchronous session `ndims` is the number of dimensions the catalog returned. -/
theorem omitted_stride_is_all_ones (K : Consts) (E : Env) (ncid varid : Int)
    (start count stride : Option (List Int)) (xtype : Int) (data : Buf) (c1 : Ctx)
    (hopen : (E.pio_get_file ncid).1 = 0)
    (hentry : put_vars_entry K E ncid varid start count stride xtype (some data) = .next c1)
    (hK : K.PIO_IOTYPE_PNETCDF ≠ K.PIO_IOTYPE_ADIOS)
    (hio : (E.pio_get_file ncid).2.iosystem.ioproc = true)
    (hpn : (E.pio_get_file ncid).2.iotype = K.PIO_IOTYPE_PNETCDF)
    (hmaster : (E.pio_get_file ncid).2.iosystem.iomaster = K.MPI_ROOT)
    (hsupp : pnetcdf_case K c1.loc.xtype = true)
    (hnd : 1 ≤ c1.loc.ndims)
    (hre : E.realloc_fails = false)
    (hma : stride = none → E.malloc_fails = false) :
    (∃ fake_stride : List Int,
      (PIOc_put_vars_tc K E ncid varid start count stride xtype (some data)).trace.filter
          Event.isBackend
        = [.backend (.ncmpi_bput_vars c1.loc.xtype (E.pio_get_file ncid).2.fh varid start count
            fake_stride data (get_vdesc (E.pio_get_file ncid).2 varid).nreqs)] ∧
      (stride = none →
        (fake_stride.length : Int) = c1.loc.ndims ∧ ∀ x ∈ fake_stride, x = 1) ∧
      (∀ st, stride = some st → fake_stride = st)) ∧
    ((E.pio_get_file ncid).2.iosystem.async = false →
      c1.loc.ndims = (E.inq_varndims ncid varid).2) := by
  obtain ⟨hf, hearly⟩ :=
    put_vars_entry_next K E ncid varid start count stride xtype (some data) c1 hentry
  have hnd0 : c1.loc.ndims ≠ 0 := by omega
  have hcall := PIOc_put_vars_tc_appends K E ncid varid start count stride xtype data c1 hopen
    hentry hK hio hpn hre (fun h => absurd h hnd0) (fun _ => hma) (fun _ => hsupp)
  refine ⟨⟨stride.getD (List.replicate c1.loc.ndims.toNat 1), ?_, ?_, ?_⟩, fun hsync =>
    (put_vars_entry_sync_ndims K E ncid varid start count stride xtype (some data) c1 hentry
      hsync).1⟩
  · rw [hcall, check_and_return_eq, pnetcdf_appended_trace, hf, if_pos hmaster]
    simp only [List.filter_append,
      filter_eq_nil_of_early Event.isBackend c1.trace isEarly_not_backend hearly]
    simp [Event.isBackend, Event.isFlush, bput_call, hnd0, hf]
  · intro hs
    subst hs
    simp only [Option.getD_none, List.length_replicate]
    exact ⟨by omega, fun x hx => (List.mem_replicate.mp hx).2⟩
  · intro st hs
    subst hs
    rfl

/-- Witness of C19: a two-dimensional `NC_INT` variable on a parallel-netCDF file,
written on the I/O master of a synchronous session without a stride array. -/
theorem omitted_stride_is_all_ones_witness :
    (PIOc_put_vars_tc pio_h (demo_env (demo_file 1 ios_master) 2) 3 0 (some [0, 0])
        (some [1, 1]) none 4 (some [0, 0, 0, 1])).trace.filter Event.isBackend
      = [.backend (.ncmpi_bput_vars 4 7 0 (some [0, 0]) (some [1, 1]) [1, 1]
          [0, 0, 0, 1] 0)] := by
  obtain ⟨⟨fs, h1, h2, -⟩, -⟩ := omitted_stride_is_all_ones pio_h
    (demo_env (demo_file 1 ios_master) 2) 3 0 (some [0, 0]) (some [1, 1]) none 4 [0, 0, 0, 1]
    ⟨0, ⟨2, 4, 1, 4, 4, 0, 0, 0, 0⟩,
      [.catalog (.inq_vartype 3 0) 0, .catalog (.inq_varndims 3 0) 0,
        .catalog (.inq_type 3 4) 0], demo_file 1 ios_master, some [0, 0, 0, 1]⟩
    rfl rfl (by decide) rfl rfl rfl (by decide) (by decide) rfl (fun _ => rfl)
  rw [h1]
  obtain ⟨hl, hone⟩ := h2 rfl
  have : fs = [1, 1] := by
    match fs, hl, hone with
    | [a, b], _, hone =>
      rw [hone a (by simp), hone b (by simp)]
  rw [this]
  rfl

/-- C20 (the code at the failing input): the same calls, catalog and storage library,
messaging that succeeds, element type `NC_UBYTE` on a parallel-netCDF file.  In a
synchronous session the calling rank that is I/O master gets the unsupported-type
status from each of the four operations; in an asynchronous session the calling
(compute) rank gets `PIO_NOERR` from each of them. -/
theorem sync_and_async_status_differ :
    (PIOc_put_att_tc pio_h (demo_env (demo_file 1 ios_master) 1) 3 0 (some [110])
        pio_h.NC_UBYTE 1 pio_h.NC_UBYTE (some [0])).ret = some pio_h.PIO_EBADTYPE ∧
    (PIOc_put_att_tc pio_h (demo_env (demo_file 1 ios_compute) 1) 3 0 (some [110])
        pio_h.NC_UBYTE 1 pio_h.NC_UBYTE (some [0])).ret = some PIO_NOERR ∧
    (PIOc_get_att_tc pio_h (demo_env (demo_file 1 ios_master) 1) 3 0 (some [110])
        pio_h.NC_UBYTE (some [0])).ret = some pio_h.PIO_EBADTYPE ∧
    (PIOc_get_att_tc pio_h (demo_env (demo_file 1 ios_compute) 1) 3 0 (some [110])
        pio_h.NC_UBYTE (some [0])).ret = some PIO_NOERR ∧
    (PIOc_get_vars_tc pio_h (demo_env (demo_file 1 ios_master) 1) 3 0 (some [0]) (some [1])
        none pio_h.NC_UBYTE (some [0])).ret = some pio_h.PIO_EBADIOTYPE ∧
    (PIOc_get_vars_tc pio_h (demo_env (demo_file 1 ios_compute) 1) 3 0 (some [0]) (some [1])
        none pio_h.NC_UBYTE (some [0])).ret = some PIO_NOERR ∧
    (PIOc_put_vars_tc pio_h (demo_env (demo_file 1 ios_master) 1) 3 0 (some [0]) (some [1])
        none pio_h.NC_UBYTE (some [0])).ret = some pio_h.PIO_EBADTYPE ∧
    (PIOc_put_vars_tc pio_h (demo_env (demo_file 1 ios_compute) 1) 3 0 (some [0]) (some [1])
        none pio_h.NC_UBYTE (some [0])).ret = some PIO_NOERR := by
  refine ⟨?_, ?_, ?_, ?_, ?_, ?_, ?_, ?_⟩ <;> decide

/-- C21 (the code at the failing input): a rank of a synchronous session that is not an
I/O rank reads `2^29 + 1` doubles, `2^32 + 8` bytes, into a zeroed buffer; the I/O
root's buffer holds ones.  The byte count `num_elem * typelen` reaches `MPI_Bcast`
through its `int` parameter as 8: the call returns `PIO_NOERR`, and byte 8 of the
rank's buffer, which is among the first `num_elem * typelen` bytes, is still 0 where
the root has 1. -/
theorem payload_count_is_truncated :
    (PIOc_get_vars_tc pio_h (big_read_env (demo_file 1 ios_non_io)) 3 0 (some [0])
        (some [536870913]) none pio_h.NC_DOUBLE (some (big_buf 0))).ret = some PIO_NOERR ∧
    Event.bcast .payload 8 0 0
      ∈ (PIOc_get_vars_tc pio_h (big_read_env (demo_file 1 ios_non_io)) 3 0 (some [0])
        (some [536870913]) none pio_h.NC_DOUBLE (some (big_buf 0))).trace ∧
    (∃ b, (PIOc_get_vars_tc pio_h (big_read_env (demo_file 1 ios_non_io)) 3 0 (some [0])
        (some [536870913]) none pio_h.NC_DOUBLE (some (big_buf 0))).buf = some b ∧
      b[8]? = some 0) ∧
    (big_buf 1)[8]? = some 1 ∧ (8 : Int) < 536870913 * 8 := by
  have hbody : get_vars_body pio_h (big_read_env (demo_file 1 ios_non_io)) 3 0 (some [0])
      (some [536870913]) none pio_h.NC_DOUBLE (some (big_buf 0))
      = .next ⟨0, ⟨1, 8, 536870913, 6, 6, 0, 0, 0, 0⟩,
          [.catalog (.inq_vartype 3 0) 0, .catalog (.inq_type 3 6) 0,
            .catalog (.inq_varndims 3 0) 0], demo_file 1 ios_non_io, some (big_buf 0)⟩ := rfl
  have hcall := PIOc_get_vars_tc_eq pio_h (big_read_env (demo_file 1 ios_non_io)) 3 0
    (some [0]) (some [536870913]) none pio_h.NC_DOUBLE (big_buf 0) rfl
  rw [hbody, Flow.next_finish, check_and_bcast_ok _ _ _ rfl] at hcall
  rw [hcall]
  refine ⟨rfl, ?_, ⟨_, rfl, ?_⟩, ?_, by decide⟩
  · exact List.mem_append_right _ (List.mem_cons_of_mem _ (List.mem_singleton.mpr rfl))
  · exact truncated_payload_byte 4294967304 8 1 0 (by omega)
  · simp only [big_buf, List.getElem?_replicate]
    rfl

/-- Payload delivery within the range of `int`: a successful `PIOc_get_att_tc` or
`PIOc_get_vars_tc` call whose
byte count (`attlen * memtype_len`, `num_elem * typelen`, the values of the rank's
locals at the closing lines) fits in a nonnegative `int`.  On a rank other than the
I/O root the first that-many bytes of the buffer are the first that-many bytes of the
I/O root's buffer; on the I/O root the buffer is what the I/O block left.  In a
synchronous session the locals are the values the resolving block found. -/
theorem successful_get_receives_roots_bytes (K : Consts) (E : Env) (ncid varid : Int)
    (name : CString) (memtype : Int) (start count stride : Option (List Int)) (xtype : Int)
    (data : Buf)
    (hopen : (E.pio_get_file ncid).1 = 0)
    (hmpi : ∀ code, code ≠ 0 → E.check_mpi code ≠ 0) :
    (name.length ≤ K.PIO_MAX_NAME → ∀ c1,
      get_att_body K E ncid varid name memtype (some data) = .next c1 →
      (PIOc_get_att_tc K E ncid varid (some name) memtype (some data)).ret = some PIO_NOERR →
      0 ≤ c1.loc.attlen * c1.loc.memtype_len →
      c1.loc.attlen * c1.loc.memtype_len < 2147483648 →
      (∀ rootbuf, E.payload_root = some rootbuf →
        (c1.loc.attlen * c1.loc.memtype_len).toNat ≤ rootbuf.length →
        ∃ b, (PIOc_get_att_tc K E ncid varid (some name) memtype (some data)).buf = some b ∧
          b.take (c1.loc.attlen * c1.loc.memtype_len).toNat
            = rootbuf.take (c1.loc.attlen * c1.loc.memtype_len).toNat) ∧
      (E.payload_root = none →
        (PIOc_get_att_tc K E ncid varid (some name) memtype (some data)).buf = c1.buf) ∧
      ((E.pio_get_file ncid).2.iosystem.async = false →
        c1.loc.attlen = (E.inq_att ncid varid name).2.2 ∧
        c1.loc.memtype_len = (if memtype = K.PIO_LONG_INTERNAL then K.sizeof_long
          else (E.inq_type ncid memtype).2))) ∧
    (∀ c1,
      get_vars_body K E ncid varid start count stride xtype (some data) = .next c1 →
      (PIOc_get_vars_tc K E ncid varid start count stride xtype (some data)).ret
        = some PIO_NOERR →
      0 ≤ c1.loc.num_elem * c1.loc.typelen →
      c1.loc.num_elem * c1.loc.typelen < 2147483648 →
      (∀ rootbuf, E.payload_root = some rootbuf →
        (c1.loc.num_elem * c1.loc.typelen).toNat ≤ rootbuf.length →
        ∃ b, (PIOc_get_vars_tc K E ncid varid start count stride xtype (some data)).buf
            = some b ∧
          b.take (c1.loc.num_elem * c1.loc.typelen).toNat
            = rootbuf.take (c1.loc.num_elem * c1.loc.typelen).toNat) ∧
      (E.payload_root = none →
        (PIOc_get_vars_tc K E ncid varid start count stride xtype (some data)).buf = c1.buf) ∧
      ((E.pio_get_file ncid).2.iosystem.async = false →
        c1.loc.num_elem = count_loop (count.getD []) (E.inq_varndims ncid varid).2 1 ∧
        c1.loc.typelen = (if resolved_xtype K E ncid varid xtype = K.PIO_LONG_INTERNAL
          then K.sizeof_long
          else (E.inq_type ncid (resolved_xtype K E ncid varid xtype)).2))) := by
  constructor
  · intro hname c1 hbody hret h0 h1
    have hcall := PIOc_get_att_tc_eq K E ncid varid name memtype data hopen hname
    rw [hbody, Flow.next_finish] at hcall
    rw [hcall] at hret ⊢
    obtain ⟨hcheck, -⟩ := check_and_bcast_success E _ c1 hmpi hret
    rw [check_and_bcast_ok E _ c1 hcheck]
    have hn : att_payload_count c1.loc = c1.loc.attlen * c1.loc.memtype_len :=
      att_count_exact _ _ h0 h1
    rw [hn]
    obtain ⟨b0, hb0⟩ := get_att_body_buf K E ncid varid name memtype data c1 hbody
    refine ⟨fun rootbuf hroot hlen => ?_, fun hroot => ?_,
      get_att_body_sync K E ncid varid name memtype (some data) c1 hbody⟩
    · obtain ⟨e1, e2⟩ := bcast_payload_take E _ rootbuf b0 hroot hlen
      exact ⟨_, by rw [hb0]; exact e1, e2⟩
    · cases hb : c1.buf <;> simp [bcast_payload, hroot]
  · intro c1 hbody hret h0 h1
    have hcall := PIOc_get_vars_tc_eq K E ncid varid start count stride xtype data hopen
    rw [hbody, Flow.next_finish] at hcall
    rw [hcall] at hret ⊢
    obtain ⟨hcheck, -⟩ := check_and_bcast_success E _ c1 hmpi hret
    rw [check_and_bcast_ok E _ c1 hcheck]
    have hn : vars_payload_count c1.loc = c1.loc.num_elem * c1.loc.typelen :=
      toInt32_of_range _ (by omega) h1
    rw [hn]
    obtain ⟨b0, hb0⟩ := get_vars_body_buf K E ncid varid start count stride xtype data c1 hbody
    refine ⟨fun rootbuf hroot hlen => ?_, fun hroot => ?_,
      get_vars_body_sync K E ncid varid start count stride xtype (some data) c1 hbody⟩
    · obtain ⟨e1, e2⟩ := bcast_payload_take E _ rootbuf b0 hroot hlen
      exact ⟨_, by rw [hb0]; exact e1, e2⟩
    · cases hb : c1.buf <;> simp [bcast_payload, hroot]

/-- An instance of the delivery within the range of `int`: a rank of a synchronous
session that is not an I/O rank reads one `NC_INT` element of a one-dimensional variable; the I/O root's buffer
holds `[9, 8, 7, 6]`. -/
theorem successful_get_receives_roots_bytes_witness :
    (PIOc_get_vars_tc pio_h (receiving_env (demo_file 1 ios_non_io) [9, 8, 7, 6]) 3 0
        (some [0]) (some [1]) none pio_h.NC_INT (some [0, 0, 0, 0])).ret = some PIO_NOERR ∧
    ∃ b, (PIOc_get_vars_tc pio_h (receiving_env (demo_file 1 ios_non_io) [9, 8, 7, 6]) 3 0
        (some [0]) (some [1]) none pio_h.NC_INT (some [0, 0, 0, 0])).buf = some b ∧
      b.take 4 = [9, 8, 7, 6] :=
  ⟨by decide,
   ((successful_get_receives_roots_bytes pio_h
      (receiving_env (demo_file 1 ios_non_io) [9, 8, 7, 6]) 3 0 [] 4 (some [0]) (some [1])
      none pio_h.NC_INT [0, 0, 0, 0] rfl (fun _ _ => (by decide : (-1 : Int) ≠ 0))).2
      ⟨0, ⟨1, 4, 1, 4, 4, 0, 0, 0, 0⟩,
        [.catalog (.inq_vartype 3 0) 0, .catalog (.inq_type 3 4) 0,
          .catalog (.inq_varndims 3 0) 0], demo_file 1 ios_non_io, some [0, 0, 0, 0]⟩
      rfl (by decide) (by decide) (by decide)).1 [9, 8, 7, 6] rfl (by decide)⟩

/-- C22, counterexample: scenario B, four compute ranks and two I/O ranks of an
asynchronous session; every compute rank writes 10 `NC_INT` elements of a
one-dimensional variable.  The compute root resolves `ndims = 1`, `typelen = 4`,
`num_elem = 10`.  After the metadata broadcasts of the call (which deliver the compute
root's values) the two I/O ranks hold the root's `ndims` and `xtype`, but their
`num_elem` is 1 and their `typelen` is the unset initial value, not 10 and 4. -/
theorem io_ranks_do_not_receive_count_and_length :
    (put_vars_resolved pio_h (demo_env (demo_file 1 ios_compute) 1) 3 0 (some [10]) 4
        (some (List.replicate 40 0))).locals = some ⟨1, 4, 10, 4, 4, 0, 0, 0, 0⟩ ∧
    scenario_b.map (fun ios =>
        (put_vars_entry pio_h
          (from_comproot (demo_env (demo_file 1 ios) 1) ⟨1, 4, 10, 4, 4, 0, 0, 0, 0⟩)
          3 0 (some [0]) (some [10]) none 4 (some (List.replicate 40 0))).locals.map
          fun l => (l.ndims, l.xtype, l.num_elem, l.typelen))
      = [some (1, 4, 10, 4), some (1, 4, 10, 4), some (1, 4, 10, 4), some (1, 4, 10, 4),
         some (1, 4, 1, 0), some (1, 4, 1, 0)] := by
  constructor <;> decide

/-- C22 as amended: in an asynchronous session the metadata broadcasts of
`PIOc_put_vars_tc` are those of `ndims` and `xtype`.  When the compute root (collaborators
`Ec`) resolves the locals `c0.loc` and the broadcasts deliver them to an I/O rank
(collaborators `Eio`), the I/O rank reaches the I/O block with the compute root's `ndims`
and `xtype`, without having made a lookup; its `num_elem` is the initial 1 and its
`typelen` is unset.  The compute root's `num_elem` and `typelen`, and the byte count
`num_elem * typelen`, are in the envelope of its async message. -/
theorem io_rank_receives_ndims_and_xtype (K : Consts) (Ec Eio : Env) (ncid varid : Int)
    (start count stride : Option (List Int)) (xtype : Int) (data : Buf) (c0 c1 : Ctx)
    (hopen : (Ec.pio_get_file ncid).1 = 0)
    (hasync_c : (Ec.pio_get_file ncid).2.iosystem.async = true)
    (hcomp : (Ec.pio_get_file ncid).2.iosystem.ioproc = false)
    (hres : put_vars_resolved K Ec ncid varid count xtype (some data) = .next c0)
    (hasync : (Eio.pio_get_file ncid).2.iosystem.async = true)
    (hio : (Eio.pio_get_file ncid).2.iosystem.ioproc = true)
    (hentry : put_vars_entry K (from_comproot Eio c0.loc) ncid varid start count stride xtype
      (some data) = .next c1) :
    (c1.loc.ndims = c0.loc.ndims ∧ c0.loc.ndims = (Ec.inq_varndims ncid varid).2) ∧
    (c1.loc.xtype = c0.loc.xtype ∧ c0.loc.xtype = resolved_xtype K Ec ncid varid xtype) ∧
    c1.loc.num_elem = 1 ∧ c1.loc.typelen = Eio.uninit.typelen ∧
    (∀ e ∈ c1.trace, e.isCatalog = false) ∧
    (PIOc_put_vars_tc K Ec ncid varid start count stride xtype (some data)).trace.filter
        Event.isAsyncMsg
      = [.async_msg (.put_vars K.PIO_MSG_PUT_VARS ncid varid c0.loc.ndims
            (geom_msg start (geom_sz c0.loc.ndims)) (geom_msg count (geom_sz c0.loc.ndims))
            (geom_msg stride (geom_sz c0.loc.ndims)) c0.loc.xtype c0.loc.num_elem
            c0.loc.typelen (toInt64 (c0.loc.num_elem * c0.loc.typelen)) data)
          (Ec.send_async_msg (put_vars_envelope K ncid varid start count stride data
            c0.loc))] := by
  obtain ⟨hl, hcat⟩ := put_vars_entry_io_rank K (from_comproot Eio c0.loc) ncid varid start
    count stride xtype (some data) c1 hasync hio hentry
  have hmsg := put_vars_msgs K Ec ncid varid start count stride xtype data c0 hopen hres
  rw [if_pos hasync_c] at hmsg
  have hres2 := hres
  simp only [put_vars_resolved, hcomp, Bool.false_eq_true, not_false_eq_true, or_true,
    if_true] at hres2
  refine ⟨⟨?_, (put_vars_resolve_num_elem K Ec ncid varid count _ c0 hres2).2⟩,
    ⟨?_, (put_vars_resolve_type K Ec ncid varid count _ c0 hres2).1⟩, ?_, ?_, hcat, hmsg⟩
  · rw [hl]; rfl
  · rw [hl]; rfl
  · rw [hl]
  · rw [hl]; rfl

/-- Witness of the amended C22: the compute root and the I/O master of scenario B. -/
theorem io_rank_receives_ndims_and_xtype_witness :
    ∃ c1, put_vars_entry pio_h
        (from_comproot (demo_env (demo_file 1 ios_async_master) 1)
          ⟨1, 4, 10, 4, 4, 0, 0, 0, 0⟩)
        3 0 (some [0]) (some [10]) none 4 (some (List.replicate 40 0)) = .next c1 ∧
      c1.loc.ndims = 1 ∧ c1.loc.xtype = 4 ∧ c1.loc.num_elem = 1 ∧ c1.loc.typelen = 0 :=
  have h := io_rank_receives_ndims_and_xtype pio_h (demo_env (demo_file 1 ios_compute) 1)
    (demo_env (demo_file 1 ios_async_master) 1) 3 0 (some [0]) (some [10]) none 4
    (List.replicate 40 0)
    ⟨0, ⟨1, 4, 10, 4, 4, 0, 0, 0, 0⟩,
      [.catalog (.inq_vartype 3 0) 0, .catalog (.inq_varndims 3 0) 0,
        .catalog (.inq_type 3 4) 0], demo_file 1 ios_compute, some (List.replicate 40 0)⟩
    ⟨0, ⟨1, 0, 1, 4, 0, 0, 0, 0, 0⟩,
      [.async_msg (.put_vars 46 3 0 0 ⟨true, 1, [0]⟩ ⟨true, 1, [10]⟩ ⟨false, 1, [0]⟩ 4 1 0 0
          (List.replicate 40 0)) 0,
        .bcast .ndims 1 0 0, .bcast .xtype 1 0 0],
      demo_file 1 ios_async_master, some (List.replicate 40 0)⟩
    rfl rfl rfl rfl rfl rfl rfl
  ⟨_, rfl, h.1.1, h.2.1.1, h.2.2.1, h.2.2.2.1⟩

/-- C23 (the code at the failing input): a one-dimensional variable of 10 doubles on the
I/O master of a synchronous session, serial netCDF and parallel-netCDF file.
`PIOc_put_vars_tc` with start, count and stride omitted makes its one storage call and
returns `PIO_NOERR`.  `PIOc_get_vars_tc` with the same geometry into a zeroed buffer is
stopped by the assertion `ndims == 0 || (start && count)` after the lookups: no status,
no storage call, the buffer still zero.  With start, count and stride supplied both
calls hand the same geometry to the storage library and return `PIO_NOERR`. -/
theorem round_trip_stops_at_omitted_geometry :
    PIOc_put_vars_tc pio_h (doubles_env (demo_file 2 ios_master)) 3 0 none none none
        pio_h.NC_DOUBLE (some (List.replicate 80 1))
      = ⟨some PIO_NOERR,
         [.catalog (.inq_vartype 3 0) 0, .catalog (.inq_varndims 3 0) 0,
          .catalog (.inq_type 3 6) 0,
          .backend (.nc_put_vars 6 7 0 none none none (List.replicate 80 1)),
          .check_netcdf 0],
         demo_file 2 ios_master, some (List.replicate 80 1)⟩ ∧
    PIOc_get_vars_tc pio_h (doubles_env (demo_file 2 ios_master)) 3 0 none none none
        pio_h.NC_DOUBLE (some (List.replicate 80 0))
      = ⟨none,
         [.catalog (.inq_vartype 3 0) 0, .catalog (.inq_type 3 6) 0,
          .catalog (.inq_varndims 3 0) 0],
         demo_file 2 ios_master, some (List.replicate 80 0)⟩ ∧
    (PIOc_put_vars_tc pio_h (doubles_env (demo_file 1 ios_master)) 3 0 none none none
        pio_h.NC_DOUBLE (some (List.replicate 80 1))).ret = some PIO_NOERR ∧
    ((PIOc_put_vars_tc pio_h (doubles_env (demo_file 1 ios_master)) 3 0 none none none
        pio_h.NC_DOUBLE (some (List.replicate 80 1))).trace.filter Event.isBackend).length
      = 1 ∧
    PIOc_get_vars_tc pio_h (doubles_env (demo_file 1 ios_master)) 3 0 none none none
        pio_h.NC_DOUBLE (some (List.replicate 80 0))
      = ⟨none,
         [.catalog (.inq_vartype 3 0) 0, .catalog (.inq_type 3 6) 0,
          .catalog (.inq_varndims 3 0) 0],
         demo_file 1 ios_master, some (List.replicate 80 0)⟩ ∧
    (PIOc_put_vars_tc pio_h (doubles_env (demo_file 2 ios_master)) 3 0 (some [0]) (some [10])
        (some [1]) pio_h.NC_DOUBLE (some (List.replicate 80 1))).ret = some PIO_NOERR ∧
    Event.backend (.nc_put_vars 6 7 0 (some [0]) (some [10]) (some [1]) (List.replicate 80 1))
      ∈ (PIOc_put_vars_tc pio_h (doubles_env (demo_file 2 ios_master)) 3 0 (some [0])
        (some [10]) (some [1]) pio_h.NC_DOUBLE (some (List.replicate 80 1))).trace ∧
    (PIOc_get_vars_tc pio_h (doubles_env (demo_file 2 ios_master)) 3 0 (some [0]) (some [10])
        (some [1]) pio_h.NC_DOUBLE (some (List.replicate 80 0))).ret = some PIO_NOERR ∧
    Event.backend (.nc_get_vars 6 7 0 (some [0]) (some [10]) (some [1]))
      ∈ (PIOc_get_vars_tc pio_h (doubles_env (demo_file 2 ios_master)) 3 0 (some [0])
        (some [10]) (some [1]) pio_h.NC_DOUBLE (some (List.replicate 80 0))).trace := by
  refine ⟨?_, ?_, ?_, ?_, ?_, ?_, ?_, ?_, ?_⟩ <;> decide

/-- C26: on an open file, a call of `PIOc_put_att_tc`, `PIOc_get_att_tc`,
`PIOc_get_vars_tc` or `PIOc_put_vars_tc` that passes the argument checks and whose
resolving step falls through records exactly one async message when `ios->async` is
set and none otherwise.  The message events of a call of a helper (`PIOc_get_var1_tc`,
`PIOc_put_var1_tc`, `PIOc_get_var_tc`, `PIOc_put_var_tc`) are those of the generic call
it ends in, or none when one of its own lookups fails. -/
theorem one_async_message_per_call (K : Consts) (E : Env) (ncid varid : Int) (name : CString)
    (atttype len memtype xtype : Int) (start count stride index : Option (List Int))
    (data : Buf) (buf : Option Buf)
    (hopen : (E.pio_get_file ncid).1 = 0) :
    (name.length ≤ K.PIO_MAX_NAME → 0 ≤ len → ∀ c2,
      put_att_resolved K E ncid atttype memtype (some data) = .next c2 →
      ((PIOc_put_att_tc K E ncid varid (some name) atttype len memtype
          (some data)).trace.filter Event.isAsyncMsg).length
        = if (E.pio_get_file ncid).2.iosystem.async then 1 else 0) ∧
    (name.length ≤ K.PIO_MAX_NAME → ∀ c2,
      get_att_resolved K E ncid varid name memtype (some data) = .next c2 →
      ((PIOc_get_att_tc K E ncid varid (some name) memtype
          (some data)).trace.filter Event.isAsyncMsg).length
        = if (E.pio_get_file ncid).2.iosystem.async then 1 else 0) ∧
    (∀ c2, get_vars_resolved K E ncid varid start count xtype (some data) = .next c2 →
      ((PIOc_get_vars_tc K E ncid varid start count stride xtype
          (some data)).trace.filter Event.isAsyncMsg).length
        = if (E.pio_get_file ncid).2.iosystem.async then 1 else 0) ∧
    (∀ c2, put_vars_resolved K E ncid varid count xtype (some data) = .next c2 →
      ((PIOc_put_vars_tc K E ncid varid start count stride xtype
          (some data)).trace.filter Event.isAsyncMsg).length
        = if (E.pio_get_file ncid).2.iosystem.async then 1 else 0) ∧
    ((PIOc_get_var1_tc K E ncid varid index xtype buf).trace.filter Event.isAsyncMsg = [] ∨
      ∃ cnt, (PIOc_get_var1_tc K E ncid varid index xtype buf).trace.filter Event.isAsyncMsg
        = (PIOc_get_vars_tc K E ncid varid index cnt none xtype buf).trace.filter
            Event.isAsyncMsg) ∧
    ((PIOc_put_var1_tc K E ncid varid index xtype buf).trace.filter Event.isAsyncMsg = [] ∨
      ∃ cnt, (PIOc_put_var1_tc K E ncid varid index xtype buf).trace.filter Event.isAsyncMsg
        = (PIOc_put_vars_tc K E ncid varid index cnt none xtype buf).trace.filter
            Event.isAsyncMsg) ∧
    ((PIOc_get_var_tc K E ncid varid xtype buf).trace.filter Event.isAsyncMsg = [] ∨
      ∃ st cnt, (PIOc_get_var_tc K E ncid varid xtype buf).trace.filter Event.isAsyncMsg
        = (PIOc_get_vars_tc K E ncid varid st cnt none xtype buf).trace.filter
            Event.isAsyncMsg) ∧
    ((PIOc_put_var_tc K E ncid varid xtype buf).trace.filter Event.isAsyncMsg = [] ∨
      ∃ st cnt, (PIOc_put_var_tc K E ncid varid xtype buf).trace.filter Event.isAsyncMsg
        = (PIOc_put_vars_tc K E ncid varid st cnt none xtype buf).trace.filter
            Event.isAsyncMsg) := by
  refine ⟨fun hname hlen c2 h => ?_, fun hname c2 h => ?_, fun c2 h => ?_, fun c2 h => ?_,
    ?_, ?_, ?_, ?_⟩
  · rw [put_att_msgs K E ncid varid name atttype len memtype data c2 hopen hname hlen h]
    split_ifs <;> rfl
  · rw [get_att_msgs K E ncid varid name memtype data c2 hopen hname h]
    split_ifs <;> rfl
  · rw [get_vars_msgs K E ncid varid start count stride xtype data c2 hopen h]
    split_ifs <;> rfl
  · rw [put_vars_msgs K E ncid varid start count stride xtype data c2 hopen h]
    split_ifs <;> rfl
  · by_cases hnd : (E.inq_varndims ncid varid).1 = 0
    · right
      refine ⟨some (List.replicate (E.inq_varndims ncid varid).2.toNat 1), ?_⟩
      simp only [PIOc_get_var1_tc, hopen, hnd, ne_eq, not_true_eq_false, if_false]
      exact preceded_by_msgs _ _ (by simp [Event.isCatalog])
    · left
      simp [PIOc_get_var1_tc, hopen, hnd, Event.isAsyncMsg]
  · by_cases hnd : (E.inq_varndims ncid varid).1 = 0
    · right
      refine ⟨some (List.replicate (E.inq_varndims ncid varid).2.toNat 1), ?_⟩
      simp only [PIOc_put_var1_tc, hopen, hnd, ne_eq, not_true_eq_false, if_false]
      exact preceded_by_msgs _ _ (by simp [Event.isCatalog])
    · left
      simp [PIOc_put_var1_tc, hopen, hnd, Event.isAsyncMsg]
  · exact helper_msgs_get K E ncid varid xtype buf hopen
  · exact helper_msgs_put K E ncid varid xtype buf hopen

/-- Witness of C26: `PIOc_get_vars_tc` on a compute rank of an asynchronous session
records one async message, on the I/O master of a synchronous session none. -/
theorem one_async_message_per_call_witness :
    ((PIOc_get_vars_tc pio_h (demo_env (demo_file 1 ios_compute) 1) 3 0 (some [0]) (some [1])
        none 4 (some [0, 0, 0, 0])).trace.filter Event.isAsyncMsg).length = 1 ∧
    ((PIOc_get_vars_tc pio_h (demo_env (demo_file 1 ios_master) 1) 3 0 (some [0]) (some [1])
        none 4 (some [0, 0, 0, 0])).trace.filter Event.isAsyncMsg).length = 0 :=
  ⟨(one_async_message_per_call pio_h (demo_env (demo_file 1 ios_compute) 1) 3 0 [] 4 0 4 4
      (some [0]) (some [1]) none none [0, 0, 0, 0] none rfl).2.2.1 _ rfl,
   (one_async_message_per_call pio_h (demo_env (demo_file 1 ios_master) 1) 3 0 [] 4 0 4 4
      (some [0]) (some [1]) none none [0, 0, 0, 0] none rfl).2.2.1 _ rfl⟩

/-- C27: in an asynchronous session, a `PIOc_get_vars_tc` or `PIOc_put_vars_tc` call on
an open file whose resolving step falls through in the state `c2` records one async
message.  Its envelope holds `ndims` and, for each of start, count and stride, the
presence flag, the declared length and the values as `GeomMsg.carries` says: flag set
exactly when the caller supplied the array, length `ndims` when `ndims > 0` and 1
otherwise, the caller's values or zeros.  On a rank that resolves, `ndims` is the
number of dimensions the catalog returned. -/
theorem envelope_geometry (K : Consts) (E : Env) (ncid varid : Int)
    (start count stride : Option (List Int)) (xtype : Int) (data : Buf) (c2 : Ctx)
    (hopen : (E.pio_get_file ncid).1 = 0)
    (hasync : (E.pio_get_file ncid).2.iosystem.async = true) :
    (get_vars_resolved K E ncid varid start count xtype (some data) = .next c2 →
      (∃ gs gc gst code,
        (PIOc_get_vars_tc K E ncid varid start count stride xtype (some data)).trace.filter
            Event.isAsyncMsg
          = [.async_msg (.get_vars K.PIO_MSG_GET_VARS ncid varid c2.loc.ndims gs gc gst
              c2.loc.xtype c2.loc.num_elem c2.loc.typelen) code] ∧
        gs.carries start c2.loc.ndims ∧ gc.carries count c2.loc.ndims ∧
        gst.carries stride c2.loc.ndims) ∧
      ((E.pio_get_file ncid).2.iosystem.ioproc = false →
        c2.loc.ndims = (E.inq_varndims ncid varid).2)) ∧
    (put_vars_resolved K E ncid varid count xtype (some data) = .next c2 →
      (∃ gs gc gst code,
        (PIOc_put_vars_tc K E ncid varid start count stride xtype (some data)).trace.filter
            Event.isAsyncMsg
          = [.async_msg (.put_vars K.PIO_MSG_PUT_VARS ncid varid c2.loc.ndims gs gc gst
              c2.loc.xtype c2.loc.num_elem c2.loc.typelen
              (toInt64 (c2.loc.num_elem * c2.loc.typelen)) data) code] ∧
        gs.carries start c2.loc.ndims ∧ gc.carries count c2.loc.ndims ∧
        gst.carries stride c2.loc.ndims) ∧
      ((E.pio_get_file ncid).2.iosystem.ioproc = false →
        c2.loc.ndims = (E.inq_varndims ncid varid).2)) := by
  constructor
  · intro h
    refine ⟨⟨_, _, _,
      E.send_async_msg (get_vars_envelope K ncid varid start count stride c2.loc), ?_,
      geom_msg_carries start _, geom_msg_carries count _,
      geom_msg_carries stride _⟩, fun hio => ?_⟩
    · rw [get_vars_msgs K E ncid varid start count stride xtype data c2 hopen h, if_pos hasync]
      rfl
    · simp only [get_vars_resolved, hio, Bool.false_eq_true, not_false_eq_true, or_true,
        if_true] at h
      exact (get_vars_resolve_num_elem K E ncid varid start count _ c2 h).2.2
  · intro h
    refine ⟨⟨_, _, _,
      E.send_async_msg (put_vars_envelope K ncid varid start count stride data c2.loc), ?_,
      geom_msg_carries start _, geom_msg_carries count _,
      geom_msg_carries stride _⟩, fun hio => ?_⟩
    · rw [put_vars_msgs K E ncid varid start count stride xtype data c2 hopen h, if_pos hasync]
      rfl
    · simp only [put_vars_resolved, hio, Bool.false_eq_true, not_false_eq_true, or_true,
        if_true] at h
      exact (put_vars_resolve_num_elem K E ncid varid count _ c2 h).2

/-- Witness of C27: a compute rank of an asynchronous session reads a two-dimensional
variable with start and count supplied and stride omitted: the envelope carries both
arrays as supplied and, for the stride, the flag unset with two zeros.  The same rank
writes a scalar variable with all three omitted: each placeholder has length 1. -/
theorem envelope_geometry_witness :
    (∃ gs gc gst code,
      (PIOc_get_vars_tc pio_h (demo_env (demo_file 1 ios_compute) 2) 3 0 (some [0, 1])
          (some [2, 3]) none 4 (some [0, 0, 0, 0])).trace.filter Event.isAsyncMsg
        = [.async_msg (.get_vars 47 3 0 2 gs gc gst 4 6 4) code] ∧
      gs.carries (some [0, 1]) 2 ∧ gc.carries (some [2, 3]) 2 ∧ gst.carries none 2) ∧
    (PIOc_get_vars_tc pio_h (demo_env (demo_file 1 ios_compute) 2) 3 0 (some [0, 1])
        (some [2, 3]) none 4 (some [0, 0, 0, 0])).trace.filter Event.isAsyncMsg
      = [.async_msg (.get_vars 47 3 0 2 ⟨true, 2, [0, 1]⟩ ⟨true, 2, [2, 3]⟩
          ⟨false, 2, [0, 0]⟩ 4 6 4) 0] ∧
    (PIOc_put_vars_tc pio_h (demo_env (demo_file 1 ios_compute) 0) 3 0 none none none 4
        (some [0, 0, 0, 1])).trace.filter Event.isAsyncMsg
      = [.async_msg (.put_vars 46 3 0 0 ⟨false, 1, [0]⟩ ⟨false, 1, [0]⟩ ⟨false, 1, [0]⟩
          4 1 4 4 [0, 0, 0, 1]) 0] :=
  ⟨((envelope_geometry pio_h (demo_env (demo_file 1 ios_compute) 2) 3 0 (some [0, 1])
      (some [2, 3]) none 4 [0, 0, 0, 0]
      ⟨0, ⟨2, 4, 6, 4, 4, 0, 0, 0, 0⟩,
        [.catalog (.inq_vartype 3 0) 0, .catalog (.inq_type 3 4) 0,
          .catalog (.inq_varndims 3 0) 0], demo_file 1 ios_compute, some [0, 0, 0, 0]⟩
      rfl rfl).1 rfl).1, by decide, by decide⟩

/-- C28: on an open file, the broadcasts of a `PIOc_get_att_tc` or `PIOc_get_vars_tc`
call, in program order and each with its root, are an initial part of one fixed list:
in an asynchronous session the metadata broadcasts rooted at the compute root
(`attlen`, `atttype_len`, `memtype_len`; `num_elem`, `typelen`, `xtype`) followed by
the payload broadcast rooted at the I/O root, in a synchronous session the payload
broadcast alone.  The list depends on `ios->async` and the two roots only, not on the
rank's role or on the arguments.  When the payload broadcast is made it is rooted at
the I/O root, every metadata broadcast of the list has been made before it, and it is
the last event of the call. -/
theorem metadata_broadcasts_precede_payload (K : Consts) (E : Env) (ncid varid : Int)
    (name : CString) (memtype : Int) (start count stride : Option (List Int)) (xtype : Int)
    (data : Buf)
    (hopen : (E.pio_get_file ncid).1 = 0) :
    (name.length ≤ K.PIO_MAX_NAME →
      bcast_order (PIOc_get_att_tc K E ncid varid (some name) memtype (some data)).trace
        <+: (if (E.pio_get_file ncid).2.iosystem.async then
              get_att_meta (E.pio_get_file ncid).2.iosystem.comproot else [])
            ++ [(.payload, (E.pio_get_file ncid).2.iosystem.ioroot)] ∧
      ∀ n root code, Event.bcast .payload n root code
          ∈ (PIOc_get_att_tc K E ncid varid (some name) memtype (some data)).trace →
        root = (E.pio_get_file ncid).2.iosystem.ioroot ∧
        bcast_order (PIOc_get_att_tc K E ncid varid (some name) memtype (some data)).trace
          = (if (E.pio_get_file ncid).2.iosystem.async then
              get_att_meta (E.pio_get_file ncid).2.iosystem.comproot else [])
            ++ [(.payload, (E.pio_get_file ncid).2.iosystem.ioroot)] ∧
        (PIOc_get_att_tc K E ncid varid (some name) memtype (some data)).trace.getLast?
          = some (.bcast .payload n root code)) ∧
    (bcast_order (PIOc_get_vars_tc K E ncid varid start count stride xtype (some data)).trace
        <+: (if (E.pio_get_file ncid).2.iosystem.async then
              get_vars_meta (E.pio_get_file ncid).2.iosystem.comproot else [])
            ++ [(.payload, (E.pio_get_file ncid).2.iosystem.ioroot)] ∧
      ∀ n root code, Event.bcast .payload n root code
          ∈ (PIOc_get_vars_tc K E ncid varid start count stride xtype (some data)).trace →
        root = (E.pio_get_file ncid).2.iosystem.ioroot ∧
        bcast_order (PIOc_get_vars_tc K E ncid varid start count stride xtype
            (some data)).trace
          = (if (E.pio_get_file ncid).2.iosystem.async then
              get_vars_meta (E.pio_get_file ncid).2.iosystem.comproot else [])
            ++ [(.payload, (E.pio_get_file ncid).2.iosystem.ioroot)] ∧
        (PIOc_get_vars_tc K E ncid varid start count stride xtype (some data)).trace.getLast?
          = some (.bcast .payload n root code)) := by
  constructor
  · intro hname
    rw [PIOc_get_att_tc_eq K E ncid varid name memtype data hopen hname]
    exact closing_order E (Ctx.start E (E.pio_get_file ncid).2 memtype (some data)) _ _
      (fun c1 => att_payload_count c1.loc) rfl
      (get_att_body_bcasts K E ncid varid name memtype (some data))
      (by split_ifs <;> simp [get_att_meta])
  · rw [PIOc_get_vars_tc_eq K E ncid varid start count stride xtype data hopen]
    exact closing_order E (Ctx.start E (E.pio_get_file ncid).2 xtype (some data)) _ _
      (fun c1 => vars_payload_count c1.loc) rfl
      (get_vars_body_bcasts K E ncid varid start count stride xtype (some data))
      (by split_ifs <;> simp [get_vars_meta])

/-- Witness of C28: `PIOc_get_att_tc` on the I/O master of an asynchronous session (both
roots are rank 0 of the union communicator in this run). -/
theorem metadata_broadcasts_precede_payload_witness :
    bcast_order (PIOc_get_att_tc pio_h (demo_env (demo_file 1 ios_async_master) 1) 3 0
        (some [110]) 4 (some [0, 0, 0, 0])).trace
      = [(.attlen, 0), (.atttype_len, 0), (.memtype_len, 0), (.payload, 0)] ∧
    (PIOc_get_att_tc pio_h (demo_env (demo_file 1 ios_async_master) 1) 3 0
        (some [110]) 4 (some [0, 0, 0, 0])).trace.getLast?
      = some (.bcast .payload 0 0 0) :=
  have h := ((metadata_broadcasts_precede_payload pio_h
    (demo_env (demo_file 1 ios_async_master) 1) 3 0 [110] 4 none none none 4 [0, 0, 0, 0]
    rfl).1 (by decide)).2 0 0 0 (by decide)
  ⟨h.2.1, h.2.2⟩

/-- C29: on an open file, for a call of each of the four functions that passes the
argument checks: the trace holds a catalog lookup if and only if the session is
synchronous or the rank is not an I/O rank; and if the trace holds a storage call, the
rank is an I/O rank and, when the file is not a parallel-netCDF file (for the put
functions: nor an ADIOS file), its `do_io` flag is set. -/
theorem lookups_and_backend_by_role (K : Consts) (E : Env) (ncid varid : Int)
    (name : CString) (atttype len memtype xtype : Int)
    (start count stride : Option (List Int)) (data : Buf)
    (hopen : (E.pio_get_file ncid).1 = 0) :
    (name.length ≤ K.PIO_MAX_NAME → 0 ≤ len →
      ((∃ e ∈ (PIOc_put_att_tc K E ncid varid (some name) atttype len memtype
          (some data)).trace, e.isCatalog = true) ↔
        ((E.pio_get_file ncid).2.iosystem.async = false ∨
          (E.pio_get_file ncid).2.iosystem.ioproc = false)) ∧
      ((∃ e ∈ (PIOc_put_att_tc K E ncid varid (some name) atttype len memtype
          (some data)).trace, e.isBackend = true) →
        (E.pio_get_file ncid).2.iosystem.ioproc = true ∧
        ((E.pio_get_file ncid).2.iotype ≠ K.PIO_IOTYPE_PNETCDF →
          (E.pio_get_file ncid).2.iotype ≠ K.PIO_IOTYPE_ADIOS →
          (E.pio_get_file ncid).2.do_io = true))) ∧
    (name.length ≤ K.PIO_MAX_NAME →
      ((∃ e ∈ (PIOc_get_att_tc K E ncid varid (some name) memtype (some data)).trace,
          e.isCatalog = true) ↔
        ((E.pio_get_file ncid).2.iosystem.async = false ∨
          (E.pio_get_file ncid).2.iosystem.ioproc = false)) ∧
      ((∃ e ∈ (PIOc_get_att_tc K E ncid varid (some name) memtype (some data)).trace,
          e.isBackend = true) →
        (E.pio_get_file ncid).2.iosystem.ioproc = true ∧
        ((E.pio_get_file ncid).2.iotype ≠ K.PIO_IOTYPE_PNETCDF →
          (E.pio_get_file ncid).2.do_io = true))) ∧
    (((∃ e ∈ (PIOc_get_vars_tc K E ncid varid start count stride xtype (some data)).trace,
          e.isCatalog = true) ↔
        ((E.pio_get_file ncid).2.iosystem.async = false ∨
          (E.pio_get_file ncid).2.iosystem.ioproc = false)) ∧
      ((∃ e ∈ (PIOc_get_vars_tc K E ncid varid start count stride xtype (some data)).trace,
          e.isBackend = true) →
        (E.pio_get_file ncid).2.iosystem.ioproc = true ∧
        ((E.pio_get_file ncid).2.iotype ≠ K.PIO_IOTYPE_PNETCDF →
          (E.pio_get_file ncid).2.do_io = true))) ∧
    (((∃ e ∈ (PIOc_put_vars_tc K E ncid varid start count stride xtype (some data)).trace,
          e.isCatalog = true) ↔
        ((E.pio_get_file ncid).2.iosystem.async = false ∨
          (E.pio_get_file ncid).2.iosystem.ioproc = false)) ∧
      ((∃ e ∈ (PIOc_put_vars_tc K E ncid varid start count stride xtype (some data)).trace,
          e.isBackend = true) →
        (E.pio_get_file ncid).2.iosystem.ioproc = true ∧
        ((E.pio_get_file ncid).2.iotype ≠ K.PIO_IOTYPE_PNETCDF →
          (E.pio_get_file ncid).2.iotype ≠ K.PIO_IOTYPE_ADIOS →
          (E.pio_get_file ncid).2.do_io = true))) := by
  have hrole : (¬ (E.pio_get_file ncid).2.iosystem.async = true ∨
      ¬ (E.pio_get_file ncid).2.iosystem.ioproc = true) ↔
      ((E.pio_get_file ncid).2.iosystem.async = false ∨
        (E.pio_get_file ncid).2.iosystem.ioproc = false) := by simp
  refine ⟨fun hname hlen => ⟨?_, ?_⟩, fun hname => ⟨?_, ?_⟩, ⟨?_, ?_⟩, ⟨?_, ?_⟩⟩
  · rw [PIOc_put_att_tc_eq K E ncid varid name atttype len memtype data hopen hname hlen]
    simp only [put_att_resolved]
    exact (lookups_iff_resolving rfl _ _ _ _ _ (put_att_resolve_first K E ncid atttype memtype _)
      (fun c => (put_att_async_adds K E ncid varid name atttype len memtype data c).1)
      (fun c => put_att_io_adds K E varid name atttype len memtype data c)
      (fun c => check_and_return_adds E c)).trans hrole
  · rw [PIOc_put_att_tc_eq K E ncid varid name atttype len memtype data hopen hname hlen]
    exact backend_only_if rfl _ _ _ _ _
      (put_att_resolved_resolved K E ncid atttype memtype (some data))
      (fun c => put_att_async_adds K E ncid varid name atttype len memtype data c)
      (fun c => check_and_return_notBackend E c)
      (fun hmay c hc => put_att_io_skip K E varid name atttype len memtype data c
        (by rw [hc]; exact hmay))
  · rw [PIOc_get_att_tc_eq K E ncid varid name memtype data hopen hname, get_att_body_eq]
    simp only [get_att_resolved]
    exact (lookups_iff_resolving rfl _ _ _ _ _
      (get_att_resolve_first K E ncid varid name memtype _)
      (fun c => (get_att_async_adds K E ncid varid name memtype c).1)
      (fun c => (get_att_io_adds K E varid name memtype c).1)
      (fun c => check_and_bcast_adds E _ c)).trans hrole
  · rw [PIOc_get_att_tc_eq K E ncid varid name memtype data hopen hname, get_att_body_eq]
    exact backend_only_if rfl _ _ _ _ _
      (get_att_resolved_resolved K E ncid varid name memtype (some data))
      (fun c => get_att_async_adds K E ncid varid name memtype c)
      (fun c => check_and_bcast_notBackend E _ c)
      (fun hmay c hc => get_att_io_skip K E varid name memtype c (by rw [hc]; exact hmay))
  · rw [PIOc_get_vars_tc_eq K E ncid varid start count stride xtype data hopen,
      get_vars_body_eq]
    simp only [get_vars_resolved]
    exact (lookups_iff_resolving rfl _ _ _ _ _
      (get_vars_resolve_first K E ncid varid start count _)
      (fun c => (get_vars_async_adds K E ncid varid start count stride c).1)
      (fun c => (get_vars_io_adds K E varid start count stride c).1)
      (fun c => check_and_bcast_adds E _ c)).trans hrole
  · rw [PIOc_get_vars_tc_eq K E ncid varid start count stride xtype data hopen,
      get_vars_body_eq]
    exact backend_only_if rfl _ _ _ _ _
      (get_vars_resolved_resolved K E ncid varid start count xtype (some data))
      (fun c => get_vars_async_adds K E ncid varid start count stride c)
      (fun c => check_and_bcast_notBackend E _ c)
      (fun hmay c hc => get_vars_io_skip K E varid start count stride c
        (by rw [hc]; exact hmay))
  · rw [PIOc_put_vars_tc_eq K E ncid varid start count stride xtype data hopen,
      put_vars_entry_eq]
    simp only [put_vars_resolved, Option.getD_some]
    exact (lookups_iff_resolving rfl _ _ _ _ _
      (put_vars_resolve_first K E ncid varid count _)
      (fun c => (put_vars_async_adds K E ncid varid start count stride data c).1)
      (fun c => put_vars_io_adds K E varid start count stride data c)
      (fun c => check_and_return_adds E c)).trans hrole
  · rw [PIOc_put_vars_tc_eq K E ncid varid start count stride xtype data hopen,
      put_vars_entry_eq]
    simp only [Option.getD_some]
    exact backend_only_if rfl _ _ _ _ _
      (put_vars_resolved_resolved K E ncid varid count xtype (some data))
      (fun c => put_vars_async_adds K E ncid varid start count stride data c)
      (fun c => check_and_return_notBackend E c)
      (fun hmay c hc => put_vars_io_skip K E varid start count stride data c
        (by rw [hc]; exact hmay))

/-- Witness of C29: `PIOc_get_vars_tc` on the I/O master of a synchronous session makes
lookups and storage calls; on the I/O master of an asynchronous session it makes
storage calls and no lookup. -/
theorem lookups_and_backend_by_role_witness :
    (∃ e ∈ (PIOc_get_vars_tc pio_h (demo_env (demo_file 1 ios_master) 1) 3 0 (some [0])
        (some [1]) none 4 (some [0, 0, 0, 0])).trace, e.isCatalog = true) ∧
    ¬ (∃ e ∈ (PIOc_get_vars_tc pio_h (demo_env (demo_file 1 ios_async_master) 1) 3 0
        (some [0]) (some [1]) none 4 (some [0, 0, 0, 0])).trace, e.isCatalog = true) ∧
    (∃ e ∈ (PIOc_get_vars_tc pio_h (demo_env (demo_file 1 ios_async_master) 1) 3 0
        (some [0]) (some [1]) none 4 (some [0, 0, 0, 0])).trace, e.isBackend = true) :=
  ⟨((lookups_and_backend_by_role pio_h (demo_env (demo_file 1 ios_master) 1) 3 0 [] 4 0 4 4
      (some [0]) (some [1]) none [0, 0, 0, 0] rfl).2.2.1.1).mpr (Or.inl rfl),
   fun h => absurd (((lookups_and_backend_by_role pio_h
      (demo_env (demo_file 1 ios_async_master) 1) 3 0 [] 4 0 4 4
      (some [0]) (some [1]) none [0, 0, 0, 0] rfl).2.2.1.1).mp h) (by decide),
   by decide⟩

/-- C30: the byte count of the payload broadcast of `PIOc_get_att_tc` is
`(int)attlen * memtype_len` passed as an `int`.  For every attribute length and type
length whose product lies in `[0, 2^31)` this is the exact product; when the call
reaches the closing lines in the state `c1` with such lengths and `check_netcdf`
reports no error, the payload broadcast is the last event of the call, it is rooted
at the I/O root and its count is `attlen * memtype_len`, and a rank other than the
I/O root has that many bytes of the root's buffer at the start of its buffer, the rest
being its own. -/
theorem attribute_payload_count_is_exact (K : Consts) (E : Env) (ncid varid : Int)
    (name : CString) (memtype : Int) (data : Buf) (c1 : Ctx)
    (hopen : (E.pio_get_file ncid).1 = 0) (hname : name.length ≤ K.PIO_MAX_NAME)
    (hbody : get_att_body K E ncid varid name memtype (some data) = .next c1)
    (hcheck : E.check_netcdf c1.ierr = PIO_NOERR)
    (h0 : 0 ≤ c1.loc.attlen * c1.loc.memtype_len)
    (h1 : c1.loc.attlen * c1.loc.memtype_len < 2147483648) :
    (∀ a l : Int, 0 ≤ a * l → a * l < 2147483648 → toInt32 (toInt32 a * l) = a * l) ∧
    att_payload_count c1.loc = c1.loc.attlen * c1.loc.memtype_len ∧
    (PIOc_get_att_tc K E ncid varid (some name) memtype (some data)).trace
      = c1.trace ++ [.check_netcdf c1.ierr,
          .bcast .payload (c1.loc.attlen * c1.loc.memtype_len) c1.file.iosystem.ioroot
            (E.mpi_bcast .payload)] ∧
    (∀ rootbuf b, E.payload_root = some rootbuf → c1.buf = some b →
      (PIOc_get_att_tc K E ncid varid (some name) memtype (some data)).buf
        = some (rootbuf.take (c1.loc.attlen * c1.loc.memtype_len).toNat
            ++ b.drop (c1.loc.attlen * c1.loc.memtype_len).toNat)) := by
  have hcall := PIOc_get_att_tc_eq K E ncid varid name memtype data hopen hname
  rw [hbody, Flow.next_finish, check_and_bcast_ok E _ c1 hcheck] at hcall
  have hn : att_payload_count c1.loc = c1.loc.attlen * c1.loc.memtype_len :=
    att_count_exact _ _ h0 h1
  rw [hn] at hcall
  refine ⟨att_count_exact, hn, by rw [hcall], fun rootbuf b hroot hb => ?_⟩
  rw [hcall, hb]
  simp [bcast_payload, hroot]

/-- Witness of C30: an attribute of 3 `NC_INT` elements read as `NC_INT` on a rank of a
synchronous session that is not an I/O rank: 12 bytes are broadcast. -/
theorem attribute_payload_count_is_exact_witness :
    (PIOc_get_att_tc pio_h (att3_env (demo_file 1 ios_non_io)) 3 0 (some [110])
        pio_h.NC_INT (some [0, 0, 0, 0, 0, 0, 0, 0, 0, 0, 0, 0, 0, 0])).trace
      = [.catalog (.inq_att 3 0 [110]) 0, .catalog (.inq_type 3 4) 0,
          .catalog (.inq_type 3 4) 0, .check_netcdf 0, .bcast .payload 12 0 0] ∧
    (PIOc_get_att_tc pio_h (att3_env (demo_file 1 ios_non_io)) 3 0 (some [110])
        pio_h.NC_INT (some [0, 0, 0, 0, 0, 0, 0, 0, 0, 0, 0, 0, 0, 0])).buf
      = some [1, 2, 3, 4, 5, 6, 7, 8, 9, 10, 11, 12, 0, 0] := by
  have h := attribute_payload_count_is_exact pio_h (att3_env (demo_file 1 ios_non_io)) 3 0
    [110] pio_h.NC_INT [0, 0, 0, 0, 0, 0, 0, 0, 0, 0, 0, 0, 0, 0]
    ⟨0, ⟨0, 0, 1, 4, 0, 4, 3, 4, 4⟩,
      [.catalog (.inq_att 3 0 [110]) 0, .catalog (.inq_type 3 4) 0,
        .catalog (.inq_type 3 4) 0], demo_file 1 ios_non_io,
      some [0, 0, 0, 0, 0, 0, 0, 0, 0, 0, 0, 0, 0, 0]⟩
    rfl (by decide) rfl rfl (by decide) (by decide)
  exact ⟨h.2.2.1, h.2.2.2 _ _ rfl rfl⟩

end PIO
